import Mathlib

/-!
# Deblocking filter of the JM H.264 decoder (`ldecod/src/loopFilter.c`)

A shallow embedding of `DeblockPicture`, `DeblockMb`, `GetStrength` and `EdgeLoop`.

Conventions of the embedding:

* C `int` values are mathematical integers (`Int`).  Every quantity the filter computes from
  samples below 2^16, QPs and small table entries stays far inside 32 bits, so no wrap-around
  is modelled there.  The motion vectors are `int` values that the filter only reads: their
  difference `abs(a - b)` in `GetStrength` is computed in 32-bit two's complement (`int32`),
  and the theorems that relate it to |a − b| assume components in `[-2^30, 2^30)` (`mvFits`).
  `>>` is the arithmetic shift (floor division by a power of two), `<<` is
  multiplication by a power of two, `&` and `|` are the two's-complement operations
  (`Int.land`, `Int.lor`), which agree with the C operators at every width that holds the
  operands.
* A C truth value is an `Int`; `e ? a : b`, `if (e)`, `!e`, `&&`, `||` test `e ≠ 0`.
* A sample plane (`imgpel **`) is a flat memory `Int → Int`: the rows are contiguous and
  `Img[y][x]` lives at offset `y * width + x`, which is what the source's
  `SrcPtrP[-incP]` / `SrcPtrQ[incQ]` stepping with `incP, incQ ∈ {1, width, 2*width}` relies on.
* `byte Strength[16]` is a map from indices to naturals; a store converts with `% 256`.
* Declarations that the file uses but that are not part of it (`getNeighbour`, `get_mb_pos`,
  `get_mb_block_pos`, `QP_SCALE_CR`, the `mb_type` / `slice_type` / `structure` constants) are
  fields of `Env`; the theorems hold for every `Env`.
-/

namespace JM

/-! ## C integer helpers -/

/-- C `abs` on `int`. -/
def c_abs (x : Int) : Int := if x < 0 then -x else x

/-- C `x << n` on `int`. -/
def c_shl (x : Int) (n : Nat) : Int := x * 2 ^ n

/-- C `x >> n` on `int` (arithmetic shift: rounds towards minus infinity). -/
def c_shr (x : Int) (n : Nat) : Int := x / 2 ^ n

/-- C `a & b` on `int`: two's-complement bitwise and. -/
def c_and (a b : Int) : Int := Int.land a b

/-- C `a | b` on `int`: two's-complement bitwise or. -/
def c_or (a b : Int) : Int := Int.lor a b

/-- The `int` value (0 or 1) of a C comparison or logical operator. -/
def b2i (b : Bool) : Int := if b then 1 else 0

/-- Conversion of an `int` to `byte` (`unsigned char`) on assignment. -/
def toByte (v : Int) : Nat := (v % 256).toNat

/-- The macro `IClip(Min, Max, Val)` of `loopFilter.c`. -/
def IClip (Min Max Val : Int) : Int :=
  if Val < Min then Min else if Val > Max then Max else Val

/-- Modelled from the spec: `Clip3(low, high, x)` is declared outside `loopFilter.c`; it clamps
its third argument to `[low, high]`. -/
def Clip3 (low high x : Int) : Int :=
  if x < low then low else if x > high then high else x

/-- Modelled from the spec: `MAX_QP` is defined outside `loopFilter.c`; the spec fixes
"Max QP = 51". -/
def MAX_QP : Int := 51

/-- Modelled from the spec: `LIST_0` is defined outside `loopFilter.c`; list ∈ {0, 1}. -/
def LIST_0 : Int := 0

/-- Modelled from the spec: `LIST_1` is defined outside `loopFilter.c`; list ∈ {0, 1}. -/
def LIST_1 : Int := 1

/-- Read entry `i` of a C array given as a list. -/
def tab (l : List Int) (i : Int) : Int := l.getD i.toNat 0

/-! ## Tables of `loopFilter.c` -/

/-- The table `ALPHA_TABLE[52]`. -/
def ALPHA_TABLE : List Int :=
  [0,0,0,0,0,0,0,0,0,0,0,0, 0,0,0,0,4,4,5,6, 7,8,9,10,12,13,15,17, 20,22,25,28,32,36,40,45,
   50,56,63,71,80,90,101,113, 127,144,162,182,203,226,255,255]

/-- The table `BETA_TABLE[52]`. -/
def BETA_TABLE : List Int :=
  [0,0,0,0,0,0,0,0,0,0,0,0, 0,0,0,0,2,2,2,3, 3,3,3,4,4,4,6,6, 7,7,8,8,9,9,10,10,
   11,11,12,12,13,13,14,14, 15,15,16,16,17,17,18,18]

/-- The table `CLIP_TAB[52][5]`. -/
def CLIP_TAB : List (List Int) :=
  [[0,0,0,0,0],[0,0,0,0,0],[0,0,0,0,0],[0,0,0,0,0],[0,0,0,0,0],[0,0,0,0,0],[0,0,0,0,0],[0,0,0,0,0],
   [0,0,0,0,0],[0,0,0,0,0],[0,0,0,0,0],[0,0,0,0,0],[0,0,0,0,0],[0,0,0,0,0],[0,0,0,0,0],[0,0,0,0,0],
   [0,0,0,0,0],[0,0,0,1,1],[0,0,0,1,1],[0,0,0,1,1],[0,0,0,1,1],[0,0,1,1,1],[0,0,1,1,1],[0,1,1,1,1],
   [0,1,1,1,1],[0,1,1,1,1],[0,1,1,1,1],[0,1,1,2,2],[0,1,1,2,2],[0,1,1,2,2],[0,1,1,2,2],[0,1,2,3,3],
   [0,1,2,3,3],[0,2,2,3,3],[0,2,2,4,4],[0,2,3,4,4],[0,2,3,4,4],[0,3,3,5,5],[0,3,4,6,6],[0,3,4,6,6],
   [0,4,5,7,7],[0,4,5,8,8],[0,4,6,9,9],[0,5,7,10,10],[0,6,8,11,11],[0,6,8,13,13],[0,7,10,14,14],
   [0,8,11,16,16],[0,9,12,18,18],[0,10,13,20,20],[0,11,15,23,23],[0,13,17,25,25]]

/-- The table `chroma_edge[dir][edge][yuv_format]`. -/
def chroma_edge : List (List (List Int)) :=
  [[[-1, 0, 0, 0], [-1,-1,-1, 1], [-1, 1, 1, 2], [-1,-1,-1, 3]],
   [[-1, 0, 0, 0], [-1,-1, 1, 1], [-1, 1, 2, 2], [-1,-1, 3, 3]]]

/-- The local table `pelnum_cr[dir][yuv_format]` of `EdgeLoop`. -/
def pelnum_cr : List (List Int) := [[0,8,16,16], [0,8,8,16]]

/-- Row `i` of a two-dimensional C table. -/
def row (t : List (List Int)) (i : Int) : List Int := t.getD i.toNat []

/-- Entry `chroma_edge[dir][edge][fmt]`. -/
def chroma_edge_at (dir edge fmt : Int) : Int :=
  tab (row (chroma_edge.getD dir.toNat []) edge) fmt

/-! ## Data model -/

/-- The fields of `PixelPos` that the filter reads. -/
structure PixelPos where
  available : Int
  mb_addr : Int
  x : Int
  y : Int
  pos_x : Int
  pos_y : Int

/-- The fields of `Macroblock` that the filter reads. -/
structure Macroblock where
  mb_type : Int
  cbp_blk : Int
  qp : Int
  luma_transform_size_8x8_flag : Int
  LFDisableIdc : Int
  LFAlphaC0Offset : Int
  LFBetaOffset : Int
  mb_field : Int
  mbAvailA : Int
  mbAvailB : Int
  mbAvailC : Int
  mbAvailD : Int

/-- The fields of `ImageParameters` (`struct img_par`) that the filter reads or writes. -/
structure ImageParameters where
  mb_data : Int → Macroblock
  DeblockCall : Int
  current_mb_nr : Int
  bitdepth_luma : Int
  bitdepth_chroma : Int
  max_imgpel_value : Int
  max_imgpel_value_uv : Int

/-- One sample plane as flat memory. -/
abbrev Plane := Int → Int

/-- The fields of `StorablePicture` that the filter reads or writes.  `pic_structure` is the
field `structure` of the source; `imgUV` is `none` for the C null pointer. -/
structure StorablePicture where
  PicSizeInMbs : Nat
  MbaffFrameFlag : Int
  pic_structure : Int
  chroma_format_idc : Int
  size_x : Int
  size_x_cr : Int
  slice_type : Int
  chroma_qp_offset : Int → Int
  mv : Int → Int → Int → Int → Int
  ref_idx : Int → Int → Int → Int
  ref_pic_id : Int → Int → Int → Int
  imgY : Plane
  imgUV : Option (Plane × Plane)

/-- What `loopFilter.c` takes from the rest of the decoder: enumeration constants, the table
`QP_SCALE_CR`, and the neighbourhood helpers, which read decoder state but no sample. -/
structure Env where
  I4MB : Int
  I16MB : Int
  I8MB : Int
  IPCM : Int
  SP_SLICE : Int
  SI_SLICE : Int
  FRAME : Int
  QP_SCALE_CR : Int → Int
  getNeighbour : ImageParameters → Int → Int → Int → Int → PixelPos
  get_mb_pos : ImageParameters → Int → Int × Int
  get_mb_block_pos : ImageParameters → Int → Int × Int
  mb_is_available : ImageParameters → Int × Int × Int × Int

/-- Modelled from the spec: `CheckAvailabilityOfNeighbors` is not under src; by the spec it
determines the availability of the left, top, top-right and top-left neighbours of the current
macroblock, which the decoder keeps in that macroblock's `mbAvailA .. mbAvailD`. -/
def CheckAvailabilityOfNeighbors (env : Env) (img : ImageParameters) : ImageParameters :=
  let r := env.mb_is_available img
  { img with mb_data := fun a =>
      if a = img.current_mb_nr then
        { img.mb_data a with
            mbAvailA := r.1, mbAvailB := r.2.1, mbAvailC := r.2.2.1, mbAvailD := r.2.2.2 }
      else img.mb_data a }

/-- The program state of the deblocker: decoder parameters, the picture, and the file-level
global `mixedModeEdgeFlag` (the global `fieldModeFilteringFlag` is written and read only inside
one iteration of `EdgeLoop` and is a local there). -/
structure State where
  img : ImageParameters
  p : StorablePicture
  mixedModeEdgeFlag : Int

/-! ## `GetStrength` -/

/-- The test `mb_type==I4MB || mb_type==I16MB || mb_type==I8MB || mb_type==IPCM` that
`GetStrength` applies to each of `MbP` and `MbQ`. -/
def isIntraMb (env : Env) (mb : Macroblock) : Bool :=
  mb.mb_type == env.I4MB || mb.mb_type == env.I16MB || mb.mb_type == env.I8MB
    || mb.mb_type == env.IPCM

/-- The expression that `GetStrength` assigns first (it occurs twice, for SP/SI slices and as
the start value otherwise):
`(edge == 0 && (((!MbaffFrameFlag && structure==FRAME) || (MbaffFrameFlag && !MbP->mb_field &&
!MbQ->mb_field)) || ((MbaffFrameFlag || structure != FRAME) && !dir))) ? 4 : 3`. -/
def StrengthStart (env : Env) (p : StorablePicture) (MbP MbQ : Macroblock) (dir edge : Int) :
    Int :=
  if edge = 0 ∧ (((p.MbaffFrameFlag = 0 ∧ p.pic_structure = env.FRAME) ∨
      (p.MbaffFrameFlag ≠ 0 ∧ MbP.mb_field = 0 ∧ MbQ.mb_field = 0)) ∨
      ((p.MbaffFrameFlag ≠ 0 ∨ p.pic_structure ≠ env.FRAME) ∧ dir = 0)) then 4 else 3

/-- The `int` that holds the mathematical value `x`: reduction modulo 2^32 into
`[-2^31, 2^31)`, which is what 32-bit two's-complement arithmetic leaves when a result does
not fit. -/
def int32 (x : Int) : Int := (x + 2147483648) % 4294967296 - 2147483648

/-- The C value of `abs(a - b) >= lim` for `int` operands `a`, `b`: the difference and its
absolute value are 32-bit `int` results (`abs` of −2^31 is −2^31). -/
def mvGe (a b lim : Int) : Int := b2i (decide (int32 (c_abs (int32 (a - b))) ≥ lim))

/-- The motion branch of `GetStrength` (the block that declares `ref_p0 .. ref_q1`):
the strength from the reference pictures and motion vectors of the 4x4 blocks
`(blk_x, blk_y)` and `(blk_x2, blk_y2)`. -/
def StrengthMotion (p : StorablePicture) (mvlimit blk_x blk_y blk_x2 blk_y2 : Int) : Int :=
  let list0_mv := p.mv LIST_0
  let list1_mv := p.mv LIST_1
  let ref_p0 := if p.ref_idx LIST_0 blk_x blk_y < 0 then -1 else p.ref_pic_id LIST_0 blk_x blk_y
  let ref_q0 :=
    if p.ref_idx LIST_0 blk_x2 blk_y2 < 0 then -1 else p.ref_pic_id LIST_0 blk_x2 blk_y2
  let ref_p1 := if p.ref_idx LIST_1 blk_x blk_y < 0 then -1 else p.ref_pic_id LIST_1 blk_x blk_y
  let ref_q1 :=
    if p.ref_idx LIST_1 blk_x2 blk_y2 < 0 then -1 else p.ref_pic_id LIST_1 blk_x2 blk_y2
  if (ref_p0 = ref_q0 ∧ ref_p1 = ref_q1) ∨ (ref_p0 = ref_q1 ∧ ref_p1 = ref_q0) then
    if ref_p0 ≠ ref_p1 then
      if ref_p0 = ref_q0 then
        c_or (c_or (c_or
          (mvGe (list0_mv blk_x blk_y 0) (list0_mv blk_x2 blk_y2 0) 4)
          (mvGe (list0_mv blk_x blk_y 1) (list0_mv blk_x2 blk_y2 1) mvlimit))
          (mvGe (list1_mv blk_x blk_y 0) (list1_mv blk_x2 blk_y2 0) 4))
          (mvGe (list1_mv blk_x blk_y 1) (list1_mv blk_x2 blk_y2 1) mvlimit)
      else
        c_or (c_or (c_or
          (mvGe (list0_mv blk_x blk_y 0) (list1_mv blk_x2 blk_y2 0) 4)
          (mvGe (list0_mv blk_x blk_y 1) (list1_mv blk_x2 blk_y2 1) mvlimit))
          (mvGe (list1_mv blk_x blk_y 0) (list0_mv blk_x2 blk_y2 0) 4))
          (mvGe (list1_mv blk_x blk_y 1) (list0_mv blk_x2 blk_y2 1) mvlimit)
    else
      b2i (decide (
        c_or (c_or (c_or
          (mvGe (list0_mv blk_x blk_y 0) (list0_mv blk_x2 blk_y2 0) 4)
          (mvGe (list0_mv blk_x blk_y 1) (list0_mv blk_x2 blk_y2 1) mvlimit))
          (mvGe (list1_mv blk_x blk_y 0) (list1_mv blk_x2 blk_y2 0) 4))
          (mvGe (list1_mv blk_x blk_y 1) (list1_mv blk_x2 blk_y2 1) mvlimit) ≠ 0
        ∧
        c_or (c_or (c_or
          (mvGe (list0_mv blk_x blk_y 0) (list1_mv blk_x2 blk_y2 0) 4)
          (mvGe (list0_mv blk_x blk_y 1) (list1_mv blk_x2 blk_y2 1) mvlimit))
          (mvGe (list1_mv blk_x blk_y 0) (list0_mv blk_x2 blk_y2 0) 4))
          (mvGe (list1_mv blk_x blk_y 1) (list0_mv blk_x2 blk_y2 1) mvlimit) ≠ 0))
  else 1

/-- The Q-side sample `(xQ, yQ)` of position `idx` on edge `edge` in direction `dir`:
`xQ = dir ? idx : edge << 2`, `yQ = dir ? (edge < 4 ? edge << 2 : 1) : idx`. -/
def edgeXQ (dir edge idx : Int) : Int := if dir ≠ 0 then idx else c_shl edge 2

/-- See `edgeXQ`. -/
def edgeYQ (dir edge idx : Int) : Int :=
  if dir ≠ 0 then (if edge < 4 then c_shl edge 2 else 1) else idx

/-- The neighbour `pixP` that `GetStrength` resolves for position `idx`:
`getNeighbour(MbQAddr, xQ - (1 - dir), yQ - dir, 1, &pixP)`. -/
def strengthPixP (env : Env) (img : ImageParameters) (MbQAddr dir edge idx : Int) : PixelPos :=
  env.getNeighbour img MbQAddr (edgeXQ dir edge idx - (1 - dir)) (edgeYQ dir edge idx - dir) 1

/-- Index of the 4x4 block that holds the sample `(x, y)`: `((y>>2)<<2) + (x>>2)`. -/
def blkOf (x y : Int) : Int := c_shl (c_shr y 2) 2 + c_shr x 2

/-- The C test `(cbp_blk & (1 << blk)) != 0`. -/
def cbpBit (cbp_blk blk : Int) : Bool := c_and cbp_blk (c_shl 1 blk.toNat) != 0

/-- One iteration of the loop of `GetStrength`: the `int` value assigned last to
`Strength[idx]`, and the value left in the global `mixedModeEdgeFlag`. -/
def GetStrengthIdx (env : Env) (img : ImageParameters) (p : StorablePicture)
    (MbQAddr dir edge mvlimit idx : Int) : Int × Int :=
  let MbQ := img.mb_data MbQAddr
  let xQ := edgeXQ dir edge idx
  let yQ := edgeYQ dir edge idx
  let pixP := strengthPixP env img MbQAddr dir edge idx
  let xP := pixP.x
  let yP := pixP.y
  let MbP := img.mb_data pixP.mb_addr
  let mixedModeEdgeFlag := b2i (MbQ.mb_field != MbP.mb_field)
  let blkQ := blkOf xQ yQ
  let blkP := blkOf xP yP
  let s :=
    if p.slice_type = env.SP_SLICE ∨ p.slice_type = env.SI_SLICE then
      StrengthStart env p MbP MbQ dir edge
    else if !(isIntraMb env MbP) && !(isIntraMb env MbQ) then
      if cbpBit MbQ.cbp_blk blkQ || cbpBit MbP.cbp_blk blkP then 2
      else if mixedModeEdgeFlag ≠ 0 then 1
      else
        let mb := env.get_mb_block_pos img MbQAddr
        let blk_y := c_shl mb.2 2 + c_shr blkQ 2
        let blk_x := c_shl mb.1 2 + c_and blkQ 3
        let blk_y2 := c_shr pixP.pos_y 2
        let blk_x2 := c_shr pixP.pos_x 2
        StrengthMotion p mvlimit blk_x blk_y blk_x2 blk_y2
    else StrengthStart env p MbP MbQ dir edge
  (s, mixedModeEdgeFlag)

/-- The buffer `Strength[0..15]` after `GetStrength(Strength, img, MbQAddr, dir, edge, mvlimit, p)`
(every entry is assigned on every path). -/
def GetStrength (env : Env) (img : ImageParameters) (p : StorablePicture)
    (MbQAddr dir edge mvlimit : Int) : Int → Nat :=
  fun idx => toByte (GetStrengthIdx env img p MbQAddr dir edge mvlimit idx).1

/-- The global `mixedModeEdgeFlag` after `GetStrength`: the value of the last iteration,
`idx = 15`. -/
def GetStrengthMixed (env : Env) (img : ImageParameters) (p : StorablePicture)
    (MbQAddr dir edge mvlimit : Int) : Int :=
  (GetStrengthIdx env img p MbQAddr dir edge mvlimit 15).2

/-! ## `EdgeLoop` -/

/-- A store `Img[a] = v` into a sample plane.  The element type `imgpel` is declared outside
`loopFilter.c`; every value the filter stores lies between the smallest and the largest of the
samples it read or inside the clamp range, so the conversion to `imgpel` is the identity and is
not modelled. -/
def store (Img : Plane) (a v : Int) : Plane := fun b => if b = a then v else Img b

/-- The three nested tests that guard every store of `EdgeLoop`:
`if (Strng)`, `if (AbsDelta < Alpha)` with `AbsDelta = abs(R0 - L0)`, and
`if (((abs(R0 - R1) - Beta) & (abs(L0 - L1) - Beta)) < 0)`. -/
def filterGate (Strng Alpha Beta L1 L0 R0 R1 : Int) : Bool :=
  decide (Strng ≠ 0) && (decide (c_abs (R0 - L0) < Alpha) &&
    decide (c_and (c_abs (R0 - R1) - Beta) (c_abs (L0 - L1) - Beta) < 0))

/-- The flags `aq = (abs(R0 - R2) - Beta) < 0` and `ap = (abs(L0 - L2) - Beta) < 0`, which are
assigned `if (!yuv)` only and are 0 (their initial value) in a chroma call. -/
def sideFlag (yuv Beta X0 X2 : Int) : Int :=
  if yuv = 0 then b2i (decide (c_abs (X0 - X2) - Beta < 0)) else 0

/-- The chroma branch of the strong filter (`Strng == 4`, `yuv`): the stores to `SrcPtrQ[0]`
and `SrcPtrP[0]`. -/
def strongChroma (L1 L0 R0 R1 SrcPtrP SrcPtrQ : Int) (Img : Plane) : Plane :=
  let Img1 := store Img SrcPtrQ (c_shr (c_shl R1 1 + R0 + L1 + 2) 2)
  store Img1 SrcPtrP (c_shr (c_shl L1 1 + L0 + R1 + 2) 2)

/-- The luma branch of the strong filter (`Strng == 4`, `!yuv`): `small_gap`, `aq &= small_gap`,
`ap &= small_gap` and the six stores, in the order of the source.  `aq`, `ap` are the flags on
entry. -/
def strongLuma (Alpha aq ap L3 L2 L1 L0 R0 R1 R2 R3 incP incQ SrcPtrP SrcPtrQ : Int)
    (Img : Plane) : Plane :=
  let RL0 := L0 + R0
  let small_gap := b2i (decide (c_abs (R0 - L0) < c_shr Alpha 2 + 2))
  let aq := c_and aq small_gap
  let ap := c_and ap small_gap
  let Img1 := store Img SrcPtrQ
    (if aq ≠ 0 then c_shr (L1 + c_shl (R1 + RL0) 1 + R2 + 4) 3
     else c_shr (c_shl R1 1 + R0 + L1 + 2) 2)
  let Img2 := store Img1 SrcPtrP
    (if ap ≠ 0 then c_shr (R1 + c_shl (L1 + RL0) 1 + L2 + 4) 3
     else c_shr (c_shl L1 1 + L0 + R1 + 2) 2)
  let Img3 := store Img2 (SrcPtrQ + incQ)
    (if aq ≠ 0 then c_shr (R2 + R0 + R1 + L0 + 2) 2 else R1)
  let Img4 := store Img3 (SrcPtrP - incP)
    (if ap ≠ 0 then c_shr (L2 + L1 + L0 + R0 + 2) 2 else L1)
  let Img5 := store Img4 (SrcPtrQ + incQ * 2)
    (if aq ≠ 0 then c_shr (c_shl (R3 + R2) 1 + R2 + R1 + RL0 + 4) 3 else R2)
  store Img5 (SrcPtrP - incP * 2)
    (if ap ≠ 0 then c_shr (c_shl (L3 + L2) 1 + L2 + L1 + RL0 + 4) 3 else L2)

/-- The value `dif = IClip(-c0, c0, ((Delta << 2) + (L1 - R1) + 4) >> 3)` of the normal
filter, with `c0 = yuv ? (C0 + 1) : (C0 + ap + aq)`. -/
def normalDif (yuv C0 aq ap L1 L0 R0 R1 : Int) : Int :=
  let c0 := if yuv ≠ 0 then C0 + 1 else C0 + ap + aq
  IClip (-c0) c0 (c_shr (c_shl (R0 - L0) 2 + (L1 - R1) + 4) 3)

/-- The normal filter (`Strng` in 1..3): the clamped stores to `SrcPtrP[0]` and `SrcPtrQ[0]`,
and for luma the `+=` updates of `SrcPtrP[-incP]` `if (ap)` and `SrcPtrQ[incQ]` `if (aq)`,
which read the plane again. -/
def normalFilter (yuv C0 aq ap maxv L2 L1 L0 R0 R1 R2 incP incQ SrcPtrP SrcPtrQ : Int)
    (Img : Plane) : Plane :=
  let RL0 := L0 + R0
  let dif := normalDif yuv C0 aq ap L1 L0 R0 R1
  let Img1 := store Img SrcPtrP (IClip 0 maxv (L0 + dif))
  let Img2 := store Img1 SrcPtrQ (IClip 0 maxv (R0 - dif))
  if yuv = 0 then
    let Img3 :=
      if ap ≠ 0 then
        store Img2 (SrcPtrP - incP) (Img2 (SrcPtrP - incP) +
          IClip (-C0) C0 (c_shr (L2 + c_shr (RL0 + 1) 1 - c_shl L1 1) 1))
      else Img2
    if aq ≠ 0 then
      store Img3 (SrcPtrQ + incQ) (Img3 (SrcPtrQ + incQ) +
        IClip (-C0) C0 (c_shr (R2 + c_shr (RL0 + 1) 1 - c_shl R1 1) 1))
    else Img3
  else Img2

/-- The part of one iteration of `EdgeLoop` that starts at `L0 = SrcPtrP[0]`: reads the eight
samples around the edge, tests `Strng`, `Alpha` and `Beta`, and filters.  `SrcPtrP`, `SrcPtrQ`
are the offsets of the P and Q samples in the plane and `maxv` is the clamp bound of the plane
(`img->max_imgpel_value` for luma, `img->max_imgpel_value_uv` for chroma). -/
def filterPel (yuv : Int) (Strng Alpha Beta : Int) (ClipTab : List Int)
    (bitdepth_scale maxv incP incQ SrcPtrP SrcPtrQ : Int) (Img : Plane) : Plane :=
  let L0 := Img SrcPtrP
  let R0 := Img SrcPtrQ
  let L1 := Img (SrcPtrP - incP)
  let R1 := Img (SrcPtrQ + incQ)
  let L2 := Img (SrcPtrP - incP * 2)
  let R2 := Img (SrcPtrQ + incQ * 2)
  let L3 := Img (SrcPtrP - incP * 3)
  let R3 := Img (SrcPtrQ + incQ * 3)
  if filterGate Strng Alpha Beta L1 L0 R0 R1 then
    let C0 := tab ClipTab Strng * bitdepth_scale
    let aq := sideFlag yuv Beta R0 R2
    let ap := sideFlag yuv Beta L0 L2
    if Strng = 4 then
      if yuv ≠ 0 then strongChroma L1 L0 R0 R1 SrcPtrP SrcPtrQ Img
      else strongLuma Alpha aq ap L3 L2 L1 L0 R0 R1 R2 R3 incP incQ SrcPtrP SrcPtrQ Img
    else normalFilter yuv C0 aq ap maxv L2 L1 L0 R0 R1 R2 incP incQ SrcPtrP SrcPtrQ Img
  else Img

/-- The pel count `PelNum = yuv ? pelnum_cr[dir][p->chroma_format_idc] : 16`. -/
def PelNum (p : StorablePicture) (dir yuv : Int) : Int :=
  if yuv ≠ 0 then tab (row pelnum_cr dir) p.chroma_format_idc else 16

/-- The factor `bitdepth_scale` of `EdgeLoop`: `1 << (bitdepth - 8)` for the luma or chroma bit
depth. -/
def bitdepthScale (img : ImageParameters) (yuv : Int) : Int :=
  if yuv = 0 then c_shl 1 (img.bitdepth_luma - 8).toNat
  else c_shl 1 (img.bitdepth_chroma - 8).toNat

/-- The macro `CQPOF(qp, uv)`: `Clip3(0, 51, qp + p->chroma_qp_offset[uv])`. -/
def CQPOF (p : StorablePicture) (qp uv : Int) : Int := Clip3 0 51 (qp + p.chroma_qp_offset uv)

/-- The averaged `QP` of `EdgeLoop`. -/
def edgeQP (env : Env) (p : StorablePicture) (MbP MbQ : Macroblock) (yuv uv : Int) : Int :=
  if yuv ≠ 0 then
    c_shr (env.QP_SCALE_CR (CQPOF p MbP.qp uv) + env.QP_SCALE_CR (CQPOF p MbQ.qp uv) + 1) 1
  else c_shr (MbP.qp + MbQ.qp + 1) 1

/-- The index `StrengthIdx` of `EdgeLoop`:
`(yuv && PelNum==8) ? ((MbQ->mb_field && !MbP->mb_field) ? pel<<1 : ((pel>>1)<<2)+(pel%2)) : pel`. -/
def StrengthIdx (MbP MbQ : Macroblock) (yuv pelNum pel : Int) : Int :=
  if yuv ≠ 0 ∧ pelNum = 8 then
    (if MbQ.mb_field ≠ 0 ∧ MbP.mb_field = 0 then c_shl pel 1
     else c_shl (c_shr pel 1) 2 + pel % 2)
  else pel

/-- The position `pixQ` of `EdgeLoop` at `pel`: `getNeighbour(MbQAddr, xQ, yQ, 1-yuv, &pixQ)`. -/
def pelPixQ (env : Env) (img : ImageParameters) (MbQAddr dir edge yuv pel : Int) : PixelPos :=
  env.getNeighbour img MbQAddr (edgeXQ dir edge pel) (edgeYQ dir edge pel) (1 - yuv)

/-- The position `pixP` of `EdgeLoop` at `pel`:
`getNeighbour(MbQAddr, xQ - (1 - dir), yQ - dir, 1-yuv, &pixP)`. -/
def pelPixP (env : Env) (img : ImageParameters) (MbQAddr dir edge yuv pel : Int) : PixelPos :=
  env.getNeighbour img MbQAddr (edgeXQ dir edge pel - (1 - dir)) (edgeYQ dir edge pel - dir)
    (1 - yuv)

/-- The macroblock `MbP = &(img->mb_data[pixP.mb_addr])` of `EdgeLoop` at `pel`. -/
def pelMbP (env : Env) (img : ImageParameters) (MbQAddr dir edge yuv pel : Int) : Macroblock :=
  img.mb_data (pelPixP env img MbQAddr dir edge yuv pel).mb_addr

/-- The flag `fieldModeFilteringFlag = MbQ->mb_field || MbP->mb_field`. -/
def fieldModeFilteringFlag (MbP MbQ : Macroblock) : Int :=
  b2i (decide (MbQ.mb_field ≠ 0 ∨ MbP.mb_field ≠ 0))

/-- The sample step across the edge on the side of macroblock `Mb`:
`dir ? ((fieldModeFilteringFlag && !Mb->mb_field) ? 2 * width : width) : 1`
(`incQ` for `Mb = MbQ`, `incP` for `Mb = MbP`). -/
def edgeInc (MbP MbQ Mb : Macroblock) (dir width : Int) : Int :=
  if dir ≠ 0 then
    (if fieldModeFilteringFlag MbP MbQ ≠ 0 ∧ Mb.mb_field = 0 then 2 * width else width)
  else 1

/-- The step `incQ` of `EdgeLoop` at `pel`. -/
def pelIncQ (env : Env) (img : ImageParameters) (MbQAddr dir edge width yuv pel : Int) : Int :=
  edgeInc (pelMbP env img MbQAddr dir edge yuv pel) (img.mb_data MbQAddr)
    (img.mb_data MbQAddr) dir width

/-- The step `incP` of `EdgeLoop` at `pel`. -/
def pelIncP (env : Env) (img : ImageParameters) (MbQAddr dir edge width yuv pel : Int) : Int :=
  edgeInc (pelMbP env img MbQAddr dir edge yuv pel) (img.mb_data MbQAddr)
    (pelMbP env img MbQAddr dir edge yuv pel) dir width

/-- Offset of `&(Img[pix.pos_y][pix.pos_x])` in a plane with rows of `width` samples. -/
def planeOffset (width : Int) (pix : PixelPos) : Int := pix.pos_y * width + pix.pos_x

/-- The pointer `SrcPtrQ` of `EdgeLoop` at `pel`, as an offset into the plane. -/
def pelSrcPtrQ (env : Env) (img : ImageParameters) (MbQAddr dir edge width yuv pel : Int) :
    Int :=
  planeOffset width (pelPixQ env img MbQAddr dir edge yuv pel)

/-- The pointer `SrcPtrP` of `EdgeLoop` at `pel`, as an offset into the plane. -/
def pelSrcPtrP (env : Env) (img : ImageParameters) (MbQAddr dir edge width yuv pel : Int) :
    Int :=
  planeOffset width (pelPixP env img MbQAddr dir edge yuv pel)

/-- The index `indexA = IClip(0, MAX_QP, QP + AlphaC0Offset)` (and `indexB` with `BetaOffset`) of
`EdgeLoop` at `pel`. -/
def pelIndex (env : Env) (img : ImageParameters) (p : StorablePicture)
    (MbQAddr Offset dir edge yuv uv pel : Int) : Int :=
  IClip 0 MAX_QP
    (edgeQP env p (pelMbP env img MbQAddr dir edge yuv pel) (img.mb_data MbQAddr) yuv uv + Offset)

/-- The clamp bound of a plane: `img->max_imgpel_value` for luma, `img->max_imgpel_value_uv`
for chroma. -/
def pelMax (img : ImageParameters) (yuv : Int) : Int :=
  if yuv = 0 then img.max_imgpel_value else img.max_imgpel_value_uv

/-- The value `Strng = Strength[StrengthIdx]` of `EdgeLoop` at `pel`. -/
def pelStrng (env : Env) (img : ImageParameters) (p : StorablePicture) (Strength : Int → Nat)
    (MbQAddr dir edge yuv pel : Int) : Int :=
  Strength (StrengthIdx (pelMbP env img MbQAddr dir edge yuv pel) (img.mb_data MbQAddr) yuv
    (PelNum p dir yuv) pel)

/-- One iteration (one `pel`) of the loop of `EdgeLoop`. -/
def EdgeLoopPel (env : Env) (img : ImageParameters) (p : StorablePicture) (Strength : Int → Nat)
    (MbQAddr AlphaC0Offset BetaOffset dir edge width yuv uv : Int) (Img : Plane) (pel : Int) :
    Plane :=
  if (pelPixP env img MbQAddr dir edge yuv pel).available ≠ 0 ∨
      (img.mb_data MbQAddr).LFDisableIdc = 0 then
    filterPel yuv (pelStrng env img p Strength MbQAddr dir edge yuv pel)
      (tab ALPHA_TABLE (pelIndex env img p MbQAddr AlphaC0Offset dir edge yuv uv pel) *
        bitdepthScale img yuv)
      (tab BETA_TABLE (pelIndex env img p MbQAddr BetaOffset dir edge yuv uv pel) *
        bitdepthScale img yuv)
      (row CLIP_TAB (pelIndex env img p MbQAddr AlphaC0Offset dir edge yuv uv pel))
      (bitdepthScale img yuv) (pelMax img yuv)
      (pelIncP env img MbQAddr dir edge width yuv pel)
      (pelIncQ env img MbQAddr dir edge width yuv pel)
      (pelSrcPtrP env img MbQAddr dir edge width yuv pel)
      (pelSrcPtrQ env img MbQAddr dir edge width yuv pel) Img
  else Img

/-- The procedure `EdgeLoop`: the plane `Img` after the loop `for (pel = 0; pel < PelNum; pel++)`. -/
def EdgeLoop (env : Env) (img : ImageParameters) (p : StorablePicture) (Strength : Int → Nat)
    (MbQAddr AlphaC0Offset BetaOffset dir edge width yuv uv : Int) (Img : Plane) : Plane :=
  (List.range (PelNum p dir yuv).toNat).foldl
    (fun I (pel : Nat) => EdgeLoopPel env img p Strength MbQAddr AlphaC0Offset BetaOffset dir edge width
      yuv uv I (pel : Int)) Img

/-! ## `DeblockMb` and `DeblockPicture` -/

/-- The calls of `EdgeLoop` that `DeblockMb` makes for one edge once the strengths are not all
zero: luma when `lumaFlag` (`filterNon8x8LumaEdgesFlag[edge]`) is set, then both chroma planes
when `imgUV != NULL && edge_cr >= 0`.  `edgeY` and `edgeC` are the edge arguments of the luma
and chroma calls (`edge` and `edge_cr` for a regular edge, `4` and `4` for the extra edge). -/
def filterEdgePlanes (env : Env) (img : ImageParameters) (p : StorablePicture)
    (Strength : Int → Nat) (MbQAddr dir lumaFlag edgeY edge_cr edgeC : Int) : StorablePicture :=
  let MbQ := img.mb_data MbQAddr
  let p1 :=
    if lumaFlag ≠ 0 then
      let y := EdgeLoop env img p Strength MbQAddr MbQ.LFAlphaC0Offset MbQ.LFBetaOffset
          dir edgeY p.size_x 0 0 p.imgY
      { p with imgY := y }
    else p
  match p1.imgUV with
  | none => p1
  | some uv =>
    if edge_cr ≥ 0 then
      let u := EdgeLoop env img p1 Strength MbQAddr MbQ.LFAlphaC0Offset MbQ.LFBetaOffset
          dir edgeC p1.size_x_cr 1 0 uv.1
      let v := EdgeLoop env img p1 Strength MbQAddr MbQ.LFAlphaC0Offset MbQ.LFBetaOffset
          dir edgeC p1.size_x_cr 1 1 uv.2
      { p1 with imgUV := some (u, v) }
    else p1

/-- The variable `StrengthSum` of `DeblockMb`: the sum of the 16 strength bytes. -/
def StrengthSum (Strength : Int → Nat) : Int :=
  ((List.range 16).map (fun (i : Nat) => (Strength (i : Int) : Int))).sum

/-- The value `*((int*)Strength)`: the first four strength bytes read as one `int`; it is zero
exactly when the four bytes are zero, on either byte order. -/
def StrengthWord (Strength : Int → Nat) : Int :=
  (Strength 0 : Int) + 256 * Strength 1 + 65536 * Strength 2 + 16777216 * Strength 3

/-- The regular part of the body of the `edge` loop of `DeblockMb` (under
`if (edge || EdgeCondition)`): `GetStrength`, the test of `StrengthSum`, and the filtering of
the luma and chroma planes. -/
def deblockEdge (env : Env) (MbQAddr mvlimit : Int) (filterNon8x8LumaEdgesFlag : List Int)
    (dir edge : Int) (s : State) : State :=
  let edge_cr := chroma_edge_at dir edge s.p.chroma_format_idc
  let Strength := GetStrength env s.img s.p MbQAddr dir edge mvlimit
  let mixed := GetStrengthMixed env s.img s.p MbQAddr dir edge mvlimit
  let p1 :=
    if StrengthSum Strength ≠ 0 then
      filterEdgePlanes env s.img s.p Strength MbQAddr dir
        (tab filterNon8x8LumaEdgesFlag edge) edge edge_cr edge_cr
    else s.p
  { s with p := p1, mixedModeEdgeFlag := mixed }

/-- The extra horizontal edge of `DeblockMb` (under
`if (dir && !edge && !MbQ->mb_field && mixedModeEdgeFlag)`): `DeblockCall` is 2 during
`GetStrength(.., dir, 4, ..)` and the filtering, and 1 afterwards. -/
def deblockExtraEdge (env : Env) (MbQAddr mvlimit : Int) (filterNon8x8LumaEdgesFlag : List Int)
    (dir edge : Int) (s : State) : State :=
  let edge_cr := chroma_edge_at dir edge s.p.chroma_format_idc
  let img2 := { s.img with DeblockCall := 2 }
  let Strength := GetStrength env img2 s.p MbQAddr dir 4 mvlimit
  let mixed := GetStrengthMixed env img2 s.p MbQAddr dir 4 mvlimit
  let p1 :=
    if StrengthWord Strength ≠ 0 then
      filterEdgePlanes env img2 s.p Strength MbQAddr dir
        (tab filterNon8x8LumaEdgesFlag edge) 4 edge_cr 4
    else s.p
  { img := { img2 with DeblockCall := 1 }, p := p1, mixedModeEdgeFlag := mixed }

/-- The body of the `edge` loop of `DeblockMb` for one `(dir, edge)`. -/
def deblockStep (env : Env) (MbQAddr mvlimit : Int) (filterNon8x8LumaEdgesFlag : List Int)
    (filterLeftMbEdgeFlag filterTopMbEdgeFlag : Int) (s : State) (dir edge : Int) : State :=
  let EdgeCondition :=
    b2i (decide ((dir ≠ 0 ∧ filterTopMbEdgeFlag ≠ 0) ∨ (dir = 0 ∧ filterLeftMbEdgeFlag ≠ 0)))
  if edge ≠ 0 ∨ EdgeCondition ≠ 0 then
    let s1 := deblockEdge env MbQAddr mvlimit filterNon8x8LumaEdgesFlag dir edge s
    if dir ≠ 0 ∧ edge = 0 ∧ (s1.img.mb_data MbQAddr).mb_field = 0 ∧ s1.mixedModeEdgeFlag ≠ 0 then
      deblockExtraEdge env MbQAddr mvlimit filterNon8x8LumaEdgesFlag dir edge s1
    else s1
  else s

/-- The two nested loops `for (dir = 0; dir < 2; dir++) for (edge = 0; edge < 4; edge++)`. -/
def deblockLoops (env : Env) (MbQAddr mvlimit : Int) (filterNon8x8LumaEdgesFlag : List Int)
    (filterLeftMbEdgeFlag filterTopMbEdgeFlag : Int) (s : State) : State :=
  (List.range 2).foldl (fun sd (dir : Nat) =>
    (List.range 4).foldl (fun se (edge : Nat) =>
      deblockStep env MbQAddr mvlimit filterNon8x8LumaEdgesFlag filterLeftMbEdgeFlag
        filterTopMbEdgeFlag se (dir : Int) (edge : Int)) sd) s

/-- The procedure `DeblockMb`.  The result is `none` when
`assert(MbQ->luma_transform_size_8x8_flag)` fails for an `I8MB` macroblock. -/
def DeblockMb (env : Env) (s : State) (MbQAddr : Int) : Option State :=
  let p := s.p
  let img1 := { s.img with DeblockCall := 1 }
  let pos := env.get_mb_pos img1 MbQAddr
  let mb_x := pos.1
  let mb_y := pos.2
  let filterLeftMbEdgeFlag := b2i (mb_x != 0)
  let filterTopMbEdgeFlag := b2i (mb_y != 0)
  let MbQ := img1.mb_data MbQAddr
  if MbQ.mb_type = env.I8MB ∧ MbQ.luma_transform_size_8x8_flag = 0 then none
  else
    let filterNon8x8LumaEdgesFlag : List Int :=
      [1, b2i (MbQ.luma_transform_size_8x8_flag == 0), 1,
        b2i (MbQ.luma_transform_size_8x8_flag == 0)]
    let filterTopMbEdgeFlag :=
      if p.MbaffFrameFlag ≠ 0 ∧ mb_y = 16 ∧ MbQ.mb_field ≠ 0 then 0 else filterTopMbEdgeFlag
    let fieldModeMbFlag :=
      b2i (decide (p.pic_structure ≠ env.FRAME ∨ (p.MbaffFrameFlag ≠ 0 ∧ MbQ.mb_field ≠ 0)))
    let mvlimit := if fieldModeMbFlag ≠ 0 then 2 else 4
    if MbQ.LFDisableIdc = 1 then
      some { s with img := { img1 with DeblockCall := 0 } }
    else
      let filterLeftMbEdgeFlag :=
        if MbQ.LFDisableIdc = 2 then MbQ.mbAvailA else filterLeftMbEdgeFlag
      let filterTopMbEdgeFlag :=
        if MbQ.LFDisableIdc = 2 then
          (if p.MbaffFrameFlag ≠ 0 ∧ MbQ.mb_field = 0 ∧ MbQAddr % 2 ≠ 0 then 1
           else MbQ.mbAvailB)
        else filterTopMbEdgeFlag
      let img2 := CheckAvailabilityOfNeighbors env { img1 with current_mb_nr := MbQAddr }
      let s2 := deblockLoops env MbQAddr mvlimit filterNon8x8LumaEdgesFlag
        filterLeftMbEdgeFlag filterTopMbEdgeFlag { s with img := img2 }
      some { s2 with img := { s2.img with DeblockCall := 0 } }

/-- The procedure `DeblockPicture`: `DeblockMb` for `i = 0 .. PicSizeInMbs - 1`, in this order;
`none` when one of the calls aborts. -/
def DeblockPicture (env : Env) (s : State) : Option State :=
  (List.range s.p.PicSizeInMbs).foldlM (fun st (i : Nat) => DeblockMb env st (i : Int)) s

/-- The state `DeblockMb` leaves behind when it returns early for `LFDisableIdc == 1`: only
`img->DeblockCall` has been reset to 0. -/
def resetCall (s : State) : State := { s with img := { s.img with DeblockCall := 0 } }

/-! ## A concrete non-MBAFF decoder environment

The neighbourhood helpers are not part of `loopFilter.c`; the worked examples below use this
instance, a frame picture of `w` macroblocks per row in one slice. -/

/-- Modelled from the spec: `get_mb_pos` in raster layout, in sample units. -/
def exMbPos (w a : Int) : Int × Int := (a % w * 16, a / w * 16)

/-- Modelled from the spec: `get_non_aff_neighbour` for luma (`luma ≠ 0`, 16x16) and for 4:2:0
chroma (8x8): a negative `xN` selects the left neighbour `cur - 1`, a negative `yN` the top
neighbour `cur - w`, coordinates inside the macroblock select the macroblock itself, anything
else is unavailable. -/
def exGetNeighbour (w : Int) (img : ImageParameters) (cur xN yN luma : Int) : PixelPos :=
  let m : Int := if luma ≠ 0 then 16 else 8
  let currMb := img.mb_data cur
  let sel : Int × Int :=
    if xN < 0 ∧ yN < 0 then (cur - w - 1, currMb.mbAvailD)
    else if xN < 0 ∧ 0 ≤ yN ∧ yN < m then (cur - 1, currMb.mbAvailA)
    else if 0 ≤ xN ∧ xN < m ∧ yN < 0 then (cur - w, currMb.mbAvailB)
    else if 0 ≤ xN ∧ xN < m ∧ 0 ≤ yN ∧ yN < m then (cur, 1)
    else (cur, 0)
  let x := (xN + m) % m
  let y := (yN + m) % m
  { available := sel.2, mb_addr := sel.1, x := x, y := y,
    pos_x := sel.1 % w * m + x, pos_y := sel.1 / w * m + y }

/-- The example environment: the enumeration values of the JM headers, an identity
`QP_SCALE_CR`, and the raster-layout helpers for `w` macroblocks per row. -/
def exEnv (w : Int) : Env :=
  { I4MB := 9, I16MB := 10, I8MB := 13, IPCM := 14, SP_SLICE := 3, SI_SLICE := 4, FRAME := 0,
    QP_SCALE_CR := fun q => q,
    getNeighbour := exGetNeighbour w,
    get_mb_pos := fun _ a => exMbPos w a,
    get_mb_block_pos := fun _ a => (a % w, a / w),
    mb_is_available := fun img =>
      (b2i (img.current_mb_nr % w != 0), b2i (decide (img.current_mb_nr ≥ w)),
       b2i (decide (img.current_mb_nr ≥ w ∧ img.current_mb_nr % w != w - 1)),
       b2i (decide (img.current_mb_nr ≥ w ∧ img.current_mb_nr % w != 0))) }

/-- An example macroblock: type `t`, the given `LFDisableIdc` and QP, no residual. -/
def exMb (t idc qp : Int) : Macroblock :=
  { mb_type := t, cbp_blk := 0, qp := qp, luma_transform_size_8x8_flag := 0,
    LFDisableIdc := idc, LFAlphaC0Offset := 0, LFBetaOffset := 0, mb_field := 0,
    mbAvailA := 0, mbAvailB := 0, mbAvailC := 0, mbAvailD := 0 }

/-- Example decoder parameters for 8-bit video with the macroblock table `mbs`. -/
def exImg (mbs : Int → Macroblock) : ImageParameters :=
  { mb_data := mbs, DeblockCall := 0, current_mb_nr := 0, bitdepth_luma := 8,
    bitdepth_chroma := 8, max_imgpel_value := 255, max_imgpel_value_uv := 255 }

/-- An example monochrome frame picture of `n` macroblocks in rows of `w`, with the luma plane
`Y` and motion data `mv`, `ref_idx`, `ref_pic_id`. -/
def exPic (n : Nat) (w : Int) (sliceType : Int) (Y : Plane) (mv : Int → Int → Int → Int → Int)
    (ref_idx ref_pic_id : Int → Int → Int → Int) : StorablePicture :=
  { PicSizeInMbs := n, MbaffFrameFlag := 0, pic_structure := 0, chroma_format_idc := 0,
    size_x := w * 16, size_x_cr := 0, slice_type := sliceType, chroma_qp_offset := fun _ => 0,
    mv := mv, ref_idx := ref_idx, ref_pic_id := ref_pic_id, imgY := Y, imgUV := none }

/-- A two-macroblock picture whose macroblocks both have `LFDisableIdc == 1`. -/
def exDisabled : State :=
  ⟨exImg (fun _ => exMb 10 1 26), exPic 2 2 2 (fun a => a % 7 + 100) (fun _ _ _ _ => 0)
    (fun _ _ _ => 0) (fun _ _ _ => 0), 0⟩

/-- A two-macroblock intra picture (both `I16MB`, `LFDisableIdc = 0`, QP 26) with a textured
luma plane. -/
def exIntra : State :=
  ⟨exImg (fun _ => exMb 10 0 26), exPic 2 2 2 (fun a => a % 7 + 100) (fun _ _ _ _ => 0)
    (fun _ _ _ => 0) (fun _ _ _ => 0), 0⟩

/-- A two-macroblock P picture: both macroblocks inter-coded (`mb_type` 1), no residual,
`LFDisableIdc = 0`, QP 26; every 4x4 block uses list 0 only, with reference picture 7 and the
motion vector field `mv`. -/
def exInter (mv : Int → Int → Int → Int → Int) : State :=
  ⟨exImg (fun _ => exMb 1 0 26), exPic 2 2 0 (fun a => a % 7 + 100) mv
    (fun l _ _ => if l = 0 then 0 else -1) (fun _ _ _ => 7), 0⟩

/-- The picture `exInter` with zero motion, except that both macroblocks have `cbp_blk = cbp`
and the second one has `mb_field = field1`. -/
def exResidual (cbp field1 : Int) : State :=
  ⟨exImg (fun a => { exMb 1 0 26 with cbp_blk := cbp, mb_field := if a = 1 then field1 else 0 }),
    exPic 2 2 0 (fun a => a % 7 + 100) (fun _ _ _ _ => 0)
    (fun l _ _ => if l = 0 then 0 else -1) (fun _ _ _ => 7), 0⟩

/-- The spec's `refX_L`: the `ref_pic_id` of the 4x4 block `(blk_x, blk_y)` for list `l`, or −1
when its `ref_idx` is negative (list not used). -/
def refOrNone (p : StorablePicture) (l blk_x blk_y : Int) : Int :=
  if p.ref_idx l blk_x blk_y < 0 then -1 else p.ref_pic_id l blk_x blk_y

/-- The spec's test on a pair of motion vectors, the one of list `la` of block `(blk_x, blk_y)`
and the one of list `lb` of block `(blk_x2, blk_y2)`: |ΔMV_x| ≥ 4 or |ΔMV_y| ≥ mvlimit. -/
def mvDiffer (p : StorablePicture) (mvlimit la blk_x blk_y lb blk_x2 blk_y2 : Int) : Bool :=
  decide (|p.mv la blk_x blk_y 0 - p.mv lb blk_x2 blk_y2 0| ≥ 4) ||
    decide (|p.mv la blk_x blk_y 1 - p.mv lb blk_x2 blk_y2 1| ≥ mvlimit)

/-- The motion vectors of the 4x4 block `(blk_x, blk_y)` have components in `[-2^30, 2^30)`,
for both lists: the difference of two such components fits in an `int`, so that
`abs(a - b)` is |a − b|. -/
def mvFits (p : StorablePicture) (blk_x blk_y : Int) : Prop :=
  ∀ l ∈ [LIST_0, LIST_1], ∀ c ∈ [(0 : Int), 1],
    -1073741824 ≤ p.mv l blk_x blk_y c ∧ p.mv l blk_x blk_y c < 1073741824

/-- The 4x4 block `(blk_x, blk_y)` on the Q side of position `idx` in `GetStrength`:
`blk_x = (mb_x<<2) + (blkQ & 3)`, `blk_y = (mb_y<<2) + (blkQ >> 2)` with
`get_mb_block_pos(MbQAddr, &mb_x, &mb_y)`. -/
def strengthBlkQ (env : Env) (img : ImageParameters) (MbQAddr dir edge idx : Int) : Int × Int :=
  (c_shl (env.get_mb_block_pos img MbQAddr).1 2 +
      c_and (blkOf (edgeXQ dir edge idx) (edgeYQ dir edge idx)) 3,
   c_shl (env.get_mb_block_pos img MbQAddr).2 2 +
      c_shr (blkOf (edgeXQ dir edge idx) (edgeYQ dir edge idx)) 2)

/-- The 4x4 block `(blk_x2, blk_y2)` on the P side of position `idx` in `GetStrength`:
`blk_x2 = pixP.pos_x >> 2`, `blk_y2 = pixP.pos_y >> 2`. -/
def strengthBlkP (env : Env) (img : ImageParameters) (MbQAddr dir edge idx : Int) : Int × Int :=
  (c_shr (strengthPixP env img MbQAddr dir edge idx).pos_x 2,
   c_shr (strengthPixP env img MbQAddr dir edge idx).pos_y 2)

/-- A motion field in which the list-0 vectors of the 4x4 blocks of column 4 and row `r` (the
leftmost column of the second macroblock) are `(4, 0)` and all other vectors are zero. -/
def exMv (r : Int) : Int → Int → Int → Int → Int :=
  fun l blk_x blk_y c => if l = 0 ∧ blk_x = 4 ∧ blk_y = r ∧ c = 0 then 4 else 0

/-- The picture `exInter` with `id` as the `ref_pic_id` of every block. -/
def exInterId (id : Int) (mv : Int → Int → Int → Int → Int) : State :=
  ⟨exImg (fun _ => exMb 1 0 26), exPic 2 2 0 (fun a => a % 7 + 100) mv
    (fun l _ _ => if l = 0 then 0 else -1) (fun _ _ _ => id), 0⟩

/-- A motion field whose list-0 vectors are `(2, 0)` in block column 4 (Q side of the shared
edge) and `(-2, 0)` in block column 3 (P side); all list-1 vectors are zero. -/
def exMvSplit : Int → Int → Int → Int → Int :=
  fun l blk_x _ c =>
    if l = 0 ∧ c = 0 then (if blk_x = 4 then 2 else if blk_x = 3 then -2 else 0) else 0

/-- The situation of position `idx` that scenario S3/S4 of the spec describes: slice neither SP
nor SI, both macroblocks inter-coded with equal `mb_field`, no residual bit on either adjoining
4x4 block, list 0 used on both sides (`ref_idx >= 0`) with the same `ref_pic_id`, list 1 unused
on both sides (`ref_idx < 0`) with equal list-1 vectors. -/
def sameRefCase (env : Env) (img : ImageParameters) (p : StorablePicture)
    (MbQAddr dir edge idx : Int) : Prop :=
  (p.slice_type ≠ env.SP_SLICE ∧ p.slice_type ≠ env.SI_SLICE) ∧
  isIntraMb env (img.mb_data (strengthPixP env img MbQAddr dir edge idx).mb_addr) = false ∧
  isIntraMb env (img.mb_data MbQAddr) = false ∧
  (img.mb_data MbQAddr).mb_field =
    (img.mb_data (strengthPixP env img MbQAddr dir edge idx).mb_addr).mb_field ∧
  cbpBit (img.mb_data MbQAddr).cbp_blk (blkOf (edgeXQ dir edge idx) (edgeYQ dir edge idx))
    = false ∧
  cbpBit (img.mb_data (strengthPixP env img MbQAddr dir edge idx).mb_addr).cbp_blk
    (blkOf (strengthPixP env img MbQAddr dir edge idx).x
      (strengthPixP env img MbQAddr dir edge idx).y) = false ∧
  0 ≤ p.ref_idx LIST_0 (strengthBlkQ env img MbQAddr dir edge idx).1
    (strengthBlkQ env img MbQAddr dir edge idx).2 ∧
  0 ≤ p.ref_idx LIST_0 (strengthBlkP env img MbQAddr dir edge idx).1
    (strengthBlkP env img MbQAddr dir edge idx).2 ∧
  p.ref_pic_id LIST_0 (strengthBlkQ env img MbQAddr dir edge idx).1
      (strengthBlkQ env img MbQAddr dir edge idx).2 =
    p.ref_pic_id LIST_0 (strengthBlkP env img MbQAddr dir edge idx).1
      (strengthBlkP env img MbQAddr dir edge idx).2 ∧
  p.ref_idx LIST_1 (strengthBlkQ env img MbQAddr dir edge idx).1
    (strengthBlkQ env img MbQAddr dir edge idx).2 < 0 ∧
  p.ref_idx LIST_1 (strengthBlkP env img MbQAddr dir edge idx).1
    (strengthBlkP env img MbQAddr dir edge idx).2 < 0 ∧
  p.mv LIST_1 (strengthBlkQ env img MbQAddr dir edge idx).1
      (strengthBlkQ env img MbQAddr dir edge idx).2 0 =
    p.mv LIST_1 (strengthBlkP env img MbQAddr dir edge idx).1
      (strengthBlkP env img MbQAddr dir edge idx).2 0 ∧
  p.mv LIST_1 (strengthBlkQ env img MbQAddr dir edge idx).1
      (strengthBlkQ env img MbQAddr dir edge idx).2 1 =
    p.mv LIST_1 (strengthBlkP env img MbQAddr dir edge idx).1
      (strengthBlkP env img MbQAddr dir edge idx).2 1

/-- The filter condition in the words of the spec: filter only if `Strng > 0` and
`|Δ| < α` and `|R0 − R1| < β` and `|L0 − L1| < β`, with `Δ = R0 − L0`. -/
def filterGateSpec (Strng Alpha Beta L1 L0 R0 R1 : Int) : Bool :=
  decide (Strng > 0) && decide (|R0 - L0| < Alpha) && decide (|R0 - R1| < Beta) &&
    decide (|L0 - L1| < Beta)

/-- The operator `&` on 32-bit two's-complement `int`, bit by bit: both operands are taken
modulo 2^32, combined as naturals, and the result is read back as a signed value. -/
def int32_and (a b : Int) : Int :=
  if (a % 2 ^ 32).toNat &&& (b % 2 ^ 32).toNat < 2 ^ 31 then
    (((a % 2 ^ 32).toNat &&& (b % 2 ^ 32).toNat : Nat) : Int)
  else (((a % 2 ^ 32).toNat &&& (b % 2 ^ 32).toNat : Nat) : Int) - 2 ^ 32

/-- The offsets one iteration of `EdgeLoop` can store to: `SrcPtrP[0]` and `SrcPtrQ[0]` for
chroma, and also `SrcPtrP[-incP]`, `SrcPtrP[-incP*2]`, `SrcPtrQ[incQ]`, `SrcPtrQ[incQ*2]` for
luma. -/
def pelWriteList (env : Env) (img : ImageParameters) (MbQAddr dir edge width yuv pel : Int) :
    List Int :=
  if yuv ≠ 0 then
    [pelSrcPtrP env img MbQAddr dir edge width yuv pel,
     pelSrcPtrQ env img MbQAddr dir edge width yuv pel]
  else
    [pelSrcPtrP env img MbQAddr dir edge width yuv pel,
     pelSrcPtrP env img MbQAddr dir edge width yuv pel -
       pelIncP env img MbQAddr dir edge width yuv pel,
     pelSrcPtrP env img MbQAddr dir edge width yuv pel -
       pelIncP env img MbQAddr dir edge width yuv pel * 2,
     pelSrcPtrQ env img MbQAddr dir edge width yuv pel,
     pelSrcPtrQ env img MbQAddr dir edge width yuv pel +
       pelIncQ env img MbQAddr dir edge width yuv pel,
     pelSrcPtrQ env img MbQAddr dir edge width yuv pel +
       pelIncQ env img MbQAddr dir edge width yuv pel * 2]

/-- The offsets one iteration of `EdgeLoop` reads: `SrcPtrP[0 .. -incP*3]` and
`SrcPtrQ[0 .. incQ*3]`. -/
def pelReadList (env : Env) (img : ImageParameters) (MbQAddr dir edge width yuv pel : Int) :
    List Int :=
  [pelSrcPtrP env img MbQAddr dir edge width yuv pel,
   pelSrcPtrP env img MbQAddr dir edge width yuv pel -
     pelIncP env img MbQAddr dir edge width yuv pel,
   pelSrcPtrP env img MbQAddr dir edge width yuv pel -
     pelIncP env img MbQAddr dir edge width yuv pel * 2,
   pelSrcPtrP env img MbQAddr dir edge width yuv pel -
     pelIncP env img MbQAddr dir edge width yuv pel * 3,
   pelSrcPtrQ env img MbQAddr dir edge width yuv pel,
   pelSrcPtrQ env img MbQAddr dir edge width yuv pel +
     pelIncQ env img MbQAddr dir edge width yuv pel,
   pelSrcPtrQ env img MbQAddr dir edge width yuv pel +
     pelIncQ env img MbQAddr dir edge width yuv pel * 2,
   pelSrcPtrQ env img MbQAddr dir edge width yuv pel +
     pelIncQ env img MbQAddr dir edge width yuv pel * 3]

/-- The array `filterNon8x8LumaEdgesFlag` of `DeblockMb`: initialised to `{1,1,1,1}`, then
`filterNon8x8LumaEdgesFlag[1] = filterNon8x8LumaEdgesFlag[3] =
!(MbQ->luma_transform_size_8x8_flag)`. -/
def mbFilterNon8x8LumaEdgesFlag (MbQ : Macroblock) : List Int :=
  [1, b2i (MbQ.luma_transform_size_8x8_flag == 0), 1,
    b2i (MbQ.luma_transform_size_8x8_flag == 0)]

/-- The value of `mvlimit` in `DeblockMb`: 2 if `fieldModeMbFlag`, else 4, with
`fieldModeMbFlag = (p->structure!=FRAME) || (p->MbaffFrameFlag && MbQ->mb_field)`. -/
def mbMvlimit (env : Env) (p : StorablePicture) (MbQ : Macroblock) : Int :=
  if b2i (decide (p.pic_structure ≠ env.FRAME ∨ (p.MbaffFrameFlag ≠ 0 ∧ MbQ.mb_field ≠ 0))) ≠ 0
  then 2 else 4

/-- The value of `filterLeftMbEdgeFlag` when `DeblockMb` enters its loops: `(mb_x != 0)`,
replaced by `MbQ->mbAvailA` if `LFDisableIdc == 2`.  `img` is the decoder state on entry of
`DeblockMb`. -/
def mbFilterLeftMbEdgeFlag (env : Env) (img : ImageParameters) (MbQAddr : Int) : Int :=
  let img1 := { img with DeblockCall := 1 }
  let MbQ := img1.mb_data MbQAddr
  if MbQ.LFDisableIdc = 2 then MbQ.mbAvailA else b2i ((env.get_mb_pos img1 MbQAddr).1 != 0)

/-- The value of `filterTopMbEdgeFlag` when `DeblockMb` enters its loops: `(mb_y != 0)`, set
to 0 `if (p->MbaffFrameFlag && mb_y==16 && MbQ->mb_field)`, and replaced `if (LFDisableIdc==2)`
by 1 `if (p->MbaffFrameFlag && !MbQ->mb_field && (MbQAddr % 2))` and by `MbQ->mbAvailB`
otherwise.  `img` is the decoder state on entry of `DeblockMb`. -/
def mbFilterTopMbEdgeFlag (env : Env) (img : ImageParameters) (p : StorablePicture)
    (MbQAddr : Int) : Int :=
  let img1 := { img with DeblockCall := 1 }
  let MbQ := img1.mb_data MbQAddr
  let mb_y := (env.get_mb_pos img1 MbQAddr).2
  if MbQ.LFDisableIdc = 2 then
    (if p.MbaffFrameFlag ≠ 0 ∧ MbQ.mb_field = 0 ∧ MbQAddr % 2 ≠ 0 then 1 else MbQ.mbAvailB)
  else if p.MbaffFrameFlag ≠ 0 ∧ mb_y = 16 ∧ MbQ.mb_field ≠ 0 then 0
  else b2i (mb_y != 0)

/-- The decoder state with which `DeblockMb` enters its loops: `DeblockCall = 1`,
`current_mb_nr = MbQAddr`, after `CheckAvailabilityOfNeighbors()`. -/
def mbStartImg (env : Env) (img : ImageParameters) (MbQAddr : Int) : ImageParameters :=
  let img1 := { img with DeblockCall := 1 }
  CheckAvailabilityOfNeighbors env { img1 with current_mb_nr := MbQAddr }

/-- The decoder state that `DeblockMb` leaves behind: `DeblockCall = 0`, and unless the
macroblock has `LFDisableIdc == 1` the effects of `mbStartImg`. -/
def mbEndImg (env : Env) (img : ImageParameters) (MbQAddr : Int) : ImageParameters :=
  if (img.mb_data MbQAddr).LFDisableIdc = 1 then { img with DeblockCall := 0 }
  else { mbStartImg env img MbQAddr with DeblockCall := 0 }

/-- The edge operations `(dir, edge)` that one pass through the body of the `edge` loop of
`DeblockMb` performs, in order: the regular edge `if (edge || EdgeCondition)`, followed by the
extra edge `(dir, 4)` `if (dir && !edge && !MbQ->mb_field && mixedModeEdgeFlag)`, where
`mixedModeEdgeFlag` has just been set by `GetStrength` for the regular edge. -/
def deblockStepOps (env : Env) (img : ImageParameters) (p : StorablePicture)
    (MbQAddr mvlimit filterLeftMbEdgeFlag filterTopMbEdgeFlag dir edge : Int) :
    List (Int × Int) :=
  let EdgeCondition :=
    b2i (decide ((dir ≠ 0 ∧ filterTopMbEdgeFlag ≠ 0) ∨ (dir = 0 ∧ filterLeftMbEdgeFlag ≠ 0)))
  if edge ≠ 0 ∨ EdgeCondition ≠ 0 then
    if dir ≠ 0 ∧ edge = 0 ∧ (img.mb_data MbQAddr).mb_field = 0 ∧
        GetStrengthMixed env img p MbQAddr dir edge mvlimit ≠ 0 then
      [(dir, edge), (dir, 4)]
    else [(dir, edge)]
  else []

/-- The pairs `(dir, edge)` in the order in which the loops of `DeblockMb` visit them. -/
def edgeOrder : List (Nat × Nat) :=
  [(0, 0), (0, 1), (0, 2), (0, 3), (1, 0), (1, 1), (1, 2), (1, 3)]

/-- The loops of `DeblockMb` together with the list of edge operations performed so far. -/
def deblockLoopsTrace (env : Env) (MbQAddr mvlimit : Int) (filterNon8x8LumaEdgesFlag : List Int)
    (filterLeftMbEdgeFlag filterTopMbEdgeFlag : Int) (s : State) : State × List (Int × Int) :=
  (List.range 2).foldl (fun sd (dir : Nat) =>
    (List.range 4).foldl (fun se (edge : Nat) =>
      (deblockStep env MbQAddr mvlimit filterNon8x8LumaEdgesFlag filterLeftMbEdgeFlag
          filterTopMbEdgeFlag se.1 (dir : Int) (edge : Int),
        se.2 ++ deblockStepOps env se.1.img se.1.p MbQAddr mvlimit
          filterLeftMbEdgeFlag filterTopMbEdgeFlag (dir : Int) (edge : Int))) sd) (s, [])

/-- The edge operations of one call of `DeblockMb`, in order; none when the call aborts on its
assertion or returns early for `LFDisableIdc == 1`. -/
def DeblockMbOps (env : Env) (s : State) (MbQAddr : Int) : List (Int × Int) :=
  let MbQ := s.img.mb_data MbQAddr
  if MbQ.mb_type = env.I8MB ∧ MbQ.luma_transform_size_8x8_flag = 0 then []
  else if MbQ.LFDisableIdc = 1 then []
  else
    (deblockLoopsTrace env MbQAddr (mbMvlimit env s.p MbQ) (mbFilterNon8x8LumaEdgesFlag MbQ)
      (mbFilterLeftMbEdgeFlag env s.img MbQAddr) (mbFilterTopMbEdgeFlag env s.img s.p MbQAddr)
      { s with img := mbStartImg env s.img MbQAddr }).2

/-- A sufficient condition, decidable on a concrete plane, for iteration `pel` of `EdgeLoop` to
leave the plane as it is: the iteration is skipped (`pixP.available` is 0 and `LFDisableIdc` is
not 0), or the three nested tests fail, or the eight samples read are one value in
`0..max`. -/
def pelIdle (env : Env) (img : ImageParameters) (p : StorablePicture) (Strength : Int → Nat)
    (MbQAddr AlphaC0Offset BetaOffset dir edge width yuv uv : Int) (Img : Plane) (pel : Int) :
    Bool :=
  let incP := pelIncP env img MbQAddr dir edge width yuv pel
  let incQ := pelIncQ env img MbQAddr dir edge width yuv pel
  let P := pelSrcPtrP env img MbQAddr dir edge width yuv pel
  let Q := pelSrcPtrQ env img MbQAddr dir edge width yuv pel
  !decide ((pelPixP env img MbQAddr dir edge yuv pel).available ≠ 0 ∨
      (img.mb_data MbQAddr).LFDisableIdc = 0) ||
  (!filterGate (pelStrng env img p Strength MbQAddr dir edge yuv pel)
      (tab ALPHA_TABLE (pelIndex env img p MbQAddr AlphaC0Offset dir edge yuv uv pel) *
        bitdepthScale img yuv)
      (tab BETA_TABLE (pelIndex env img p MbQAddr BetaOffset dir edge yuv uv pel) *
        bitdepthScale img yuv)
      (Img (P - incP)) (Img P) (Img Q) (Img (Q + incQ)) ||
  (decide (0 ≤ Img P ∧ Img P ≤ pelMax img yuv) &&
    (pelReadList env img MbQAddr dir edge width yuv pel).all (fun a => decide (Img a = Img P))))

/-- Every iteration of one call of `EdgeLoop` satisfies `pelIdle`. -/
def edgeIdle (env : Env) (img : ImageParameters) (p : StorablePicture) (Strength : Int → Nat)
    (MbQAddr AlphaC0Offset BetaOffset dir edge width yuv uv : Int) (Img : Plane) : Bool :=
  (List.range (PelNum p dir yuv).toNat).all (fun (pel : Nat) =>
    pelIdle env img p Strength MbQAddr AlphaC0Offset BetaOffset dir edge width yuv uv Img
      (pel : Int))

/-- Every call of `EdgeLoop` that `filterEdgePlanes` makes satisfies `edgeIdle`. -/
def planesIdle (env : Env) (img : ImageParameters) (p : StorablePicture)
    (Strength : Int → Nat) (MbQAddr dir lumaFlag edgeY edge_cr edgeC : Int) : Bool :=
  (decide (lumaFlag = 0) ||
    edgeIdle env img p Strength MbQAddr (img.mb_data MbQAddr).LFAlphaC0Offset
      (img.mb_data MbQAddr).LFBetaOffset dir edgeY p.size_x 0 0 p.imgY) &&
  (match p.imgUV with
   | none => true
   | some uv =>
     decide (edge_cr < 0) ||
      (edgeIdle env img p Strength MbQAddr (img.mb_data MbQAddr).LFAlphaC0Offset
          (img.mb_data MbQAddr).LFBetaOffset dir edgeC p.size_x_cr 1 0 uv.1 &&
        edgeIdle env img p Strength MbQAddr (img.mb_data MbQAddr).LFAlphaC0Offset
          (img.mb_data MbQAddr).LFBetaOffset dir edgeC p.size_x_cr 1 1 uv.2))

/-- Every call of `EdgeLoop` made in the pass `(dir, edge)` of the loops of `DeblockMb`, for
the regular edge and for the extra edge, satisfies `edgeIdle`. -/
def stepIdle (env : Env) (img : ImageParameters) (p : StorablePicture)
    (MbQAddr mvlimit : Int) (filterNon8x8LumaEdgesFlag : List Int)
    (filterLeftMbEdgeFlag filterTopMbEdgeFlag dir edge : Int) : Bool :=
  !decide (edge ≠ 0 ∨ (dir ≠ 0 ∧ filterTopMbEdgeFlag ≠ 0) ∨ (dir = 0 ∧ filterLeftMbEdgeFlag ≠ 0))
  || ((decide (StrengthSum (GetStrength env img p MbQAddr dir edge mvlimit) = 0) ||
        planesIdle env img p (GetStrength env img p MbQAddr dir edge mvlimit) MbQAddr dir
          (tab filterNon8x8LumaEdgesFlag edge) edge
          (chroma_edge_at dir edge p.chroma_format_idc)
          (chroma_edge_at dir edge p.chroma_format_idc)) &&
      (!decide (dir ≠ 0 ∧ edge = 0 ∧ (img.mb_data MbQAddr).mb_field = 0 ∧
          GetStrengthMixed env img p MbQAddr dir edge mvlimit ≠ 0) ||
        (decide (StrengthWord (GetStrength env { img with DeblockCall := 2 } p MbQAddr dir 4
            mvlimit) = 0) ||
          planesIdle env { img with DeblockCall := 2 } p
            (GetStrength env { img with DeblockCall := 2 } p MbQAddr dir 4 mvlimit) MbQAddr dir
            (tab filterNon8x8LumaEdgesFlag edge) 4
            (chroma_edge_at dir edge p.chroma_format_idc) 4)))

/-- The call `DeblockMb(img, p, MbQAddr)` does not abort, and it returns early or all its
passes satisfy `stepIdle`. -/
def mbIdle (env : Env) (img : ImageParameters) (p : StorablePicture) (MbQAddr : Int) : Bool :=
  !decide ((img.mb_data MbQAddr).mb_type = env.I8MB ∧
      (img.mb_data MbQAddr).luma_transform_size_8x8_flag = 0) &&
  (decide ((img.mb_data MbQAddr).LFDisableIdc = 1) ||
    edgeOrder.all (fun de =>
      stepIdle env (mbStartImg env img MbQAddr) p MbQAddr (mbMvlimit env p (img.mb_data MbQAddr))
        (mbFilterNon8x8LumaEdgesFlag (img.mb_data MbQAddr))
        (mbFilterLeftMbEdgeFlag env img MbQAddr) (mbFilterTopMbEdgeFlag env img p MbQAddr)
        (de.1 : Int) (de.2 : Int)))

/-- The calls of `DeblockMb` for the macroblocks of the list, in order, from the decoder state
`img`, all satisfy `mbIdle`. -/
def picIdle (env : Env) (p : StorablePicture) : List Nat → ImageParameters → Bool
  | [], _ => true
  | a :: l, img => mbIdle env img p (a : Int) && picIdle env p l (mbEndImg env img (a : Int))

/-- The two-macroblock picture of scenario S2: both macroblocks intra (`I16MB`),
`LFDisableIdc = 0`, QP 26, zero filter offsets, 8-bit monochrome; the luma samples of the left
macroblock are all `a` and those of the right macroblock all `b` (32 samples per row). -/
def exStep (a b : Int) : State :=
  ⟨exImg (fun _ => exMb 10 0 26), exPic 2 2 2 (fun x => if x % 32 < 16 then a else b)
    (fun _ _ _ _ => 0) (fun _ _ _ => 0) (fun _ _ _ => 0), 0⟩

/-- The decoder state during the edge operation `op = (dir, edge)`: `DeblockCall` is 2 during
the extra edge `(dir, 4)`. -/
def opImg (img : ImageParameters) (op : Int × Int) : ImageParameters :=
  if op.2 = 4 then { img with DeblockCall := 2 } else img

/-- The value of `edge_cr` during the edge operation `op`:
`chroma_edge[dir][edge][p->chroma_format_idc]`, where `edge` is 0 during the extra edge. -/
def opEdgeCr (p : StorablePicture) (op : Int × Int) : Int :=
  chroma_edge_at op.1 (if op.2 = 4 then 0 else op.2) p.chroma_format_idc

/-- The offsets of the luma plane that the call of `EdgeLoop` for the edge operation `op` of
macroblock `MbQAddr` can store to. -/
def opLumaWrites (env : Env) (img : ImageParameters) (p : StorablePicture) (MbQAddr : Int)
    (op : Int × Int) : List Int :=
  (List.range 16).flatMap (fun (pel : Nat) =>
    pelWriteList env (opImg img op) MbQAddr op.1 op.2 p.size_x 0 (pel : Int))

/-- The offsets of a chroma plane that the calls of `EdgeLoop` for the edge operation `op` of
macroblock `MbQAddr` can store to: none when `edge_cr < 0`; the `edge` argument of the calls is
`edge_cr`, or 4 for the extra edge. -/
def opChromaWrites (env : Env) (img : ImageParameters) (p : StorablePicture) (MbQAddr : Int)
    (op : Int × Int) : List Int :=
  if opEdgeCr p op < 0 then []
  else
    (List.range (PelNum p op.1 1).toNat).flatMap (fun (pel : Nat) =>
      pelWriteList env (opImg img op) MbQAddr op.1 (if op.2 = 4 then 4 else opEdgeCr p op)
        p.size_x_cr 1 (pel : Int))

/-- A one-macroblock monochrome picture whose macroblock is `I8MB` with
`luma_transform_size_8x8_flag = 1` (`LFDisableIdc = 0`, QP 26); the luma samples are 100 in
columns 0..7 and 104 in columns 8..15. -/
def exI8 : State :=
  ⟨exImg (fun _ => { exMb 13 0 26 with luma_transform_size_8x8_flag := 1 }),
    exPic 1 1 2 (fun x => if x % 16 < 8 then 100 else 104) (fun _ _ _ _ => 0) (fun _ _ _ => 0)
      (fun _ _ _ => 0), 0⟩

/-- The spec's chroma subsampling factor across an edge of direction `dir` (0: vertical edges,
the offset is horizontal; 1: horizontal edges, the offset is vertical) for `chroma_format_idc`
`fmt`: 2 horizontally for 4:2:0 (`fmt = 1`) and 4:2:2 (`fmt = 2`), 2 vertically for 4:2:0,
otherwise 1. -/
def chromaSubsampling (dir fmt : Nat) : Nat :=
  if dir = 0 then (if fmt = 1 ∨ fmt = 2 then 2 else 1)
  else (if fmt = 1 then 2 else 1)

/-- The planes of the picture `p` are constant, each with a value in the range of its clamp
bound: the luma plane with a value in `0..maxY`, and each chroma plane, if there are chroma
planes, with a value in `0..maxUV`. -/
def constPlanes (maxY maxUV : Int) (p : StorablePicture) : Prop :=
  (∃ v : Int, (0 ≤ v ∧ v ≤ maxY) ∧ ∀ a, p.imgY a = v) ∧
  ∀ uv, p.imgUV = some uv →
    (∃ v : Int, (0 ≤ v ∧ v ≤ maxUV) ∧ ∀ a, uv.1 a = v) ∧
    (∃ v : Int, (0 ≤ v ∧ v ≤ maxUV) ∧ ∀ a, uv.2 a = v)

/-- The decoder states `img` and `img'` have the same clamp bounds, and their macroblocks the
same `mb_type` and `luma_transform_size_8x8_flag`. -/
def imgAgree (img img' : ImageParameters) : Prop :=
  img'.max_imgpel_value = img.max_imgpel_value ∧
  img'.max_imgpel_value_uv = img.max_imgpel_value_uv ∧
  ∀ b, (img'.mb_data b).mb_type = (img.mb_data b).mb_type ∧
    (img'.mb_data b).luma_transform_size_8x8_flag =
      (img.mb_data b).luma_transform_size_8x8_flag

/-- A one-macroblock monochrome picture (`I16MB`, `LFDisableIdc = 0`, QP 26, zero filter
offsets, 8-bit) all of whose luma samples are `v`. -/
def exFlat (v : Int) : State :=
  ⟨exImg (fun _ => exMb 10 0 26), exPic 1 1 2 (fun _ => v) (fun _ _ _ _ => 0) (fun _ _ _ => 0)
    (fun _ _ _ => 0), 0⟩

/-- The offset `x` of the luma plane (`yuv = 0`) or of the chroma planes (`yuv != 0`) is in no
write set of an edge operation of the call `DeblockMb(img, p, i)`. -/
def mbAway (env : Env) (img : ImageParameters) (p : StorablePicture) (yuv x i : Int) : Bool :=
  (DeblockMbOps env ⟨img, p, 0⟩ i).all (fun op =>
    decide (x ∉ (if yuv = 0 then opLumaWrites env (mbStartImg env img i) p i op
      else opChromaWrites env (mbStartImg env img i) p i op)))

/-- The offset `x` is in no write set of an edge operation of the calls of `DeblockMb` for the
macroblocks of the list, made in order from the decoder state `img`. -/
def picAway (env : Env) (p : StorablePicture) (yuv x : Int) :
    List Nat → ImageParameters → Bool
  | [], _ => true
  | i :: l, img =>
    mbAway env img p yuv x (i : Int) && picAway env p yuv x l (mbEndImg env img (i : Int))

/-- A two-macroblock monochrome picture (both `I16MB`, QP 26, 8-bit) whose left macroblock has
`LFDisableIdc = 1` and whose right macroblock has `LFDisableIdc = 0`; the luma samples of the
left macroblock are all 100 and those of the right macroblock all 104. -/
def exHalfDisabled : State :=
  ⟨exImg (fun a => exMb 10 (if a = 0 then 1 else 0) 26),
    exPic 2 2 2 (fun x => if x % 32 < 16 then 100 else 104) (fun _ _ _ _ => 0) (fun _ _ _ => 0)
      (fun _ _ _ => 0), 0⟩

/-- An example neighbourhood resolver for an MBAFF picture that is one row of macroblock
pairs: the macroblocks `2k` and `2k + 1` are the top and the bottom macroblock of pair `k`.
The left neighbour of a sample of macroblock `cur` lies in the macroblock of the same parity of
the pair to the left (`cur - 2`, available as `mbAvailA` says); the neighbour above the bottom
macroblock of a pair is the top macroblock of that pair; above a top macroblock the picture
has no macroblock, and the answer names `cur - 1`, available as `mbAvailB` says. -/
def exMbaffNeighbour (img : ImageParameters) (cur xN yN luma : Int) : PixelPos :=
  let m : Int := if luma ≠ 0 then 16 else 8
  let currMb := img.mb_data cur
  let sel : Int × Int :=
    if xN < 0 ∧ 0 ≤ yN ∧ yN < m then (cur - 2, currMb.mbAvailA)
    else if 0 ≤ xN ∧ xN < m ∧ yN < 0 then
      (cur - 1, if cur % 2 ≠ 0 then 1 else currMb.mbAvailB)
    else if 0 ≤ xN ∧ xN < m ∧ 0 ≤ yN ∧ yN < m then (cur, 1)
    else (cur, 0)
  let x := (xN + m) % m
  let y := (yN + m) % m
  { available := sel.2, mb_addr := sel.1, x := x, y := y,
    pos_x := sel.1 / 2 * m + x, pos_y := sel.1 % 2 * m + y }

/-- The example environment for an MBAFF picture of one row of macroblock pairs: the
enumeration values of the JM headers, an identity `QP_SCALE_CR`, and the helpers for the
layout of `exMbaffNeighbour`. -/
def exEnvMbaff : Env :=
  { I4MB := 9, I16MB := 10, I8MB := 13, IPCM := 14, SP_SLICE := 3, SI_SLICE := 4, FRAME := 0,
    QP_SCALE_CR := fun q => q,
    getNeighbour := exMbaffNeighbour,
    get_mb_pos := fun _ a => (a / 2 * 16, a % 2 * 16),
    get_mb_block_pos := fun _ a => (a / 2, a % 2),
    mb_is_available := fun img =>
      (b2i (decide (img.current_mb_nr ≥ 2)), b2i (img.current_mb_nr % 2 != 0), 0, 0) }

/-- An MBAFF frame picture of two macroblock pairs (macroblocks 0..3, all `I16MB`, QP 26,
8-bit, monochrome, luma 100 everywhere): the macroblocks of the left pair (0 and 1) have
`mb_field = fieldL` and those of the right pair `mb_field = fieldR`; all have
`LFDisableIdc = idc` and `mbAvailB = 0`. -/
def exMbaff (fieldL fieldR idc : Int) : State :=
  ⟨exImg (fun a => { exMb 10 idc 26 with mb_field := if a < 2 then fieldL else fieldR }),
    { exPic 4 2 2 (fun _ => 100) (fun _ _ _ _ => 0) (fun _ _ _ => 0) (fun _ _ _ => 0) with
      MbaffFrameFlag := 1 }, 0⟩

/-- An example neighbourhood resolver for an MBAFF picture that is one column of frame macroblock
pairs, one macroblock wide: the macroblocks `2k` and `2k + 1` are the top and the bottom
macroblock of pair `k`, and the macroblock above `cur` is `cur - 1` (for a bottom macroblock
the top macroblock of its pair, for a top macroblock the bottom macroblock of the pair above,
available as `mbAvailB` says); there is nothing to the left. -/
def exMbaffColNeighbour (img : ImageParameters) (cur xN yN luma : Int) : PixelPos :=
  let m : Int := if luma ≠ 0 then 16 else 8
  let currMb := img.mb_data cur
  let sel : Int × Int :=
    if 0 ≤ xN ∧ xN < m ∧ yN < 0 then
      (cur - 1, if cur % 2 ≠ 0 then 1 else currMb.mbAvailB)
    else if 0 ≤ xN ∧ xN < m ∧ 0 ≤ yN ∧ yN < m then (cur, 1)
    else (cur, 0)
  let x := (xN + m) % m
  let y := (yN + m) % m
  { available := sel.2, mb_addr := sel.1, x := x, y := y, pos_x := x, pos_y := sel.1 * m + y }

/-- The example environment for an MBAFF picture of one column of macroblock pairs, with the
helpers for the layout of `exMbaffColNeighbour`. -/
def exEnvMbaffCol : Env :=
  { exEnvMbaff with
    getNeighbour := exMbaffColNeighbour,
    get_mb_pos := fun _ a => (0, a * 16),
    get_mb_block_pos := fun _ a => (0, a),
    mb_is_available := fun img => (0, b2i (decide (img.current_mb_nr ≥ 2)), 0, 0) }

/-- An MBAFF picture of two macroblock pairs in one column: a field-coded pair (macroblocks 0
and 1) above a frame-coded pair (macroblocks 2 and 3), all `I16MB` with `LFDisableIdc = 0`. -/
def exMbaffCol : State :=
  ⟨(exMbaff 1 0 0).img, { (exMbaff 1 0 0).p with size_x := 16 }, 0⟩

/-- The loop of `DeblockPicture` together with the list of the addresses with which `DeblockMb`
has been called so far; after a call that aborts on its assertion no further call is made. -/
def DeblockPictureCalls (env : Env) (s : State) : Option State × List Int :=
  (List.range s.p.PicSizeInMbs).foldl (fun acc (i : Nat) =>
    match acc.1 with
    | none => acc
    | some st => (DeblockMb env st (i : Int), acc.2 ++ [(i : Int)])) (some s, [])

/-- The example environment `exEnv w` with a neighbour availability that reports every
neighbouring macroblock as unavailable, as if every macroblock were a slice of its own. -/
def exEnvAlone (w : Int) : Env := { exEnv w with mb_is_available := fun _ => (0, 0, 0, 0) }

/-! # Theorems -/

/-! ## Disabled macroblocks -/

theorem DeblockMb_disabled_eq (env : Env) (s : State) (MbQAddr : Int)
    (hdis : (s.img.mb_data MbQAddr).LFDisableIdc = 1) :
    DeblockMb env s MbQAddr =
      if (s.img.mb_data MbQAddr).mb_type = env.I8MB ∧
          (s.img.mb_data MbQAddr).luma_transform_size_8x8_flag = 0 then none
      else some (resetCall s) := by
  unfold DeblockMb resetCall
  simp only [hdis]
  split <;> simp

theorem foldlM_disabled (env : Env) (l : List Nat) :
    ∀ s : State, (∀ i ∈ l, (s.img.mb_data (i : Int)).LFDisableIdc = 1) →
      (∀ s', l.foldlM (fun st (i : Nat) => DeblockMb env st (i : Int)) s = some s' →
          s'.p = s.p ∧ s'.img.mb_data = s.img.mb_data) ∧
      ((l.foldlM (fun st (i : Nat) => DeblockMb env st (i : Int)) s).isSome ↔
          ∀ i ∈ l, ¬ ((s.img.mb_data (i : Int)).mb_type = env.I8MB ∧
            (s.img.mb_data (i : Int)).luma_transform_size_8x8_flag = 0)) := by
  induction l with
  | nil => intro s _; simp
  | cons a l ih =>
    intro s h
    have ha := h a (List.mem_cons_self a l)
    rw [List.foldlM_cons, DeblockMb_disabled_eq env s a ha]
    by_cases hf : (s.img.mb_data (a : Int)).mb_type = env.I8MB ∧
        (s.img.mb_data (a : Int)).luma_transform_size_8x8_flag = 0
    · rw [if_pos hf]
      constructor
      · intro s' hs'; simp at hs'
      · simp only [Option.bind_eq_bind, Option.none_bind, Option.isSome_none, Bool.false_eq_true,
          false_iff, not_forall]
        exact ⟨a, List.mem_cons_self a l, fun hn => hn hf⟩
    · rw [if_neg hf]
      have h' : ∀ i ∈ l, ((resetCall s).img.mb_data (i : Int)).LFDisableIdc = 1 :=
        fun i hi => h i (List.mem_cons_of_mem a hi)
      obtain ⟨ih1, ih2⟩ := ih (resetCall s) h'
      constructor
      · intro s' hs'
        exact ih1 s' hs'
      · simp only [Option.bind_eq_bind, Option.some_bind]
        rw [ih2]
        constructor
        · intro hall i hi
          rcases List.mem_cons.mp hi with rfl | hi
          · exact hf
          · exact hall i hi
        · intro hall i hi
          exact hall i (List.mem_cons_of_mem a hi)

/-- C1: when the macroblock at `MbQAddr` has `LFDisableIdc == 1`, `DeblockMb` returns (unless
the `I8MB` assertion aborts it) and leaves the luma plane and both chroma planes as they were;
and when every macroblock of the picture has `LFDisableIdc == 1`, `DeblockPicture` returns
(unless an assertion aborts it) with all sample planes unchanged. -/
theorem DeblockMb_disabled_identity (env : Env) (s : State) (MbQAddr : Int)
    (hdis : (s.img.mb_data MbQAddr).LFDisableIdc = 1) :
    ((DeblockMb env s MbQAddr).isSome ↔
        ¬ ((s.img.mb_data MbQAddr).mb_type = env.I8MB ∧
            (s.img.mb_data MbQAddr).luma_transform_size_8x8_flag = 0)) ∧
    (∀ s', DeblockMb env s MbQAddr = some s' →
        s'.p.imgY = s.p.imgY ∧ s'.p.imgUV = s.p.imgUV) ∧
    ((∀ i : Nat, i < s.p.PicSizeInMbs → (s.img.mb_data (i : Int)).LFDisableIdc = 1) →
      ((DeblockPicture env s).isSome ↔
        ∀ i : Nat, i < s.p.PicSizeInMbs →
          ¬ ((s.img.mb_data (i : Int)).mb_type = env.I8MB ∧
              (s.img.mb_data (i : Int)).luma_transform_size_8x8_flag = 0)) ∧
      (∀ s', DeblockPicture env s = some s' →
        s'.p.imgY = s.p.imgY ∧ s'.p.imgUV = s.p.imgUV)) := by
  refine ⟨?_, ?_, ?_⟩
  · rw [DeblockMb_disabled_eq env s MbQAddr hdis]
    split <;> simp_all
  · intro s' hs'
    rw [DeblockMb_disabled_eq env s MbQAddr hdis] at hs'
    split at hs'
    · simp at hs'
    · simp only [Option.some.injEq] at hs'
      subst hs'
      exact ⟨rfl, rfl⟩
  · intro hall
    have h := foldlM_disabled env (List.range s.p.PicSizeInMbs) s
      (fun i hi => hall i (List.mem_range.mp hi))
    constructor
    · unfold DeblockPicture
      rw [h.2]
      constructor
      · intro hx i hi
        exact hx i (List.mem_range.mpr hi)
      · intro hx i hi
        exact hx i (List.mem_range.mp hi)
    · intro s' hs'
      have := h.1 s' hs'
      rw [this.1]
      exact ⟨rfl, rfl⟩

/-- Witness for C1: the second macroblock of `exDisabled` and the whole picture. -/
theorem DeblockMb_disabled_identity_witness :
    (exDisabled.img.mb_data 1).LFDisableIdc = 1 ∧
    (∀ i : Nat, i < exDisabled.p.PicSizeInMbs →
      (exDisabled.img.mb_data (i : Int)).LFDisableIdc = 1) ∧
    (DeblockMb (exEnv 2) exDisabled 1).isSome ∧
    (DeblockPicture (exEnv 2) exDisabled).isSome :=
  have h := DeblockMb_disabled_identity (exEnv 2) exDisabled 1 rfl
  ⟨rfl, fun _ _ => rfl, h.1.mpr (by simp [exDisabled, exImg, exMb, exEnv]),
    (h.2.2 (fun _ _ => rfl)).1.mpr (fun _ _ => by simp [exDisabled, exImg, exMb, exEnv])⟩

/-! ## Arithmetic of the C helpers -/

theorem c_shr_one (x : Int) : c_shr x 1 = x / 2 := by simp [c_shr]

theorem c_shr_two (x : Int) : c_shr x 2 = x / 4 := by simp [c_shr]

theorem c_shr_three (x : Int) : c_shr x 3 = x / 8 := by simp [c_shr]

theorem c_shl_one (x : Int) : c_shl x 1 = x * 2 := by simp [c_shl]

theorem c_shl_two (x : Int) : c_shl x 2 = x * 4 := by simp [c_shl]

theorem c_abs_nonneg (x : Int) : 0 ≤ c_abs x := by
  unfold c_abs; split <;> omega

theorem c_abs_lt (x b : Int) : c_abs x < b ↔ -b < x ∧ x < b := by
  unfold c_abs; split <;> omega

theorem c_abs_sub_comm (a b : Int) : c_abs (a - b) = c_abs (b - a) := by
  unfold c_abs; split <;> split <;> omega

theorem IClip_mem (Min Max Val : Int) (h : Min ≤ Max) :
    Min ≤ IClip Min Max Val ∧ IClip Min Max Val ≤ Max := by
  unfold IClip; split_ifs <;> omega

/-- A symmetric clip moves its argument towards zero and never across it. -/
theorem IClip_sym_between (C v : Int) (h : 0 ≤ C) :
    (0 ≤ v → 0 ≤ IClip (-C) C v ∧ IClip (-C) C v ≤ v) ∧
    (v ≤ 0 → v ≤ IClip (-C) C v ∧ IClip (-C) C v ≤ 0) := by
  unfold IClip; split_ifs <;> omega

theorem store_same (Img : Plane) (a v : Int) : store Img a v a = v := by simp [store]

theorem store_other (Img : Plane) (a v b : Int) (h : b ≠ a) : store Img a v b = Img b := by
  simp [store, h]

/-! ## Range of the filtered samples -/

theorem strongChroma_range (maxv L1 L0 R0 R1 SrcPtrP SrcPtrQ : Int) (Img : Plane)
    (hL0 : 0 ≤ L0 ∧ L0 ≤ maxv) (hL1 : 0 ≤ L1 ∧ L1 ≤ maxv)
    (hR0 : 0 ≤ R0 ∧ R0 ≤ maxv) (hR1 : 0 ≤ R1 ∧ R1 ≤ maxv) (a : Int) :
    strongChroma L1 L0 R0 R1 SrcPtrP SrcPtrQ Img a = Img a ∨
    (0 ≤ strongChroma L1 L0 R0 R1 SrcPtrP SrcPtrQ Img a ∧
      strongChroma L1 L0 R0 R1 SrcPtrP SrcPtrQ Img a ≤ maxv) := by
  simp only [strongChroma, store, c_shr_two, c_shl_one]
  split_ifs <;> omega

theorem strongLuma_range (maxv Alpha aq ap L3 L2 L1 L0 R0 R1 R2 R3 incP incQ SrcPtrP SrcPtrQ : Int)
    (Img : Plane)
    (hL0 : 0 ≤ L0 ∧ L0 ≤ maxv) (hL1 : 0 ≤ L1 ∧ L1 ≤ maxv) (hL2 : 0 ≤ L2 ∧ L2 ≤ maxv)
    (hL3 : 0 ≤ L3 ∧ L3 ≤ maxv)
    (hR0 : 0 ≤ R0 ∧ R0 ≤ maxv) (hR1 : 0 ≤ R1 ∧ R1 ≤ maxv) (hR2 : 0 ≤ R2 ∧ R2 ≤ maxv)
    (hR3 : 0 ≤ R3 ∧ R3 ≤ maxv) (a : Int) :
    strongLuma Alpha aq ap L3 L2 L1 L0 R0 R1 R2 R3 incP incQ SrcPtrP SrcPtrQ Img a = Img a ∨
    (0 ≤ strongLuma Alpha aq ap L3 L2 L1 L0 R0 R1 R2 R3 incP incQ SrcPtrP SrcPtrQ Img a ∧
      strongLuma Alpha aq ap L3 L2 L1 L0 R0 R1 R2 R3 incP incQ SrcPtrP SrcPtrQ Img a ≤ maxv) := by
  simp only [strongLuma, store, c_shr_two, c_shr_three, c_shl_one]
  split_ifs <;> omega

theorem normalFilter_range (yuv C0 aq ap maxv L2 L1 L0 R0 R1 R2 incP incQ SrcPtrP SrcPtrQ : Int)
    (Img : Plane) (hC : 0 ≤ C0) (hmax : 0 ≤ maxv)
    (hincP : 0 < incP) (hincQ : 0 < incQ) (hPQ : SrcPtrP < SrcPtrQ)
    (hL0 : 0 ≤ L0 ∧ L0 ≤ maxv) (hL2 : 0 ≤ L2 ∧ L2 ≤ maxv)
    (hR0 : 0 ≤ R0 ∧ R0 ≤ maxv) (hR2 : 0 ≤ R2 ∧ R2 ≤ maxv)
    (hL1 : 0 ≤ L1 ∧ L1 ≤ maxv) (hR1 : 0 ≤ R1 ∧ R1 ≤ maxv)
    (eL1 : Img (SrcPtrP - incP) = L1) (eR1 : Img (SrcPtrQ + incQ) = R1) (a : Int) :
    normalFilter yuv C0 aq ap maxv L2 L1 L0 R0 R1 R2 incP incQ SrcPtrP SrcPtrQ Img a = Img a ∨
    (0 ≤ normalFilter yuv C0 aq ap maxv L2 L1 L0 R0 R1 R2 incP incQ SrcPtrP SrcPtrQ Img a ∧
      normalFilter yuv C0 aq ap maxv L2 L1 L0 R0 R1 R2 incP incQ SrcPtrP SrcPtrQ Img a ≤ maxv) := by
  have hP := IClip_mem 0 maxv (L0 + normalDif yuv C0 aq ap L1 L0 R0 R1) hmax
  have hQ := IClip_mem 0 maxv (R0 - normalDif yuv C0 aq ap L1 L0 R0 R1) hmax
  have hcP := IClip_sym_between C0 (c_shr (L2 + c_shr (L0 + R0 + 1) 1 - c_shl L1 1) 1) hC
  have hcQ := IClip_sym_between C0 (c_shr (R2 + c_shr (L0 + R0 + 1) 1 - c_shl R1 1) 1) hC
  simp only [c_shr_one, c_shl_one] at hcP hcQ
  simp only [normalFilter, c_shr_one, c_shl_one]
  generalize IClip 0 maxv (L0 + normalDif yuv C0 aq ap L1 L0 R0 R1) = p0 at hP ⊢
  generalize IClip 0 maxv (R0 - normalDif yuv C0 aq ap L1 L0 R0 R1) = q0 at hQ ⊢
  generalize IClip (-C0) C0 ((L2 + (L0 + R0 + 1) / 2 - L1 * 2) / 2) = dp at hcP ⊢
  generalize IClip (-C0) C0 ((R2 + (L0 + R0 + 1) / 2 - R1 * 2) / 2) = dq at hcQ ⊢
  subst eL1 eR1
  split_ifs <;> simp only [store] <;> split_ifs <;> omega

theorem tab_nonneg (l : List Int) (h : ∀ x ∈ l, 0 ≤ x) (i : Int) : 0 ≤ tab l i := by
  unfold tab
  rw [List.getD_eq_getElem?_getD]
  cases hx : l[i.toNat]? with
  | none => simp
  | some v => exact h v (List.getElem?_mem hx)

theorem CLIP_TAB_nonneg (i j : Int) : 0 ≤ tab (row CLIP_TAB i) j := by
  apply tab_nonneg
  unfold row
  rw [List.getD_eq_getElem?_getD]
  cases hx : CLIP_TAB[i.toNat]? with
  | none => simp
  | some r =>
    have hr : r ∈ CLIP_TAB := List.getElem?_mem hx
    have hall : ∀ r ∈ CLIP_TAB, ∀ x ∈ r, (0 : Int) ≤ x := by decide
    exact hall r hr

theorem bitdepthScale_pos (img : ImageParameters) (yuv : Int) : 0 < bitdepthScale img yuv := by
  unfold bitdepthScale c_shl
  split <;> positivity

theorem edgeInc_pos (MbP MbQ Mb : Macroblock) (dir width : Int) (hw : 0 < width) :
    0 < edgeInc MbP MbQ Mb dir width := by
  unfold edgeInc
  split_ifs <;> omega

theorem filterPel_range (yuv Strng Alpha Beta : Int) (ClipTab : List Int)
    (bitdepth_scale maxv incP incQ SrcPtrP SrcPtrQ : Int) (Img : Plane)
    (hC : 0 ≤ tab ClipTab Strng * bitdepth_scale)
    (hincP : 0 < incP) (hincQ : 0 < incQ) (hPQ : SrcPtrP < SrcPtrQ)
    (hL0 : 0 ≤ Img SrcPtrP ∧ Img SrcPtrP ≤ maxv)
    (hL1 : 0 ≤ Img (SrcPtrP - incP) ∧ Img (SrcPtrP - incP) ≤ maxv)
    (hL2 : 0 ≤ Img (SrcPtrP - incP * 2) ∧ Img (SrcPtrP - incP * 2) ≤ maxv)
    (hL3 : 0 ≤ Img (SrcPtrP - incP * 3) ∧ Img (SrcPtrP - incP * 3) ≤ maxv)
    (hR0 : 0 ≤ Img SrcPtrQ ∧ Img SrcPtrQ ≤ maxv)
    (hR1 : 0 ≤ Img (SrcPtrQ + incQ) ∧ Img (SrcPtrQ + incQ) ≤ maxv)
    (hR2 : 0 ≤ Img (SrcPtrQ + incQ * 2) ∧ Img (SrcPtrQ + incQ * 2) ≤ maxv)
    (hR3 : 0 ≤ Img (SrcPtrQ + incQ * 3) ∧ Img (SrcPtrQ + incQ * 3) ≤ maxv) (a : Int) :
    filterPel yuv Strng Alpha Beta ClipTab bitdepth_scale maxv incP incQ SrcPtrP SrcPtrQ Img a
        = Img a ∨
    (0 ≤ filterPel yuv Strng Alpha Beta ClipTab bitdepth_scale maxv incP incQ SrcPtrP SrcPtrQ
          Img a ∧
      filterPel yuv Strng Alpha Beta ClipTab bitdepth_scale maxv incP incQ SrcPtrP SrcPtrQ Img a
        ≤ maxv) := by
  have hmax : 0 ≤ maxv := le_trans hL0.1 hL0.2
  unfold filterPel
  simp only []
  split_ifs
  · exact strongChroma_range maxv _ _ _ _ _ _ Img hL0 hL1 hR0 hR1 a
  · exact strongLuma_range maxv _ _ _ _ _ _ _ _ _ _ _ _ _ _ _ Img hL0 hL1 hL2 hL3 hR0 hR1 hR2 hR3 a
  · exact normalFilter_range yuv _ _ _ maxv _ _ _ _ _ _ incP incQ SrcPtrP SrcPtrQ Img hC hmax
      hincP hincQ hPQ hL0 hL2 hR0 hR2 hL1 hR1 rfl rfl a
  · exact Or.inl rfl

/-- C2: for a bit depth in 8..14 whose `max = (1 << bit_depth) - 1` is the clamp bound of the
plane (`max_imgpel_value` for luma, `max_imgpel_value_uv` for chroma), if the eight samples
`L3..L0`, `R0..R3` that one iteration of `EdgeLoop` reads lie in `[0, max]`, then every sample
of the plane is afterwards either what it was or a value in `[0, max]`: all stores, including
the unclamped `+=` updates of the normal luma filter, are in range.  (The P sample precedes the
Q sample in the plane and the rows have positive length, so the eight samples are distinct.) -/
theorem EdgeLoop_writes_in_range (env : Env) (img : ImageParameters) (p : StorablePicture)
    (Strength : Int → Nat)
    (MbQAddr AlphaC0Offset BetaOffset dir edge width yuv uv : Int) (Img : Plane) (pel : Int)
    (bit_depth : Nat) (hbd : 8 ≤ bit_depth ∧ bit_depth ≤ 14)
    (hmax : pelMax img yuv = c_shl 1 bit_depth - 1)
    (hw : 0 < width)
    (hPQ : pelSrcPtrP env img MbQAddr dir edge width yuv pel <
      pelSrcPtrQ env img MbQAddr dir edge width yuv pel)
    (hL : ∀ k : Int, 0 ≤ k → k ≤ 3 →
      0 ≤ Img (pelSrcPtrP env img MbQAddr dir edge width yuv pel -
          pelIncP env img MbQAddr dir edge width yuv pel * k) ∧
      Img (pelSrcPtrP env img MbQAddr dir edge width yuv pel -
          pelIncP env img MbQAddr dir edge width yuv pel * k) ≤ c_shl 1 bit_depth - 1)
    (hR : ∀ k : Int, 0 ≤ k → k ≤ 3 →
      0 ≤ Img (pelSrcPtrQ env img MbQAddr dir edge width yuv pel +
          pelIncQ env img MbQAddr dir edge width yuv pel * k) ∧
      Img (pelSrcPtrQ env img MbQAddr dir edge width yuv pel +
          pelIncQ env img MbQAddr dir edge width yuv pel * k) ≤ c_shl 1 bit_depth - 1)
    (a : Int) :
    EdgeLoopPel env img p Strength MbQAddr AlphaC0Offset BetaOffset dir edge width yuv uv Img pel a
        = Img a ∨
    (0 ≤ EdgeLoopPel env img p Strength MbQAddr AlphaC0Offset BetaOffset dir edge width yuv uv
          Img pel a ∧
      EdgeLoopPel env img p Strength MbQAddr AlphaC0Offset BetaOffset dir edge width yuv uv
          Img pel a ≤ c_shl 1 bit_depth - 1) := by
  have _ := hbd
  unfold EdgeLoopPel
  split_ifs
  · rw [hmax]
    have hL0 := hL 0 (by omega) (by omega)
    have hL1 := hL 1 (by omega) (by omega)
    have hL2 := hL 2 (by omega) (by omega)
    have hL3 := hL 3 (by omega) (by omega)
    have hR0 := hR 0 (by omega) (by omega)
    have hR1 := hR 1 (by omega) (by omega)
    have hR2 := hR 2 (by omega) (by omega)
    have hR3 := hR 3 (by omega) (by omega)
    simp only [mul_zero, sub_zero, add_zero, mul_one] at hL0 hL1 hR0 hR1
    exact filterPel_range _ _ _ _ _ _ _ _ _ _ _ Img
      (mul_nonneg (CLIP_TAB_nonneg _ _) (le_of_lt (bitdepthScale_pos img yuv)))
      (edgeInc_pos _ _ _ _ _ hw) (edgeInc_pos _ _ _ _ _ hw) hPQ hL0 hL1 hL2 hL3 hR0 hR1 hR2 hR3 a
  · exact Or.inl rfl

/-- Witness for C2: the left edge of the second macroblock of `exIntra`, 8-bit luma. -/
theorem EdgeLoop_writes_in_range_witness :
    (8 ≤ 8 ∧ 8 ≤ 14) ∧ pelMax exIntra.img 0 = c_shl 1 8 - 1 ∧ (0 : Int) < 32 ∧
    pelSrcPtrP (exEnv 2) exIntra.img 1 0 0 32 0 0 < pelSrcPtrQ (exEnv 2) exIntra.img 1 0 0 32 0 0 ∧
    (EdgeLoopPel (exEnv 2) exIntra.img exIntra.p (fun _ => 4) 1 0 0 0 0 32 0 0 exIntra.p.imgY 0 16
        = exIntra.p.imgY 16 ∨
      (0 ≤ EdgeLoopPel (exEnv 2) exIntra.img exIntra.p (fun _ => 4) 1 0 0 0 0 32 0 0
          exIntra.p.imgY 0 16 ∧
       EdgeLoopPel (exEnv 2) exIntra.img exIntra.p (fun _ => 4) 1 0 0 0 0 32 0 0
          exIntra.p.imgY 0 16 ≤ c_shl 1 8 - 1)) :=
  ⟨by decide, by decide, by decide, by decide,
    EdgeLoop_writes_in_range (exEnv 2) exIntra.img exIntra.p (fun _ => 4) 1 0 0 0 0 32 0 0
      exIntra.p.imgY 0 8 (by decide) (by decide) (by decide) (by decide)
      (by
        intro k h0 h3
        have hk : k = 0 ∨ k = 1 ∨ k = 2 ∨ k = 3 := by omega
        rcases hk with rfl | rfl | rfl | rfl <;> decide)
      (by
        intro k h0 h3
        have hk : k = 0 ∨ k = 1 ∨ k = 2 ∨ k = 3 := by omega
        rcases hk with rfl | rfl | rfl | rfl <;> decide) 16⟩

/-! ## Edges whose strengths are all zero -/

theorem tab_row_cases (T : List (List Int)) (P : Int → Prop) (h0 : P 0)
    (h : ∀ r ∈ T, ∀ x ∈ r, P x) (i j : Int) : P (tab (row T i) j) := by
  unfold tab row
  rw [List.getD_eq_getElem?_getD, List.getD_eq_getElem?_getD]
  cases hr : T[i.toNat]? with
  | none => simpa using h0
  | some r =>
    simp only [Option.getD_some]
    cases hx : r[j.toNat]? with
    | none => simpa using h0
    | some v => exact h r (List.getElem?_mem hr) v (List.getElem?_mem hx)

theorem PelNum_cases (p : StorablePicture) (dir yuv : Int) :
    PelNum p dir yuv = 0 ∨ PelNum p dir yuv = 8 ∨ PelNum p dir yuv = 16 := by
  unfold PelNum
  split
  · exact tab_row_cases pelnum_cr (fun x => x = 0 ∨ x = 8 ∨ x = 16) (by decide) (by decide) _ _
  · omega

theorem StrengthIdx_range (MbP MbQ : Macroblock) (yuv pelNum pel : Int)
    (hn : pelNum ≤ 16) (h0 : 0 ≤ pel) (h1 : pel < pelNum) :
    0 ≤ StrengthIdx MbP MbQ yuv pelNum pel ∧ StrengthIdx MbP MbQ yuv pelNum pel < 16 := by
  unfold StrengthIdx
  simp only [c_shl_one, c_shl_two, c_shr_one]
  split_ifs <;> omega

theorem filterGate_zero (Alpha Beta L1 L0 R0 R1 : Int) :
    filterGate 0 Alpha Beta L1 L0 R0 R1 = false := by
  simp [filterGate]

theorem filterPel_zero (yuv Alpha Beta : Int) (ClipTab : List Int)
    (bitdepth_scale maxv incP incQ SrcPtrP SrcPtrQ : Int) (Img : Plane) :
    filterPel yuv 0 Alpha Beta ClipTab bitdepth_scale maxv incP incQ SrcPtrP SrcPtrQ Img = Img := by
  simp [filterPel, filterGate_zero]

theorem foldl_fixed {α β : Type} (f : α → β → α) (l : List β) (a : α)
    (h : ∀ b ∈ l, f a b = a) : l.foldl f a = a := by
  induction l with
  | nil => rfl
  | cons b l ih =>
    rw [List.foldl_cons, h b (List.mem_cons_self b l)]
    exact ih (fun c hc => h c (List.mem_cons_of_mem b hc))

theorem EdgeLoop_zero (env : Env) (img : ImageParameters) (p : StorablePicture)
    (Strength : Int → Nat) (MbQAddr AlphaC0Offset BetaOffset dir edge width yuv uv : Int)
    (Img : Plane) (h : ∀ i : Nat, i < 16 → Strength (i : Int) = 0) :
    EdgeLoop env img p Strength MbQAddr AlphaC0Offset BetaOffset dir edge width yuv uv Img
      = Img := by
  unfold EdgeLoop
  apply foldl_fixed
  intro pel hpel
  have hlt : pel < (PelNum p dir yuv).toNat := List.mem_range.mp hpel
  have hn : PelNum p dir yuv ≤ 16 := by
    rcases PelNum_cases p dir yuv with h | h | h <;> omega
  have hidx := StrengthIdx_range (pelMbP env img MbQAddr dir edge yuv pel) (img.mb_data MbQAddr)
    yuv (PelNum p dir yuv) pel hn (by omega) (by omega)
  have hz : pelStrng env img p Strength MbQAddr dir edge yuv pel = 0 := by
    unfold pelStrng
    generalize StrengthIdx (pelMbP env img MbQAddr dir edge yuv pel) (img.mb_data MbQAddr)
      yuv (PelNum p dir yuv) pel = k at hidx
    have hk := h k.toNat (by omega)
    rw [Int.toNat_of_nonneg hidx.1] at hk
    rw [hk]; rfl
  unfold EdgeLoopPel
  rw [hz, filterPel_zero]
  simp

theorem StrengthSum_eq_zero (Strength : Int → Nat)
    (h : ∀ i : Nat, i < 16 → Strength (i : Int) = 0) : StrengthSum Strength = 0 := by
  unfold StrengthSum
  apply List.sum_eq_zero
  intro x hx
  obtain ⟨i, hi, rfl⟩ := List.mem_map.mp hx
  rw [h i (List.mem_range.mp hi)]; rfl

/-- C3: if all 16 entries of the strength vector that `GetStrength` computes for an edge are 0,
the edge body of `DeblockMb` calls no filter and leaves the picture (luma and chroma planes) as
it was; and `EdgeLoop` called with a strength vector whose 16 entries are 0 returns the plane
unchanged, for luma and chroma alike. -/
theorem zero_strength_edge_unchanged (env : Env) (s : State) (MbQAddr mvlimit : Int)
    (filterNon8x8LumaEdgesFlag : List Int) (dir edge : Int)
    (Strength : Int → Nat) (AlphaC0Offset BetaOffset width yuv uv : Int) (Img : Plane) :
    ((∀ i : Nat, i < 16 → GetStrength env s.img s.p MbQAddr dir edge mvlimit (i : Int) = 0) →
      (deblockEdge env MbQAddr mvlimit filterNon8x8LumaEdgesFlag dir edge s).p = s.p) ∧
    ((∀ i : Nat, i < 16 → Strength (i : Int) = 0) →
      EdgeLoop env s.img s.p Strength MbQAddr AlphaC0Offset BetaOffset dir edge width yuv uv Img
        = Img) := by
  constructor
  · intro h
    unfold deblockEdge
    simp [StrengthSum_eq_zero _ h]
  · intro h
    exact EdgeLoop_zero env s.img s.p Strength MbQAddr AlphaC0Offset BetaOffset dir edge width
      yuv uv Img h

/-- Witness for C3: the shared edge of the two inter macroblocks of `exInter` with zero motion
has 16 zero strengths. -/
theorem zero_strength_edge_unchanged_witness :
    (∀ i : Nat, i < 16 →
      GetStrength (exEnv 2) (exInter (fun _ _ _ _ => 0)).img (exInter (fun _ _ _ _ => 0)).p
        1 0 0 4 (i : Int) = 0) ∧
    (deblockEdge (exEnv 2) 1 4 [1, 1, 1, 1] 0 0 (exInter (fun _ _ _ _ => 0))).p
      = (exInter (fun _ _ _ _ => 0)).p ∧
    EdgeLoop (exEnv 2) (exInter (fun _ _ _ _ => 0)).img (exInter (fun _ _ _ _ => 0)).p
      (fun _ => 0) 1 0 0 0 0 32 0 0 (fun a => a % 7 + 100) = (fun a => a % 7 + 100) :=
  have h := zero_strength_edge_unchanged (exEnv 2) (exInter (fun _ _ _ _ => 0)) 1 4 [1, 1, 1, 1]
    0 0 (fun _ => 0) 0 0 32 0 0 (fun a => a % 7 + 100)
  ⟨by decide, h.1 (by decide), h.2 (fun _ _ => rfl)⟩

/-! ## Boundary strengths -/

theorem c_or_b2i (a b : Bool) : c_or (b2i a) (b2i b) = b2i (a || b) := by
  cases a <;> cases b <;> rfl

theorem b2i_cases (b : Bool) : b2i b = 0 ∨ b2i b = 1 := by
  cases b <;> simp [b2i]

theorem b2i_ne_zero (b : Bool) : b2i b ≠ 0 ↔ b = true := by
  cases b <;> simp [b2i]

theorem toByte_small (v : Int) (h0 : 0 ≤ v) (h1 : v < 256) : (toByte v : Int) = v := by
  unfold toByte
  omega

theorem StrengthStart_cases (env : Env) (p : StorablePicture) (MbP MbQ : Macroblock)
    (dir edge : Int) :
    (StrengthStart env p MbP MbQ dir edge = 4 ∧ edge = 0) ∨
      StrengthStart env p MbP MbQ dir edge = 3 := by
  unfold StrengthStart
  split
  · left; exact ⟨rfl, by tauto⟩
  · right; rfl

theorem StrengthMotion_cases (p : StorablePicture) (mvlimit blk_x blk_y blk_x2 blk_y2 : Int) :
    StrengthMotion p mvlimit blk_x blk_y blk_x2 blk_y2 = 0 ∨
      StrengthMotion p mvlimit blk_x blk_y blk_x2 blk_y2 = 1 := by
  unfold StrengthMotion
  simp only [mvGe, c_or_b2i]
  split_ifs <;> first | exact b2i_cases _ | exact Or.inr rfl

theorem GetStrengthIdx_cases (env : Env) (img : ImageParameters) (p : StorablePicture)
    (MbQAddr dir edge mvlimit idx : Int) :
    (0 ≤ (GetStrengthIdx env img p MbQAddr dir edge mvlimit idx).1 ∧
      (GetStrengthIdx env img p MbQAddr dir edge mvlimit idx).1 ≤ 3) ∨
    ((GetStrengthIdx env img p MbQAddr dir edge mvlimit idx).1 = 4 ∧ edge = 0) := by
  unfold GetStrengthIdx
  simp only []
  have hs := StrengthStart_cases env p
    (img.mb_data (strengthPixP env img MbQAddr dir edge idx).mb_addr) (img.mb_data MbQAddr)
    dir edge
  have hm := StrengthMotion_cases p mvlimit
    (c_shl (env.get_mb_block_pos img MbQAddr).1 2 +
      c_and (blkOf (edgeXQ dir edge idx) (edgeYQ dir edge idx)) 3)
    (c_shl (env.get_mb_block_pos img MbQAddr).2 2 +
      c_shr (blkOf (edgeXQ dir edge idx) (edgeYQ dir edge idx)) 2)
    (c_shr (strengthPixP env img MbQAddr dir edge idx).pos_x 2)
    (c_shr (strengthPixP env img MbQAddr dir edge idx).pos_y 2)
  split_ifs <;> omega

/-- C4: when the slice is SP or SI, or the P-side or the Q-side macroblock is intra (`I4MB`,
`I16MB`, `I8MB` or `IPCM`), `GetStrength` sets `Strength[idx]` to the base strength: 4 iff
`edge == 0` and (the picture is a non-MBAFF frame picture, or it is MBAFF and P and Q are both
frame macroblocks, or it is MBAFF or a field picture and `dir == 0`), and 3 otherwise; so the
entry is never 2 or below.  This holds for every `idx`, in particular for 0..15. -/
theorem GetStrength_intra_base (env : Env) (img : ImageParameters) (p : StorablePicture)
    (MbQAddr dir edge mvlimit idx : Int)
    (h : (p.slice_type = env.SP_SLICE ∨ p.slice_type = env.SI_SLICE) ∨
      ((img.mb_data (strengthPixP env img MbQAddr dir edge idx).mb_addr).mb_type = env.I4MB ∨
       (img.mb_data (strengthPixP env img MbQAddr dir edge idx).mb_addr).mb_type = env.I16MB ∨
       (img.mb_data (strengthPixP env img MbQAddr dir edge idx).mb_addr).mb_type = env.I8MB ∨
       (img.mb_data (strengthPixP env img MbQAddr dir edge idx).mb_addr).mb_type = env.IPCM) ∨
      ((img.mb_data MbQAddr).mb_type = env.I4MB ∨ (img.mb_data MbQAddr).mb_type = env.I16MB ∨
       (img.mb_data MbQAddr).mb_type = env.I8MB ∨ (img.mb_data MbQAddr).mb_type = env.IPCM)) :
    GetStrength env img p MbQAddr dir edge mvlimit idx =
      (if edge = 0 ∧
          ((p.MbaffFrameFlag = 0 ∧ p.pic_structure = env.FRAME) ∨
           (p.MbaffFrameFlag ≠ 0 ∧
             (img.mb_data (strengthPixP env img MbQAddr dir edge idx).mb_addr).mb_field = 0 ∧
             (img.mb_data MbQAddr).mb_field = 0) ∨
           ((p.MbaffFrameFlag ≠ 0 ∨ p.pic_structure ≠ env.FRAME) ∧ dir = 0))
       then 4 else 3) ∧
    3 ≤ GetStrength env img p MbQAddr dir edge mvlimit idx := by
  have hval : (GetStrengthIdx env img p MbQAddr dir edge mvlimit idx).1 =
      StrengthStart env p (img.mb_data (strengthPixP env img MbQAddr dir edge idx).mb_addr)
        (img.mb_data MbQAddr) dir edge := by
    unfold GetStrengthIdx
    simp only []
    rcases h with h | h
    · rw [if_pos h]
    · by_cases h1 : p.slice_type = env.SP_SLICE ∨ p.slice_type = env.SI_SLICE
      · rw [if_pos h1]
      · rw [if_neg h1]
        have hn : (!isIntraMb env (img.mb_data (strengthPixP env img MbQAddr dir edge idx).mb_addr)
            && !isIntraMb env (img.mb_data MbQAddr)) = false := by
          simp only [isIntraMb, Bool.and_eq_false_imp, Bool.not_eq_true', Bool.or_eq_false_iff,
            beq_eq_false_iff_ne, ne_eq, Bool.not_eq_false', Bool.or_eq_true, beq_iff_eq, and_imp]
          tauto
        rw [hn]
        simp
  unfold GetStrength
  rw [hval]
  unfold StrengthStart
  simp only [or_assoc]
  split_ifs <;> simp [toByte]

/-- Witness for C4: the left edge of the second macroblock of `exIntra` (`I16MB` on both
sides). -/
theorem GetStrength_intra_base_witness :
    (exIntra.img.mb_data 1).mb_type = (exEnv 2).I16MB ∧
    GetStrength (exEnv 2) exIntra.img exIntra.p 1 0 0 4 5 = 4 :=
  ⟨rfl, (GetStrength_intra_base (exEnv 2) exIntra.img exIntra.p 1 0 0 4 5
      (Or.inr (Or.inr (Or.inr (Or.inl rfl))))).1.trans (by decide)⟩

/-- C5: for every input, each entry that `GetStrength` writes is one of 0, 1, 2, 3, 4, and an
entry equals 4 only if `edge == 0`. -/
theorem GetStrength_range (env : Env) (img : ImageParameters) (p : StorablePicture)
    (MbQAddr dir edge mvlimit idx : Int) :
    GetStrength env img p MbQAddr dir edge mvlimit idx ≤ 4 ∧
    (GetStrength env img p MbQAddr dir edge mvlimit idx = 4 → edge = 0) := by
  have h := GetStrengthIdx_cases env img p MbQAddr dir edge mvlimit idx
  unfold GetStrength toByte
  omega

/-- Witness for C5: on the left macroblock edge of the intra picture `exIntra` the strength
is 4 and `edge` is 0. -/
theorem GetStrength_range_witness :
    GetStrength (exEnv 2) exIntra.img exIntra.p 1 0 0 4 5 = 4 ∧ (0 : Int) = 0 :=
  ⟨by decide, (GetStrength_range (exEnv 2) exIntra.img exIntra.p 1 0 0 4 5).2 (by decide)⟩

theorem isIntraMb_false (env : Env) (mb : Macroblock)
    (h : mb.mb_type ≠ env.I4MB ∧ mb.mb_type ≠ env.I16MB ∧ mb.mb_type ≠ env.I8MB ∧
      mb.mb_type ≠ env.IPCM) : isIntraMb env mb = false := by
  simp [isIntraMb, h.1, h.2.1, h.2.2.1, h.2.2.2]

/-- The value `GetStrength` assigns for an index on a non-SP/SI slice between two non-intra
macroblocks. -/
theorem GetStrengthIdx_inter (env : Env) (img : ImageParameters) (p : StorablePicture)
    (MbQAddr dir edge mvlimit idx : Int)
    (hslice : p.slice_type ≠ env.SP_SLICE ∧ p.slice_type ≠ env.SI_SLICE)
    (hP : isIntraMb env (img.mb_data (strengthPixP env img MbQAddr dir edge idx).mb_addr) = false)
    (hQ : isIntraMb env (img.mb_data MbQAddr) = false) :
    (GetStrengthIdx env img p MbQAddr dir edge mvlimit idx).1 =
      if cbpBit (img.mb_data MbQAddr).cbp_blk (blkOf (edgeXQ dir edge idx) (edgeYQ dir edge idx))
          || cbpBit (img.mb_data (strengthPixP env img MbQAddr dir edge idx).mb_addr).cbp_blk
            (blkOf (strengthPixP env img MbQAddr dir edge idx).x
              (strengthPixP env img MbQAddr dir edge idx).y) then 2
      else if (img.mb_data MbQAddr).mb_field ≠
          (img.mb_data (strengthPixP env img MbQAddr dir edge idx).mb_addr).mb_field then 1
      else StrengthMotion p mvlimit (strengthBlkQ env img MbQAddr dir edge idx).1
        (strengthBlkQ env img MbQAddr dir edge idx).2 (strengthBlkP env img MbQAddr dir edge idx).1
        (strengthBlkP env img MbQAddr dir edge idx).2 := by
  unfold GetStrengthIdx
  simp only []
  rw [if_neg (by tauto), hP, hQ]
  simp only [Bool.not_false, Bool.and_self, if_true, strengthBlkQ, strengthBlkP]
  split
  · rfl
  · by_cases hf : (img.mb_data MbQAddr).mb_field =
        (img.mb_data (strengthPixP env img MbQAddr dir edge idx).mb_addr).mb_field
    · simp [hf, b2i]
    · simp [hf, b2i]

/-- C6: in a slice that is neither SP nor SI, between two macroblocks neither of which is
intra, `GetStrength` sets `Strength[idx] = 2` if the `cbp_blk` bit of the Q-side block `blkQ`
or of the P-side block `blkP` is set, whatever the reference pictures and motion vectors are;
otherwise it sets `Strength[idx] = 1` if the two macroblocks differ in `mb_field`. -/
theorem GetStrength_residual_mixed (env : Env) (img : ImageParameters) (p : StorablePicture)
    (MbQAddr dir edge mvlimit idx : Int)
    (hslice : p.slice_type ≠ env.SP_SLICE ∧ p.slice_type ≠ env.SI_SLICE)
    (hP : (img.mb_data (strengthPixP env img MbQAddr dir edge idx).mb_addr).mb_type ≠ env.I4MB ∧
       (img.mb_data (strengthPixP env img MbQAddr dir edge idx).mb_addr).mb_type ≠ env.I16MB ∧
       (img.mb_data (strengthPixP env img MbQAddr dir edge idx).mb_addr).mb_type ≠ env.I8MB ∧
       (img.mb_data (strengthPixP env img MbQAddr dir edge idx).mb_addr).mb_type ≠ env.IPCM)
    (hQ : (img.mb_data MbQAddr).mb_type ≠ env.I4MB ∧ (img.mb_data MbQAddr).mb_type ≠ env.I16MB ∧
       (img.mb_data MbQAddr).mb_type ≠ env.I8MB ∧ (img.mb_data MbQAddr).mb_type ≠ env.IPCM) :
    ((c_and (img.mb_data MbQAddr).cbp_blk
          (c_shl 1 (blkOf (edgeXQ dir edge idx) (edgeYQ dir edge idx)).toNat) ≠ 0 ∨
      c_and (img.mb_data (strengthPixP env img MbQAddr dir edge idx).mb_addr).cbp_blk
          (c_shl 1 (blkOf (strengthPixP env img MbQAddr dir edge idx).x
            (strengthPixP env img MbQAddr dir edge idx).y).toNat) ≠ 0) →
      GetStrength env img p MbQAddr dir edge mvlimit idx = 2) ∧
    (¬ (c_and (img.mb_data MbQAddr).cbp_blk
          (c_shl 1 (blkOf (edgeXQ dir edge idx) (edgeYQ dir edge idx)).toNat) ≠ 0 ∨
      c_and (img.mb_data (strengthPixP env img MbQAddr dir edge idx).mb_addr).cbp_blk
          (c_shl 1 (blkOf (strengthPixP env img MbQAddr dir edge idx).x
            (strengthPixP env img MbQAddr dir edge idx).y).toNat) ≠ 0) →
      (img.mb_data MbQAddr).mb_field ≠
        (img.mb_data (strengthPixP env img MbQAddr dir edge idx).mb_addr).mb_field →
      GetStrength env img p MbQAddr dir edge mvlimit idx = 1) := by
  have h := GetStrengthIdx_inter env img p MbQAddr dir edge mvlimit idx hslice
    (isIntraMb_false env _ hP) (isIntraMb_false env _ hQ)
  unfold GetStrength
  rw [h]
  simp only [cbpBit, bne_iff_ne, ne_eq, Bool.or_eq_true, decide_eq_true_eq]
  constructor
  · intro hc
    rw [if_pos (by simpa using hc)]
    rfl
  · intro hc hf
    rw [if_neg (by simpa using hc), if_pos hf]
    rfl

/-- Witness for C6: in the P picture `exResidual`, residual on both sides gives 2; no residual
across a frame/field pair gives 1. -/
theorem GetStrength_residual_mixed_witness :
    ((exResidual 65535 0).p.slice_type ≠ (exEnv 2).SP_SLICE ∧
      (exResidual 65535 0).p.slice_type ≠ (exEnv 2).SI_SLICE) ∧
    c_and ((exResidual 65535 0).img.mb_data 1).cbp_blk
      (c_shl 1 (blkOf (edgeXQ 0 0 5) (edgeYQ 0 0 5)).toNat) ≠ 0 ∧
    GetStrength (exEnv 2) (exResidual 65535 0).img (exResidual 65535 0).p 1 0 0 4 5 = 2 ∧
    ((exResidual 0 1).img.mb_data 1).mb_field ≠
      ((exResidual 0 1).img.mb_data
        (strengthPixP (exEnv 2) (exResidual 0 1).img 1 0 0 5).mb_addr).mb_field ∧
    GetStrength (exEnv 2) (exResidual 0 1).img (exResidual 0 1).p 1 0 0 4 5 = 1 :=
  ⟨by decide, by decide,
   (GetStrength_residual_mixed (exEnv 2) (exResidual 65535 0).img (exResidual 65535 0).p 1 0 0 4 5
      (by decide) (by decide) (by decide)).1 (by decide),
   by decide,
   (GetStrength_residual_mixed (exEnv 2) (exResidual 0 1).img (exResidual 0 1).p 1 0 0 4 5
      (by decide) (by decide) (by decide)).2 (by decide) (by decide)⟩

/-! ## The motion comparison of `GetStrength` -/

theorem c_abs_eq_abs (x : Int) : c_abs x = |x| := by
  unfold c_abs
  split
  · rw [abs_of_neg (by assumption)]
  · rw [abs_of_nonneg (by omega)]

theorem c_or_assoc_b2i (a b c d : Bool) :
    c_or (c_or (c_or (b2i a) (b2i b)) (b2i c)) (b2i d) = b2i ((a || b) || (c || d)) := by
  cases a <;> cases b <;> cases c <;> cases d <;> rfl

theorem int32_id (x : Int) (h0 : -2147483648 ≤ x) (h1 : x < 2147483648) : int32 x = x := by
  unfold int32
  omega

/-- At a difference of −2^31 the 32-bit `abs` stays negative and the test
`abs(a - b) >= 4` fails. -/
theorem mvGe_wrap : mvGe (-1) 2147483647 4 = 0 := by
  decide

/-- On components in `[-2^30, 2^30)` the test `abs(a - b) >= lim` is |a − b| ≥ lim. -/
theorem mvGe_eq (a b lim : Int) (ha : -1073741824 ≤ a ∧ a < 1073741824)
    (hb : -1073741824 ≤ b ∧ b < 1073741824) :
    mvGe a b lim = b2i (decide (|a - b| ≥ lim)) := by
  unfold mvGe
  rw [int32_id (a - b) (by omega) (by omega),
    int32_id (c_abs (a - b)) (by unfold c_abs; split_ifs <;> omega)
      (by unfold c_abs; split_ifs <;> omega), c_abs_eq_abs]

theorem mvFits_at (p : StorablePicture) (blk_x blk_y : Int) (h : mvFits p blk_x blk_y)
    (l c : Int) (hl : l = LIST_0 ∨ l = LIST_1) (hc : c = 0 ∨ c = 1) :
    -1073741824 ≤ p.mv l blk_x blk_y c ∧ p.mv l blk_x blk_y c < 1073741824 :=
  h l (by rcases hl with e | e <;> simp [e]) c (by rcases hc with e | e <;> simp [e])

/-- The motion branch of `GetStrength` in terms of `refOrNone` and `mvDiffer`, for motion
vectors whose differences fit in an `int`. -/
theorem StrengthMotion_eq (p : StorablePicture) (mvlimit blk_x blk_y blk_x2 blk_y2 : Int)
    (hfit : mvFits p blk_x blk_y) (hfit2 : mvFits p blk_x2 blk_y2) :
    StrengthMotion p mvlimit blk_x blk_y blk_x2 blk_y2 =
      if (refOrNone p LIST_0 blk_x blk_y = refOrNone p LIST_0 blk_x2 blk_y2 ∧
            refOrNone p LIST_1 blk_x blk_y = refOrNone p LIST_1 blk_x2 blk_y2) ∨
          (refOrNone p LIST_0 blk_x blk_y = refOrNone p LIST_1 blk_x2 blk_y2 ∧
            refOrNone p LIST_1 blk_x blk_y = refOrNone p LIST_0 blk_x2 blk_y2) then
        if refOrNone p LIST_0 blk_x blk_y ≠ refOrNone p LIST_1 blk_x blk_y then
          if refOrNone p LIST_0 blk_x blk_y = refOrNone p LIST_0 blk_x2 blk_y2 then
            b2i (mvDiffer p mvlimit LIST_0 blk_x blk_y LIST_0 blk_x2 blk_y2 ||
              mvDiffer p mvlimit LIST_1 blk_x blk_y LIST_1 blk_x2 blk_y2)
          else
            b2i (mvDiffer p mvlimit LIST_0 blk_x blk_y LIST_1 blk_x2 blk_y2 ||
              mvDiffer p mvlimit LIST_1 blk_x blk_y LIST_0 blk_x2 blk_y2)
        else
          b2i ((mvDiffer p mvlimit LIST_0 blk_x blk_y LIST_0 blk_x2 blk_y2 ||
              mvDiffer p mvlimit LIST_1 blk_x blk_y LIST_1 blk_x2 blk_y2) &&
            (mvDiffer p mvlimit LIST_0 blk_x blk_y LIST_1 blk_x2 blk_y2 ||
              mvDiffer p mvlimit LIST_1 blk_x blk_y LIST_0 blk_x2 blk_y2))
      else 1 := by
  have e : ∀ la lb c lim : Int, (la = LIST_0 ∨ la = LIST_1) → (lb = LIST_0 ∨ lb = LIST_1) →
      (c = 0 ∨ c = 1) →
      mvGe (p.mv la blk_x blk_y c) (p.mv lb blk_x2 blk_y2 c) lim =
        b2i (decide (|p.mv la blk_x blk_y c - p.mv lb blk_x2 blk_y2 c| ≥ lim)) :=
    fun la lb c lim hla hlb hc =>
      mvGe_eq _ _ lim (mvFits_at p blk_x blk_y hfit la c hla hc)
        (mvFits_at p blk_x2 blk_y2 hfit2 lb c hlb hc)
  unfold StrengthMotion
  simp only [e LIST_0 LIST_0 0 4 (Or.inl rfl) (Or.inl rfl) (Or.inl rfl),
    e LIST_0 LIST_0 1 mvlimit (Or.inl rfl) (Or.inl rfl) (Or.inr rfl),
    e LIST_1 LIST_1 0 4 (Or.inr rfl) (Or.inr rfl) (Or.inl rfl),
    e LIST_1 LIST_1 1 mvlimit (Or.inr rfl) (Or.inr rfl) (Or.inr rfl),
    e LIST_0 LIST_1 0 4 (Or.inl rfl) (Or.inr rfl) (Or.inl rfl),
    e LIST_0 LIST_1 1 mvlimit (Or.inl rfl) (Or.inr rfl) (Or.inr rfl),
    e LIST_1 LIST_0 0 4 (Or.inr rfl) (Or.inl rfl) (Or.inl rfl),
    e LIST_1 LIST_0 1 mvlimit (Or.inr rfl) (Or.inl rfl) (Or.inr rfl),
    c_or_assoc_b2i, refOrNone, mvDiffer, b2i_ne_zero, Bool.decide_and, Bool.decide_eq_true]

theorem mvDiffer_swap (p : StorablePicture) (mvlimit la blk_x blk_y lb blk_x2 blk_y2 : Int) :
    mvDiffer p mvlimit la blk_x blk_y lb blk_x2 blk_y2 =
      mvDiffer p mvlimit lb blk_x2 blk_y2 la blk_x blk_y := by
  unfold mvDiffer
  rw [abs_sub_comm (p.mv la blk_x blk_y 0), abs_sub_comm (p.mv la blk_x blk_y 1)]

theorem StrengthMotion_swap (p : StorablePicture) (mvlimit blk_x blk_y blk_x2 blk_y2 : Int)
    (hfit : mvFits p blk_x blk_y) (hfit2 : mvFits p blk_x2 blk_y2) :
    StrengthMotion p mvlimit blk_x blk_y blk_x2 blk_y2 =
      StrengthMotion p mvlimit blk_x2 blk_y2 blk_x blk_y := by
  rw [StrengthMotion_eq p mvlimit blk_x blk_y blk_x2 blk_y2 hfit hfit2,
    StrengthMotion_eq p mvlimit blk_x2 blk_y2 blk_x blk_y hfit2 hfit]
  rw [mvDiffer_swap p mvlimit LIST_0 blk_x2 blk_y2 LIST_0,
    mvDiffer_swap p mvlimit LIST_1 blk_x2 blk_y2 LIST_1,
    mvDiffer_swap p mvlimit LIST_0 blk_x2 blk_y2 LIST_1,
    mvDiffer_swap p mvlimit LIST_1 blk_x2 blk_y2 LIST_0]
  generalize refOrNone p LIST_0 blk_x blk_y = a0
  generalize refOrNone p LIST_1 blk_x blk_y = a1
  generalize refOrNone p LIST_0 blk_x2 blk_y2 = b0
  generalize refOrNone p LIST_1 blk_x2 blk_y2 = b1
  generalize mvDiffer p mvlimit LIST_0 blk_x blk_y LIST_0 blk_x2 blk_y2 = m00
  generalize mvDiffer p mvlimit LIST_1 blk_x blk_y LIST_1 blk_x2 blk_y2 = m11
  generalize mvDiffer p mvlimit LIST_0 blk_x blk_y LIST_1 blk_x2 blk_y2 = m01
  generalize mvDiffer p mvlimit LIST_1 blk_x blk_y LIST_0 blk_x2 blk_y2 = m10
  split_ifs <;> first
    | rfl
    | (exfalso; omega)
    | (cases m00 <;> cases m11 <;> cases m01 <;> cases m10 <;> rfl)

/-- The motion branch of `GetStrength` in the words of the spec, for the blocks
`(blk_x, blk_y)` and `(blk_x2, blk_y2)`. -/
theorem StrengthMotion_spec (p : StorablePicture) (mvlimit blk_x blk_y blk_x2 blk_y2 : Int)
    (hfit : mvFits p blk_x blk_y) (hfit2 : mvFits p blk_x2 blk_y2) (a0 a1 b0 b1 : Int)
    (ha0 : a0 = refOrNone p LIST_0 blk_x blk_y) (ha1 : a1 = refOrNone p LIST_1 blk_x blk_y)
    (hb0 : b0 = refOrNone p LIST_0 blk_x2 blk_y2) (hb1 : b1 = refOrNone p LIST_1 blk_x2 blk_y2) :
    (Sym2.mk (a0, a1) ≠ Sym2.mk (b0, b1) →
      StrengthMotion p mvlimit blk_x blk_y blk_x2 blk_y2 = 1) ∧
    (Sym2.mk (a0, a1) = Sym2.mk (b0, b1) → (a0 ≠ a1 ∨ b0 ≠ b1) →
      StrengthMotion p mvlimit blk_x blk_y blk_x2 blk_y2 =
        if (a0 = b0 ∧ mvDiffer p mvlimit LIST_0 blk_x blk_y LIST_0 blk_x2 blk_y2 = true) ∨
           (a1 = b1 ∧ mvDiffer p mvlimit LIST_1 blk_x blk_y LIST_1 blk_x2 blk_y2 = true) ∨
           (a0 = b1 ∧ mvDiffer p mvlimit LIST_0 blk_x blk_y LIST_1 blk_x2 blk_y2 = true) ∨
           (a1 = b0 ∧ mvDiffer p mvlimit LIST_1 blk_x blk_y LIST_0 blk_x2 blk_y2 = true)
        then 1 else 0) ∧
    (Sym2.mk (a0, a1) = Sym2.mk (b0, b1) → (a0 = a1 ∨ b0 = b1) →
      StrengthMotion p mvlimit blk_x blk_y blk_x2 blk_y2 =
        if (mvDiffer p mvlimit LIST_0 blk_x blk_y LIST_0 blk_x2 blk_y2 = true ∨
            mvDiffer p mvlimit LIST_1 blk_x blk_y LIST_1 blk_x2 blk_y2 = true) ∧
           (mvDiffer p mvlimit LIST_0 blk_x blk_y LIST_1 blk_x2 blk_y2 = true ∨
            mvDiffer p mvlimit LIST_1 blk_x blk_y LIST_0 blk_x2 blk_y2 = true)
        then 1 else 0) := by
  rw [StrengthMotion_eq p mvlimit blk_x blk_y blk_x2 blk_y2 hfit hfit2, ← ha0, ← ha1, ← hb0,
    ← hb1]
  simp only [Sym2.eq_iff, ne_eq]
  generalize mvDiffer p mvlimit LIST_0 blk_x blk_y LIST_0 blk_x2 blk_y2 = m00
  generalize mvDiffer p mvlimit LIST_1 blk_x blk_y LIST_1 blk_x2 blk_y2 = m11
  generalize mvDiffer p mvlimit LIST_0 blk_x blk_y LIST_1 blk_x2 blk_y2 = m01
  generalize mvDiffer p mvlimit LIST_1 blk_x blk_y LIST_0 blk_x2 blk_y2 = m10
  refine ⟨?_, ?_, ?_⟩
  · intro h
    rw [if_neg h]
  · intro h hne
    rw [if_pos h]
    have hne' : a0 ≠ a1 := by omega
    rw [if_pos hne']
    by_cases h00 : a0 = b0
    · have h11 : a1 = b1 := by omega
      have h01 : a0 ≠ b1 := by omega
      have h10 : a1 ≠ b0 := by omega
      rw [if_pos h00]
      subst h00 h11
      have hne2 : ¬ a1 = a0 := fun e => hne' e.symm
      cases m00 <;> cases m11 <;> simp [b2i, hne', hne2]
    · have h01 : a0 = b1 := by omega
      have h10 : a1 = b0 := by omega
      have h11 : a1 ≠ b1 := by omega
      rw [if_neg h00]
      subst h01 h10
      have hne2 : ¬ a1 = a0 := fun e => hne' e.symm
      cases m01 <;> cases m10 <;> simp [b2i, hne', hne2]
  · intro h heq
    rw [if_pos h]
    have heq' : a0 = a1 := by omega
    rw [if_neg (by simpa using heq')]
    cases m00 <;> cases m11 <;> cases m01 <;> cases m10 <;> simp [b2i]

theorem toByte_ite (c : Prop) [Decidable c] :
    toByte (if c then 1 else 0) = if c then 1 else 0 := by
  split <;> rfl

/-- C7: in the motion-comparison case of `GetStrength` (slice neither SP nor SI, both
macroblocks non-intra, no residual bit on either adjoining 4x4 block, equal `mb_field`), for
motion vectors of the two blocks with components in `[-2^30, 2^30)` (so that no difference
overflows `int`), with `refX_L` the `ref_pic_id` of the block for list `L` or −1 when its
`ref_idx` is negative:
`Strength[idx] = 1` if the unordered pairs `{refP_L0, refP_L1}` and `{refQ_L0, refQ_L1}`
differ; if they are equal and the two references of a side are distinct, `Strength[idx]` is 1
when for some pair of lists with equal reference the vectors differ by |dx| ≥ 4 or
|dy| ≥ mvlimit, and 0 otherwise; if they are equal and the two references of a side coincide,
`Strength[idx]` is 1 when the same-list group and the cross-list group both exceed a
threshold, and 0 otherwise.  The comparison is symmetric in the two blocks. -/
theorem GetStrength_motion_compare (env : Env) (img : ImageParameters) (p : StorablePicture)
    (MbQAddr dir edge mvlimit idx : Int)
    (hslice : p.slice_type ≠ env.SP_SLICE ∧ p.slice_type ≠ env.SI_SLICE)
    (hP : (img.mb_data (strengthPixP env img MbQAddr dir edge idx).mb_addr).mb_type ≠ env.I4MB ∧
       (img.mb_data (strengthPixP env img MbQAddr dir edge idx).mb_addr).mb_type ≠ env.I16MB ∧
       (img.mb_data (strengthPixP env img MbQAddr dir edge idx).mb_addr).mb_type ≠ env.I8MB ∧
       (img.mb_data (strengthPixP env img MbQAddr dir edge idx).mb_addr).mb_type ≠ env.IPCM)
    (hQ : (img.mb_data MbQAddr).mb_type ≠ env.I4MB ∧ (img.mb_data MbQAddr).mb_type ≠ env.I16MB ∧
       (img.mb_data MbQAddr).mb_type ≠ env.I8MB ∧ (img.mb_data MbQAddr).mb_type ≠ env.IPCM)
    (hcbp : c_and (img.mb_data MbQAddr).cbp_blk
          (c_shl 1 (blkOf (edgeXQ dir edge idx) (edgeYQ dir edge idx)).toNat) = 0 ∧
      c_and (img.mb_data (strengthPixP env img MbQAddr dir edge idx).mb_addr).cbp_blk
          (c_shl 1 (blkOf (strengthPixP env img MbQAddr dir edge idx).x
            (strengthPixP env img MbQAddr dir edge idx).y).toNat) = 0)
    (hfield : (img.mb_data MbQAddr).mb_field =
      (img.mb_data (strengthPixP env img MbQAddr dir edge idx).mb_addr).mb_field)
    (bQ bP : Int × Int) (hbQ : bQ = strengthBlkQ env img MbQAddr dir edge idx)
    (hbP : bP = strengthBlkP env img MbQAddr dir edge idx)
    (hfitQ : mvFits p bQ.1 bQ.2) (hfitP : mvFits p bP.1 bP.2)
    (refQ0 refQ1 refP0 refP1 : Int)
    (hQ0 : refQ0 = refOrNone p LIST_0 bQ.1 bQ.2) (hQ1 : refQ1 = refOrNone p LIST_1 bQ.1 bQ.2)
    (hP0 : refP0 = refOrNone p LIST_0 bP.1 bP.2) (hP1 : refP1 = refOrNone p LIST_1 bP.1 bP.2) :
    (Sym2.mk (refP0, refP1) ≠ Sym2.mk (refQ0, refQ1) →
      GetStrength env img p MbQAddr dir edge mvlimit idx = 1) ∧
    (Sym2.mk (refP0, refP1) = Sym2.mk (refQ0, refQ1) → (refP0 ≠ refP1 ∨ refQ0 ≠ refQ1) →
      GetStrength env img p MbQAddr dir edge mvlimit idx =
        if (refQ0 = refP0 ∧ mvDiffer p mvlimit LIST_0 bQ.1 bQ.2 LIST_0 bP.1 bP.2 = true) ∨
           (refQ1 = refP1 ∧ mvDiffer p mvlimit LIST_1 bQ.1 bQ.2 LIST_1 bP.1 bP.2 = true) ∨
           (refQ0 = refP1 ∧ mvDiffer p mvlimit LIST_0 bQ.1 bQ.2 LIST_1 bP.1 bP.2 = true) ∨
           (refQ1 = refP0 ∧ mvDiffer p mvlimit LIST_1 bQ.1 bQ.2 LIST_0 bP.1 bP.2 = true)
        then 1 else 0) ∧
    (Sym2.mk (refP0, refP1) = Sym2.mk (refQ0, refQ1) → (refP0 = refP1 ∨ refQ0 = refQ1) →
      GetStrength env img p MbQAddr dir edge mvlimit idx =
        if (mvDiffer p mvlimit LIST_0 bQ.1 bQ.2 LIST_0 bP.1 bP.2 = true ∨
            mvDiffer p mvlimit LIST_1 bQ.1 bQ.2 LIST_1 bP.1 bP.2 = true) ∧
           (mvDiffer p mvlimit LIST_0 bQ.1 bQ.2 LIST_1 bP.1 bP.2 = true ∨
            mvDiffer p mvlimit LIST_1 bQ.1 bQ.2 LIST_0 bP.1 bP.2 = true)
        then 1 else 0) ∧
    ((GetStrength env img p MbQAddr dir edge mvlimit idx : Int) =
        StrengthMotion p mvlimit bQ.1 bQ.2 bP.1 bP.2 ∧
      StrengthMotion p mvlimit bQ.1 bQ.2 bP.1 bP.2 =
        StrengthMotion p mvlimit bP.1 bP.2 bQ.1 bQ.2) := by
  have h := GetStrengthIdx_inter env img p MbQAddr dir edge mvlimit idx hslice
    (isIntraMb_false env _ hP) (isIntraMb_false env _ hQ)
  have hc : (cbpBit (img.mb_data MbQAddr).cbp_blk
        (blkOf (edgeXQ dir edge idx) (edgeYQ dir edge idx)) ||
      cbpBit (img.mb_data (strengthPixP env img MbQAddr dir edge idx).mb_addr).cbp_blk
        (blkOf (strengthPixP env img MbQAddr dir edge idx).x
          (strengthPixP env img MbQAddr dir edge idx).y)) = false := by
    simp [cbpBit, hcbp.1, hcbp.2]
  rw [hc, if_neg (by simp), if_neg (by simpa using hfield), ← hbQ, ← hbP] at h
  have hS : GetStrength env img p MbQAddr dir edge mvlimit idx =
      toByte (StrengthMotion p mvlimit bQ.1 bQ.2 bP.1 bP.2) := by
    unfold GetStrength
    rw [h]
  obtain ⟨s1, s2, s3⟩ := StrengthMotion_spec p mvlimit bQ.1 bQ.2 bP.1 bP.2 hfitQ hfitP
    refQ0 refQ1 refP0 refP1 hQ0 hQ1 hP0 hP1
  refine ⟨?_, ?_, ?_, ?_, StrengthMotion_swap p mvlimit bQ.1 bQ.2 bP.1 bP.2 hfitQ hfitP⟩
  · intro hne
    rw [hS, s1 (fun e => hne e.symm)]
    rfl
  · intro he hd
    rw [hS, s2 he.symm (by tauto), toByte_ite]
  · intro he hd
    rw [hS, s3 he.symm (by tauto), toByte_ite]
  · rw [hS]
    rcases StrengthMotion_cases p mvlimit bQ.1 bQ.2 bP.1 bP.2 with h0 | h1
    · rw [h0]; rfl
    · rw [h1]; rfl

/-- Witness for C7: across the shared edge of `exInter`, where only the Q-side block of row 1
moved by `(4, 0)`, index 5 gets strength 1. -/
theorem GetStrength_motion_compare_witness :
    ((exInter (exMv 1)).p.slice_type ≠ (exEnv 2).SP_SLICE ∧
      (exInter (exMv 1)).p.slice_type ≠ (exEnv 2).SI_SLICE) ∧
    ((exInter (exMv 1)).img.mb_data 1).mb_field =
      ((exInter (exMv 1)).img.mb_data
        (strengthPixP (exEnv 2) (exInter (exMv 1)).img 1 0 0 5).mb_addr).mb_field ∧
    (mvFits (exInter (exMv 1)).p 4 1 ∧ mvFits (exInter (exMv 1)).p 3 1) ∧
    Sym2.mk ((7 : Int), (-1 : Int)) = Sym2.mk ((7 : Int), (-1 : Int)) ∧
    GetStrength (exEnv 2) (exInter (exMv 1)).img (exInter (exMv 1)).p 1 0 0 4 5 = 1 :=
  ⟨by decide, by decide, ⟨by unfold mvFits; decide, by unfold mvFits; decide⟩, rfl,
    ((GetStrength_motion_compare (exEnv 2) (exInter (exMv 1)).img (exInter (exMv 1)).p 1 0 0 4 5
      (by decide) (by decide) (by decide) (by decide) (by decide)
      (4, 1) (3, 1) (by decide) (by decide) (by unfold mvFits; decide)
      (by unfold mvFits; decide) 7 (-1) 7 (-1)
      (by decide) (by decide) (by decide) (by decide)).2.1 rfl (by decide)).trans (by decide)⟩

/-! ## One shared reference picture -/

/-- The strength in the situation `sameRefCase`, for motion vectors whose differences fit in an
`int`: with a shared `ref_pic_id` other than −1 only the list-0 vectors count; with the shared
`ref_pic_id` equal to −1 the code sees "the same picture on both lists" and also requires a
cross-list difference. -/
theorem GetStrength_sameRef (env : Env) (img : ImageParameters) (p : StorablePicture)
    (MbQAddr dir edge mvlimit idx : Int)
    (h : sameRefCase env img p MbQAddr dir edge idx)
    (hfitQ : mvFits p (strengthBlkQ env img MbQAddr dir edge idx).1
      (strengthBlkQ env img MbQAddr dir edge idx).2)
    (hfitP : mvFits p (strengthBlkP env img MbQAddr dir edge idx).1
      (strengthBlkP env img MbQAddr dir edge idx).2) :
    GetStrength env img p MbQAddr dir edge mvlimit idx =
      if p.ref_pic_id LIST_0 (strengthBlkQ env img MbQAddr dir edge idx).1
          (strengthBlkQ env img MbQAddr dir edge idx).2 ≠ -1 then
        (if mvDiffer p mvlimit LIST_0 (strengthBlkQ env img MbQAddr dir edge idx).1
            (strengthBlkQ env img MbQAddr dir edge idx).2 LIST_0
            (strengthBlkP env img MbQAddr dir edge idx).1
            (strengthBlkP env img MbQAddr dir edge idx).2 = true then 1 else 0)
      else
        (if mvDiffer p mvlimit LIST_0 (strengthBlkQ env img MbQAddr dir edge idx).1
              (strengthBlkQ env img MbQAddr dir edge idx).2 LIST_0
              (strengthBlkP env img MbQAddr dir edge idx).1
              (strengthBlkP env img MbQAddr dir edge idx).2 = true ∧
            (mvDiffer p mvlimit LIST_0 (strengthBlkQ env img MbQAddr dir edge idx).1
                (strengthBlkQ env img MbQAddr dir edge idx).2 LIST_1
                (strengthBlkP env img MbQAddr dir edge idx).1
                (strengthBlkP env img MbQAddr dir edge idx).2 = true ∨
              mvDiffer p mvlimit LIST_1 (strengthBlkQ env img MbQAddr dir edge idx).1
                (strengthBlkQ env img MbQAddr dir edge idx).2 LIST_0
                (strengthBlkP env img MbQAddr dir edge idx).1
                (strengthBlkP env img MbQAddr dir edge idx).2 = true) then 1 else 0) := by
  obtain ⟨hs, hP, hQ, hf, hcQ, hcP, hiQ, hiP, hpid, hjQ, hjP, hmv0, hmv1⟩ := h
  have hI := GetStrengthIdx_inter env img p MbQAddr dir edge mvlimit idx hs hP hQ
  rw [hcQ, hcP, if_neg (by simp), if_neg (by simpa using hf),
    StrengthMotion_eq p mvlimit _ _ _ _ hfitQ hfitP] at hI
  unfold GetStrength
  rw [hI]
  generalize strengthBlkQ env img MbQAddr dir edge idx = bQ at *
  generalize strengthBlkP env img MbQAddr dir edge idx = bP at *
  have e0 : refOrNone p LIST_0 bQ.1 bQ.2 = p.ref_pic_id LIST_0 bQ.1 bQ.2 := by
    unfold refOrNone; rw [if_neg (by omega)]
  have e1 : refOrNone p LIST_1 bQ.1 bQ.2 = -1 := by
    unfold refOrNone; rw [if_pos hjQ]
  have f0 : refOrNone p LIST_0 bP.1 bP.2 = p.ref_pic_id LIST_0 bQ.1 bQ.2 := by
    unfold refOrNone; rw [if_neg (by omega), hpid]
  have f1 : refOrNone p LIST_1 bP.1 bP.2 = -1 := by
    unfold refOrNone; rw [if_pos hjP]
  rw [e0, e1, f0, f1, if_pos (Or.inl ⟨rfl, rfl⟩)]
  have h11 : mvDiffer p mvlimit LIST_1 bQ.1 bQ.2 LIST_1 bP.1 bP.2 = true →
      mvDiffer p mvlimit LIST_0 bQ.1 bQ.2 LIST_0 bP.1 bP.2 = true := by
    unfold mvDiffer
    rw [hmv0, hmv1]
    simp only [sub_self, abs_zero, ge_iff_le, Bool.or_eq_true, decide_eq_true_eq]
    intro h
    rcases h with h | h
    · omega
    · right
      exact le_trans h (abs_nonneg _)
  by_cases hid : p.ref_pic_id LIST_0 bQ.1 bQ.2 = -1
  · rw [if_neg (by simpa using hid), if_neg (by simpa using hid)]
    cases hm : mvDiffer p mvlimit LIST_0 bQ.1 bQ.2 LIST_0 bP.1 bP.2
    · cases hm1 : mvDiffer p mvlimit LIST_1 bQ.1 bQ.2 LIST_1 bP.1 bP.2
      · simp [b2i, toByte]
      · rw [h11 hm1] at hm
        exact absurd hm (by simp)
    · cases mvDiffer p mvlimit LIST_0 bQ.1 bQ.2 LIST_1 bP.1 bP.2 <;>
        cases mvDiffer p mvlimit LIST_1 bQ.1 bQ.2 LIST_0 bP.1 bP.2 <;>
        simp [b2i, toByte]
  · rw [if_pos hid, if_pos rfl, if_pos hid]
    cases hm : mvDiffer p mvlimit LIST_0 bQ.1 bQ.2 LIST_0 bP.1 bP.2
    · cases hm1 : mvDiffer p mvlimit LIST_1 bQ.1 bQ.2 LIST_1 bP.1 bP.2
      · rfl
      · rw [h11 hm1] at hm
        exact absurd hm (by simp)
    · simp [b2i, toByte]

/-- C8, on the inputs on which the code agrees with it: for two inter-coded macroblocks with
equal `mb_field` in a non-SP/SI slice, no residual on the blocks adjoining the shared edge,
list 0 used on both sides with the same `ref_pic_id` and list 1 unused on both sides with equal
vectors, and motion vectors with components in `[-2^30, 2^30)`: at every index whose shared
`ref_pic_id` differs from −1 (the value the code substitutes for an unused list),
`Strength[idx]` is 1 if the adjoining blocks' list-0 vectors differ by |dx| ≥ 4 or
|dy| ≥ mvlimit and 0 otherwise.  For a positive `mvlimit` all 16 strengths are 0 and the edge
changes no sample when every list-0 delta is (0,0); and with `mvlimit = 4` an index whose
blocks have delta (4,0) and a `ref_pic_id` other than −1 gets 1, while an index whose blocks
have delta (0,0) gets 0. -/
theorem GetStrength_shared_reference (env : Env) (s : State) (MbQAddr dir edge mvlimit : Int)
    (filterNon8x8LumaEdgesFlag : List Int)
    (hcase : ∀ i : Nat, i < 16 → sameRefCase env s.img s.p MbQAddr dir edge (i : Int))
    (hfit : ∀ i : Nat, i < 16 →
      mvFits s.p (strengthBlkQ env s.img MbQAddr dir edge (i : Int)).1
        (strengthBlkQ env s.img MbQAddr dir edge (i : Int)).2 ∧
      mvFits s.p (strengthBlkP env s.img MbQAddr dir edge (i : Int)).1
        (strengthBlkP env s.img MbQAddr dir edge (i : Int)).2) :
    (∀ i : Nat, i < 16 →
      s.p.ref_pic_id LIST_0 (strengthBlkQ env s.img MbQAddr dir edge (i : Int)).1
        (strengthBlkQ env s.img MbQAddr dir edge (i : Int)).2 ≠ -1 →
      GetStrength env s.img s.p MbQAddr dir edge mvlimit (i : Int) =
        if mvDiffer s.p mvlimit LIST_0 (strengthBlkQ env s.img MbQAddr dir edge (i : Int)).1
            (strengthBlkQ env s.img MbQAddr dir edge (i : Int)).2 LIST_0
            (strengthBlkP env s.img MbQAddr dir edge (i : Int)).1
            (strengthBlkP env s.img MbQAddr dir edge (i : Int)).2 = true then 1 else 0) ∧
    ((∀ i : Nat, i < 16 → ∀ c : Int,
        s.p.mv LIST_0 (strengthBlkQ env s.img MbQAddr dir edge (i : Int)).1
            (strengthBlkQ env s.img MbQAddr dir edge (i : Int)).2 c =
          s.p.mv LIST_0 (strengthBlkP env s.img MbQAddr dir edge (i : Int)).1
            (strengthBlkP env s.img MbQAddr dir edge (i : Int)).2 c) →
      0 < mvlimit →
      (∀ i : Nat, i < 16 → GetStrength env s.img s.p MbQAddr dir edge mvlimit (i : Int) = 0) ∧
      (deblockEdge env MbQAddr mvlimit filterNon8x8LumaEdgesFlag dir edge s).p = s.p) ∧
    (mvlimit = 4 → ∀ i : Nat, i < 16 →
      (s.p.ref_pic_id LIST_0 (strengthBlkQ env s.img MbQAddr dir edge (i : Int)).1
          (strengthBlkQ env s.img MbQAddr dir edge (i : Int)).2 ≠ -1 →
        (s.p.mv LIST_0 (strengthBlkQ env s.img MbQAddr dir edge (i : Int)).1
            (strengthBlkQ env s.img MbQAddr dir edge (i : Int)).2 0 -
          s.p.mv LIST_0 (strengthBlkP env s.img MbQAddr dir edge (i : Int)).1
            (strengthBlkP env s.img MbQAddr dir edge (i : Int)).2 0 = 4 ∧
        s.p.mv LIST_0 (strengthBlkQ env s.img MbQAddr dir edge (i : Int)).1
            (strengthBlkQ env s.img MbQAddr dir edge (i : Int)).2 1 -
          s.p.mv LIST_0 (strengthBlkP env s.img MbQAddr dir edge (i : Int)).1
            (strengthBlkP env s.img MbQAddr dir edge (i : Int)).2 1 = 0) →
        GetStrength env s.img s.p MbQAddr dir edge mvlimit (i : Int) = 1) ∧
      ((s.p.mv LIST_0 (strengthBlkQ env s.img MbQAddr dir edge (i : Int)).1
            (strengthBlkQ env s.img MbQAddr dir edge (i : Int)).2 0 -
          s.p.mv LIST_0 (strengthBlkP env s.img MbQAddr dir edge (i : Int)).1
            (strengthBlkP env s.img MbQAddr dir edge (i : Int)).2 0 = 0 ∧
        s.p.mv LIST_0 (strengthBlkQ env s.img MbQAddr dir edge (i : Int)).1
            (strengthBlkQ env s.img MbQAddr dir edge (i : Int)).2 1 -
          s.p.mv LIST_0 (strengthBlkP env s.img MbQAddr dir edge (i : Int)).1
            (strengthBlkP env s.img MbQAddr dir edge (i : Int)).2 1 = 0) →
        GetStrength env s.img s.p MbQAddr dir edge mvlimit (i : Int) = 0)) := by
  have hall := fun (i : Nat) (hi : i < 16) =>
    GetStrength_sameRef env s.img s.p MbQAddr dir edge mvlimit (i : Int) (hcase i hi)
      (hfit i hi).1 (hfit i hi).2
  have hnone : ∀ i : Nat, i < 16 → 0 < mvlimit →
      s.p.mv LIST_0 (strengthBlkQ env s.img MbQAddr dir edge (i : Int)).1
          (strengthBlkQ env s.img MbQAddr dir edge (i : Int)).2 0 -
        s.p.mv LIST_0 (strengthBlkP env s.img MbQAddr dir edge (i : Int)).1
          (strengthBlkP env s.img MbQAddr dir edge (i : Int)).2 0 = 0 →
      s.p.mv LIST_0 (strengthBlkQ env s.img MbQAddr dir edge (i : Int)).1
          (strengthBlkQ env s.img MbQAddr dir edge (i : Int)).2 1 -
        s.p.mv LIST_0 (strengthBlkP env s.img MbQAddr dir edge (i : Int)).1
          (strengthBlkP env s.img MbQAddr dir edge (i : Int)).2 1 = 0 →
      GetStrength env s.img s.p MbQAddr dir edge mvlimit (i : Int) = 0 := by
    intro i hi hlim h0 h1
    have hm : mvDiffer s.p mvlimit LIST_0 (strengthBlkQ env s.img MbQAddr dir edge (i : Int)).1
        (strengthBlkQ env s.img MbQAddr dir edge (i : Int)).2 LIST_0
        (strengthBlkP env s.img MbQAddr dir edge (i : Int)).1
        (strengthBlkP env s.img MbQAddr dir edge (i : Int)).2 = false := by
      unfold mvDiffer
      rw [h0, h1]
      simp only [abs_zero, ge_iff_le, Bool.or_eq_false_iff, decide_eq_false_iff_not, not_le]
      omega
    rw [hall i hi, hm]
    simp
  refine ⟨?_, ?_, ?_⟩
  · intro i hi hid
    rw [hall i hi, if_pos hid]
  · intro hz hlim
    have hzero : ∀ i : Nat, i < 16 →
        GetStrength env s.img s.p MbQAddr dir edge mvlimit (i : Int) = 0 := by
      intro i hi
      exact hnone i hi hlim (by rw [hz i hi 0]; omega) (by rw [hz i hi 1]; omega)
    refine ⟨hzero, ?_⟩
    unfold deblockEdge
    simp [StrengthSum_eq_zero _ hzero]
  · intro hlim i hi
    constructor
    · intro hid hd
      rw [hall i hi, if_pos hid, if_pos]
      unfold mvDiffer
      rw [hd.1]
      simp
    · intro hd
      exact hnone i hi (by omega) hd.1 hd.2

/-- The input on which `GetStrength` departs from C8: both sides use list 0 only, with the same
reference picture, whose `ref_pic_id` is −1, the value that `GetStrength` also gives to an
unused list.  The code then takes the branch for "L0 and L1 reference pictures of p0 are the
same" although list 1 is unused: the list-0 vectors `(2,0)` and `(-2,0)` of the blocks at
index 5 differ by |dx| = 4, yet `GetStrength` gives 0 there. -/
theorem GetStrength_sentinel_collision :
    (∀ i : Nat, i < 16 →
      sameRefCase (exEnv 2) (exInterId (-1) exMvSplit).img (exInterId (-1) exMvSplit).p 1 0 0
        (i : Int)) ∧
    (mvFits (exInterId (-1) exMvSplit).p 4 5 ∧ mvFits (exInterId (-1) exMvSplit).p 3 5) ∧
    mvDiffer (exInterId (-1) exMvSplit).p 4 LIST_0
      (strengthBlkQ (exEnv 2) (exInterId (-1) exMvSplit).img 1 0 0 5).1
      (strengthBlkQ (exEnv 2) (exInterId (-1) exMvSplit).img 1 0 0 5).2 LIST_0
      (strengthBlkP (exEnv 2) (exInterId (-1) exMvSplit).img 1 0 0 5).1
      (strengthBlkP (exEnv 2) (exInterId (-1) exMvSplit).img 1 0 0 5).2 = true ∧
    GetStrength (exEnv 2) (exInterId (-1) exMvSplit).img (exInterId (-1) exMvSplit).p 1 0 0 4 5
      = 0 := by
  refine ⟨?_, ⟨by unfold mvFits; decide, by unfold mvFits; decide⟩, by decide, by decide⟩
  unfold sameRefCase
  decide

/-- Witness for C8: in `exInter (exMv 1)` (reference picture 7 on both sides, the Q-side block
of row 1 moved by `(4,0)`), index 5 gets strength 1 and index 9 gets 0. -/
theorem GetStrength_shared_reference_witness :
    (∀ i : Nat, i < 16 →
      sameRefCase (exEnv 2) (exInter (exMv 1)).img (exInter (exMv 1)).p 1 0 0 (i : Int)) ∧
    (exInter (exMv 1)).p.ref_pic_id LIST_0
      (strengthBlkQ (exEnv 2) (exInter (exMv 1)).img 1 0 0 5).1
      (strengthBlkQ (exEnv 2) (exInter (exMv 1)).img 1 0 0 5).2 ≠ -1 ∧
    GetStrength (exEnv 2) (exInter (exMv 1)).img (exInter (exMv 1)).p 1 0 0 4 5 = 1 ∧
    GetStrength (exEnv 2) (exInter (exMv 1)).img (exInter (exMv 1)).p 1 0 0 4 9 = 0 :=
  have hc : ∀ i : Nat, i < 16 →
      sameRefCase (exEnv 2) (exInter (exMv 1)).img (exInter (exMv 1)).p 1 0 0 (i : Int) := by
    unfold sameRefCase
    decide
  have hf : ∀ i : Nat, i < 16 →
      mvFits (exInter (exMv 1)).p
        (strengthBlkQ (exEnv 2) (exInter (exMv 1)).img 1 0 0 (i : Int)).1
        (strengthBlkQ (exEnv 2) (exInter (exMv 1)).img 1 0 0 (i : Int)).2 ∧
      mvFits (exInter (exMv 1)).p
        (strengthBlkP (exEnv 2) (exInter (exMv 1)).img 1 0 0 (i : Int)).1
        (strengthBlkP (exEnv 2) (exInter (exMv 1)).img 1 0 0 (i : Int)).2 := by
    unfold mvFits
    decide
  have h := GetStrength_shared_reference (exEnv 2) (exInter (exMv 1)) 1 0 0 4 [1, 1, 1, 1] hc hf
  ⟨hc, by decide, (h.2.2 rfl 5 (by decide)).1 (by decide) (by decide),
    (h.2.2 rfl 9 (by decide)).2 (by decide)⟩

/-! ## The filter condition -/

theorem c_and_neg_iff (a b : Int) : c_and a b < 0 ↔ a < 0 ∧ b < 0 := by
  unfold c_and
  cases a with
  | ofNat m =>
    cases b with
    | ofNat n =>
      simp only [Int.land, Int.ofNat_eq_coe]
      omega
    | negSucc n =>
      simp only [Int.land, Int.ofNat_eq_coe]
      have := Int.negSucc_lt_zero n
      omega
  | negSucc m =>
    cases b with
    | ofNat n =>
      simp only [Int.land, Int.ofNat_eq_coe]
      have := Int.negSucc_lt_zero m
      omega
    | negSucc n =>
      simp only [Int.land]
      exact ⟨fun _ => ⟨Int.negSucc_lt_zero m, Int.negSucc_lt_zero n⟩,
        fun _ => Int.negSucc_lt_zero _⟩

theorem nat_ge_iff_testBit31 (n : Nat) (h : n < 2 ^ 32) : 2 ^ 31 ≤ n ↔ n.testBit 31 = true := by
  rw [Nat.testBit_to_div_mod]
  simp only [decide_eq_true_eq]
  norm_num at h ⊢
  omega

theorem int32_and_neg_iff (a b : Int) (ha0 : -2 ^ 31 ≤ a) (ha1 : a < 2 ^ 31)
    (hb0 : -2 ^ 31 ≤ b) (hb1 : b < 2 ^ 31) : int32_and a b < 0 ↔ a < 0 ∧ b < 0 := by
  have hx : (a % 2 ^ 32).toNat < 2 ^ 32 := by norm_num; omega
  have hy : (b % 2 ^ 32).toNat < 2 ^ 32 := by norm_num; omega
  have hxa : 2 ^ 31 ≤ (a % 2 ^ 32).toNat ↔ a < 0 := by norm_num at ha0 ha1 ⊢; omega
  have hyb : 2 ^ 31 ≤ (b % 2 ^ 32).toNat ↔ b < 0 := by norm_num at hb0 hb1 ⊢; omega
  have hr : (a % 2 ^ 32).toNat &&& (b % 2 ^ 32).toNat < 2 ^ 32 := Nat.and_lt_two_pow _ hy
  have hbit := nat_ge_iff_testBit31 _ hr
  rw [Nat.testBit_and, Bool.and_eq_true, ← nat_ge_iff_testBit31 _ hx,
    ← nat_ge_iff_testBit31 _ hy, hxa, hyb] at hbit
  unfold int32_and
  generalize (a % 2 ^ 32).toNat &&& (b % 2 ^ 32).toNat = r at *
  norm_num at hr hbit ⊢
  split_ifs <;> omega

theorem filterGate_eq_spec (Strng Alpha Beta L1 L0 R0 R1 : Int) (h : 0 ≤ Strng) :
    filterGate Strng Alpha Beta L1 L0 R0 R1 = filterGateSpec Strng Alpha Beta L1 L0 R0 R1 := by
  unfold filterGate filterGateSpec
  rw [Bool.eq_iff_iff]
  simp only [Bool.and_eq_true, decide_eq_true_eq, c_and_neg_iff, c_abs_eq_abs]
  constructor
  · rintro ⟨h1, h2, h3, h4⟩
    exact ⟨⟨⟨by omega, h2⟩, by omega⟩, by omega⟩
  · rintro ⟨⟨⟨h1, h2⟩, h3⟩, h4⟩
    exact ⟨by omega, h2, by omega, by omega⟩

theorem filterPel_gate_false (yuv Strng Alpha Beta : Int) (ClipTab : List Int)
    (bitdepth_scale maxv incP incQ SrcPtrP SrcPtrQ : Int) (Img : Plane)
    (h : filterGate Strng Alpha Beta (Img (SrcPtrP - incP)) (Img SrcPtrP) (Img SrcPtrQ)
      (Img (SrcPtrQ + incQ)) = false) :
    filterPel yuv Strng Alpha Beta ClipTab bitdepth_scale maxv incP incQ SrcPtrP SrcPtrQ Img
      = Img := by
  unfold filterPel
  simp only [h]
  rfl

/-- C9: one iteration of `EdgeLoop` changes the plane only if `Strng > 0` and
`|R0 − L0| < Alpha` and `|R0 − R1| < Beta` and `|L0 − L1| < Beta` (the condition of the spec,
`filterGateSpec`), for the `Strng`, `Alpha`, `Beta` and samples of that iteration.  The
condition the code tests, `filterGate`, equals it for every non-negative `Strng` (a `byte`);
in particular the sign-bit test `((abs(R0-R1) - Beta) & (abs(L0-L1) - Beta)) < 0` holds
exactly when both differences are negative, for the two's-complement `&` on integers of any
width and for the operator spelled out on 32 bits. -/
theorem EdgeLoop_filter_condition (env : Env) (img : ImageParameters) (p : StorablePicture)
    (Strength : Int → Nat)
    (MbQAddr AlphaC0Offset BetaOffset dir edge width yuv uv : Int) (Img : Plane) (pel : Int) :
    (EdgeLoopPel env img p Strength MbQAddr AlphaC0Offset BetaOffset dir edge width yuv uv Img pel
        ≠ Img →
      filterGateSpec (pelStrng env img p Strength MbQAddr dir edge yuv pel)
        (tab ALPHA_TABLE (pelIndex env img p MbQAddr AlphaC0Offset dir edge yuv uv pel) *
          bitdepthScale img yuv)
        (tab BETA_TABLE (pelIndex env img p MbQAddr BetaOffset dir edge yuv uv pel) *
          bitdepthScale img yuv)
        (Img (pelSrcPtrP env img MbQAddr dir edge width yuv pel -
          pelIncP env img MbQAddr dir edge width yuv pel))
        (Img (pelSrcPtrP env img MbQAddr dir edge width yuv pel))
        (Img (pelSrcPtrQ env img MbQAddr dir edge width yuv pel))
        (Img (pelSrcPtrQ env img MbQAddr dir edge width yuv pel +
          pelIncQ env img MbQAddr dir edge width yuv pel)) = true) ∧
    (∀ Strng Alpha Beta L1 L0 R0 R1 : Int, 0 ≤ Strng →
      filterGate Strng Alpha Beta L1 L0 R0 R1 = filterGateSpec Strng Alpha Beta L1 L0 R0 R1) ∧
    (∀ Beta L1 L0 R0 R1 : Int,
      c_and (c_abs (R0 - R1) - Beta) (c_abs (L0 - L1) - Beta) < 0 ↔
        (|R0 - R1| < Beta ∧ |L0 - L1| < Beta)) ∧
    (∀ a b : Int, -2 ^ 31 ≤ a → a < 2 ^ 31 → -2 ^ 31 ≤ b → b < 2 ^ 31 →
      (int32_and a b < 0 ↔ a < 0 ∧ b < 0)) := by
  refine ⟨?_, filterGate_eq_spec, ?_, int32_and_neg_iff⟩
  · intro hne
    rw [← filterGate_eq_spec _ _ _ _ _ _ _ (by unfold pelStrng; omega)]
    by_contra hg
    apply hne
    unfold EdgeLoopPel
    split
    · exact filterPel_gate_false _ _ _ _ _ _ _ _ _ _ _ Img (by simpa using hg)
    · rfl
  · intro Beta L1 L0 R0 R1
    rw [c_and_neg_iff, c_abs_eq_abs, c_abs_eq_abs]
    constructor <;> rintro ⟨h1, h2⟩ <;> exact ⟨by omega, by omega⟩

/-- Witness for C9: at the left edge of the second macroblock of `exIntra` the iteration
`pel = 0` changes the sample at offset 15, and the condition of the spec holds there. -/
theorem EdgeLoop_filter_condition_witness :
    EdgeLoopPel (exEnv 2) exIntra.img exIntra.p (fun _ => 4) 1 0 0 0 0 32 0 0 exIntra.p.imgY 0 15
      ≠ exIntra.p.imgY 15 ∧
    filterGateSpec (pelStrng (exEnv 2) exIntra.img exIntra.p (fun _ => 4) 1 0 0 0 0)
      (tab ALPHA_TABLE (pelIndex (exEnv 2) exIntra.img exIntra.p 1 0 0 0 0 0 0) *
        bitdepthScale exIntra.img 0)
      (tab BETA_TABLE (pelIndex (exEnv 2) exIntra.img exIntra.p 1 0 0 0 0 0 0) *
        bitdepthScale exIntra.img 0)
      (exIntra.p.imgY (pelSrcPtrP (exEnv 2) exIntra.img 1 0 0 32 0 0 -
        pelIncP (exEnv 2) exIntra.img 1 0 0 32 0 0))
      (exIntra.p.imgY (pelSrcPtrP (exEnv 2) exIntra.img 1 0 0 32 0 0))
      (exIntra.p.imgY (pelSrcPtrQ (exEnv 2) exIntra.img 1 0 0 32 0 0))
      (exIntra.p.imgY (pelSrcPtrQ (exEnv 2) exIntra.img 1 0 0 32 0 0 +
        pelIncQ (exEnv 2) exIntra.img 1 0 0 32 0 0)) = true :=
  ⟨by decide,
    (EdgeLoop_filter_condition (exEnv 2) exIntra.img exIntra.p (fun _ => 4) 1 0 0 0 0 32 0 0
      exIntra.p.imgY 0).1 (fun h => absurd (congrFun h 15) (by decide))⟩

/-! ## The strong filter -/

theorem c_and_b2i (a b : Bool) : c_and (b2i a) (b2i b) = b2i (a && b) := by
  cases a <;> cases b <;> rfl

theorem strongFlag_iff (Alpha Beta X0 X2 L0 R0 : Int) :
    c_and (sideFlag 0 Beta X0 X2) (b2i (decide (c_abs (R0 - L0) < c_shr Alpha 2 + 2))) ≠ 0 ↔
      (|X0 - X2| < Beta ∧ |R0 - L0| < c_shr Alpha 2 + 2) := by
  unfold sideFlag
  rw [if_pos rfl, c_and_b2i, b2i_ne_zero]
  simp only [Bool.and_eq_true, decide_eq_true_eq, c_abs_eq_abs]
  constructor <;> rintro ⟨h1, h2⟩ <;> exact ⟨by omega, h2⟩

theorem strongChroma_at (L1 L0 R0 R1 SrcPtrP SrcPtrQ : Int) (Img : Plane)
    (hPQ : SrcPtrP < SrcPtrQ) :
    strongChroma L1 L0 R0 R1 SrcPtrP SrcPtrQ Img SrcPtrQ = c_shr (2 * R1 + R0 + L1 + 2) 2 ∧
    strongChroma L1 L0 R0 R1 SrcPtrP SrcPtrQ Img SrcPtrP = c_shr (2 * L1 + L0 + R1 + 2) 2 ∧
    ∀ a, a ≠ SrcPtrP → a ≠ SrcPtrQ → strongChroma L1 L0 R0 R1 SrcPtrP SrcPtrQ Img a = Img a := by
  refine ⟨?_, ?_, ?_⟩
  · simp only [strongChroma, store, c_shl_one]
    rw [if_neg (by omega), if_pos trivial, mul_comm]
  · simp only [strongChroma, store, c_shl_one]
    rw [if_pos trivial, mul_comm]
  · intro a h1 h2
    simp only [strongChroma, store]
    rw [if_neg h1, if_neg h2]

theorem strongLuma_at (Alpha aq ap L3 L2 L1 L0 R0 R1 R2 R3 incP incQ SrcPtrP SrcPtrQ : Int)
    (Img : Plane) (hincP : 0 < incP) (hincQ : 0 < incQ) (hPQ : SrcPtrP < SrcPtrQ)
    (AQ AP : Prop) [Decidable AQ] [Decidable AP]
    (hq : c_and aq (b2i (decide (c_abs (R0 - L0) < c_shr Alpha 2 + 2))) ≠ 0 ↔ AQ)
    (hp : c_and ap (b2i (decide (c_abs (R0 - L0) < c_shr Alpha 2 + 2))) ≠ 0 ↔ AP) :
    strongLuma Alpha aq ap L3 L2 L1 L0 R0 R1 R2 R3 incP incQ SrcPtrP SrcPtrQ Img SrcPtrQ =
      (if AQ then c_shr (L1 + 2 * (R1 + L0 + R0) + R2 + 4) 3
       else c_shr (2 * R1 + R0 + L1 + 2) 2) ∧
    strongLuma Alpha aq ap L3 L2 L1 L0 R0 R1 R2 R3 incP incQ SrcPtrP SrcPtrQ Img
        (SrcPtrQ + incQ) =
      (if AQ then c_shr (R2 + R0 + R1 + L0 + 2) 2 else R1) ∧
    strongLuma Alpha aq ap L3 L2 L1 L0 R0 R1 R2 R3 incP incQ SrcPtrP SrcPtrQ Img
        (SrcPtrQ + incQ * 2) =
      (if AQ then c_shr (2 * (R3 + R2) + R2 + R1 + L0 + R0 + 4) 3 else R2) ∧
    strongLuma Alpha aq ap L3 L2 L1 L0 R0 R1 R2 R3 incP incQ SrcPtrP SrcPtrQ Img SrcPtrP =
      (if AP then c_shr (R1 + 2 * (L1 + R0 + L0) + L2 + 4) 3
       else c_shr (2 * L1 + L0 + R1 + 2) 2) ∧
    strongLuma Alpha aq ap L3 L2 L1 L0 R0 R1 R2 R3 incP incQ SrcPtrP SrcPtrQ Img
        (SrcPtrP - incP) =
      (if AP then c_shr (L2 + L0 + L1 + R0 + 2) 2 else L1) ∧
    strongLuma Alpha aq ap L3 L2 L1 L0 R0 R1 R2 R3 incP incQ SrcPtrP SrcPtrQ Img
        (SrcPtrP - incP * 2) =
      (if AP then c_shr (2 * (L3 + L2) + L2 + L1 + R0 + L0 + 4) 3 else L2) ∧
    ∀ a, a ≠ SrcPtrP → a ≠ SrcPtrP - incP → a ≠ SrcPtrP - incP * 2 →
      a ≠ SrcPtrQ → a ≠ SrcPtrQ + incQ → a ≠ SrcPtrQ + incQ * 2 →
      strongLuma Alpha aq ap L3 L2 L1 L0 R0 R1 R2 R3 incP incQ SrcPtrP SrcPtrQ Img a = Img a := by
  simp only [strongLuma, store, c_shl_one, hq, hp]
  refine ⟨?_, ?_, ?_, ?_, ?_, ?_, ?_⟩
  · rw [if_neg (by omega), if_neg (by omega), if_neg (by omega), if_neg (by omega),
      if_neg (by omega), if_pos trivial]
    split <;> (congr 1; ring)
  · rw [if_neg (by omega), if_neg (by omega), if_neg (by omega), if_pos trivial]
  · rw [if_neg (by omega), if_pos trivial]
    split <;> (first | rfl | (congr 1; ring))
  · rw [if_neg (by omega), if_neg (by omega), if_neg (by omega), if_neg (by omega), if_pos trivial]
    split <;> (congr 1; ring)
  · rw [if_neg (by omega), if_neg (by omega), if_pos trivial]
    split <;> (first | rfl | (congr 1; ring))
  · rw [if_pos trivial]
    split <;> (first | rfl | (congr 1; ring))
  · intro a h1 h2 h3 h4 h5 h6
    rw [if_neg h3, if_neg h6, if_neg h2, if_neg h5, if_neg h1, if_neg h4]

theorem filterGate_mirror (Strng Alpha Beta L1 L0 R0 R1 : Int) :
    filterGate Strng Alpha Beta R1 R0 L0 L1 = filterGate Strng Alpha Beta L1 L0 R0 R1 := by
  unfold filterGate
  rw [Bool.eq_iff_iff]
  simp only [Bool.and_eq_true, decide_eq_true_eq, c_and_neg_iff, c_abs_sub_comm L0 R0]
  tauto

/-- What `filterPel` leaves at the eight samples when the gate passes with `Strng == 4`. -/
theorem filterPel_strong (yuv Alpha Beta : Int) (ClipTab : List Int)
    (bitdepth_scale maxv incP incQ P Q : Int) (Img : Plane)
    (L0 L1 L2 L3 R0 R1 R2 R3 : Int)
    (hL0 : L0 = Img P) (hL1 : L1 = Img (P - incP)) (hL2 : L2 = Img (P - incP * 2))
    (hL3 : L3 = Img (P - incP * 3))
    (hR0 : R0 = Img Q) (hR1 : R1 = Img (Q + incQ)) (hR2 : R2 = Img (Q + incQ * 2))
    (hR3 : R3 = Img (Q + incQ * 3))
    (hgate : filterGate 4 Alpha Beta L1 L0 R0 R1 = true)
    (hincP : 0 < incP) (hincQ : 0 < incQ) (hPQ : P < Q) :
    (yuv ≠ 0 →
      filterPel yuv 4 Alpha Beta ClipTab bitdepth_scale maxv incP incQ P Q Img Q =
        c_shr (2 * R1 + R0 + L1 + 2) 2 ∧
      filterPel yuv 4 Alpha Beta ClipTab bitdepth_scale maxv incP incQ P Q Img P =
        c_shr (2 * L1 + L0 + R1 + 2) 2 ∧
      ∀ a, a ≠ P → a ≠ Q →
        filterPel yuv 4 Alpha Beta ClipTab bitdepth_scale maxv incP incQ P Q Img a = Img a) ∧
    (yuv = 0 →
      filterPel yuv 4 Alpha Beta ClipTab bitdepth_scale maxv incP incQ P Q Img Q =
        (if |R0 - R2| < Beta ∧ |R0 - L0| < c_shr Alpha 2 + 2 then
          c_shr (L1 + 2 * (R1 + L0 + R0) + R2 + 4) 3
         else c_shr (2 * R1 + R0 + L1 + 2) 2) ∧
      filterPel yuv 4 Alpha Beta ClipTab bitdepth_scale maxv incP incQ P Q Img (Q + incQ) =
        (if |R0 - R2| < Beta ∧ |R0 - L0| < c_shr Alpha 2 + 2 then
          c_shr (R2 + R0 + R1 + L0 + 2) 2 else R1) ∧
      filterPel yuv 4 Alpha Beta ClipTab bitdepth_scale maxv incP incQ P Q Img (Q + incQ * 2) =
        (if |R0 - R2| < Beta ∧ |R0 - L0| < c_shr Alpha 2 + 2 then
          c_shr (2 * (R3 + R2) + R2 + R1 + L0 + R0 + 4) 3 else R2) ∧
      filterPel yuv 4 Alpha Beta ClipTab bitdepth_scale maxv incP incQ P Q Img P =
        (if |L0 - L2| < Beta ∧ |R0 - L0| < c_shr Alpha 2 + 2 then
          c_shr (R1 + 2 * (L1 + R0 + L0) + L2 + 4) 3
         else c_shr (2 * L1 + L0 + R1 + 2) 2) ∧
      filterPel yuv 4 Alpha Beta ClipTab bitdepth_scale maxv incP incQ P Q Img (P - incP) =
        (if |L0 - L2| < Beta ∧ |R0 - L0| < c_shr Alpha 2 + 2 then
          c_shr (L2 + L0 + L1 + R0 + 2) 2 else L1) ∧
      filterPel yuv 4 Alpha Beta ClipTab bitdepth_scale maxv incP incQ P Q Img (P - incP * 2) =
        (if |L0 - L2| < Beta ∧ |R0 - L0| < c_shr Alpha 2 + 2 then
          c_shr (2 * (L3 + L2) + L2 + L1 + R0 + L0 + 4) 3 else L2) ∧
      ∀ a, a ≠ P → a ≠ P - incP → a ≠ P - incP * 2 → a ≠ Q → a ≠ Q + incQ → a ≠ Q + incQ * 2 →
        filterPel yuv 4 Alpha Beta ClipTab bitdepth_scale maxv incP incQ P Q Img a = Img a) := by
  subst hL0 hL1 hL2 hL3 hR0 hR1 hR2 hR3
  constructor
  · intro hy
    have e : filterPel yuv 4 Alpha Beta ClipTab bitdepth_scale maxv incP incQ P Q Img =
        strongChroma (Img (P - incP)) (Img P) (Img Q) (Img (Q + incQ)) P Q Img := by
      unfold filterPel
      simp only [hgate, if_true, hy, ne_eq, not_false_eq_true]
    rw [e]
    exact strongChroma_at _ _ _ _ P Q Img hPQ
  · intro hy
    have e : filterPel yuv 4 Alpha Beta ClipTab bitdepth_scale maxv incP incQ P Q Img =
        strongLuma Alpha (sideFlag 0 Beta (Img Q) (Img (Q + incQ * 2)))
          (sideFlag 0 Beta (Img P) (Img (P - incP * 2)))
          (Img (P - incP * 3)) (Img (P - incP * 2)) (Img (P - incP)) (Img P) (Img Q)
          (Img (Q + incQ)) (Img (Q + incQ * 2)) (Img (Q + incQ * 3)) incP incQ P Q Img := by
      unfold filterPel
      simp only [hgate, if_true, hy, ne_eq, not_true_eq_false, if_false]
    rw [e]
    exact strongLuma_at Alpha _ _ _ _ _ _ _ _ _ _ incP incQ P Q Img hincP hincQ hPQ _ _
      (strongFlag_iff Alpha Beta _ _ _ _) (strongFlag_iff Alpha Beta _ _ _ _)

/-- The strong filter commutes with mirroring the eight samples about the edge. -/
theorem filterPel_strong_mirror (yuv Alpha Beta : Int) (ClipTab : List Int)
    (bitdepth_scale maxv incP incQ P Q : Int) (Img : Plane)
    (incP' incQ' P' Q' : Int) (Img' : Plane)
    (hincP : 0 < incP) (hincQ : 0 < incQ) (hPQ : P < Q)
    (hincP' : 0 < incP') (hincQ' : 0 < incQ') (hPQ' : P' < Q')
    (hmir : ∀ k : Int, 0 ≤ k → k ≤ 3 →
      Img' (Q' + incQ' * k) = Img (P - incP * k) ∧ Img' (P' - incP' * k) = Img (Q + incQ * k))
    (k : Int) (hk0 : 0 ≤ k) (hk3 : k ≤ 3) :
    filterPel yuv 4 Alpha Beta ClipTab bitdepth_scale maxv incP' incQ' P' Q' Img'
        (Q' + incQ' * k) =
      filterPel yuv 4 Alpha Beta ClipTab bitdepth_scale maxv incP incQ P Q Img (P - incP * k) ∧
    filterPel yuv 4 Alpha Beta ClipTab bitdepth_scale maxv incP' incQ' P' Q' Img'
        (P' - incP' * k) =
      filterPel yuv 4 Alpha Beta ClipTab bitdepth_scale maxv incP incQ P Q Img (Q + incQ * k) := by
  have m0 := hmir 0 (by omega) (by omega)
  have m1 := hmir 1 (by omega) (by omega)
  have m2 := hmir 2 (by omega) (by omega)
  have m3 := hmir 3 (by omega) (by omega)
  simp only [mul_zero, add_zero, sub_zero, mul_one] at m0 m1
  cases hg : filterGate 4 Alpha Beta (Img (P - incP)) (Img P) (Img Q) (Img (Q + incQ))
  · have hg' : filterGate 4 Alpha Beta (Img' (P' - incP')) (Img' P') (Img' Q')
        (Img' (Q' + incQ')) = false := by
      rw [m0.1, m0.2, m1.1, m1.2, filterGate_mirror]; exact hg
    rw [filterPel_gate_false _ _ _ _ _ _ _ _ _ _ _ Img hg,
      filterPel_gate_false _ _ _ _ _ _ _ _ _ _ _ Img' hg']
    exact hmir k hk0 hk3
  · have hg' : filterGate 4 Alpha Beta (Img (Q + incQ)) (Img Q) (Img P) (Img (P - incP))
        = true := by
      rw [filterGate_mirror]; exact hg
    have A := filterPel_strong yuv Alpha Beta ClipTab bitdepth_scale maxv incP incQ P Q Img
      _ _ _ _ _ _ _ _ rfl rfl rfl rfl rfl rfl rfl rfl hg hincP hincQ hPQ
    have B := filterPel_strong yuv Alpha Beta ClipTab bitdepth_scale maxv incP' incQ' P' Q' Img'
      _ _ _ _ _ _ _ _ m0.2.symm m1.2.symm m2.2.symm m3.2.symm m0.1.symm m1.1.symm m2.1.symm
      m3.1.symm hg' hincP' hincQ' hPQ'
    have hk : k = 0 ∨ k = 1 ∨ k = 2 ∨ k = 3 := by omega
    by_cases hy : yuv = 0
    · obtain ⟨a1, a2, a3, a4, a5, a6, a7⟩ := A.2 hy
      obtain ⟨b1, b2, b3, b4, b5, b6, b7⟩ := B.2 hy
      simp only [abs_sub_comm (Img P) (Img Q)] at b1 b2 b3 b4 b5 b6
      rcases hk with rfl | rfl | rfl | rfl
      · simp only [mul_zero, add_zero, sub_zero]
        exact ⟨b1.trans a4.symm, b4.trans a1.symm⟩
      · simp only [mul_one]
        exact ⟨b2.trans a5.symm, b5.trans a2.symm⟩
      · exact ⟨b3.trans a6.symm, b6.trans a3.symm⟩
      · rw [b7 _ (by omega) (by omega) (by omega) (by omega) (by omega) (by omega),
          b7 _ (by omega) (by omega) (by omega) (by omega) (by omega) (by omega),
          a7 _ (by omega) (by omega) (by omega) (by omega) (by omega) (by omega),
          a7 _ (by omega) (by omega) (by omega) (by omega) (by omega) (by omega)]
        exact m3
    · obtain ⟨a1, a2, a3⟩ := A.1 hy
      obtain ⟨b1, b2, b3⟩ := B.1 hy
      rcases hk with rfl | rfl | rfl | rfl
      · simp only [mul_zero, add_zero, sub_zero]
        exact ⟨b1.trans a2.symm, b2.trans a1.symm⟩
      · rw [b3 _ (by omega) (by omega), b3 _ (by omega) (by omega),
          a3 _ (by omega) (by omega), a3 _ (by omega) (by omega)]
        exact hmir 1 (by omega) (by omega)
      · rw [b3 _ (by omega) (by omega), b3 _ (by omega) (by omega),
          a3 _ (by omega) (by omega), a3 _ (by omega) (by omega)]
        exact m2
      · rw [b3 _ (by omega) (by omega), b3 _ (by omega) (by omega),
          a3 _ (by omega) (by omega), a3 _ (by omega) (by omega)]
        exact m3

/-- C10: when the gate of an iteration of `EdgeLoop` passes and `Strng == 4`, the stores are
computed from the unfiltered `L0..L3`, `R0..R3`.  Chroma: `Q0 = (2*R1 + R0 + L1 + 2) >> 2`,
`P0 = (2*L1 + L0 + R1 + 2) >> 2`, and nothing else changes.  Luma, with
`small_gap = |R0-L0| < (Alpha >> 2) + 2`, `aq = |R0-R2| < Beta and small_gap`,
`ap = |L0-L2| < Beta and small_gap`: if `aq` then `Q0 = (L1 + 2*(R1+L0+R0) + R2 + 4) >> 3`,
`Q1 = (R2+R0+R1+L0+2) >> 2`, `Q2 = (2*(R3+R2) + R2+R1+L0+R0 + 4) >> 3`, else
`Q0 = (2*R1+R0+L1+2) >> 2` and `Q1`, `Q2` keep their values; the P side is the mirror image
with `ap`; no other sample changes.  Filtering a mirrored neighbourhood gives the mirrored
result. -/
theorem EdgeLoop_strong_filter (env : Env) (img : ImageParameters) (p : StorablePicture)
    (Strength : Int → Nat)
    (MbQAddr AlphaC0Offset BetaOffset dir edge width yuv uv : Int) (Img : Plane) (pel : Int)
    (Alpha Beta incP incQ P Q : Int)
    (hAlpha : Alpha = tab ALPHA_TABLE
      (pelIndex env img p MbQAddr AlphaC0Offset dir edge yuv uv pel) * bitdepthScale img yuv)
    (hBeta : Beta = tab BETA_TABLE
      (pelIndex env img p MbQAddr BetaOffset dir edge yuv uv pel) * bitdepthScale img yuv)
    (hincP : incP = pelIncP env img MbQAddr dir edge width yuv pel)
    (hincQ : incQ = pelIncQ env img MbQAddr dir edge width yuv pel)
    (hP : P = pelSrcPtrP env img MbQAddr dir edge width yuv pel)
    (hQ : Q = pelSrcPtrQ env img MbQAddr dir edge width yuv pel)
    (L0 L1 L2 L3 R0 R1 R2 R3 : Int)
    (hL0 : L0 = Img P) (hL1 : L1 = Img (P - incP)) (hL2 : L2 = Img (P - incP * 2))
    (hL3 : L3 = Img (P - incP * 3))
    (hR0 : R0 = Img Q) (hR1 : R1 = Img (Q + incQ)) (hR2 : R2 = Img (Q + incQ * 2))
    (hR3 : R3 = Img (Q + incQ * 3))
    (havail : (pelPixP env img MbQAddr dir edge yuv pel).available ≠ 0 ∨
      (img.mb_data MbQAddr).LFDisableIdc = 0)
    (hStrng : pelStrng env img p Strength MbQAddr dir edge yuv pel = 4)
    (hgate : |R0 - L0| < Alpha ∧ |R0 - R1| < Beta ∧ |L0 - L1| < Beta)
    (hw : 0 < width) (hPQ : P < Q)
    (out : Plane)
    (hout : out = EdgeLoopPel env img p Strength MbQAddr AlphaC0Offset BetaOffset dir edge width
      yuv uv Img pel) :
    (yuv ≠ 0 →
      out Q = c_shr (2 * R1 + R0 + L1 + 2) 2 ∧
      out P = c_shr (2 * L1 + L0 + R1 + 2) 2 ∧
      ∀ a, a ≠ P → a ≠ Q → out a = Img a) ∧
    (yuv = 0 →
      out Q = (if |R0 - R2| < Beta ∧ |R0 - L0| < c_shr Alpha 2 + 2 then
          c_shr (L1 + 2 * (R1 + L0 + R0) + R2 + 4) 3
        else c_shr (2 * R1 + R0 + L1 + 2) 2) ∧
      out (Q + incQ) = (if |R0 - R2| < Beta ∧ |R0 - L0| < c_shr Alpha 2 + 2 then
          c_shr (R2 + R0 + R1 + L0 + 2) 2 else R1) ∧
      out (Q + incQ * 2) = (if |R0 - R2| < Beta ∧ |R0 - L0| < c_shr Alpha 2 + 2 then
          c_shr (2 * (R3 + R2) + R2 + R1 + L0 + R0 + 4) 3 else R2) ∧
      out P = (if |L0 - L2| < Beta ∧ |R0 - L0| < c_shr Alpha 2 + 2 then
          c_shr (R1 + 2 * (L1 + R0 + L0) + L2 + 4) 3
        else c_shr (2 * L1 + L0 + R1 + 2) 2) ∧
      out (P - incP) = (if |L0 - L2| < Beta ∧ |R0 - L0| < c_shr Alpha 2 + 2 then
          c_shr (L2 + L0 + L1 + R0 + 2) 2 else L1) ∧
      out (P - incP * 2) = (if |L0 - L2| < Beta ∧ |R0 - L0| < c_shr Alpha 2 + 2 then
          c_shr (2 * (L3 + L2) + L2 + L1 + R0 + L0 + 4) 3 else L2) ∧
      ∀ a, a ≠ P → a ≠ P - incP → a ≠ P - incP * 2 → a ≠ Q → a ≠ Q + incQ → a ≠ Q + incQ * 2 →
        out a = Img a) ∧
    (∀ (incP' incQ' P' Q' : Int) (Img' : Plane), 0 < incP' → 0 < incQ' → P' < Q' →
      (∀ k : Int, 0 ≤ k → k ≤ 3 →
        Img' (Q' + incQ' * k) = Img (P - incP * k) ∧
        Img' (P' - incP' * k) = Img (Q + incQ * k)) →
      ∀ k : Int, 0 ≤ k → k ≤ 3 →
        filterPel yuv 4 Alpha Beta
            (row CLIP_TAB (pelIndex env img p MbQAddr AlphaC0Offset dir edge yuv uv pel))
            (bitdepthScale img yuv) (pelMax img yuv) incP' incQ' P' Q' Img' (Q' + incQ' * k)
          = out (P - incP * k) ∧
        filterPel yuv 4 Alpha Beta
            (row CLIP_TAB (pelIndex env img p MbQAddr AlphaC0Offset dir edge yuv uv pel))
            (bitdepthScale img yuv) (pelMax img yuv) incP' incQ' P' Q' Img' (P' - incP' * k)
          = out (Q + incQ * k)) := by
  have hip : 0 < incP := by rw [hincP]; exact edgeInc_pos _ _ _ _ _ hw
  have hiq : 0 < incQ := by rw [hincQ]; exact edgeInc_pos _ _ _ _ _ hw
  have hg : filterGate 4 Alpha Beta L1 L0 R0 R1 = true := by
    rw [filterGate_eq_spec _ _ _ _ _ _ _ (by omega)]
    simp [filterGateSpec, hgate.1, hgate.2.1, hgate.2.2]
  have e : out = filterPel yuv 4 Alpha Beta
      (row CLIP_TAB (pelIndex env img p MbQAddr AlphaC0Offset dir edge yuv uv pel))
      (bitdepthScale img yuv) (pelMax img yuv) incP incQ P Q Img := by
    rw [hout]
    unfold EdgeLoopPel
    rw [if_pos havail, hStrng, ← hAlpha, ← hBeta, ← hincP, ← hincQ, ← hP, ← hQ]
  have A := filterPel_strong yuv Alpha Beta
    (row CLIP_TAB (pelIndex env img p MbQAddr AlphaC0Offset dir edge yuv uv pel))
    (bitdepthScale img yuv) (pelMax img yuv) incP incQ P Q Img L0 L1 L2 L3 R0 R1 R2 R3
    hL0 hL1 hL2 hL3 hR0 hR1 hR2 hR3 hg hip hiq hPQ
  rw [e]
  refine ⟨A.1, A.2, ?_⟩
  intro incP' incQ' P' Q' Img' h1 h2 h3 hmir k hk0 hk3
  exact filterPel_strong_mirror yuv Alpha Beta _ _ _ incP incQ P Q Img incP' incQ' P' Q' Img'
    hip hiq hPQ h1 h2 h3 hmir k hk0 hk3

/-- Witness for C10: the iteration `pel = 0` at the left edge of the second macroblock of
`exIntra` with strength 4 (luma, `Alpha = 15`, `Beta = 6`, samples 105 106 100 101 | 102 103
104 105): `ap` holds and `P0` becomes 102. -/
theorem EdgeLoop_strong_filter_witness :
    ((pelPixP (exEnv 2) exIntra.img 1 0 0 0 0).available ≠ 0 ∨
      (exIntra.img.mb_data 1).LFDisableIdc = 0) ∧
    pelStrng (exEnv 2) exIntra.img exIntra.p (fun _ => 4) 1 0 0 0 0 = 4 ∧
    (|(102 : Int) - 101| < 15 ∧ |(102 : Int) - 103| < 6 ∧ |(101 : Int) - 100| < 6) ∧
    EdgeLoopPel (exEnv 2) exIntra.img exIntra.p (fun _ => 4) 1 0 0 0 0 32 0 0 exIntra.p.imgY 0 15
      = 102 :=
  ⟨by decide, by decide, by decide,
    ((EdgeLoop_strong_filter (exEnv 2) exIntra.img exIntra.p (fun _ => 4) 1 0 0 0 0 32 0 0
      exIntra.p.imgY 0 15 6 1 1 15 16 (by decide) (by decide) (by decide) (by decide)
      (by decide) (by decide) 101 100 106 105 102 103 104 105
      (by decide) (by decide) (by decide) (by decide) (by decide) (by decide) (by decide)
      (by decide) (by decide) (by decide) (by decide) (by decide) (by decide)
      _ rfl).2.1 rfl).2.2.2.1.trans (by decide)⟩

/-! ## Locality of one iteration of `EdgeLoop` -/

theorem strongChroma_frame (L1 L0 R0 R1 P Q : Int) (Img : Plane) (a : Int)
    (h1 : a ≠ P) (h2 : a ≠ Q) : strongChroma L1 L0 R0 R1 P Q Img a = Img a := by
  simp only [strongChroma, store]
  rw [if_neg h1, if_neg h2]

theorem strongLuma_frame (Alpha aq ap L3 L2 L1 L0 R0 R1 R2 R3 incP incQ P Q : Int)
    (Img : Plane) (a : Int) (h1 : a ≠ P) (h2 : a ≠ P - incP) (h3 : a ≠ P - incP * 2)
    (h4 : a ≠ Q) (h5 : a ≠ Q + incQ) (h6 : a ≠ Q + incQ * 2) :
    strongLuma Alpha aq ap L3 L2 L1 L0 R0 R1 R2 R3 incP incQ P Q Img a = Img a := by
  simp only [strongLuma, store]
  rw [if_neg h3, if_neg h6, if_neg h2, if_neg h5, if_neg h1, if_neg h4]

theorem normalFilter_frame (yuv C0 aq ap maxv L2 L1 L0 R0 R1 R2 incP incQ P Q : Int)
    (Img : Plane) (a : Int) (h1 : a ≠ P) (h4 : a ≠ Q)
    (h2 : yuv = 0 → a ≠ P - incP) (h5 : yuv = 0 → a ≠ Q + incQ) :
    normalFilter yuv C0 aq ap maxv L2 L1 L0 R0 R1 R2 incP incQ P Q Img a = Img a := by
  unfold normalFilter
  simp only []
  by_cases hy : yuv = 0
  · have h2' := h2 hy
    have h5' := h5 hy
    rw [if_pos hy]
    split_ifs <;> simp [store, h1, h2', h4, h5']
  · rw [if_neg hy]
    simp [store, h1, h4]

/-- Outside the offsets it may store to, `filterPel` leaves the plane as it was: the six
offsets `P, P-incP, P-2incP, Q, Q+incQ, Q+2incQ` for luma with `Strng == 4`, the four offsets
`P, P-incP, Q, Q+incQ` for luma with another strength, `P` and `Q` for chroma. -/
theorem filterPel_frame (yuv Strng Alpha Beta : Int) (ClipTab : List Int)
    (bitdepth_scale maxv incP incQ P Q : Int) (Img : Plane) (a : Int)
    (h1 : a ≠ P) (h4 : a ≠ Q)
    (h2 : yuv = 0 → a ≠ P - incP) (h5 : yuv = 0 → a ≠ Q + incQ)
    (h3 : yuv = 0 → Strng = 4 → a ≠ P - incP * 2) (h6 : yuv = 0 → Strng = 4 → a ≠ Q + incQ * 2) :
    filterPel yuv Strng Alpha Beta ClipTab bitdepth_scale maxv incP incQ P Q Img a = Img a := by
  unfold filterPel
  simp only []
  split_ifs with hg hs hy
  · exact strongChroma_frame _ _ _ _ P Q Img a h1 h4
  · have hy0 : yuv = 0 := by simpa using hy
    exact strongLuma_frame _ _ _ _ _ _ _ _ _ _ _ incP incQ P Q Img a h1 (h2 hy0) (h3 hy0 hs) h4
      (h5 hy0) (h6 hy0 hs)
  · exact normalFilter_frame _ _ _ _ _ _ _ _ _ _ _ incP incQ P Q Img a h1 h4 h2 h5
  · rfl

theorem strongChroma_congr (L1 L0 R0 R1 P Q : Int) (Img Img' : Plane) (a : Int)
    (h : Img a = Img' a) :
    strongChroma L1 L0 R0 R1 P Q Img a = strongChroma L1 L0 R0 R1 P Q Img' a := by
  simp only [strongChroma, store, h]

theorem strongLuma_congr (Alpha aq ap L3 L2 L1 L0 R0 R1 R2 R3 incP incQ P Q : Int)
    (Img Img' : Plane) (a : Int) (h : Img a = Img' a) :
    strongLuma Alpha aq ap L3 L2 L1 L0 R0 R1 R2 R3 incP incQ P Q Img a =
      strongLuma Alpha aq ap L3 L2 L1 L0 R0 R1 R2 R3 incP incQ P Q Img' a := by
  simp only [strongLuma, store, h]

theorem normalFilter_congr (yuv C0 aq ap maxv L2 L1 L0 R0 R1 R2 incP incQ P Q : Int)
    (Img Img' : Plane) (a : Int) (h : Img a = Img' a)
    (hP1 : Img (P - incP) = Img' (P - incP)) (hQ1 : Img (Q + incQ) = Img' (Q + incQ)) :
    normalFilter yuv C0 aq ap maxv L2 L1 L0 R0 R1 R2 incP incQ P Q Img a =
      normalFilter yuv C0 aq ap maxv L2 L1 L0 R0 R1 R2 incP incQ P Q Img' a := by
  unfold normalFilter
  simp only []
  split_ifs <;> simp only [store, h, hP1, hQ1]

/-- The plane after `filterPel` at offset `a` depends only on the eight samples read and on the
old sample at `a`. -/
theorem filterPel_congr (yuv Strng Alpha Beta : Int) (ClipTab : List Int)
    (bitdepth_scale maxv incP incQ P Q : Int) (Img Img' : Plane) (a : Int)
    (hP0 : Img P = Img' P) (hP1 : Img (P - incP) = Img' (P - incP))
    (hP2 : Img (P - incP * 2) = Img' (P - incP * 2))
    (hP3 : Img (P - incP * 3) = Img' (P - incP * 3))
    (hQ0 : Img Q = Img' Q) (hQ1 : Img (Q + incQ) = Img' (Q + incQ))
    (hQ2 : Img (Q + incQ * 2) = Img' (Q + incQ * 2))
    (hQ3 : Img (Q + incQ * 3) = Img' (Q + incQ * 3)) (h : Img a = Img' a) :
    filterPel yuv Strng Alpha Beta ClipTab bitdepth_scale maxv incP incQ P Q Img a =
      filterPel yuv Strng Alpha Beta ClipTab bitdepth_scale maxv incP incQ P Q Img' a := by
  unfold filterPel
  simp only [hP0, hP1, hP2, hP3, hQ0, hQ1, hQ2, hQ3]
  split_ifs
  · exact strongChroma_congr _ _ _ _ P Q Img Img' a h
  · exact strongLuma_congr _ _ _ _ _ _ _ _ _ _ _ incP incQ P Q Img Img' a h
  · exact normalFilter_congr _ _ _ _ _ _ _ _ _ _ _ incP incQ P Q Img Img' a h hP1 hQ1
  · exact h

theorem EdgeLoopPel_frame (env : Env) (img : ImageParameters) (p : StorablePicture)
    (Strength : Int → Nat) (MbQAddr AlphaC0Offset BetaOffset dir edge width yuv uv : Int)
    (Img : Plane) (pel a : Int)
    (h : a ∉ pelWriteList env img MbQAddr dir edge width yuv pel) :
    EdgeLoopPel env img p Strength MbQAddr AlphaC0Offset BetaOffset dir edge width yuv uv Img pel a
      = Img a := by
  unfold EdgeLoopPel
  split
  · unfold pelWriteList at h
    by_cases hy : yuv = 0
    · rw [if_neg (by simpa using hy)] at h
      simp only [List.mem_cons, List.mem_singleton, List.not_mem_nil, or_false, not_or] at h
      exact filterPel_frame _ _ _ _ _ _ _ _ _ _ _ Img a h.1 h.2.2.2.1 (fun _ => h.2.1)
        (fun _ => h.2.2.2.2.1) (fun _ _ => h.2.2.1) (fun _ _ => h.2.2.2.2.2)
    · rw [if_pos hy] at h
      simp only [List.mem_cons, List.mem_singleton, List.not_mem_nil, or_false, not_or] at h
      exact filterPel_frame _ _ _ _ _ _ _ _ _ _ _ Img a h.1 h.2 (fun e => absurd e hy)
        (fun e => absurd e hy) (fun e => absurd e hy) (fun e => absurd e hy)
  · rfl

theorem EdgeLoopPel_congr (env : Env) (img : ImageParameters) (p : StorablePicture)
    (Strength : Int → Nat) (MbQAddr AlphaC0Offset BetaOffset dir edge width yuv uv : Int)
    (Img Img' : Plane) (pel a : Int)
    (hR : ∀ b ∈ pelReadList env img MbQAddr dir edge width yuv pel, Img b = Img' b)
    (h : Img a = Img' a) :
    EdgeLoopPel env img p Strength MbQAddr AlphaC0Offset BetaOffset dir edge width yuv uv Img pel a
      = EdgeLoopPel env img p Strength MbQAddr AlphaC0Offset BetaOffset dir edge width yuv uv
          Img' pel a := by
  unfold EdgeLoopPel
  simp only [pelReadList, List.mem_cons, List.mem_singleton, List.not_mem_nil, or_false,
    forall_eq_or_imp, forall_eq] at hR
  obtain ⟨r0, r1, r2, r3, r4, r5, r6, r7⟩ := hR
  split
  · exact filterPel_congr _ _ _ _ _ _ _ _ _ _ _ Img Img' a r0 r1 r2 r3 r4 r5 r6 r7 h
  · exact h

theorem foldl_frame (f : Plane → Nat → Plane) (W : Nat → List Int)
    (hframe : ∀ I j a, a ∉ W j → f I j a = I a) (a : Int) :
    ∀ (l : List Nat) (I : Plane), (∀ j ∈ l, a ∉ W j) → l.foldl f I a = I a := by
  intro l
  induction l with
  | nil => intro I _; rfl
  | cons j l ih =>
    intro I h
    rw [List.foldl_cons, ih (f I j) (fun i hi => h i (List.mem_cons_of_mem j hi))]
    exact hframe I j a (h j (List.mem_cons_self j l))

theorem foldl_local (f : Plane → Nat → Plane) (W R : Nat → List Int)
    (hframe : ∀ I j a, a ∉ W j → f I j a = I a)
    (hcongr : ∀ I I' j a, (∀ b ∈ R j, I b = I' b) → I a = I' a → f I j a = f I' j a)
    (k : Nat) (a : Int) :
    ∀ (l : List Nat) (I : Plane), l.Nodup → k ∈ l →
      (∀ j ∈ l, j ≠ k → (∀ b ∈ R k, b ∉ W j) ∧ a ∉ W j) → l.foldl f I a = f I k a := by
  intro l
  induction l with
  | nil => intro I _ hk; exact absurd hk (List.not_mem_nil k)
  | cons j l ih =>
    intro I hnd hk h
    rw [List.foldl_cons]
    have hnd' := (List.nodup_cons.mp hnd)
    by_cases hjk : j = k
    · subst hjk
      apply foldl_frame f W hframe a l (f I j)
      intro i hi
      have hne : i ≠ j := fun e => hnd'.1 (e ▸ hi)
      exact (h i (List.mem_cons_of_mem j hi) hne).2
    · have hk' : k ∈ l := by
        rcases List.mem_cons.mp hk with e | e
        · exact absurd e.symm hjk
        · exact e
      rw [ih (f I j) hnd'.2 hk' (fun i hi hne => h i (List.mem_cons_of_mem j hi) hne)]
      have hj := h j (List.mem_cons_self j l) hjk
      exact hcongr (f I j) I k a (fun b hb => hframe I j b (hj.1 b hb)) (hframe I j a hj.2)

/-- Outside the offsets its iterations may store to, `EdgeLoop` leaves the plane as it was. -/
theorem EdgeLoop_frame (env : Env) (img : ImageParameters) (p : StorablePicture)
    (Strength : Int → Nat) (MbQAddr AlphaC0Offset BetaOffset dir edge width yuv uv : Int)
    (Img : Plane) (a : Int)
    (h : ∀ pel : Nat, pel < (PelNum p dir yuv).toNat →
      a ∉ pelWriteList env img MbQAddr dir edge width yuv (pel : Int)) :
    EdgeLoop env img p Strength MbQAddr AlphaC0Offset BetaOffset dir edge width yuv uv Img a
      = Img a := by
  unfold EdgeLoop
  exact foldl_frame _ (fun j => pelWriteList env img MbQAddr dir edge width yuv (j : Int))
    (fun I j b hb => EdgeLoopPel_frame env img p Strength MbQAddr AlphaC0Offset BetaOffset dir
      edge width yuv uv I (j : Int) b hb) a _ Img
    (fun j hj => h j (List.mem_range.mp hj))

/-- When no other iteration stores to what iteration `k` reads or to `a`, the plane after
`EdgeLoop` at `a` is the plane after iteration `k` alone. -/
theorem EdgeLoop_at (env : Env) (img : ImageParameters) (p : StorablePicture)
    (Strength : Int → Nat) (MbQAddr AlphaC0Offset BetaOffset dir edge width yuv uv : Int)
    (Img : Plane) (k : Nat) (a : Int) (hk : k < (PelNum p dir yuv).toNat)
    (h : ∀ j : Nat, j < (PelNum p dir yuv).toNat → j ≠ k →
      (∀ b ∈ pelReadList env img MbQAddr dir edge width yuv (k : Int),
        b ∉ pelWriteList env img MbQAddr dir edge width yuv (j : Int)) ∧
      a ∉ pelWriteList env img MbQAddr dir edge width yuv (j : Int)) :
    EdgeLoop env img p Strength MbQAddr AlphaC0Offset BetaOffset dir edge width yuv uv Img a
      = EdgeLoopPel env img p Strength MbQAddr AlphaC0Offset BetaOffset dir edge width yuv uv
          Img (k : Int) a := by
  unfold EdgeLoop
  exact foldl_local _ (fun j => pelWriteList env img MbQAddr dir edge width yuv (j : Int))
    (fun j => pelReadList env img MbQAddr dir edge width yuv (j : Int))
    (fun I j b hb => EdgeLoopPel_frame env img p Strength MbQAddr AlphaC0Offset BetaOffset dir
      edge width yuv uv I (j : Int) b hb)
    (fun I I' j b hR hb => EdgeLoopPel_congr env img p Strength MbQAddr AlphaC0Offset BetaOffset
      dir edge width yuv uv I I' (j : Int) b hR hb)
    k a _ Img (List.nodup_range _) (List.mem_range.mpr hk)
    (fun j hj hne => h j (List.mem_range.mp hj) hne)

/-! ## The structure of `DeblockMb` -/

/-- The procedure `DeblockMb` on a macroblock that is not skipped: the loops run from
`mbStartImg` with the flags and `mvlimit` computed before them, and `DeblockCall` is reset at
the end. -/
theorem DeblockMb_enabled_eq (env : Env) (s : State) (MbQAddr : Int)
    (hassert : ¬ ((s.img.mb_data MbQAddr).mb_type = env.I8MB ∧
      (s.img.mb_data MbQAddr).luma_transform_size_8x8_flag = 0))
    (hen : (s.img.mb_data MbQAddr).LFDisableIdc ≠ 1) :
    DeblockMb env s MbQAddr =
      some (resetCall (deblockLoops env MbQAddr (mbMvlimit env s.p (s.img.mb_data MbQAddr))
        (mbFilterNon8x8LumaEdgesFlag (s.img.mb_data MbQAddr))
        (mbFilterLeftMbEdgeFlag env s.img MbQAddr) (mbFilterTopMbEdgeFlag env s.img s.p MbQAddr)
        { s with img := mbStartImg env s.img MbQAddr })) := by
  unfold DeblockMb
  simp only []
  rw [if_neg hassert, if_neg hen]
  simp only [resetCall, mbMvlimit, mbFilterNon8x8LumaEdgesFlag, mbStartImg,
    mbFilterLeftMbEdgeFlag, mbFilterTopMbEdgeFlag]

/-- The loops as one pass over `edgeOrder`. -/
theorem deblockLoops_eq (env : Env) (MbQAddr mvlimit : Int) (fl : List Int) (l t : Int)
    (s : State) :
    deblockLoops env MbQAddr mvlimit fl l t s =
      edgeOrder.foldl (fun st (de : Nat × Nat) =>
        deblockStep env MbQAddr mvlimit fl l t st (de.1 : Int) (de.2 : Int)) s := by
  rfl

theorem deblockLoopsTrace_eq (env : Env) (MbQAddr mvlimit : Int) (fl : List Int) (l t : Int)
    (s : State) :
    deblockLoopsTrace env MbQAddr mvlimit fl l t s =
      edgeOrder.foldl (fun se (de : Nat × Nat) =>
        (deblockStep env MbQAddr mvlimit fl l t se.1 (de.1 : Int) (de.2 : Int),
          se.2 ++ deblockStepOps env se.1.img se.1.p MbQAddr mvlimit l t (de.1 : Int)
            (de.2 : Int))) (s, []) := by
  rfl

/-! ## What one edge of `DeblockMb` does to the planes -/

theorem EdgeLoop_pic_congr (env : Env) (img : ImageParameters) (p : StorablePicture)
    (Y : Plane) (Strength : Int → Nat)
    (MbQAddr AlphaC0Offset BetaOffset dir edge width yuv uv : Int) (Img : Plane) :
    EdgeLoop env img { p with imgY := Y } Strength MbQAddr AlphaC0Offset BetaOffset dir edge width
        yuv uv Img =
      EdgeLoop env img p Strength MbQAddr AlphaC0Offset BetaOffset dir edge width yuv uv Img := by
  rfl

theorem filterEdgePlanes_imgY (env : Env) (img : ImageParameters) (p : StorablePicture)
    (Strength : Int → Nat) (MbQAddr dir lumaFlag edgeY edge_cr edgeC : Int) :
    (filterEdgePlanes env img p Strength MbQAddr dir lumaFlag edgeY edge_cr edgeC).imgY =
      if lumaFlag ≠ 0 then
        EdgeLoop env img p Strength MbQAddr (img.mb_data MbQAddr).LFAlphaC0Offset
          (img.mb_data MbQAddr).LFBetaOffset dir edgeY p.size_x 0 0 p.imgY
      else p.imgY := by
  unfold filterEdgePlanes
  by_cases hl : lumaFlag ≠ 0
  · simp only [if_pos hl]
    split
    · rfl
    · split <;> rfl
  · simp only [if_neg hl]
    split
    · rfl
    · split <;> rfl

theorem filterEdgePlanes_imgUV (env : Env) (img : ImageParameters) (p : StorablePicture)
    (Strength : Int → Nat) (MbQAddr dir lumaFlag edgeY edge_cr edgeC : Int) :
    (filterEdgePlanes env img p Strength MbQAddr dir lumaFlag edgeY edge_cr edgeC).imgUV =
      match p.imgUV with
      | none => none
      | some uv =>
        if edge_cr ≥ 0 then
          some (EdgeLoop env img p Strength MbQAddr (img.mb_data MbQAddr).LFAlphaC0Offset
              (img.mb_data MbQAddr).LFBetaOffset dir edgeC p.size_x_cr 1 0 uv.1,
            EdgeLoop env img p Strength MbQAddr (img.mb_data MbQAddr).LFAlphaC0Offset
              (img.mb_data MbQAddr).LFBetaOffset dir edgeC p.size_x_cr 1 1 uv.2)
        else some uv := by
  unfold filterEdgePlanes
  by_cases hl : lumaFlag ≠ 0
  · simp only [if_pos hl]
    cases h : p.imgUV with
    | none => rfl
    | some uv =>
      by_cases he : edge_cr ≥ 0
      · simp only [if_pos he]; rfl
      · simp only [if_neg he]
  · simp only [if_neg hl]
    cases h : p.imgUV with
    | none => simp only [h]
    | some uv =>
      by_cases he : edge_cr ≥ 0
      · simp only [h, if_pos he]
      · simp only [h, if_neg he]

theorem filterEdgePlanes_meta (env : Env) (img : ImageParameters) (p : StorablePicture)
    (Strength : Int → Nat) (MbQAddr dir lumaFlag edgeY edge_cr edgeC : Int) :
    filterEdgePlanes env img p Strength MbQAddr dir lumaFlag edgeY edge_cr edgeC =
      { p with
        imgY := (filterEdgePlanes env img p Strength MbQAddr dir lumaFlag edgeY edge_cr
          edgeC).imgY,
        imgUV := (filterEdgePlanes env img p Strength MbQAddr dir lumaFlag edgeY edge_cr
          edgeC).imgUV } := by
  unfold filterEdgePlanes
  by_cases hl : lumaFlag ≠ 0
  · simp only [if_pos hl]
    cases h : p.imgUV with
    | none => rfl
    | some uv =>
      by_cases he : edge_cr ≥ 0
      · simp only [if_pos he]
      · simp only [if_neg he]
  · simp only [if_neg hl]
    cases h : p.imgUV with
    | none => simp only [h]; rw [← h]
    | some uv =>
      by_cases he : edge_cr ≥ 0
      · simp only [h, if_pos he]
      · simp only [h, if_neg he]; rw [← h]

/-! ## The normal filter -/

/-- What `normalFilter` leaves at the four samples it can store to. -/
theorem normalFilter_at (yuv C0 aq ap maxv L2 L1 L0 R0 R1 R2 incP incQ P Q : Int) (Img : Plane)
    (hL1 : L1 = Img (P - incP)) (hR1 : R1 = Img (Q + incQ))
    (hincP : 0 < incP) (hincQ : 0 < incQ) (hPQ : P < Q) :
    normalFilter yuv C0 aq ap maxv L2 L1 L0 R0 R1 R2 incP incQ P Q Img P =
      IClip 0 maxv (L0 + normalDif yuv C0 aq ap L1 L0 R0 R1) ∧
    normalFilter yuv C0 aq ap maxv L2 L1 L0 R0 R1 R2 incP incQ P Q Img Q =
      IClip 0 maxv (R0 - normalDif yuv C0 aq ap L1 L0 R0 R1) ∧
    normalFilter yuv C0 aq ap maxv L2 L1 L0 R0 R1 R2 incP incQ P Q Img (P - incP) =
      (if yuv = 0 ∧ ap ≠ 0 then
        L1 + IClip (-C0) C0 (c_shr (L2 + c_shr (L0 + R0 + 1) 1 - c_shl L1 1) 1)
       else L1) ∧
    normalFilter yuv C0 aq ap maxv L2 L1 L0 R0 R1 R2 incP incQ P Q Img (Q + incQ) =
      (if yuv = 0 ∧ aq ≠ 0 then
        R1 + IClip (-C0) C0 (c_shr (R2 + c_shr (L0 + R0 + 1) 1 - c_shl R1 1) 1)
       else R1) := by
  have e1 : P ≠ Q := by omega
  have e2 : P - incP ≠ P := by omega
  have e3 : P - incP ≠ Q := by omega
  have e4 : Q + incQ ≠ P := by omega
  have e5 : Q + incQ ≠ Q := by omega
  have e6 : P ≠ P - incP := by omega
  have e7 : Q ≠ P - incP := by omega
  have e8 : P ≠ Q + incQ := by omega
  have e9 : Q ≠ Q + incQ := by omega
  have e10 : Q + incQ ≠ P - incP := by omega
  have e11 : P - incP ≠ Q + incQ := by omega
  subst hL1 hR1
  unfold normalFilter
  simp only []
  by_cases hy : yuv = 0
  · by_cases hap : ap ≠ 0 <;> by_cases haq : aq ≠ 0 <;>
      simp only [hy, hap, haq, if_true, if_false, store, e1, e2, e3, e4, e5, e6, e7, e8, e9, e10,
        e11, and_self, true_and, and_true, not_true_eq_false, not_false_eq_true, ne_eq]
  · simp only [hy, if_false, if_true, store, e1, e2, e3, e4, e5, e6, e7, e8, e9, e10,
        e11, and_self, true_and, and_true, false_and]

theorem filterPel_normal_eq (yuv Strng Alpha Beta : Int) (ClipTab : List Int)
    (bitdepth_scale maxv incP incQ P Q : Int) (Img : Plane)
    (hgate : filterGate Strng Alpha Beta (Img (P - incP)) (Img P) (Img Q) (Img (Q + incQ)) = true)
    (hS : Strng ≠ 4) :
    filterPel yuv Strng Alpha Beta ClipTab bitdepth_scale maxv incP incQ P Q Img =
      normalFilter yuv (tab ClipTab Strng * bitdepth_scale)
        (sideFlag yuv Beta (Img Q) (Img (Q + incQ * 2)))
        (sideFlag yuv Beta (Img P) (Img (P - incP * 2))) maxv
        (Img (P - incP * 2)) (Img (P - incP)) (Img P) (Img Q) (Img (Q + incQ))
        (Img (Q + incQ * 2)) incP incQ P Q Img := by
  unfold filterPel
  simp only [hgate, if_true, if_neg hS]

theorem sideFlag_luma (Beta X0 X2 : Int) :
    sideFlag 0 Beta X0 X2 = if |X0 - X2| < Beta then 1 else 0 := by
  unfold sideFlag b2i
  rw [if_pos rfl, c_abs_eq_abs]
  by_cases h : |X0 - X2| < Beta
  · rw [if_pos h]; simp only [decide_eq_true_eq, ite_eq_left_iff]; intro h'; omega
  · rw [if_neg h]; simp only [decide_eq_true_eq, ite_eq_right_iff]; intro h'; omega

theorem sideFlag_chroma (yuv Beta X0 X2 : Int) (h : yuv ≠ 0) : sideFlag yuv Beta X0 X2 = 0 := by
  unfold sideFlag
  rw [if_neg h]

theorem IClip_move (maxv x d c : Int) (hx : 0 ≤ x ∧ x ≤ maxv) (hd : -c ≤ d ∧ d ≤ c) :
    |IClip 0 maxv (x + d) - x| ≤ c ∧ |IClip 0 maxv (x - d) - x| ≤ c := by
  unfold IClip
  constructor <;> rw [abs_le] <;> split_ifs <;> constructor <;> omega

theorem IClip_add_move (C x v : Int) (hC : 0 ≤ C) : |x + IClip (-C) C v - x| ≤ C := by
  have h := IClip_mem (-C) C v (by omega)
  rw [abs_le]
  constructor <;> omega

/-- C11: when the gate of an iteration of `EdgeLoop` passes and `Strng` is 1, 2 or 3, then with
`C0 = CLIP_TAB[indexA][Strng] * (1 << (bit_depth - 8))` (which is not negative),
`ap = |L0 - L2| < Beta`, `aq = |R0 - R2| < Beta`, `c0 = C0 + ap + aq` for luma and `C0 + 1` for
chroma, and `dif = clamp(-c0, c0, floor((4*(R0 - L0) + (L1 - R1) + 4) / 8))`, the iteration
stores `P0 = clamp(0, max, L0 + dif)` and `Q0 = clamp(0, max, R0 - dif)`; for luma it adds
`clamp(-C0, C0, (L2 + ((L0 + R0 + 1) >> 1) - 2*L1) >> 1)` to `P1` if `ap` and the symmetric
term to `Q1` if `aq`; no other sample changes, so chroma `P1`, `Q1` keep their values.  For
`L0`, `R0` in `0..max`, `P0` and `Q0` move by at most `c0`, and `P1`, `Q1` by at most `C0`. -/
theorem EdgeLoop_normal_filter (env : Env) (img : ImageParameters) (p : StorablePicture)
    (Strength : Int → Nat)
    (MbQAddr AlphaC0Offset BetaOffset dir edge width yuv uv : Int) (Img : Plane) (pel : Int)
    (Strng Alpha Beta C0 maxv incP incQ P Q : Int)
    (hStrng : Strng = pelStrng env img p Strength MbQAddr dir edge yuv pel)
    (hAlpha : Alpha = tab ALPHA_TABLE
      (pelIndex env img p MbQAddr AlphaC0Offset dir edge yuv uv pel) * bitdepthScale img yuv)
    (hBeta : Beta = tab BETA_TABLE
      (pelIndex env img p MbQAddr BetaOffset dir edge yuv uv pel) * bitdepthScale img yuv)
    (hC0 : C0 = tab (row CLIP_TAB (pelIndex env img p MbQAddr AlphaC0Offset dir edge yuv uv pel))
      Strng * bitdepthScale img yuv)
    (hmaxv : maxv = pelMax img yuv)
    (hincP : incP = pelIncP env img MbQAddr dir edge width yuv pel)
    (hincQ : incQ = pelIncQ env img MbQAddr dir edge width yuv pel)
    (hP : P = pelSrcPtrP env img MbQAddr dir edge width yuv pel)
    (hQ : Q = pelSrcPtrQ env img MbQAddr dir edge width yuv pel)
    (L0 L1 L2 R0 R1 R2 : Int)
    (hL0 : L0 = Img P) (hL1 : L1 = Img (P - incP)) (hL2 : L2 = Img (P - incP * 2))
    (hR0 : R0 = Img Q) (hR1 : R1 = Img (Q + incQ)) (hR2 : R2 = Img (Q + incQ * 2))
    (ap aq : Int)
    (hap : ap = if |L0 - L2| < Beta then 1 else 0)
    (haq : aq = if |R0 - R2| < Beta then 1 else 0)
    (havail : (pelPixP env img MbQAddr dir edge yuv pel).available ≠ 0 ∨
      (img.mb_data MbQAddr).LFDisableIdc = 0)
    (hS : Strng = 1 ∨ Strng = 2 ∨ Strng = 3)
    (hgate : |R0 - L0| < Alpha ∧ |R0 - R1| < Beta ∧ |L0 - L1| < Beta)
    (hw : 0 < width) (hPQ : P < Q)
    (out : Plane)
    (hout : out = EdgeLoopPel env img p Strength MbQAddr AlphaC0Offset BetaOffset dir edge width
      yuv uv Img pel) :
    (bitdepthScale img yuv =
        2 ^ ((if yuv = 0 then img.bitdepth_luma else img.bitdepth_chroma) - 8).toNat ∧
      0 ≤ C0) ∧
    (yuv ≠ 0 →
      out P = IClip 0 maxv (L0 +
        IClip (-(C0 + 1)) (C0 + 1) (Int.fdiv (4 * (R0 - L0) + (L1 - R1) + 4) 8)) ∧
      out Q = IClip 0 maxv (R0 -
        IClip (-(C0 + 1)) (C0 + 1) (Int.fdiv (4 * (R0 - L0) + (L1 - R1) + 4) 8)) ∧
      (∀ a, a ≠ P → a ≠ Q → out a = Img a) ∧
      out (P - incP) = L1 ∧ out (Q + incQ) = R1 ∧
      (0 ≤ L0 ∧ L0 ≤ maxv → |out P - L0| ≤ C0 + 1) ∧
      (0 ≤ R0 ∧ R0 ≤ maxv → |out Q - R0| ≤ C0 + 1)) ∧
    (yuv = 0 →
      out P = IClip 0 maxv (L0 +
        IClip (-(C0 + ap + aq)) (C0 + ap + aq) (Int.fdiv (4 * (R0 - L0) + (L1 - R1) + 4) 8)) ∧
      out Q = IClip 0 maxv (R0 -
        IClip (-(C0 + ap + aq)) (C0 + ap + aq) (Int.fdiv (4 * (R0 - L0) + (L1 - R1) + 4) 8)) ∧
      out (P - incP) = (if ap ≠ 0 then
          L1 + IClip (-C0) C0 (c_shr (L2 + c_shr (L0 + R0 + 1) 1 - 2 * L1) 1)
        else L1) ∧
      out (Q + incQ) = (if aq ≠ 0 then
          R1 + IClip (-C0) C0 (c_shr (R2 + c_shr (L0 + R0 + 1) 1 - 2 * R1) 1)
        else R1) ∧
      (∀ a, a ≠ P → a ≠ P - incP → a ≠ Q → a ≠ Q + incQ → out a = Img a) ∧
      (0 ≤ L0 ∧ L0 ≤ maxv → |out P - L0| ≤ C0 + ap + aq) ∧
      (0 ≤ R0 ∧ R0 ≤ maxv → |out Q - R0| ≤ C0 + ap + aq) ∧
      |out (P - incP) - L1| ≤ C0 ∧ |out (Q + incQ) - R1| ≤ C0) := by
  have hip : 0 < incP := by rw [hincP]; exact edgeInc_pos _ _ _ _ _ hw
  have hiq : 0 < incQ := by rw [hincQ]; exact edgeInc_pos _ _ _ _ _ hw
  have hC : 0 ≤ C0 := by
    rw [hC0]
    exact Int.mul_nonneg (CLIP_TAB_nonneg _ _) (le_of_lt (bitdepthScale_pos img yuv))
  have hS0 : 0 ≤ Strng := by omega
  have hS4 : Strng ≠ 4 := by omega
  have hg : filterGate Strng Alpha Beta (Img (P - incP)) (Img P) (Img Q) (Img (Q + incQ))
      = true := by
    rw [filterGate_eq_spec _ _ _ _ _ _ _ hS0, ← hL0, ← hL1, ← hR0, ← hR1]
    have h1 : Strng > 0 := by omega
    simp [filterGateSpec, hgate.1, hgate.2.1, hgate.2.2, h1]
  have e : out = normalFilter yuv C0 (sideFlag yuv Beta R0 R2) (sideFlag yuv Beta L0 L2) maxv
      L2 L1 L0 R0 R1 R2 incP incQ P Q Img := by
    rw [hout]
    unfold EdgeLoopPel
    rw [if_pos havail, ← hStrng, ← hAlpha, ← hBeta, ← hincP, ← hincQ, ← hP, ← hQ,
      filterPel_normal_eq _ _ _ _ _ _ _ _ _ _ _ _ hg hS4, ← hC0, ← hmaxv, ← hL0, ← hL1, ← hL2,
      ← hR0, ← hR1, ← hR2]
  have A := normalFilter_at yuv C0 (sideFlag yuv Beta R0 R2) (sideFlag yuv Beta L0 L2) maxv
    L2 L1 L0 R0 R1 R2 incP incQ P Q Img hL1 hR1 hip hiq hPQ
  have hfd : ∀ x : Int, c_shr x 3 = Int.fdiv x 8 := by
    intro x
    rw [c_shr_three, Int.fdiv_eq_ediv x (by norm_num : (0 : Int) ≤ 8)]
  have hdif : ∀ a' p' : Int, normalDif yuv C0 a' p' L1 L0 R0 R1 =
      IClip (-(if yuv ≠ 0 then C0 + 1 else C0 + p' + a'))
        (if yuv ≠ 0 then C0 + 1 else C0 + p' + a')
        (Int.fdiv (4 * (R0 - L0) + (L1 - R1) + 4) 8) := by
    intro a' p'
    unfold normalDif
    simp only [c_shl_two, hfd]
    rw [show (R0 - L0) * 4 = 4 * (R0 - L0) by ring]
  rw [hdif] at A
  refine ⟨⟨?_, hC⟩, ?_, ?_⟩
  · unfold bitdepthScale c_shl
    split_ifs <;> simp
  · intro hy
    rw [if_pos hy] at A
    have hd := IClip_mem (-(C0 + 1)) (C0 + 1) (Int.fdiv (4 * (R0 - L0) + (L1 - R1) + 4) 8)
      (by omega)
    have F : ∀ a, a ≠ P → a ≠ Q → out a = Img a := by
      intro a h1 h2
      rw [e]
      exact normalFilter_frame yuv C0 _ _ maxv L2 L1 L0 R0 R1 R2 incP incQ P Q Img a h1 h2
        (fun h => absurd h hy) (fun h => absurd h hy)
    refine ⟨by rw [e]; exact A.1, by rw [e]; exact A.2.1, F, ?_, ?_, ?_, ?_⟩
    · rw [F _ (by omega) (by omega), hL1]
    · rw [F _ (by omega) (by omega), hR1]
    · intro hr; rw [e, A.1]; exact (IClip_move maxv L0 _ (C0 + 1) hr hd).1
    · intro hr; rw [e, A.2.1]; exact (IClip_move maxv R0 _ (C0 + 1) hr hd).2
  · intro hy
    subst hy
    rw [if_neg (by simp), sideFlag_luma, sideFlag_luma, ← hap, ← haq] at A
    have hap' : 0 ≤ ap := by rw [hap]; split_ifs <;> omega
    have haq' : 0 ≤ aq := by rw [haq]; split_ifs <;> omega
    have hd := IClip_mem (-(C0 + ap + aq)) (C0 + ap + aq)
      (Int.fdiv (4 * (R0 - L0) + (L1 - R1) + 4) 8) (by omega)
    rw [sideFlag_luma, sideFlag_luma, ← hap, ← haq] at e
    simp only [true_and, c_shl_one] at A
    rw [show L1 * 2 = 2 * L1 by ring, show R1 * 2 = 2 * R1 by ring] at A
    refine ⟨by rw [e]; exact A.1, by rw [e]; exact A.2.1, by rw [e]; exact A.2.2.1,
      by rw [e]; exact A.2.2.2, ?_, ?_, ?_, ?_, ?_⟩
    · intro a h1 h2 h3 h4
      rw [e]
      exact normalFilter_frame 0 C0 _ _ maxv L2 L1 L0 R0 R1 R2 incP incQ P Q Img a h1 h3
        (fun _ => h2) (fun _ => h4)
    · intro hr; rw [e, A.1]; exact (IClip_move maxv L0 _ _ hr hd).1
    · intro hr; rw [e, A.2.1]; exact (IClip_move maxv R0 _ _ hr hd).2
    · rw [e, A.2.2.1]
      split_ifs
      · exact IClip_add_move C0 L1 _ hC
      · simpa using hC
    · rw [e, A.2.2.2]
      split_ifs
      · exact IClip_add_move C0 R1 _ hC
      · simpa using hC

/-- Witness for C11: the iteration `pel = 0` at the left edge of the second macroblock of
`exIntra` with strength 2 (luma, `Alpha = 15`, `Beta = 6`, `C0 = 1`, samples 106 100 101 | 102
103 104): `ap` and `aq` hold, `dif = 0`, and `P1` becomes `100 + clamp(-1, 1, 4) = 101`. -/
theorem EdgeLoop_normal_filter_witness :
    ((pelPixP (exEnv 2) exIntra.img 1 0 0 0 0).available ≠ 0 ∨
      (exIntra.img.mb_data 1).LFDisableIdc = 0) ∧
    (2 : Int) = pelStrng (exEnv 2) exIntra.img exIntra.p (fun _ => 2) 1 0 0 0 0 ∧
    (|(102 : Int) - 101| < 15 ∧ |(102 : Int) - 103| < 6 ∧ |(101 : Int) - 100| < 6) ∧
    EdgeLoopPel (exEnv 2) exIntra.img exIntra.p (fun _ => 2) 1 0 0 0 0 32 0 0 exIntra.p.imgY 0 14
      = 101 :=
  ⟨by decide, by decide, by decide,
    ((EdgeLoop_normal_filter (exEnv 2) exIntra.img exIntra.p (fun _ => 2) 1 0 0 0 0 32 0 0
      exIntra.p.imgY 0 2 15 6 1 255 1 1 15 16
      (by decide) (by decide) (by decide) (by decide) (by decide) (by decide) (by decide)
      (by decide) (by decide)
      101 100 106 102 103 104
      (by decide) (by decide) (by decide) (by decide) (by decide) (by decide)
      1 1 (by decide) (by decide) (by decide) (by decide) (by decide) (by decide) (by decide)
      _ rfl).2.2 rfl).2.2.1.trans (by decide)⟩

/-! ## One pass through the body of the `edge` loop -/

theorem GetStrength_planes (env : Env) (img : ImageParameters) (p : StorablePicture)
    (Y : Plane) (UV : Option (Plane × Plane)) (MbQAddr dir edge mvlimit : Int) :
    GetStrength env img { p with imgY := Y, imgUV := UV } MbQAddr dir edge mvlimit =
      GetStrength env img p MbQAddr dir edge mvlimit := by
  rfl

theorem GetStrengthMixed_planes (env : Env) (img : ImageParameters) (p : StorablePicture)
    (Y : Plane) (UV : Option (Plane × Plane)) (MbQAddr dir edge mvlimit : Int) :
    GetStrengthMixed env img { p with imgY := Y, imgUV := UV } MbQAddr dir edge mvlimit =
      GetStrengthMixed env img p MbQAddr dir edge mvlimit := by
  rfl

theorem EdgeLoop_planes (env : Env) (img : ImageParameters) (p : StorablePicture)
    (Y : Plane) (UV : Option (Plane × Plane)) (Strength : Int → Nat)
    (MbQAddr AlphaC0Offset BetaOffset dir edge width yuv uv : Int) (Img : Plane) :
    EdgeLoop env img { p with imgY := Y, imgUV := UV } Strength MbQAddr AlphaC0Offset BetaOffset
        dir edge width yuv uv Img =
      EdgeLoop env img p Strength MbQAddr AlphaC0Offset BetaOffset dir edge width yuv uv Img := by
  rfl

theorem pic_meta_trans (p q r : StorablePicture)
    (h1 : q = { p with imgY := q.imgY, imgUV := q.imgUV })
    (h2 : r = { q with imgY := r.imgY, imgUV := r.imgUV }) :
    r = { p with imgY := r.imgY, imgUV := r.imgUV } := by
  rw [h2, h1]

theorem pic_meta_refl (p : StorablePicture) : p = { p with imgY := p.imgY, imgUV := p.imgUV } := by
  cases p
  rfl

theorem deblockEdge_img (env : Env) (MbQAddr mvlimit : Int) (fl : List Int) (dir edge : Int)
    (s : State) : (deblockEdge env MbQAddr mvlimit fl dir edge s).img = s.img := by
  simp only [deblockEdge]

theorem deblockEdge_mixed (env : Env) (MbQAddr mvlimit : Int) (fl : List Int) (dir edge : Int)
    (s : State) :
    (deblockEdge env MbQAddr mvlimit fl dir edge s).mixedModeEdgeFlag =
      GetStrengthMixed env s.img s.p MbQAddr dir edge mvlimit := by
  simp only [deblockEdge]

theorem deblockEdge_p (env : Env) (MbQAddr mvlimit : Int) (fl : List Int) (dir edge : Int)
    (s : State) :
    (deblockEdge env MbQAddr mvlimit fl dir edge s).p =
      if StrengthSum (GetStrength env s.img s.p MbQAddr dir edge mvlimit) ≠ 0 then
        filterEdgePlanes env s.img s.p (GetStrength env s.img s.p MbQAddr dir edge mvlimit)
          MbQAddr dir (tab fl edge) edge (chroma_edge_at dir edge s.p.chroma_format_idc)
          (chroma_edge_at dir edge s.p.chroma_format_idc)
      else s.p := by
  simp only [deblockEdge]

theorem deblockExtraEdge_img (env : Env) (MbQAddr mvlimit : Int) (fl : List Int)
    (dir edge : Int) (s : State) :
    (deblockExtraEdge env MbQAddr mvlimit fl dir edge s).img =
      { s.img with DeblockCall := 1 } := by
  simp only [deblockExtraEdge]

theorem deblockExtraEdge_p (env : Env) (MbQAddr mvlimit : Int) (fl : List Int) (dir edge : Int)
    (s : State) :
    (deblockExtraEdge env MbQAddr mvlimit fl dir edge s).p =
      if StrengthWord (GetStrength env { s.img with DeblockCall := 2 } s.p MbQAddr dir 4
          mvlimit) ≠ 0 then
        filterEdgePlanes env { s.img with DeblockCall := 2 } s.p
          (GetStrength env { s.img with DeblockCall := 2 } s.p MbQAddr dir 4 mvlimit)
          MbQAddr dir (tab fl edge) 4 (chroma_edge_at dir edge s.p.chroma_format_idc) 4
      else s.p := by
  simp only [deblockExtraEdge]

theorem img_call_eq (img : ImageParameters) (h : img.DeblockCall = 1) :
    { img with DeblockCall := 1 } = img := by
  cases img
  simp only at h
  subst h
  rfl

theorem deblockEdge_meta (env : Env) (MbQAddr mvlimit : Int) (fl : List Int) (dir edge : Int)
    (s : State) :
    (deblockEdge env MbQAddr mvlimit fl dir edge s).p =
      { s.p with
        imgY := (deblockEdge env MbQAddr mvlimit fl dir edge s).p.imgY,
        imgUV := (deblockEdge env MbQAddr mvlimit fl dir edge s).p.imgUV } := by
  rw [deblockEdge_p]
  split
  · exact filterEdgePlanes_meta _ _ _ _ _ _ _ _ _ _
  · exact pic_meta_refl s.p

theorem deblockExtraEdge_meta (env : Env) (MbQAddr mvlimit : Int) (fl : List Int)
    (dir edge : Int) (s : State) :
    (deblockExtraEdge env MbQAddr mvlimit fl dir edge s).p =
      { s.p with
        imgY := (deblockExtraEdge env MbQAddr mvlimit fl dir edge s).p.imgY,
        imgUV := (deblockExtraEdge env MbQAddr mvlimit fl dir edge s).p.imgUV } := by
  rw [deblockExtraEdge_p]
  split
  · exact filterEdgePlanes_meta _ _ _ _ _ _ _ _ _ _
  · exact pic_meta_refl s.p

/-- The body of the `edge` loop, with the state after the regular edge written out. -/
theorem deblockStep_eq (env : Env) (MbQAddr mvlimit : Int) (fl : List Int) (l t : Int)
    (s : State) (dir edge : Int) :
    deblockStep env MbQAddr mvlimit fl l t s dir edge =
      if edge ≠ 0 ∨ (dir ≠ 0 ∧ t ≠ 0) ∨ (dir = 0 ∧ l ≠ 0) then
        if dir ≠ 0 ∧ edge = 0 ∧ (s.img.mb_data MbQAddr).mb_field = 0 ∧
            GetStrengthMixed env s.img s.p MbQAddr dir edge mvlimit ≠ 0 then
          deblockExtraEdge env MbQAddr mvlimit fl dir edge
            (deblockEdge env MbQAddr mvlimit fl dir edge s)
        else deblockEdge env MbQAddr mvlimit fl dir edge s
      else s := by
  unfold deblockStep
  simp only [b2i_ne_zero, decide_eq_true_eq, deblockEdge_img, deblockEdge_mixed]

theorem deblockStep_img (env : Env) (MbQAddr mvlimit : Int) (fl : List Int) (l t : Int)
    (s : State) (dir edge : Int) (hcall : s.img.DeblockCall = 1) :
    (deblockStep env MbQAddr mvlimit fl l t s dir edge).img = s.img := by
  rw [deblockStep_eq]
  split_ifs
  · rw [deblockExtraEdge_img, deblockEdge_img, img_call_eq _ hcall]
  · exact deblockEdge_img env MbQAddr mvlimit fl dir edge s
  · rfl

theorem deblockStep_meta (env : Env) (MbQAddr mvlimit : Int) (fl : List Int) (l t : Int)
    (s : State) (dir edge : Int) :
    (deblockStep env MbQAddr mvlimit fl l t s dir edge).p =
      { s.p with
        imgY := (deblockStep env MbQAddr mvlimit fl l t s dir edge).p.imgY,
        imgUV := (deblockStep env MbQAddr mvlimit fl l t s dir edge).p.imgUV } := by
  rw [deblockStep_eq]
  split_ifs
  · exact pic_meta_trans _ _ _ (deblockEdge_meta env MbQAddr mvlimit fl dir edge s)
      (deblockExtraEdge_meta env MbQAddr mvlimit fl dir edge _)
  · exact deblockEdge_meta env MbQAddr mvlimit fl dir edge s
  · exact pic_meta_refl s.p

/-! ## Iterations that store nothing new -/

theorem store_id (Img : Plane) (a v : Int) (h : Img a = v) : store Img a v = Img := by
  funext b
  unfold store
  split_ifs with hb
  · rw [hb, h]
  · rfl

theorem strongChroma_const (v P Q : Int) (Img : Plane) (hP : Img P = v) (hQ : Img Q = v) :
    strongChroma v v v v P Q Img = Img := by
  unfold strongChroma
  simp only [c_shl_one, c_shr_two]
  have e : (v * 2 + v + v + 2) / 4 = v := by omega
  rw [e, store_id Img Q v hQ, store_id Img P v hP]

theorem strongLuma_const (Alpha aq ap v incP incQ P Q : Int) (Img : Plane)
    (hP : Img P = v) (hP1 : Img (P - incP) = v) (hP2 : Img (P - incP * 2) = v)
    (hQ : Img Q = v) (hQ1 : Img (Q + incQ) = v) (hQ2 : Img (Q + incQ * 2) = v) :
    strongLuma Alpha aq ap v v v v v v v v incP incQ P Q Img = Img := by
  unfold strongLuma
  simp only [c_shl_one, c_shr_two, c_shr_three]
  have e1 : (v + (v + (v + v)) * 2 + v + 4) / 8 = v := by omega
  have e2 : (v * 2 + v + v + 2) / 4 = v := by omega
  have e3 : (v + v + v + v + 2) / 4 = v := by omega
  have e4 : ((v + v) * 2 + v + v + (v + v) + 4) / 8 = v := by omega
  simp only [e1, e2, e3, e4, ite_self]
  rw [store_id Img Q v hQ, store_id Img P v hP, store_id Img _ v hQ1, store_id Img _ v hP1,
    store_id Img _ v hQ2, store_id Img _ v hP2]

theorem normalFilter_const (yuv C0 aq ap maxv v incP incQ P Q : Int) (Img : Plane)
    (hv : 0 ≤ v ∧ v ≤ maxv) (hC : 0 ≤ C0) (haq : 0 ≤ aq) (hap : 0 ≤ ap)
    (hP : Img P = v) (hP1 : Img (P - incP) = v)
    (hQ : Img Q = v) (hQ1 : Img (Q + incQ) = v) :
    normalFilter yuv C0 aq ap maxv v v v v v v incP incQ P Q Img = Img := by
  have hd : normalDif yuv C0 aq ap v v v v = 0 := by
    unfold normalDif IClip
    simp only [c_shl_two, c_shr_three]
    split_ifs <;> omega
  have e1 : IClip 0 maxv (v + 0) = v := by unfold IClip; split_ifs <;> omega
  have e2 : IClip 0 maxv (v - 0) = v := by unfold IClip; split_ifs <;> omega
  have e3 : v + IClip (-C0) C0 (c_shr (v + c_shr (v + v + 1) 1 - c_shl v 1) 1) = v := by
    unfold IClip
    simp only [c_shl_one, c_shr_one]
    split_ifs <;> omega
  unfold normalFilter
  simp only [hd, e1, e2]
  rw [store_id Img P v hP, store_id Img Q v hQ]
  simp only [hP1, e3]
  rw [store_id Img _ v hP1]
  simp only [ite_self, hQ1, e3]
  rw [store_id Img _ v hQ1]
  simp only [ite_self]

/-- An iteration whose eight samples are one value `v` in `0..max` stores `v` wherever it
stores. -/
theorem filterPel_const (yuv Strng Alpha Beta : Int) (ClipTab : List Int)
    (bitdepth_scale maxv incP incQ P Q : Int) (Img : Plane) (v : Int)
    (hv : 0 ≤ v ∧ v ≤ maxv) (hC : 0 ≤ tab ClipTab Strng * bitdepth_scale)
    (hP : Img P = v) (hP1 : Img (P - incP) = v) (hP2 : Img (P - incP * 2) = v)
    (hP3 : Img (P - incP * 3) = v)
    (hQ : Img Q = v) (hQ1 : Img (Q + incQ) = v) (hQ2 : Img (Q + incQ * 2) = v)
    (hQ3 : Img (Q + incQ * 3) = v) :
    filterPel yuv Strng Alpha Beta ClipTab bitdepth_scale maxv incP incQ P Q Img = Img := by
  have hs : ∀ X0 X2 : Int, 0 ≤ sideFlag yuv Beta X0 X2 := by
    intro X0 X2
    unfold sideFlag
    split
    · rcases b2i_cases (decide (c_abs (X0 - X2) - Beta < 0)) with h | h <;> omega
    · omega
  unfold filterPel
  simp only [hP, hP1, hP2, hP3, hQ, hQ1, hQ2, hQ3]
  split_ifs
  · exact strongChroma_const v P Q Img hP hQ
  · exact strongLuma_const _ _ _ v incP incQ P Q Img hP hP1 hP2 hQ hQ1 hQ2
  · exact normalFilter_const yuv _ _ _ maxv v incP incQ P Q Img hv hC (hs _ _) (hs _ _)
      hP hP1 hQ hQ1
  · rfl

theorem pelIdle_sound (env : Env) (img : ImageParameters) (p : StorablePicture)
    (Strength : Int → Nat) (MbQAddr AlphaC0Offset BetaOffset dir edge width yuv uv : Int)
    (Img : Plane) (pel : Int)
    (h : pelIdle env img p Strength MbQAddr AlphaC0Offset BetaOffset dir edge width yuv uv Img
      pel = true) :
    EdgeLoopPel env img p Strength MbQAddr AlphaC0Offset BetaOffset dir edge width yuv uv Img pel
      = Img := by
  unfold pelIdle at h
  simp only [Bool.or_eq_true, Bool.not_eq_true', decide_eq_false_iff_not, Bool.and_eq_true,
    decide_eq_true_eq, List.all_eq_true, pelReadList, List.mem_cons, List.mem_singleton,
    forall_eq_or_imp, forall_eq, List.not_mem_nil, IsEmpty.forall_iff, implies_true,
    and_true] at h
  unfold EdgeLoopPel
  rcases h with h | h | ⟨hv, h0, h1, h2, h3, h4, h5, h6, h7⟩
  · rw [if_neg h]
  · split
    · exact filterPel_gate_false _ _ _ _ _ _ _ _ _ _ _ _ h
    · rfl
  · split
    · exact filterPel_const _ _ _ _ _ _ _ _ _ _ _ _ _ hv
        (Int.mul_nonneg (CLIP_TAB_nonneg _ _) (le_of_lt (bitdepthScale_pos img yuv)))
        rfl h1 h2 h3 h4 h5 h6 h7
    · rfl

theorem edgeIdle_sound (env : Env) (img : ImageParameters) (p : StorablePicture)
    (Strength : Int → Nat) (MbQAddr AlphaC0Offset BetaOffset dir edge width yuv uv : Int)
    (Img : Plane)
    (h : edgeIdle env img p Strength MbQAddr AlphaC0Offset BetaOffset dir edge width yuv uv Img
      = true) :
    EdgeLoop env img p Strength MbQAddr AlphaC0Offset BetaOffset dir edge width yuv uv Img
      = Img := by
  unfold edgeIdle at h
  rw [List.all_eq_true] at h
  unfold EdgeLoop
  apply foldl_fixed
  intro pel hpel
  exact pelIdle_sound _ _ _ _ _ _ _ _ _ _ _ _ _ _ (h pel hpel)

theorem planesIdle_sound (env : Env) (img : ImageParameters) (p : StorablePicture)
    (Strength : Int → Nat) (MbQAddr dir lumaFlag edgeY edge_cr edgeC : Int)
    (h : planesIdle env img p Strength MbQAddr dir lumaFlag edgeY edge_cr edgeC = true) :
    filterEdgePlanes env img p Strength MbQAddr dir lumaFlag edgeY edge_cr edgeC = p := by
  unfold planesIdle at h
  rw [Bool.and_eq_true, Bool.or_eq_true, decide_eq_true_eq] at h
  obtain ⟨hY, hUV⟩ := h
  have eY : (filterEdgePlanes env img p Strength MbQAddr dir lumaFlag edgeY edge_cr edgeC).imgY
      = p.imgY := by
    rw [filterEdgePlanes_imgY]
    split_ifs with hl
    · rcases hY with hY | hY
      · exact absurd hY hl
      · exact edgeIdle_sound _ _ _ _ _ _ _ _ _ _ _ _ _ hY
    · rfl
  have eUV : (filterEdgePlanes env img p Strength MbQAddr dir lumaFlag edgeY edge_cr
      edgeC).imgUV = p.imgUV := by
    rw [filterEdgePlanes_imgUV]
    cases hp : p.imgUV with
    | none => rfl
    | some uv =>
      rw [hp] at hUV
      simp only [Bool.or_eq_true, decide_eq_true_eq, Bool.and_eq_true] at hUV
      simp only []
      split_ifs with he
      · rcases hUV with hUV | ⟨hu, hv⟩
        · omega
        · rw [edgeIdle_sound _ _ _ _ _ _ _ _ _ _ _ _ _ hu,
            edgeIdle_sound _ _ _ _ _ _ _ _ _ _ _ _ _ hv]
      · rfl
  rw [filterEdgePlanes_meta, eY, eUV]

theorem stepIdle_sound (env : Env) (MbQAddr mvlimit : Int) (fl : List Int) (l t : Int)
    (s : State) (dir edge : Int)
    (h : stepIdle env s.img s.p MbQAddr mvlimit fl l t dir edge = true) :
    (deblockStep env MbQAddr mvlimit fl l t s dir edge).p = s.p := by
  unfold stepIdle at h
  simp only [Bool.or_eq_true, Bool.not_eq_true', decide_eq_false_iff_not, Bool.and_eq_true,
    decide_eq_true_eq] at h
  rw [deblockStep_eq]
  split_ifs with hc hx
  · rcases h with h | ⟨h1, h2⟩
    · exact absurd hc h
    · have e1 : (deblockEdge env MbQAddr mvlimit fl dir edge s).p = s.p := by
        rw [deblockEdge_p]
        split_ifs with hs
        · rcases h1 with h1 | h1
          · exact absurd h1 hs
          · exact planesIdle_sound _ _ _ _ _ _ _ _ _ _ h1
        · rfl
      rw [deblockExtraEdge_p, deblockEdge_img, e1]
      split_ifs with hs
      · rcases h2 with h2 | h2 | h2
        · exact absurd hx h2
        · exact absurd h2 hs
        · exact planesIdle_sound _ _ _ _ _ _ _ _ _ _ h2
      · rfl
  · rcases h with h | ⟨h1, _⟩
    · exact absurd hc h
    · rw [deblockEdge_p]
      split_ifs with hs
      · rcases h1 with h1 | h1
        · exact absurd h1 hs
        · exact planesIdle_sound _ _ _ _ _ _ _ _ _ _ h1
      · rfl
  · rfl

/-- A property of the state that every pass keeps is kept by a run of passes; the decoder state
and the picture's metadata are kept as well. -/
theorem steps_invariant (env : Env) (MbQAddr mvlimit : Int) (fl : List Int) (l t : Int)
    (Q : State → Prop) (s : State) (hcall : s.img.DeblockCall = 1) (L : List (Nat × Nat))
    (hstep : ∀ de ∈ L, ∀ st : State, st.img = s.img →
      st.p = { s.p with imgY := st.p.imgY, imgUV := st.p.imgUV } → Q st →
      Q (deblockStep env MbQAddr mvlimit fl l t st (de.1 : Int) (de.2 : Int))) :
    ∀ st : State, st.img = s.img →
      st.p = { s.p with imgY := st.p.imgY, imgUV := st.p.imgUV } → Q st →
      (L.foldl (fun st (de : Nat × Nat) =>
          deblockStep env MbQAddr mvlimit fl l t st (de.1 : Int) (de.2 : Int)) st).img = s.img ∧
      (L.foldl (fun st (de : Nat × Nat) =>
          deblockStep env MbQAddr mvlimit fl l t st (de.1 : Int) (de.2 : Int)) st).p =
        { s.p with
          imgY := (L.foldl (fun st (de : Nat × Nat) =>
            deblockStep env MbQAddr mvlimit fl l t st (de.1 : Int) (de.2 : Int)) st).p.imgY,
          imgUV := (L.foldl (fun st (de : Nat × Nat) =>
            deblockStep env MbQAddr mvlimit fl l t st (de.1 : Int) (de.2 : Int)) st).p.imgUV } ∧
      Q (L.foldl (fun st (de : Nat × Nat) =>
          deblockStep env MbQAddr mvlimit fl l t st (de.1 : Int) (de.2 : Int)) st) := by
  induction L with
  | nil => intro st h1 h2 h3; exact ⟨h1, h2, h3⟩
  | cons de L ih =>
    intro st h1 h2 h3
    rw [List.foldl_cons]
    apply ih (fun de' hde' => hstep de' (List.mem_cons_of_mem de hde'))
    · rw [deblockStep_img _ _ _ _ _ _ _ _ _ (by rw [h1]; exact hcall), h1]
    · exact pic_meta_trans _ _ _ h2 (deblockStep_meta env MbQAddr mvlimit fl l t st _ _)
    · exact hstep de (List.mem_cons_self de L) st h1 h2 h3

theorem deblockLoops_idle (env : Env) (MbQAddr mvlimit : Int) (fl : List Int) (l t : Int)
    (s : State) (hcall : s.img.DeblockCall = 1)
    (h : ∀ de ∈ edgeOrder,
      stepIdle env s.img s.p MbQAddr mvlimit fl l t (de.1 : Int) (de.2 : Int) = true) :
    (deblockLoops env MbQAddr mvlimit fl l t s).img = s.img ∧
    (deblockLoops env MbQAddr mvlimit fl l t s).p = s.p := by
  rw [deblockLoops_eq]
  have A := steps_invariant env MbQAddr mvlimit fl l t (fun st => st.p = s.p) s hcall edgeOrder
    (by
      intro de hde st h1 _ h3
      have h' := h de hde
      rw [← h1, ← h3] at h'
      rw [stepIdle_sound env MbQAddr mvlimit fl l t st _ _ h', h3])
    s rfl (pic_meta_refl s.p) rfl
  exact ⟨A.1, A.2.2⟩

theorem mbStartImg_call (env : Env) (img : ImageParameters) (MbQAddr : Int) :
    (mbStartImg env img MbQAddr).DeblockCall = 1 := by
  rfl

theorem resetCall_p (s : State) : (resetCall s).p = s.p := by
  rfl

theorem resetCall_img (s : State) : (resetCall s).img = { s.img with DeblockCall := 0 } := by
  rfl

/-- A call of `DeblockMb` that satisfies `mbIdle` returns and leaves the picture as it was. -/
theorem DeblockMb_idle (env : Env) (s : State) (MbQAddr : Int)
    (h : mbIdle env s.img s.p MbQAddr = true) :
    ∃ s', DeblockMb env s MbQAddr = some s' ∧ s'.p = s.p ∧
      s'.img = mbEndImg env s.img MbQAddr := by
  unfold mbIdle at h
  simp only [Bool.and_eq_true, Bool.not_eq_true', decide_eq_false_iff_not, Bool.or_eq_true,
    decide_eq_true_eq, List.all_eq_true] at h
  obtain ⟨hassert, h⟩ := h
  by_cases hd : (s.img.mb_data MbQAddr).LFDisableIdc = 1
  · refine ⟨resetCall s, ?_, rfl, ?_⟩
    · rw [DeblockMb_disabled_eq env s MbQAddr hd, if_neg hassert]
    · unfold mbEndImg resetCall
      rw [if_pos hd]
  · rcases h with h | h
    · exact absurd h hd
    · have A := deblockLoops_idle env MbQAddr (mbMvlimit env s.p (s.img.mb_data MbQAddr))
        (mbFilterNon8x8LumaEdgesFlag (s.img.mb_data MbQAddr))
        (mbFilterLeftMbEdgeFlag env s.img MbQAddr) (mbFilterTopMbEdgeFlag env s.img s.p MbQAddr)
        { s with img := mbStartImg env s.img MbQAddr } (mbStartImg_call env s.img MbQAddr) h
      refine ⟨_, DeblockMb_enabled_eq env s MbQAddr hassert hd, ?_, ?_⟩
      · rw [resetCall_p, A.2]
      · rw [resetCall_img, A.1]
        unfold mbEndImg
        rw [if_neg hd]

theorem foldlM_idle (env : Env) (L : List Nat) :
    ∀ s : State, picIdle env s.p L s.img = true →
      ∃ s', L.foldlM (fun st (i : Nat) => DeblockMb env st (i : Int)) s = some s' ∧
        s'.p = s.p := by
  induction L with
  | nil => intro s _; exact ⟨s, rfl, rfl⟩
  | cons a L ih =>
    intro s h
    unfold picIdle at h
    rw [Bool.and_eq_true] at h
    obtain ⟨s1, e1, hp, hi⟩ := DeblockMb_idle env s (a : Int) h.1
    have h2 := h.2
    rw [← hp, ← hi] at h2
    obtain ⟨s', e', hp'⟩ := ih s1 h2
    refine ⟨s', ?_, by rw [hp', hp]⟩
    rw [List.foldlM_cons, e1]
    exact e'

/-- A picture all of whose `DeblockMb` calls satisfy `mbIdle` comes back unchanged from
`DeblockPicture`. -/
theorem DeblockPicture_idle (env : Env) (s : State)
    (h : picIdle env s.p (List.range s.p.PicSizeInMbs) s.img = true) :
    ∃ s', DeblockPicture env s = some s' ∧ s'.p = s.p := by
  unfold DeblockPicture
  exact foldlM_idle env _ s h

/-! ## Samples away from the edges of a macroblock -/

theorem deblockStepOps_planes (env : Env) (img : ImageParameters) (p : StorablePicture)
    (Y : Plane) (UV : Option (Plane × Plane)) (MbQAddr mvlimit l t dir edge : Int) :
    deblockStepOps env img { p with imgY := Y, imgUV := UV } MbQAddr mvlimit l t dir edge =
      deblockStepOps env img p MbQAddr mvlimit l t dir edge := by
  simp only [deblockStepOps, GetStrengthMixed_planes]

theorem PelNum_16 (p : StorablePicture) (dir : Int) : (PelNum p dir 0).toNat = 16 := by
  unfold PelNum
  rw [if_neg (by simp)]
  rfl

theorem filterEdgePlanes_frame_luma (env : Env) (img : ImageParameters) (p : StorablePicture)
    (Strength : Int → Nat) (MbQAddr dir lumaFlag edgeY edge_cr edgeC : Int) (a : Int)
    (h : lumaFlag ≠ 0 → ∀ pel : Nat, pel < 16 →
      a ∉ pelWriteList env img MbQAddr dir edgeY p.size_x 0 (pel : Int)) :
    (filterEdgePlanes env img p Strength MbQAddr dir lumaFlag edgeY edge_cr edgeC).imgY a =
      p.imgY a := by
  rw [filterEdgePlanes_imgY]
  split_ifs with hl
  · apply EdgeLoop_frame
    rw [PelNum_16]
    exact h hl
  · rfl

theorem deblockStep_frame_luma (env : Env) (MbQAddr mvlimit : Int) (fl : List Int) (l t : Int)
    (s : State) (dir edge : Int) (a : Int) (he : edge ≠ 4)
    (h : tab fl edge ≠ 0 →
      ∀ op ∈ deblockStepOps env s.img s.p MbQAddr mvlimit l t dir edge,
        a ∉ opLumaWrites env s.img s.p MbQAddr op) :
    (deblockStep env MbQAddr mvlimit fl l t s dir edge).p.imgY a = s.p.imgY a := by
  unfold deblockStepOps at h
  simp only [b2i_ne_zero, decide_eq_true_eq] at h
  have hw : ∀ op : Int × Int, a ∉ opLumaWrites env s.img s.p MbQAddr op →
      ∀ pel : Nat, pel < 16 →
        a ∉ pelWriteList env (opImg s.img op) MbQAddr op.1 op.2 s.p.size_x 0 (pel : Int) := by
    intro op hop pel hpel hmem
    apply hop
    unfold opLumaWrites
    rw [List.mem_flatMap]
    exact ⟨pel, List.mem_range.mpr hpel, hmem⟩
  have hreg : (tab fl edge ≠ 0 → a ∉ opLumaWrites env s.img s.p MbQAddr (dir, edge)) →
      (deblockEdge env MbQAddr mvlimit fl dir edge s).p.imgY a = s.p.imgY a := by
    intro h1
    rw [deblockEdge_p]
    split_ifs with hs
    · apply filterEdgePlanes_frame_luma
      intro hf pel hpel
      have := hw (dir, edge) (h1 hf) pel hpel
      unfold opImg at this
      rw [if_neg he] at this
      exact this
    · rfl
  rw [deblockStep_eq]
  split_ifs with hc hx
  · rw [if_pos hc, if_pos hx] at h
    have e1 := hreg (fun hf => h hf (dir, edge) (List.mem_cons_self _ _))
    rw [deblockExtraEdge_p, deblockEdge_img]
    split_ifs with hs
    · rw [filterEdgePlanes_frame_luma, e1]
      intro hf pel hpel
      have := hw (dir, 4) (h hf (dir, 4) (List.mem_cons_of_mem _ (List.mem_cons_self _ _)))
        pel hpel
      unfold opImg at this
      rw [if_pos rfl] at this
      have e2 : (deblockEdge env MbQAddr mvlimit fl dir edge s).p.size_x = s.p.size_x := by
        rw [deblockEdge_meta]
      rw [e2]
      exact this
    · exact e1
  · rw [if_pos hc, if_neg hx] at h
    exact hreg (fun hf => h hf (dir, edge) (List.mem_cons_self _ _))
  · rfl

theorem filterEdgePlanes_frame_chroma (env : Env) (img : ImageParameters)
    (p : StorablePicture) (Strength : Int → Nat)
    (MbQAddr dir lumaFlag edgeY edge_cr edgeC : Int) (a : Int)
    (h : edge_cr ≥ 0 → ∀ pel : Nat, pel < (PelNum p dir 1).toNat →
      a ∉ pelWriteList env img MbQAddr dir edgeC p.size_x_cr 1 (pel : Int)) :
    (filterEdgePlanes env img p Strength MbQAddr dir lumaFlag edgeY edge_cr edgeC).imgUV.map
        (fun uv => (uv.1 a, uv.2 a)) =
      p.imgUV.map (fun uv => (uv.1 a, uv.2 a)) := by
  rw [filterEdgePlanes_imgUV]
  cases hp : p.imgUV with
  | none => rfl
  | some uv =>
    simp only []
    split_ifs with hc
    · simp only [Option.map_some']
      rw [EdgeLoop_frame _ _ _ _ _ _ _ _ _ _ _ _ _ a (h hc),
        EdgeLoop_frame _ _ _ _ _ _ _ _ _ _ _ _ _ a (h hc)]
    · rfl

theorem deblockStep_frame_chroma (env : Env) (MbQAddr mvlimit : Int) (fl : List Int) (l t : Int)
    (s : State) (dir edge : Int) (a : Int) (he : edge ≠ 4)
    (h : ∀ op ∈ deblockStepOps env s.img s.p MbQAddr mvlimit l t dir edge,
      a ∉ opChromaWrites env s.img s.p MbQAddr op) :
    (deblockStep env MbQAddr mvlimit fl l t s dir edge).p.imgUV.map
        (fun uv => (uv.1 a, uv.2 a)) =
      s.p.imgUV.map (fun uv => (uv.1 a, uv.2 a)) := by
  unfold deblockStepOps at h
  simp only [b2i_ne_zero, decide_eq_true_eq] at h
  have hw : ∀ op : Int × Int, a ∉ opChromaWrites env s.img s.p MbQAddr op →
      opEdgeCr s.p op ≥ 0 → ∀ pel : Nat, pel < (PelNum s.p op.1 1).toNat →
        a ∉ pelWriteList env (opImg s.img op) MbQAddr op.1
          (if op.2 = 4 then 4 else opEdgeCr s.p op) s.p.size_x_cr 1 (pel : Int) := by
    intro op hop hcr pel hpel hmem
    apply hop
    unfold opChromaWrites
    rw [if_neg (by omega), List.mem_flatMap]
    exact ⟨pel, List.mem_range.mpr hpel, hmem⟩
  have hreg : a ∉ opChromaWrites env s.img s.p MbQAddr (dir, edge) →
      (deblockEdge env MbQAddr mvlimit fl dir edge s).p.imgUV.map (fun uv => (uv.1 a, uv.2 a)) =
        s.p.imgUV.map (fun uv => (uv.1 a, uv.2 a)) := by
    intro h1
    rw [deblockEdge_p]
    split_ifs with hs
    · apply filterEdgePlanes_frame_chroma
      intro hcr pel hpel
      have := hw (dir, edge) h1 (by unfold opEdgeCr; rw [if_neg he]; exact hcr) pel hpel
      unfold opImg opEdgeCr at this
      simp only [if_neg he] at this
      exact this
    · rfl
  rw [deblockStep_eq]
  split_ifs with hc hx
  · rw [if_pos hc, if_pos hx] at h
    have e1 := hreg (h (dir, edge) (List.mem_cons_self _ _))
    have e2 : (deblockEdge env MbQAddr mvlimit fl dir edge s).p.size_x_cr = s.p.size_x_cr := by
      rw [deblockEdge_meta]
    have e3 : (deblockEdge env MbQAddr mvlimit fl dir edge s).p.chroma_format_idc =
        s.p.chroma_format_idc := by
      rw [deblockEdge_meta]
    rw [deblockExtraEdge_p, deblockEdge_img]
    split_ifs with hs
    · rw [filterEdgePlanes_frame_chroma, e1]
      intro hcr pel hpel
      have hP : PelNum (deblockEdge env MbQAddr mvlimit fl dir edge s).p dir 1 =
          PelNum s.p dir 1 := by
        unfold PelNum
        rw [e3]
      rw [hP] at hpel
      rw [e3, hx.2.1] at hcr
      have := hw (dir, 4) (h (dir, 4) (List.mem_cons_of_mem _ (List.mem_cons_self _ _)))
        (by unfold opEdgeCr; rw [if_pos rfl]; exact hcr) pel hpel
      unfold opImg at this
      simp only [if_pos] at this
      rw [e2]
      exact this
    · exact e1
  · rw [if_pos hc, if_neg hx] at h
    exact hreg (h (dir, edge) (List.mem_cons_self _ _))
  · rfl

theorem opLumaWrites_planes (env : Env) (img : ImageParameters) (p : StorablePicture)
    (Y : Plane) (UV : Option (Plane × Plane)) (MbQAddr : Int) (op : Int × Int) :
    opLumaWrites env img { p with imgY := Y, imgUV := UV } MbQAddr op =
      opLumaWrites env img p MbQAddr op := by
  rfl

theorem opChromaWrites_planes (env : Env) (img : ImageParameters) (p : StorablePicture)
    (Y : Plane) (UV : Option (Plane × Plane)) (MbQAddr : Int) (op : Int × Int) :
    opChromaWrites env img { p with imgY := Y, imgUV := UV } MbQAddr op =
      opChromaWrites env img p MbQAddr op := by
  rfl

theorem edgeOrder_ne_four : ∀ de ∈ edgeOrder, ((de.2 : Nat) : Int) ≠ 4 := by
  decide

/-- A luma sample that no edge operation of a run of passes can store to keeps its value. -/
theorem steps_frame_luma (env : Env) (MbQAddr mvlimit : Int) (fl : List Int) (l t : Int)
    (s : State) (hcall : s.img.DeblockCall = 1) (L : List (Nat × Nat))
    (hL : ∀ de ∈ L, ((de.2 : Nat) : Int) ≠ 4) (a : Int)
    (h : ∀ de ∈ L, tab fl (de.2 : Int) ≠ 0 →
      ∀ op ∈ deblockStepOps env s.img s.p MbQAddr mvlimit l t (de.1 : Int) (de.2 : Int),
        a ∉ opLumaWrites env s.img s.p MbQAddr op)
    (st : State) (h1 : st.img = s.img)
    (h2 : st.p = { s.p with imgY := st.p.imgY, imgUV := st.p.imgUV }) :
    (L.foldl (fun st (de : Nat × Nat) =>
        deblockStep env MbQAddr mvlimit fl l t st (de.1 : Int) (de.2 : Int)) st).p.imgY a =
      st.p.imgY a := by
  refine (steps_invariant env MbQAddr mvlimit fl l t (fun st' => st'.p.imgY a = st.p.imgY a) s
    hcall L ?_ st h1 h2 rfl).2.2
  intro de hde st' h1' h2' hQ
  rw [← hQ]
  apply deblockStep_frame_luma _ _ _ _ _ _ _ _ _ _ (hL de hde)
  rw [h1', h2', deblockStepOps_planes]
  intro hf op hop
  rw [opLumaWrites_planes]
  exact h de hde hf op hop

/-- A chroma sample that no edge operation of a run of passes can store to keeps its value. -/
theorem steps_frame_chroma (env : Env) (MbQAddr mvlimit : Int) (fl : List Int) (l t : Int)
    (s : State) (hcall : s.img.DeblockCall = 1) (L : List (Nat × Nat))
    (hL : ∀ de ∈ L, ((de.2 : Nat) : Int) ≠ 4) (a : Int)
    (h : ∀ de ∈ L,
      ∀ op ∈ deblockStepOps env s.img s.p MbQAddr mvlimit l t (de.1 : Int) (de.2 : Int),
        a ∉ opChromaWrites env s.img s.p MbQAddr op)
    (st : State) (h1 : st.img = s.img)
    (h2 : st.p = { s.p with imgY := st.p.imgY, imgUV := st.p.imgUV }) :
    (L.foldl (fun st (de : Nat × Nat) =>
        deblockStep env MbQAddr mvlimit fl l t st (de.1 : Int) (de.2 : Int)) st).p.imgUV.map
        (fun uv => (uv.1 a, uv.2 a)) =
      st.p.imgUV.map (fun uv => (uv.1 a, uv.2 a)) := by
  refine (steps_invariant env MbQAddr mvlimit fl l t
    (fun st' => st'.p.imgUV.map (fun uv => (uv.1 a, uv.2 a)) =
      st.p.imgUV.map (fun uv => (uv.1 a, uv.2 a))) s hcall L ?_ st h1 h2 rfl).2.2
  intro de hde st' h1' h2' hQ
  rw [← hQ]
  apply deblockStep_frame_chroma _ _ _ _ _ _ _ _ _ _ (hL de hde)
  rw [h1', h2', deblockStepOps_planes]
  intro op hop
  rw [opChromaWrites_planes]
  exact h de hde op hop

/-- The edge operations of a run of passes are determined by the state before the run. -/
theorem steps_trace (env : Env) (MbQAddr mvlimit : Int) (fl : List Int) (l t : Int)
    (s : State) (hcall : s.img.DeblockCall = 1) (L : List (Nat × Nat)) :
    ∀ (st : State) (acc : List (Int × Int)), st.img = s.img →
      st.p = { s.p with imgY := st.p.imgY, imgUV := st.p.imgUV } →
      (L.foldl (fun se (de : Nat × Nat) =>
        (deblockStep env MbQAddr mvlimit fl l t se.1 (de.1 : Int) (de.2 : Int),
          se.2 ++ deblockStepOps env se.1.img se.1.p MbQAddr mvlimit l t (de.1 : Int)
            (de.2 : Int))) (st, acc)).2 =
        acc ++ L.flatMap (fun de =>
          deblockStepOps env s.img s.p MbQAddr mvlimit l t (de.1 : Int) (de.2 : Int)) := by
  induction L with
  | nil => intro st acc _ _; simp
  | cons de L ih =>
    intro st acc h1 h2
    rw [List.foldl_cons, ih _ _
      (by rw [deblockStep_img _ _ _ _ _ _ _ _ _ (by rw [h1]; exact hcall), h1])
      (pic_meta_trans _ _ _ h2 (deblockStep_meta env MbQAddr mvlimit fl l t st _ _))]
    simp only [List.flatMap_cons, List.append_assoc]
    rw [h1, h2, deblockStepOps_planes]

theorem DeblockMbOps_eq (env : Env) (s : State) (MbQAddr : Int) :
    DeblockMbOps env s MbQAddr =
      if (s.img.mb_data MbQAddr).mb_type = env.I8MB ∧
          (s.img.mb_data MbQAddr).luma_transform_size_8x8_flag = 0 then []
      else if (s.img.mb_data MbQAddr).LFDisableIdc = 1 then []
      else edgeOrder.flatMap (fun de =>
        deblockStepOps env (mbStartImg env s.img MbQAddr) s.p MbQAddr
          (mbMvlimit env s.p (s.img.mb_data MbQAddr))
          (mbFilterLeftMbEdgeFlag env s.img MbQAddr)
          (mbFilterTopMbEdgeFlag env s.img s.p MbQAddr) (de.1 : Int) (de.2 : Int)) := by
  unfold DeblockMbOps
  simp only []
  split_ifs
  · rfl
  · rfl
  · rw [deblockLoopsTrace_eq, steps_trace env MbQAddr _ _ _ _
      { s with img := mbStartImg env s.img MbQAddr } (mbStartImg_call env s.img MbQAddr)
      edgeOrder _ [] rfl (pic_meta_refl s.p)]
    rfl

theorem DeblockMb_assert (env : Env) (s : State) (MbQAddr : Int)
    (h : (s.img.mb_data MbQAddr).mb_type = env.I8MB ∧
      (s.img.mb_data MbQAddr).luma_transform_size_8x8_flag = 0) :
    DeblockMb env s MbQAddr = none := by
  unfold DeblockMb
  simp only []
  rw [if_pos h]

/-! ## Which edges `DeblockMb` processes -/

theorem deblockStepOps_mem_iff (env : Env) (img : ImageParameters) (p : StorablePicture)
    (MbQAddr mvlimit l t dir edge : Int) (op : Int × Int) :
    op ∈ deblockStepOps env img p MbQAddr mvlimit l t dir edge ↔
      (edge ≠ 0 ∨ (dir ≠ 0 ∧ t ≠ 0) ∨ (dir = 0 ∧ l ≠ 0)) ∧
      (op = (dir, edge) ∨ (op = (dir, 4) ∧ dir ≠ 0 ∧ edge = 0 ∧
        (img.mb_data MbQAddr).mb_field = 0 ∧
        GetStrengthMixed env img p MbQAddr dir edge mvlimit ≠ 0)) := by
  unfold deblockStepOps
  simp only [b2i_ne_zero, decide_eq_true_eq]
  split_ifs with hc hx
  · simp only [List.mem_cons, List.mem_singleton, List.not_mem_nil, or_false]
    constructor
    · rintro (h | h)
      · exact ⟨hc, Or.inl h⟩
      · exact ⟨hc, Or.inr ⟨h, hx⟩⟩
    · rintro ⟨_, h | ⟨h, _⟩⟩
      · exact Or.inl h
      · exact Or.inr h
  · simp only [List.mem_singleton]
    constructor
    · intro h; exact ⟨hc, Or.inl h⟩
    · rintro ⟨_, h | ⟨_, h⟩⟩
      · exact h
      · exact absurd h hx
  · simp only [List.not_mem_nil, false_iff, not_and]
    intro h; exact absurd h hc

theorem edgeOrder_mem (d e : Nat) (hd : d < 2) (he : e < 4) : (d, e) ∈ edgeOrder := by
  have hd' : d = 0 ∨ d = 1 := by omega
  have he' : e = 0 ∨ e = 1 ∨ e = 2 ∨ e = 3 := by omega
  rcases hd' with rfl | rfl <;> rcases he' with rfl | rfl | rfl | rfl <;> decide

/-- A regular edge `(d, e)` is among the edge operations of the loops exactly when
`edge || EdgeCondition` holds for it. -/
theorem edgeOps_mem (env : Env) (img : ImageParameters) (p : StorablePicture)
    (MbQAddr mvlimit l t : Int) (d e : Nat) (hd : d < 2) (he : e < 4) :
    ((d : Int), (e : Int)) ∈ edgeOrder.flatMap (fun de =>
        deblockStepOps env img p MbQAddr mvlimit l t (de.1 : Int) (de.2 : Int)) ↔
      ((e : Int) ≠ 0 ∨ ((d : Int) ≠ 0 ∧ t ≠ 0) ∨ ((d : Int) = 0 ∧ l ≠ 0)) := by
  rw [List.mem_flatMap]
  constructor
  · rintro ⟨de, _, hop⟩
    rw [deblockStepOps_mem_iff] at hop
    obtain ⟨hc, h | ⟨h, _⟩⟩ := hop
    · simp only [Prod.mk.injEq] at h
      rw [h.1, h.2]
      exact hc
    · simp only [Prod.mk.injEq] at h
      omega
  · intro hc
    refine ⟨(d, e), edgeOrder_mem d e hd he, ?_⟩
    rw [deblockStepOps_mem_iff]
    exact ⟨hc, Or.inl rfl⟩

/-- C12: in a non-MBAFF picture, for a macroblock on which `DeblockMb` neither aborts nor
returns early, the edge operations of `DeblockMb` (the passes through `if (edge ||
EdgeCondition)`, listed by `DeblockMbOps`, which are those of the run that produces the result
of `DeblockMb`) contain the external left edge `(0, 0)` and the external top edge `(1, 0)` as
follows.  With `LFDisableIdc == 0`: the left edge iff `mb_x != 0` and the top edge iff
`mb_y != 0`, for `get_mb_pos(MbQAddr, &mb_x, &mb_y)`.  With `LFDisableIdc == 2`: the left edge
iff `mbAvailA` and the top edge iff `mbAvailB`.  The internal edges 1..3 of both directions
are contained in both cases. -/
theorem DeblockMb_external_edges (env : Env) (s : State) (MbQAddr : Int)
    (hassert : ¬ ((s.img.mb_data MbQAddr).mb_type = env.I8MB ∧
      (s.img.mb_data MbQAddr).luma_transform_size_8x8_flag = 0))
    (hmbaff : s.p.MbaffFrameFlag = 0) :
    ((s.img.mb_data MbQAddr).LFDisableIdc ≠ 1 →
      DeblockMb env s MbQAddr = some (resetCall (deblockLoopsTrace env MbQAddr
        (mbMvlimit env s.p (s.img.mb_data MbQAddr))
        (mbFilterNon8x8LumaEdgesFlag (s.img.mb_data MbQAddr))
        (mbFilterLeftMbEdgeFlag env s.img MbQAddr) (mbFilterTopMbEdgeFlag env s.img s.p MbQAddr)
        { s with img := mbStartImg env s.img MbQAddr }).1) ∧
      DeblockMbOps env s MbQAddr = (deblockLoopsTrace env MbQAddr
        (mbMvlimit env s.p (s.img.mb_data MbQAddr))
        (mbFilterNon8x8LumaEdgesFlag (s.img.mb_data MbQAddr))
        (mbFilterLeftMbEdgeFlag env s.img MbQAddr) (mbFilterTopMbEdgeFlag env s.img s.p MbQAddr)
        { s with img := mbStartImg env s.img MbQAddr }).2) ∧
    ((s.img.mb_data MbQAddr).LFDisableIdc = 0 →
      (((0 : Int), (0 : Int)) ∈ DeblockMbOps env s MbQAddr ↔
        (env.get_mb_pos { s.img with DeblockCall := 1 } MbQAddr).1 ≠ 0) ∧
      (((1 : Int), (0 : Int)) ∈ DeblockMbOps env s MbQAddr ↔
        (env.get_mb_pos { s.img with DeblockCall := 1 } MbQAddr).2 ≠ 0) ∧
      ∀ d e : Nat, d < 2 → 1 ≤ e → e ≤ 3 →
        ((d : Int), (e : Int)) ∈ DeblockMbOps env s MbQAddr) ∧
    ((s.img.mb_data MbQAddr).LFDisableIdc = 2 →
      (((0 : Int), (0 : Int)) ∈ DeblockMbOps env s MbQAddr ↔
        (s.img.mb_data MbQAddr).mbAvailA ≠ 0) ∧
      (((1 : Int), (0 : Int)) ∈ DeblockMbOps env s MbQAddr ↔
        (s.img.mb_data MbQAddr).mbAvailB ≠ 0) ∧
      ∀ d e : Nat, d < 2 → 1 ≤ e → e ≤ 3 →
        ((d : Int), (e : Int)) ∈ DeblockMbOps env s MbQAddr) := by
  have hops : (s.img.mb_data MbQAddr).LFDisableIdc ≠ 1 →
      DeblockMbOps env s MbQAddr = edgeOrder.flatMap (fun de =>
        deblockStepOps env (mbStartImg env s.img MbQAddr) s.p MbQAddr
          (mbMvlimit env s.p (s.img.mb_data MbQAddr))
          (mbFilterLeftMbEdgeFlag env s.img MbQAddr)
          (mbFilterTopMbEdgeFlag env s.img s.p MbQAddr) (de.1 : Int) (de.2 : Int)) := by
    intro hen
    rw [DeblockMbOps_eq, if_neg hassert, if_neg hen]
  have h00 := fun (hen : (s.img.mb_data MbQAddr).LFDisableIdc ≠ 1) =>
    (congrArg (fun L => ((0 : Int), (0 : Int)) ∈ L) (hops hen)).trans
      (propext (edgeOps_mem env (mbStartImg env s.img MbQAddr) s.p MbQAddr _
        (mbFilterLeftMbEdgeFlag env s.img MbQAddr)
        (mbFilterTopMbEdgeFlag env s.img s.p MbQAddr) 0 0 (by omega) (by omega)))
  have h10 := fun (hen : (s.img.mb_data MbQAddr).LFDisableIdc ≠ 1) =>
    (congrArg (fun L => ((1 : Int), (0 : Int)) ∈ L) (hops hen)).trans
      (propext (edgeOps_mem env (mbStartImg env s.img MbQAddr) s.p MbQAddr _
        (mbFilterLeftMbEdgeFlag env s.img MbQAddr)
        (mbFilterTopMbEdgeFlag env s.img s.p MbQAddr) 1 0 (by omega) (by omega)))
  have hint : (s.img.mb_data MbQAddr).LFDisableIdc ≠ 1 → ∀ d e : Nat, d < 2 → 1 ≤ e → e ≤ 3 →
      ((d : Int), (e : Int)) ∈ DeblockMbOps env s MbQAddr := by
    intro hen d e hd he1 he3
    rw [hops hen, edgeOps_mem _ _ _ _ _ _ _ d e hd (by omega)]
    left
    omega
  refine ⟨?_, ?_, ?_⟩
  · intro hen
    constructor
    · exact DeblockMb_enabled_eq env s MbQAddr hassert hen
    · unfold DeblockMbOps
      simp only []
      rw [if_neg hassert, if_neg hen]
  · intro h0
    have hen : (s.img.mb_data MbQAddr).LFDisableIdc ≠ 1 := by omega
    have h2 : ¬ (s.img.mb_data MbQAddr).LFDisableIdc = 2 := by omega
    refine ⟨?_, ?_, hint hen⟩
    · rw [h00 hen]
      unfold mbFilterLeftMbEdgeFlag
      simp only [if_neg h2]
      simp [b2i]
    · rw [h10 hen]
      unfold mbFilterTopMbEdgeFlag
      simp only [if_neg h2, hmbaff]
      simp [b2i]
  · intro h2
    have hen : (s.img.mb_data MbQAddr).LFDisableIdc ≠ 1 := by omega
    refine ⟨?_, ?_, hint hen⟩
    · rw [h00 hen]
      unfold mbFilterLeftMbEdgeFlag
      simp only [if_pos h2]
      simp
    · rw [h10 hen]
      unfold mbFilterTopMbEdgeFlag
      simp only [if_pos h2, hmbaff]
      simp

/-- Witness for C12: the second macroblock of `exIntra` (`LFDisableIdc = 0`, `mb_x = 16`,
`mb_y = 0`): its left edge is processed and its top edge is not. -/
theorem DeblockMb_external_edges_witness :
    ¬ ((exIntra.img.mb_data 1).mb_type = (exEnv 2).I8MB ∧
      (exIntra.img.mb_data 1).luma_transform_size_8x8_flag = 0) ∧
    exIntra.p.MbaffFrameFlag = 0 ∧ (exIntra.img.mb_data 1).LFDisableIdc = 0 ∧
    ((0 : Int), (0 : Int)) ∈ DeblockMbOps (exEnv 2) exIntra 1 ∧
    ((1 : Int), (0 : Int)) ∉ DeblockMbOps (exEnv 2) exIntra 1 :=
  ⟨by decide, by decide, by decide,
    ((DeblockMb_external_edges (exEnv 2) exIntra 1 (by decide) (by decide)).2.1
      (by decide)).1.mpr (by decide),
    fun h => absurd (((DeblockMb_external_edges (exEnv 2) exIntra 1 (by decide)
      (by decide)).2.1 (by decide)).2.1.mp h) (by decide)⟩

/-! ## Evaluating the loops of `DeblockMb` at one sample -/

theorem steps_idle (env : Env) (MbQAddr mvlimit : Int) (fl : List Int) (l t : Int)
    (s : State) (hcall : s.img.DeblockCall = 1) (L : List (Nat × Nat))
    (h : ∀ de ∈ L,
      stepIdle env s.img s.p MbQAddr mvlimit fl l t (de.1 : Int) (de.2 : Int) = true) :
    (L.foldl (fun st (de : Nat × Nat) =>
        deblockStep env MbQAddr mvlimit fl l t st (de.1 : Int) (de.2 : Int)) s).img = s.img ∧
    (L.foldl (fun st (de : Nat × Nat) =>
        deblockStep env MbQAddr mvlimit fl l t st (de.1 : Int) (de.2 : Int)) s).p = s.p := by
  have A := steps_invariant env MbQAddr mvlimit fl l t (fun st => st.p = s.p) s hcall L
    (by
      intro de hde st h1 _ h3
      have h' := h de hde
      rw [← h1, ← h3] at h'
      rw [stepIdle_sound env MbQAddr mvlimit fl l t st _ _ h', h3])
    s rfl (pic_meta_refl s.p) rfl
  exact ⟨A.1, A.2.2⟩

theorem deblockStep_internal (env : Env) (MbQAddr mvlimit : Int) (fl : List Int) (l t : Int)
    (s : State) (dir edge : Int) (he : edge ≠ 0) :
    deblockStep env MbQAddr mvlimit fl l t s dir edge =
      deblockEdge env MbQAddr mvlimit fl dir edge s := by
  rw [deblockStep_eq, if_pos (Or.inl he), if_neg (fun h => he h.2.1)]

theorem deblockEdge_imgY (env : Env) (MbQAddr mvlimit : Int) (fl : List Int) (dir edge : Int)
    (s : State) :
    (deblockEdge env MbQAddr mvlimit fl dir edge s).p.imgY =
      if StrengthSum (GetStrength env s.img s.p MbQAddr dir edge mvlimit) ≠ 0 ∧
          tab fl edge ≠ 0 then
        EdgeLoop env s.img s.p (GetStrength env s.img s.p MbQAddr dir edge mvlimit) MbQAddr
          (s.img.mb_data MbQAddr).LFAlphaC0Offset (s.img.mb_data MbQAddr).LFBetaOffset dir edge
          s.p.size_x 0 0 s.p.imgY
      else s.p.imgY := by
  rw [deblockEdge_p]
  by_cases hs : StrengthSum (GetStrength env s.img s.p MbQAddr dir edge mvlimit) ≠ 0
  · rw [if_pos hs, filterEdgePlanes_imgY]
    by_cases hf : tab fl edge ≠ 0
    · rw [if_pos hf, if_pos ⟨hs, hf⟩]
    · rw [if_neg hf, if_neg (fun h => hf h.2)]
  · rw [if_neg hs, if_neg (fun h => hs h.1)]

theorem deblockEdge_imgUV (env : Env) (MbQAddr mvlimit : Int) (fl : List Int) (dir edge : Int)
    (s : State) :
    (deblockEdge env MbQAddr mvlimit fl dir edge s).p.imgUV =
      match s.p.imgUV with
      | none => none
      | some uv =>
        if StrengthSum (GetStrength env s.img s.p MbQAddr dir edge mvlimit) ≠ 0 ∧
            chroma_edge_at dir edge s.p.chroma_format_idc ≥ 0 then
          some (EdgeLoop env s.img s.p (GetStrength env s.img s.p MbQAddr dir edge mvlimit)
              MbQAddr (s.img.mb_data MbQAddr).LFAlphaC0Offset
              (s.img.mb_data MbQAddr).LFBetaOffset dir
              (chroma_edge_at dir edge s.p.chroma_format_idc) s.p.size_x_cr 1 0 uv.1,
            EdgeLoop env s.img s.p (GetStrength env s.img s.p MbQAddr dir edge mvlimit)
              MbQAddr (s.img.mb_data MbQAddr).LFAlphaC0Offset
              (s.img.mb_data MbQAddr).LFBetaOffset dir
              (chroma_edge_at dir edge s.p.chroma_format_idc) s.p.size_x_cr 1 1 uv.2)
        else some uv := by
  rw [deblockEdge_p]
  by_cases hs : StrengthSum (GetStrength env s.img s.p MbQAddr dir edge mvlimit) ≠ 0
  · rw [if_pos hs, filterEdgePlanes_imgUV]
    cases s.p.imgUV with
    | none => rfl
    | some uv =>
      simp only []
      by_cases hc : chroma_edge_at dir edge s.p.chroma_format_idc ≥ 0
      · rw [if_pos hc, if_pos ⟨hs, hc⟩]
      · rw [if_neg hc, if_neg (fun h => hc h.2)]
  · rw [if_neg hs]
    cases s.p.imgUV with
    | none => rfl
    | some uv =>
      simp only []
      rw [if_neg (fun h => hs h.1)]

theorem deblockStep_luma_flag_zero (env : Env) (MbQAddr mvlimit : Int) (fl : List Int)
    (l t : Int) (s : State) (dir edge : Int) (hf : tab fl edge = 0) :
    (deblockStep env MbQAddr mvlimit fl l t s dir edge).p.imgY = s.p.imgY := by
  have e1 : (deblockEdge env MbQAddr mvlimit fl dir edge s).p.imgY = s.p.imgY := by
    rw [deblockEdge_imgY, if_neg (fun h => h.2 hf)]
  rw [deblockStep_eq]
  split_ifs
  · rw [deblockExtraEdge_p]
    split_ifs
    · rw [filterEdgePlanes_imgY, if_neg (fun h => h hf), e1]
    · exact e1
  · exact e1
  · rfl

/-- The luma plane at `a` after a run of passes of which one, `(d, e)`, filters: the passes
before it satisfy `stepIdle`, the passes after it cannot store to `a`, and of the iterations of
the pass itself only iteration `k` matters for `a`. -/
theorem steps_luma_at (env : Env) (MbQAddr mvlimit : Int) (fl : List Int) (l t : Int)
    (s : State) (hcall : s.img.DeblockCall = 1) (pre suf : List (Nat × Nat)) (d e k : Nat)
    (a : Int)
    (hpre : ∀ de ∈ pre,
      stepIdle env s.img s.p MbQAddr mvlimit fl l t (de.1 : Int) (de.2 : Int) = true)
    (hsuf4 : ∀ de ∈ suf, ((de.2 : Nat) : Int) ≠ 4)
    (hsuf : ∀ de ∈ suf, tab fl (de.2 : Int) ≠ 0 →
      ∀ op ∈ deblockStepOps env s.img s.p MbQAddr mvlimit l t (de.1 : Int) (de.2 : Int),
        a ∉ opLumaWrites env s.img s.p MbQAddr op)
    (hc : (e : Int) ≠ 0 ∨ ((d : Int) ≠ 0 ∧ t ≠ 0) ∨ ((d : Int) = 0 ∧ l ≠ 0))
    (hx : ¬ ((d : Int) ≠ 0 ∧ (e : Int) = 0 ∧ (s.img.mb_data MbQAddr).mb_field = 0 ∧
      GetStrengthMixed env s.img s.p MbQAddr (d : Int) (e : Int) mvlimit ≠ 0))
    (hS : StrengthSum (GetStrength env s.img s.p MbQAddr (d : Int) (e : Int) mvlimit) ≠ 0)
    (hf : tab fl (e : Int) ≠ 0) (hk : k < 16)
    (hloc : ∀ j : Nat, j < 16 → j ≠ k →
      (∀ b ∈ pelReadList env s.img MbQAddr (d : Int) (e : Int) s.p.size_x 0 (k : Int),
        b ∉ pelWriteList env s.img MbQAddr (d : Int) (e : Int) s.p.size_x 0 (j : Int)) ∧
      a ∉ pelWriteList env s.img MbQAddr (d : Int) (e : Int) s.p.size_x 0 (j : Int)) :
    ((pre ++ (d, e) :: suf).foldl (fun st (de : Nat × Nat) =>
        deblockStep env MbQAddr mvlimit fl l t st (de.1 : Int) (de.2 : Int)) s).p.imgY a =
      EdgeLoopPel env s.img s.p (GetStrength env s.img s.p MbQAddr (d : Int) (e : Int) mvlimit)
        MbQAddr (s.img.mb_data MbQAddr).LFAlphaC0Offset (s.img.mb_data MbQAddr).LFBetaOffset
        (d : Int) (e : Int) s.p.size_x 0 0 s.p.imgY (k : Int) a := by
  obtain ⟨hi, hp⟩ := steps_idle env MbQAddr mvlimit fl l t s hcall pre hpre
  rw [List.foldl_append, List.foldl_cons]
  generalize (pre.foldl (fun st (de : Nat × Nat) =>
    deblockStep env MbQAddr mvlimit fl l t st (de.1 : Int) (de.2 : Int)) s) = st2 at hi hp
  have h1 : (deblockStep env MbQAddr mvlimit fl l t st2 (d : Int) (e : Int)).img = s.img := by
    rw [deblockStep_img _ _ _ _ _ _ _ _ _ (by rw [hi]; exact hcall), hi]
  have h2 := deblockStep_meta env MbQAddr mvlimit fl l t st2 (d : Int) (e : Int)
  rw [hp] at h2
  rw [steps_frame_luma env MbQAddr mvlimit fl l t s hcall suf hsuf4 a hsuf _ h1 h2]
  rw [deblockStep_eq, hi, hp, if_pos hc, if_neg hx, deblockEdge_imgY, hi, hp, if_pos ⟨hS, hf⟩]
  exact EdgeLoop_at _ _ _ _ _ _ _ _ _ _ _ _ _ k a (by rw [PelNum_16]; exact hk)
    (by rw [PelNum_16]; exact hloc)

/-! ## The luma edge flags -/

theorem mbFlags_values (MbQ : Macroblock) :
    tab (mbFilterNon8x8LumaEdgesFlag MbQ) 0 = 1 ∧
    tab (mbFilterNon8x8LumaEdgesFlag MbQ) 2 = 1 ∧
    tab (mbFilterNon8x8LumaEdgesFlag MbQ) 1 =
      (if MbQ.luma_transform_size_8x8_flag = 0 then 1 else 0) ∧
    tab (mbFilterNon8x8LumaEdgesFlag MbQ) 3 =
      (if MbQ.luma_transform_size_8x8_flag = 0 then 1 else 0) := by
  refine ⟨rfl, rfl, ?_, ?_⟩ <;>
  · show b2i (MbQ.luma_transform_size_8x8_flag == 0) = _
    by_cases h : MbQ.luma_transform_size_8x8_flag = 0
    · rw [if_pos h, h]; rfl
    · rw [if_neg h]
      simp [b2i, h]

/-- C13: for a macroblock on which `DeblockMb` neither aborts nor returns early, the loops run
with `filterNon8x8LumaEdgesFlag[0] = filterNon8x8LumaEdgesFlag[2] = 1` and
`filterNon8x8LumaEdgesFlag[1] = filterNon8x8LumaEdgesFlag[3] = !luma_transform_size_8x8_flag`.
A pass whose flag is 0 leaves the luma plane as it is, and the regular edge of a pass runs
`EdgeLoop` on luma exactly when the strengths are not all zero and the flag is set.  Hence,
when `luma_transform_size_8x8_flag` is set, the passes for edges 1 and 3 of either direction
leave the luma plane unchanged, while both chroma planes are still filtered, with the strength
vector that `GetStrength` gives for that edge, when it is not all zero and `edge_cr >= 0`. -/
theorem DeblockMb_luma_edge_flags (env : Env) (s : State) (MbQAddr : Int)
    (hassert : ¬ ((s.img.mb_data MbQAddr).mb_type = env.I8MB ∧
      (s.img.mb_data MbQAddr).luma_transform_size_8x8_flag = 0))
    (hen : (s.img.mb_data MbQAddr).LFDisableIdc ≠ 1) :
    DeblockMb env s MbQAddr =
      some (resetCall (deblockLoops env MbQAddr (mbMvlimit env s.p (s.img.mb_data MbQAddr))
        (mbFilterNon8x8LumaEdgesFlag (s.img.mb_data MbQAddr))
        (mbFilterLeftMbEdgeFlag env s.img MbQAddr) (mbFilterTopMbEdgeFlag env s.img s.p MbQAddr)
        { s with img := mbStartImg env s.img MbQAddr })) ∧
    (tab (mbFilterNon8x8LumaEdgesFlag (s.img.mb_data MbQAddr)) 0 = 1 ∧
      tab (mbFilterNon8x8LumaEdgesFlag (s.img.mb_data MbQAddr)) 2 = 1 ∧
      tab (mbFilterNon8x8LumaEdgesFlag (s.img.mb_data MbQAddr)) 1 =
        (if (s.img.mb_data MbQAddr).luma_transform_size_8x8_flag = 0 then 1 else 0) ∧
      tab (mbFilterNon8x8LumaEdgesFlag (s.img.mb_data MbQAddr)) 3 =
        (if (s.img.mb_data MbQAddr).luma_transform_size_8x8_flag = 0 then 1 else 0)) ∧
    (∀ (mvlimit : Int) (fl : List Int) (l t dir edge : Int) (st : State),
      tab fl edge = 0 →
        (deblockStep env MbQAddr mvlimit fl l t st dir edge).p.imgY = st.p.imgY) ∧
    (∀ (mvlimit : Int) (fl : List Int) (dir edge : Int) (st : State),
      (deblockEdge env MbQAddr mvlimit fl dir edge st).p.imgY =
        if StrengthSum (GetStrength env st.img st.p MbQAddr dir edge mvlimit) ≠ 0 ∧
            tab fl edge ≠ 0 then
          EdgeLoop env st.img st.p (GetStrength env st.img st.p MbQAddr dir edge mvlimit)
            MbQAddr (st.img.mb_data MbQAddr).LFAlphaC0Offset
            (st.img.mb_data MbQAddr).LFBetaOffset dir edge st.p.size_x 0 0 st.p.imgY
        else st.p.imgY) ∧
    ((s.img.mb_data MbQAddr).luma_transform_size_8x8_flag ≠ 0 →
      ∀ (mvlimit l t dir edge : Int) (st : State), edge = 1 ∨ edge = 3 →
        (deblockStep env MbQAddr mvlimit (mbFilterNon8x8LumaEdgesFlag (s.img.mb_data MbQAddr))
          l t st dir edge).p.imgY = st.p.imgY ∧
        (deblockStep env MbQAddr mvlimit (mbFilterNon8x8LumaEdgesFlag (s.img.mb_data MbQAddr))
          l t st dir edge).p.imgUV =
          match st.p.imgUV with
          | none => none
          | some uv =>
            if StrengthSum (GetStrength env st.img st.p MbQAddr dir edge mvlimit) ≠ 0 ∧
                chroma_edge_at dir edge st.p.chroma_format_idc ≥ 0 then
              some (EdgeLoop env st.img st.p
                  (GetStrength env st.img st.p MbQAddr dir edge mvlimit)
                  MbQAddr (st.img.mb_data MbQAddr).LFAlphaC0Offset
                  (st.img.mb_data MbQAddr).LFBetaOffset dir
                  (chroma_edge_at dir edge st.p.chroma_format_idc) st.p.size_x_cr 1 0 uv.1,
                EdgeLoop env st.img st.p
                  (GetStrength env st.img st.p MbQAddr dir edge mvlimit)
                  MbQAddr (st.img.mb_data MbQAddr).LFAlphaC0Offset
                  (st.img.mb_data MbQAddr).LFBetaOffset dir
                  (chroma_edge_at dir edge st.p.chroma_format_idc) st.p.size_x_cr 1 1 uv.2)
            else some uv) := by
  refine ⟨DeblockMb_enabled_eq env s MbQAddr hassert hen,
    mbFlags_values (s.img.mb_data MbQAddr), ?_, ?_, ?_⟩
  · intro mvlimit fl l t dir edge st hf
    exact deblockStep_luma_flag_zero env MbQAddr mvlimit fl l t st dir edge hf
  · intro mvlimit fl dir edge st
    exact deblockEdge_imgY env MbQAddr mvlimit fl dir edge st
  · intro hflag mvlimit l t dir edge st he
    have hf : tab (mbFilterNon8x8LumaEdgesFlag (s.img.mb_data MbQAddr)) edge = 0 := by
      have V := mbFlags_values (s.img.mb_data MbQAddr)
      rcases he with rfl | rfl
      · rw [V.2.2.1, if_neg hflag]
      · rw [V.2.2.2, if_neg hflag]
    refine ⟨deblockStep_luma_flag_zero env MbQAddr mvlimit _ l t st dir edge hf, ?_⟩
    rw [deblockStep_internal _ _ _ _ _ _ _ _ _ (by omega)]
    exact deblockEdge_imgUV env MbQAddr mvlimit _ dir edge st

/-- Witness for C13: the `I8MB` macroblock of `exI8`, whose `luma_transform_size_8x8_flag` is
set: the flags of edges 1 and 3 are 0. -/
theorem DeblockMb_luma_edge_flags_witness :
    ¬ ((exI8.img.mb_data 0).mb_type = (exEnv 1).I8MB ∧
      (exI8.img.mb_data 0).luma_transform_size_8x8_flag = 0) ∧
    (exI8.img.mb_data 0).LFDisableIdc ≠ 1 ∧
    tab (mbFilterNon8x8LumaEdgesFlag (exI8.img.mb_data 0)) 1 = 0 ∧
    tab (mbFilterNon8x8LumaEdgesFlag (exI8.img.mb_data 0)) 3 = 0 :=
  ⟨by decide, by decide,
    (DeblockMb_luma_edge_flags (exEnv 1) exI8 0 (by decide) (by decide)).2.1.2.2.1.trans
      (by decide),
    (DeblockMb_luma_edge_flags (exEnv 1) exI8 0 (by decide) (by decide)).2.1.2.2.2.trans
      (by decide)⟩

/-- Counterexample to C14: the macroblock of `exI8` has `luma_transform_size_8x8_flag` set, and
`DeblockMb` filters its vertical luma edge 2 (sample offset 8): the sample at offset 7, `P0` of
that edge, is 100 before the call and 102 after it. -/
theorem DeblockMb_8x8_edge_counterexample :
    (exI8.img.mb_data 0).luma_transform_size_8x8_flag = 1 ∧ exI8.p.imgY 7 = 100 ∧
    ∃ s', DeblockMb (exEnv 1) exI8 0 = some s' ∧ s'.p.imgY 7 = 102 := by
  refine ⟨rfl, rfl, _, DeblockMb_enabled_eq (exEnv 1) exI8 0 (by decide) (by decide), ?_⟩
  rw [resetCall_p, deblockLoops_eq]
  have e : edgeOrder = [(0, 0), (0, 1)] ++ (0, 2) :: [(0, 3), (1, 0), (1, 1), (1, 2), (1, 3)] :=
    rfl
  rw [e, steps_luma_at (exEnv 1) 0 _ _ _ _ _ rfl [(0, 0), (0, 1)]
    [(0, 3), (1, 0), (1, 1), (1, 2), (1, 3)] 0 2 0 7 (by decide) (by decide) (by decide)
    (by decide) (by decide) (by decide) (by decide) (by decide) (by decide)]
  decide

/-- C14, amended: when `luma_transform_size_8x8_flag` is set for a macroblock, `DeblockMb` runs
its loops with the luma flags of edges 1 and 3 cleared: the passes for edge 1 (sample offset 4)
and edge 3 (sample offset 12) leave the luma plane unchanged in either direction, while the
pass for edge 2 (sample offset 8, the 8x8 block boundary) filters luma with `EdgeLoop` whenever
the strengths of that edge are not all zero. -/
theorem DeblockMb_8x8_luma_edges (env : Env) (s : State) (MbQAddr : Int)
    (hflag : (s.img.mb_data MbQAddr).luma_transform_size_8x8_flag ≠ 0)
    (hen : (s.img.mb_data MbQAddr).LFDisableIdc ≠ 1) :
    DeblockMb env s MbQAddr =
      some (resetCall (deblockLoops env MbQAddr (mbMvlimit env s.p (s.img.mb_data MbQAddr))
        (mbFilterNon8x8LumaEdgesFlag (s.img.mb_data MbQAddr))
        (mbFilterLeftMbEdgeFlag env s.img MbQAddr) (mbFilterTopMbEdgeFlag env s.img s.p MbQAddr)
        { s with img := mbStartImg env s.img MbQAddr })) ∧
    ∀ (mvlimit l t dir : Int) (st : State),
      (deblockStep env MbQAddr mvlimit (mbFilterNon8x8LumaEdgesFlag (s.img.mb_data MbQAddr))
        l t st dir 1).p.imgY = st.p.imgY ∧
      (deblockStep env MbQAddr mvlimit (mbFilterNon8x8LumaEdgesFlag (s.img.mb_data MbQAddr))
        l t st dir 3).p.imgY = st.p.imgY ∧
      (deblockStep env MbQAddr mvlimit (mbFilterNon8x8LumaEdgesFlag (s.img.mb_data MbQAddr))
        l t st dir 2).p.imgY =
        if StrengthSum (GetStrength env st.img st.p MbQAddr dir 2 mvlimit) ≠ 0 then
          EdgeLoop env st.img st.p (GetStrength env st.img st.p MbQAddr dir 2 mvlimit)
            MbQAddr (st.img.mb_data MbQAddr).LFAlphaC0Offset
            (st.img.mb_data MbQAddr).LFBetaOffset dir 2 st.p.size_x 0 0 st.p.imgY
        else st.p.imgY := by
  have V := mbFlags_values (s.img.mb_data MbQAddr)
  refine ⟨DeblockMb_enabled_eq env s MbQAddr (fun h => hflag h.2) hen, ?_⟩
  intro mvlimit l t dir st
  refine ⟨?_, ?_, ?_⟩
  · exact deblockStep_luma_flag_zero env MbQAddr mvlimit _ l t st dir 1
      (by rw [V.2.2.1, if_neg hflag])
  · exact deblockStep_luma_flag_zero env MbQAddr mvlimit _ l t st dir 3
      (by rw [V.2.2.2, if_neg hflag])
  · rw [deblockStep_internal _ _ _ _ _ _ _ _ _ (by omega), deblockEdge_imgY, V.2.1]
    by_cases hs : StrengthSum (GetStrength env st.img st.p MbQAddr dir 2 mvlimit) ≠ 0
    · rw [if_pos hs, if_pos ⟨hs, by omega⟩]
    · rw [if_neg hs, if_neg (fun h => hs h.1)]

/-- Witness for the amended C14: the macroblock of `exI8`. -/
theorem DeblockMb_8x8_luma_edges_witness :
    (exI8.img.mb_data 0).luma_transform_size_8x8_flag ≠ 0 ∧
    (exI8.img.mb_data 0).LFDisableIdc ≠ 1 ∧
    (DeblockMb (exEnv 1) exI8 0).isSome = true :=
  ⟨by decide, by decide,
    by rw [(DeblockMb_8x8_luma_edges (exEnv 1) exI8 0 (by decide) (by decide)).1]; rfl⟩

/-! ## The table `chroma_edge` -/

theorem deblockStep_chroma_none (env : Env) (MbQAddr mvlimit : Int) (fl : List Int)
    (l t : Int) (s : State) (dir edge : Int)
    (h : chroma_edge_at dir edge s.p.chroma_format_idc < 0) :
    (deblockStep env MbQAddr mvlimit fl l t s dir edge).p.imgUV = s.p.imgUV := by
  have e1 : (deblockEdge env MbQAddr mvlimit fl dir edge s).p.imgUV = s.p.imgUV := by
    rw [deblockEdge_imgUV]
    cases s.p.imgUV with
    | none => rfl
    | some uv => simp only []; rw [if_neg (fun hc => by omega)]
  have e3 : (deblockEdge env MbQAddr mvlimit fl dir edge s).p.chroma_format_idc =
      s.p.chroma_format_idc := by
    rw [deblockEdge_meta]
  rw [deblockStep_eq]
  split_ifs
  · rw [deblockExtraEdge_p]
    split_ifs
    · rw [filterEdgePlanes_imgUV, e1, e3]
      cases s.p.imgUV with
      | none => rfl
      | some uv => simp only []; rw [if_neg (by omega)]
    · exact e1
  · exact e1
  · rfl

/-- C15: for `dir` in 0..1, `edge` in 0..3 and `chroma_format_idc` in 0..3, the entry
`chroma_edge[dir][edge][fmt]` is not negative iff `fmt != 0` and the luma edge offset `4*edge`
divided by the chroma subsampling factor across the edge (`chromaSubsampling`: 2 horizontally
for 4:2:0 and 4:2:2, 2 vertically for 4:2:0, otherwise 1) is a multiple of 4, and the entry is
then that chroma offset divided by 4.  Whenever the entry is negative, the pass `(dir, edge)`
of `DeblockMb` leaves both chroma planes as they are. -/
theorem chroma_edge_table (dir edge fmt : Nat) (hd : dir < 2) (he : edge < 4) (hf : fmt < 4) :
    (chroma_edge_at (dir : Int) (edge : Int) (fmt : Int) ≥ 0 ↔
      fmt ≠ 0 ∧ (4 * edge / chromaSubsampling dir fmt) % 4 = 0) ∧
    (chroma_edge_at (dir : Int) (edge : Int) (fmt : Int) ≥ 0 →
      chroma_edge_at (dir : Int) (edge : Int) (fmt : Int) =
        ((4 * edge / chromaSubsampling dir fmt / 4 : Nat) : Int)) ∧
    (4 * edge % chromaSubsampling dir fmt = 0) ∧
    ∀ (env : Env) (MbQAddr mvlimit : Int) (fl : List Int) (l t : Int) (s : State),
      s.p.chroma_format_idc = (fmt : Int) →
      chroma_edge_at (dir : Int) (edge : Int) (fmt : Int) < 0 →
      (deblockStep env MbQAddr mvlimit fl l t s (dir : Int) (edge : Int)).p.imgUV =
        s.p.imgUV := by
  have T : ∀ d < 2, ∀ e < 4, ∀ f < 4,
      ((chroma_edge_at ((d : Nat) : Int) ((e : Nat) : Int) ((f : Nat) : Int) ≥ 0 ↔
        f ≠ 0 ∧ (4 * e / chromaSubsampling d f) % 4 = 0) ∧
      (chroma_edge_at ((d : Nat) : Int) ((e : Nat) : Int) ((f : Nat) : Int) ≥ 0 →
        chroma_edge_at ((d : Nat) : Int) ((e : Nat) : Int) ((f : Nat) : Int) =
          ((4 * e / chromaSubsampling d f / 4 : Nat) : Int)) ∧
      (4 * e % chromaSubsampling d f = 0)) := by
    decide
  obtain ⟨h1, h2, h3⟩ := T dir hd edge he fmt hf
  refine ⟨h1, h2, h3, ?_⟩
  intro env MbQAddr mvlimit fl l t s hfmt hneg
  exact deblockStep_chroma_none env MbQAddr mvlimit fl l t s _ _ (by rw [hfmt]; exact hneg)

/-- Witness for C15: the vertical edge 1 in 4:2:0 (`chroma_edge[0][1][1] = -1`: the luma
offset 4 is the chroma offset 2, which is no multiple of 4). -/
theorem chroma_edge_table_witness :
    (1 : Nat) < 4 ∧ chroma_edge_at 0 1 1 = -1 ∧
    ¬ ((1 : Nat) ≠ 0 ∧ (4 * 1 / chromaSubsampling 0 1) % 4 = 0) :=
  ⟨by decide, by decide,
    fun h => absurd ((chroma_edge_table 0 1 1 (by decide) (by decide) (by decide)).1.mpr h)
      (by decide)⟩

/-! ## Constant planes -/

theorem pelIdle_const (env : Env) (img : ImageParameters) (p : StorablePicture)
    (Strength : Int → Nat) (MbQAddr AlphaC0Offset BetaOffset dir edge width yuv uv : Int)
    (Img : Plane) (pel v : Int) (hv : 0 ≤ v ∧ v ≤ pelMax img yuv)
    (h : ∀ b ∈ pelReadList env img MbQAddr dir edge width yuv pel, Img b = v) :
    pelIdle env img p Strength MbQAddr AlphaC0Offset BetaOffset dir edge width yuv uv Img pel
      = true := by
  have hP : Img (pelSrcPtrP env img MbQAddr dir edge width yuv pel) = v :=
    h _ (by unfold pelReadList; exact List.mem_cons_self _ _)
  unfold pelIdle
  simp only [Bool.or_eq_true, Bool.and_eq_true, decide_eq_true_eq, List.all_eq_true]
  right
  right
  rw [hP]
  exact ⟨hv, h⟩

theorem edgeIdle_const (env : Env) (img : ImageParameters) (p : StorablePicture)
    (Strength : Int → Nat) (MbQAddr AlphaC0Offset BetaOffset dir edge width yuv uv : Int)
    (Img : Plane) (v : Int) (hv : 0 ≤ v ∧ v ≤ pelMax img yuv) (h : ∀ a, Img a = v) :
    edgeIdle env img p Strength MbQAddr AlphaC0Offset BetaOffset dir edge width yuv uv Img
      = true := by
  unfold edgeIdle
  rw [List.all_eq_true]
  intro pel _
  exact pelIdle_const _ _ _ _ _ _ _ _ _ _ _ _ _ _ v hv (fun b _ => h b)

theorem planesIdle_const (env : Env) (img : ImageParameters) (p : StorablePicture)
    (Strength : Int → Nat) (MbQAddr dir lumaFlag edgeY edge_cr edgeC : Int)
    (h : constPlanes img.max_imgpel_value img.max_imgpel_value_uv p) :
    planesIdle env img p Strength MbQAddr dir lumaFlag edgeY edge_cr edgeC = true := by
  obtain ⟨⟨v, hv, hY⟩, hUV⟩ := h
  unfold planesIdle
  rw [Bool.and_eq_true]
  constructor
  · rw [Bool.or_eq_true]
    right
    exact edgeIdle_const _ _ _ _ _ _ _ _ _ _ _ _ _ v (by unfold pelMax; rw [if_pos rfl]; exact hv)
      hY
  · cases hp : p.imgUV with
    | none => rfl
    | some uv =>
      obtain ⟨⟨vu, hvu, hU⟩, ⟨vv, hvv, hV⟩⟩ := hUV uv hp
      simp only [Bool.or_eq_true, Bool.and_eq_true]
      right
      exact ⟨edgeIdle_const _ _ _ _ _ _ _ _ _ _ _ _ _ vu
          (by unfold pelMax; rw [if_neg (by decide)]; exact hvu) hU,
        edgeIdle_const _ _ _ _ _ _ _ _ _ _ _ _ _ vv
          (by unfold pelMax; rw [if_neg (by decide)]; exact hvv) hV⟩

theorem stepIdle_const (env : Env) (img : ImageParameters) (p : StorablePicture)
    (MbQAddr mvlimit : Int) (fl : List Int) (l t dir edge : Int)
    (h : constPlanes img.max_imgpel_value img.max_imgpel_value_uv p) :
    stepIdle env img p MbQAddr mvlimit fl l t dir edge = true := by
  unfold stepIdle
  simp only [Bool.or_eq_true, Bool.and_eq_true]
  right
  exact ⟨Or.inr (planesIdle_const _ _ _ _ _ _ _ _ _ _ h),
    Or.inr (Or.inr (planesIdle_const env { img with DeblockCall := 2 } _ _ _ _ _ _ _ _ h))⟩

theorem mbIdle_const (env : Env) (img : ImageParameters) (p : StorablePicture) (MbQAddr : Int)
    (h : constPlanes img.max_imgpel_value img.max_imgpel_value_uv p)
    (hassert : ¬ ((img.mb_data MbQAddr).mb_type = env.I8MB ∧
      (img.mb_data MbQAddr).luma_transform_size_8x8_flag = 0)) :
    mbIdle env img p MbQAddr = true := by
  unfold mbIdle
  simp only [Bool.and_eq_true, Bool.not_eq_true', decide_eq_false_iff_not, Bool.or_eq_true,
    List.all_eq_true]
  refine ⟨hassert, Or.inr ?_⟩
  intro de _
  exact stepIdle_const env (mbStartImg env img MbQAddr) p MbQAddr _ _ _ _ _ _ h

theorem mbEndImg_agree (env : Env) (img : ImageParameters) (MbQAddr : Int) :
    imgAgree img (mbEndImg env img MbQAddr) := by
  unfold mbEndImg
  split_ifs
  · exact ⟨rfl, rfl, fun b => ⟨rfl, rfl⟩⟩
  · refine ⟨rfl, rfl, fun b => ?_⟩
    simp only [mbStartImg, CheckAvailabilityOfNeighbors]
    split_ifs with hb
    · rw [hb]; exact ⟨rfl, rfl⟩
    · exact ⟨rfl, rfl⟩

theorem imgAgree_trans (a b c : ImageParameters) (h1 : imgAgree a b) (h2 : imgAgree b c) :
    imgAgree a c := by
  refine ⟨h2.1.trans h1.1, h2.2.1.trans h1.2.1, fun x => ?_⟩
  exact ⟨(h2.2.2 x).1.trans (h1.2.2 x).1, (h2.2.2 x).2.trans (h1.2.2 x).2⟩

theorem imgAgree_refl (a : ImageParameters) : imgAgree a a :=
  ⟨rfl, rfl, fun _ => ⟨rfl, rfl⟩⟩

/-- On a picture with constant planes every call of `DeblockMb` returns, unless its assertion
fails, and leaves the picture as it was. -/
theorem foldlM_const (env : Env) (L : List Nat) :
    ∀ s : State, constPlanes s.img.max_imgpel_value s.img.max_imgpel_value_uv s.p →
      (∀ i ∈ L, ¬ ((s.img.mb_data (i : Int)).mb_type = env.I8MB ∧
        (s.img.mb_data (i : Int)).luma_transform_size_8x8_flag = 0)) →
      ∃ s', L.foldlM (fun st (i : Nat) => DeblockMb env st (i : Int)) s = some s' ∧
        s'.p = s.p ∧ imgAgree s.img s'.img := by
  induction L with
  | nil => intro s _ _; exact ⟨s, rfl, rfl, imgAgree_refl s.img⟩
  | cons a L ih =>
    intro s hc hassert
    obtain ⟨s1, e1, hp, hi⟩ := DeblockMb_idle env s (a : Int)
      (mbIdle_const env s.img s.p (a : Int) hc (hassert a (List.mem_cons_self a L)))
    have hag : imgAgree s.img s1.img := by rw [hi]; exact mbEndImg_agree env s.img (a : Int)
    obtain ⟨s', e', hp', hag'⟩ := ih s1
      (by rw [hp, hag.1, hag.2.1]; exact hc)
      (by
        intro i hi'
        rw [(hag.2.2 (i : Int)).1, (hag.2.2 (i : Int)).2]
        exact hassert i (List.mem_cons_of_mem a hi'))
    refine ⟨s', ?_, by rw [hp', hp], imgAgree_trans _ _ _ hag hag'⟩
    rw [List.foldlM_cons, e1]
    exact e'

theorem DeblockPicture_const (env : Env) (s : State)
    (hc : constPlanes s.img.max_imgpel_value s.img.max_imgpel_value_uv s.p)
    (hassert : ∀ i : Nat, i < s.p.PicSizeInMbs →
      ¬ ((s.img.mb_data (i : Int)).mb_type = env.I8MB ∧
        (s.img.mb_data (i : Int)).luma_transform_size_8x8_flag = 0)) :
    ∃ s', DeblockPicture env s = some s' ∧ s'.p = s.p ∧ imgAgree s.img s'.img := by
  unfold DeblockPicture
  exact foldlM_const env _ s hc (fun i hi => hassert i (List.mem_range.mp hi))

/-- C16: when the eight samples `L0..L3`, `R0..R3` of an iteration are one value `v` in
`0..max`, the iteration leaves the plane as it is: for the filter `filterPel` with any `yuv`,
strength, `Alpha`, `Beta` and any clip table entry that is not negative, and so for every
iteration of `EdgeLoop` (whose clip values come from `CLIP_TAB`) with any strength vector and
offsets.  Hence `EdgeLoop` leaves a constant in-range plane unchanged, and `DeblockPicture`
returns a picture with constant in-range planes unchanged whenever no `I8MB` assertion fails;
in particular the one-macroblock monochrome intra picture `exFlat 128` with all samples 128 at
QP 26. -/
theorem constant_neighbourhood_unchanged :
    (∀ (yuv Strng Alpha Beta : Int) (ClipTab : List Int)
      (bitdepth_scale maxv incP incQ P Q : Int) (Img : Plane) (v : Int),
      0 ≤ v ∧ v ≤ maxv → 0 ≤ tab ClipTab Strng * bitdepth_scale →
      Img P = v → Img (P - incP) = v → Img (P - incP * 2) = v → Img (P - incP * 3) = v →
      Img Q = v → Img (Q + incQ) = v → Img (Q + incQ * 2) = v → Img (Q + incQ * 3) = v →
      filterPel yuv Strng Alpha Beta ClipTab bitdepth_scale maxv incP incQ P Q Img = Img) ∧
    (∀ (env : Env) (img : ImageParameters) (p : StorablePicture) (Strength : Int → Nat)
      (MbQAddr AlphaC0Offset BetaOffset dir edge width yuv uv : Int) (Img : Plane)
      (pel v : Int),
      0 ≤ v ∧ v ≤ pelMax img yuv →
      (∀ b ∈ pelReadList env img MbQAddr dir edge width yuv pel, Img b = v) →
      EdgeLoopPel env img p Strength MbQAddr AlphaC0Offset BetaOffset dir edge width yuv uv Img
        pel = Img) ∧
    (∀ (env : Env) (img : ImageParameters) (p : StorablePicture) (Strength : Int → Nat)
      (MbQAddr AlphaC0Offset BetaOffset dir edge width yuv uv : Int) (Img : Plane) (v : Int),
      0 ≤ v ∧ v ≤ pelMax img yuv → (∀ a, Img a = v) →
      EdgeLoop env img p Strength MbQAddr AlphaC0Offset BetaOffset dir edge width yuv uv Img
        = Img) ∧
    (∀ (env : Env) (s : State),
      constPlanes s.img.max_imgpel_value s.img.max_imgpel_value_uv s.p →
      (∀ i : Nat, i < s.p.PicSizeInMbs →
        ¬ ((s.img.mb_data (i : Int)).mb_type = env.I8MB ∧
          (s.img.mb_data (i : Int)).luma_transform_size_8x8_flag = 0)) →
      ∃ s', DeblockPicture env s = some s' ∧ s'.p = s.p) ∧
    (∃ s', DeblockPicture (exEnv 1) (exFlat 128) = some s' ∧ s'.p = (exFlat 128).p) := by
  have G : ∀ (env : Env) (s : State),
      constPlanes s.img.max_imgpel_value s.img.max_imgpel_value_uv s.p →
      (∀ i : Nat, i < s.p.PicSizeInMbs →
        ¬ ((s.img.mb_data (i : Int)).mb_type = env.I8MB ∧
          (s.img.mb_data (i : Int)).luma_transform_size_8x8_flag = 0)) →
      ∃ s', DeblockPicture env s = some s' ∧ s'.p = s.p := by
    intro env s hc ha
    obtain ⟨s', h1, h2, _⟩ := DeblockPicture_const env s hc ha
    exact ⟨s', h1, h2⟩
  refine ⟨?_, ?_, ?_, G, ?_⟩
  · intro yuv Strng Alpha Beta ClipTab bitdepth_scale maxv incP incQ P Q Img v hv hC
      h0 h1 h2 h3 h4 h5 h6 h7
    exact filterPel_const yuv Strng Alpha Beta ClipTab bitdepth_scale maxv incP incQ P Q Img v
      hv hC h0 h1 h2 h3 h4 h5 h6 h7
  · intro env img p Strength MbQAddr AlphaC0Offset BetaOffset dir edge width yuv uv Img pel v
      hv h
    exact pelIdle_sound _ _ _ _ _ _ _ _ _ _ _ _ _ _
      (pelIdle_const _ _ _ _ _ _ _ _ _ _ _ _ _ _ v hv h)
  · intro env img p Strength MbQAddr AlphaC0Offset BetaOffset dir edge width yuv uv Img v hv h
    exact edgeIdle_sound _ _ _ _ _ _ _ _ _ _ _ _ _
      (edgeIdle_const _ _ _ _ _ _ _ _ _ _ _ _ _ v hv h)
  · apply G
    · exact ⟨⟨128, by decide, fun _ => rfl⟩, fun uv h => by simp [exFlat, exPic] at h⟩
    · intro i _ h
      have h1 : (10 : Int) = 13 := h.1
      exact absurd h1 (by decide)

/-- Witness for C16: the strong luma filter on a plane that is 128 everywhere (strength 4,
`Alpha = 15`, `Beta = 6`) returns the plane. -/
theorem constant_neighbourhood_unchanged_witness :
    filterPel 0 4 15 6 (row CLIP_TAB 26) 1 255 1 1 15 16 (fun _ => 128) = (fun _ => 128) :=
  constant_neighbourhood_unchanged.1 0 4 15 6 (row CLIP_TAB 26) 1 255 1 1 15 16 (fun _ => 128)
    128 (by decide) (by decide) rfl rfl rfl rfl rfl rfl rfl rfl

/-! ## Scenario S2: a step edge of 100 between two intra macroblocks -/

theorem exStep_idle :
    picIdle (exEnv 2) (exStep 100 200).p (List.range 2) (exStep 100 200).img = true := by
  decide

/-- Counterexample to C17: in the picture `exStep 100 200` of scenario S2 the vertical edge at
x = 16 has strength 4 at all 16 indices, yet `DeblockPicture` returns every luma sample at
x = 13..18 with the value it had. -/
theorem DeblockPicture_step_counterexample :
    (∀ idx : Nat, idx < 16 →
      GetStrength (exEnv 2) (mbStartImg (exEnv 2) (mbEndImg (exEnv 2) (exStep 100 200).img 0) 1)
        (exStep 100 200).p 1 0 0 4 (idx : Int) = 4) ∧
    ∃ s', DeblockPicture (exEnv 2) (exStep 100 200) = some s' ∧
      ∀ y x : Nat, y < 16 → 13 ≤ x → x ≤ 18 →
        s'.p.imgY ((y : Int) * 32 + (x : Int)) =
          (exStep 100 200).p.imgY ((y : Int) * 32 + (x : Int)) := by
  refine ⟨by decide, ?_⟩
  obtain ⟨s', h1, h2⟩ := DeblockPicture_idle (exEnv 2) (exStep 100 200) exStep_idle
  exact ⟨s', h1, fun y x _ _ _ => by rw [h2]⟩

/-- C17, amended: for the non-MBAFF 32x16 frame picture `exStep 100 200` of two horizontally
adjacent intra macroblocks with `LFDisableIdc = 0`, QP 26 and zero filter offsets, 8-bit
samples, left macroblock all 100 and right macroblock all 200: the vertical edge at x = 16 has
strength 4 at all 16 indices and `Alpha = ALPHA_TABLE[26] = 15`, `Beta = BETA_TABLE[26] = 6` at
every pel; since `|R0 - L0| = 100` is not below `Alpha` the filter condition fails at every
pel of that edge, and `DeblockPicture` returns the picture with every sample unchanged. -/
theorem DeblockPicture_step_unfiltered :
    (∀ idx : Nat, idx < 16 →
      GetStrength (exEnv 2) (mbStartImg (exEnv 2) (mbEndImg (exEnv 2) (exStep 100 200).img 0) 1)
        (exStep 100 200).p 1 0 0 4 (idx : Int) = 4) ∧
    (∀ pel : Nat, pel < 16 →
      tab ALPHA_TABLE (pelIndex (exEnv 2)
          (mbStartImg (exEnv 2) (mbEndImg (exEnv 2) (exStep 100 200).img 0) 1)
          (exStep 100 200).p 1 0 0 0 0 0 (pel : Int)) *
        bitdepthScale (exStep 100 200).img 0 = 15 ∧
      tab BETA_TABLE (pelIndex (exEnv 2)
          (mbStartImg (exEnv 2) (mbEndImg (exEnv 2) (exStep 100 200).img 0) 1)
          (exStep 100 200).p 1 0 0 0 0 0 (pel : Int)) *
        bitdepthScale (exStep 100 200).img 0 = 6 ∧
      (exStep 100 200).p.imgY (pelSrcPtrP (exEnv 2)
          (mbStartImg (exEnv 2) (mbEndImg (exEnv 2) (exStep 100 200).img 0) 1) 1 0 0 32 0
          (pel : Int)) = 100 ∧
      (exStep 100 200).p.imgY (pelSrcPtrQ (exEnv 2)
          (mbStartImg (exEnv 2) (mbEndImg (exEnv 2) (exStep 100 200).img 0) 1) 1 0 0 32 0
          (pel : Int)) = 200) ∧
    filterGate 4 15 6 100 100 200 200 = false ∧
    ∃ s', DeblockPicture (exEnv 2) (exStep 100 200) = some s' ∧ s'.p = (exStep 100 200).p := by
  refine ⟨by decide, by decide, by decide, ?_⟩
  exact DeblockPicture_idle (exEnv 2) (exStep 100 200) exStep_idle

/-! ## What one call of `DeblockMb` can store to -/

theorem DeblockMb_result (env : Env) (s : State) (MbQAddr : Int) (s' : State)
    (h : DeblockMb env s MbQAddr = some s') :
    ¬ ((s.img.mb_data MbQAddr).mb_type = env.I8MB ∧
      (s.img.mb_data MbQAddr).luma_transform_size_8x8_flag = 0) ∧
    s'.img = mbEndImg env s.img MbQAddr ∧
    s'.p = { s.p with imgY := s'.p.imgY, imgUV := s'.p.imgUV } := by
  by_cases hassert : (s.img.mb_data MbQAddr).mb_type = env.I8MB ∧
      (s.img.mb_data MbQAddr).luma_transform_size_8x8_flag = 0
  · rw [DeblockMb_assert env s MbQAddr hassert] at h
    exact absurd h (by simp)
  · refine ⟨hassert, ?_⟩
    by_cases hd : (s.img.mb_data MbQAddr).LFDisableIdc = 1
    · rw [DeblockMb_disabled_eq env s MbQAddr hd, if_neg hassert] at h
      have e : s' = resetCall s := (Option.some.inj h).symm
      rw [e]
      refine ⟨?_, pic_meta_refl s.p⟩
      unfold mbEndImg
      rw [if_pos hd, resetCall_img]
    · rw [DeblockMb_enabled_eq env s MbQAddr hassert hd] at h
      have e := (Option.some.inj h).symm
      rw [e, deblockLoops_eq]
      have A := steps_invariant env MbQAddr
        (mbMvlimit env s.p (s.img.mb_data MbQAddr))
        (mbFilterNon8x8LumaEdgesFlag (s.img.mb_data MbQAddr))
        (mbFilterLeftMbEdgeFlag env s.img MbQAddr)
        (mbFilterTopMbEdgeFlag env s.img s.p MbQAddr) (fun _ => True)
        { s with img := mbStartImg env s.img MbQAddr } (mbStartImg_call env s.img MbQAddr)
        edgeOrder (fun _ _ _ _ _ _ => trivial) { s with img := mbStartImg env s.img MbQAddr }
        rfl (pic_meta_refl s.p) trivial
      refine ⟨?_, ?_⟩
      · rw [resetCall_img, A.1]
        unfold mbEndImg
        rw [if_neg hd]
      · rw [resetCall_p]
        exact A.2.1

theorem DeblockMb_frame_luma (env : Env) (s : State) (MbQAddr : Int) (s' : State)
    (h : DeblockMb env s MbQAddr = some s') (x : Int)
    (hfar : ∀ op ∈ DeblockMbOps env s MbQAddr,
      x ∉ opLumaWrites env (mbStartImg env s.img MbQAddr) s.p MbQAddr op) :
    s'.p.imgY x = s.p.imgY x := by
  have hassert := (DeblockMb_result env s MbQAddr s' h).1
  by_cases hd : (s.img.mb_data MbQAddr).LFDisableIdc = 1
  · rw [DeblockMb_disabled_eq env s MbQAddr hd, if_neg hassert] at h
    rw [← Option.some.inj h]
    rfl
  · rw [DeblockMb_enabled_eq env s MbQAddr hassert hd] at h
    rw [← Option.some.inj h, resetCall_p, deblockLoops_eq]
    rw [DeblockMbOps_eq, if_neg hassert, if_neg hd] at hfar
    exact steps_frame_luma env MbQAddr _ _ _ _
      { s with img := mbStartImg env s.img MbQAddr } (mbStartImg_call env s.img MbQAddr)
      edgeOrder edgeOrder_ne_four x
      (fun de hde _ op hop => hfar op (List.mem_flatMap.mpr ⟨de, hde, hop⟩))
      { s with img := mbStartImg env s.img MbQAddr } rfl (pic_meta_refl s.p)

theorem DeblockMb_frame_chroma (env : Env) (s : State) (MbQAddr : Int) (s' : State)
    (h : DeblockMb env s MbQAddr = some s') (x : Int)
    (hfar : ∀ op ∈ DeblockMbOps env s MbQAddr,
      x ∉ opChromaWrites env (mbStartImg env s.img MbQAddr) s.p MbQAddr op) :
    s'.p.imgUV.map (fun uv => (uv.1 x, uv.2 x)) =
      s.p.imgUV.map (fun uv => (uv.1 x, uv.2 x)) := by
  have hassert := (DeblockMb_result env s MbQAddr s' h).1
  by_cases hd : (s.img.mb_data MbQAddr).LFDisableIdc = 1
  · rw [DeblockMb_disabled_eq env s MbQAddr hd, if_neg hassert] at h
    rw [← Option.some.inj h]
    rfl
  · rw [DeblockMb_enabled_eq env s MbQAddr hassert hd] at h
    rw [← Option.some.inj h, resetCall_p, deblockLoops_eq]
    rw [DeblockMbOps_eq, if_neg hassert, if_neg hd] at hfar
    exact steps_frame_chroma env MbQAddr _ _ _ _
      { s with img := mbStartImg env s.img MbQAddr } (mbStartImg_call env s.img MbQAddr)
      edgeOrder edgeOrder_ne_four x
      (fun de hde op hop => hfar op (List.mem_flatMap.mpr ⟨de, hde, hop⟩))
      { s with img := mbStartImg env s.img MbQAddr } rfl (pic_meta_refl s.p)

/-! ## When `DeblockMb` and `DeblockPicture` return -/

theorem DeblockMb_isSome (env : Env) (s : State) (MbQAddr : Int) :
    (DeblockMb env s MbQAddr).isSome = true ↔
      ¬ ((s.img.mb_data MbQAddr).mb_type = env.I8MB ∧
        (s.img.mb_data MbQAddr).luma_transform_size_8x8_flag = 0) := by
  constructor
  · intro h hassert
    rw [DeblockMb_assert env s MbQAddr hassert] at h
    exact absurd h (by simp)
  · intro hassert
    by_cases hd : (s.img.mb_data MbQAddr).LFDisableIdc = 1
    · rw [DeblockMb_disabled_eq env s MbQAddr hd, if_neg hassert]
      rfl
    · rw [DeblockMb_enabled_eq env s MbQAddr hassert hd]
      rfl

theorem foldlM_isSome (env : Env) (L : List Nat) :
    ∀ s : State,
      (L.foldlM (fun st (i : Nat) => DeblockMb env st (i : Int)) s).isSome = true ↔
        ∀ i ∈ L, ¬ ((s.img.mb_data (i : Int)).mb_type = env.I8MB ∧
          (s.img.mb_data (i : Int)).luma_transform_size_8x8_flag = 0) := by
  induction L with
  | nil => intro s; simp
  | cons a L ih =>
    intro s
    rw [List.foldlM_cons]
    cases h1 : DeblockMb env s (a : Int) with
    | none =>
      simp only [Option.bind_eq_bind, Option.none_bind, Option.isSome_none,
        Bool.false_eq_true, false_iff, not_forall]
      refine ⟨a, List.mem_cons_self a L, fun hn => ?_⟩
      have := (DeblockMb_isSome env s (a : Int)).mpr hn
      rw [h1] at this
      exact absurd this (by simp)
    | some s1 =>
      simp only [Option.bind_eq_bind, Option.some_bind]
      obtain ⟨hassert, hi, _⟩ := DeblockMb_result env s (a : Int) s1 h1
      have hag : imgAgree s.img s1.img := by rw [hi]; exact mbEndImg_agree env s.img (a : Int)
      rw [ih s1]
      constructor
      · intro hall i hi'
        rcases List.mem_cons.mp hi' with rfl | hi'
        · exact hassert
        · have := hall i hi'
          rw [(hag.2.2 (i : Int)).1, (hag.2.2 (i : Int)).2] at this
          exact this
      · intro hall i hi'
        rw [(hag.2.2 (i : Int)).1, (hag.2.2 (i : Int)).2]
        exact hall i (List.mem_cons_of_mem a hi')

/-- The procedure `DeblockPicture` returns exactly when no macroblock of the picture fails the
`I8MB` assertion. -/
theorem DeblockPicture_isSome (env : Env) (s : State) :
    (DeblockPicture env s).isSome = true ↔
      ∀ i : Nat, i < s.p.PicSizeInMbs →
        ¬ ((s.img.mb_data (i : Int)).mb_type = env.I8MB ∧
          (s.img.mb_data (i : Int)).luma_transform_size_8x8_flag = 0) := by
  unfold DeblockPicture
  rw [foldlM_isSome]
  constructor
  · intro h i hi; exact h i (List.mem_range.mpr hi)
  · intro h i hi; exact h i (List.mem_range.mp hi)

/-! ## The write footprint of an iteration and of `DeblockMb` -/

theorem opLumaWrites_mem (env : Env) (img : ImageParameters) (p : StorablePicture)
    (MbQAddr : Int) (op : Int × Int) (x : Int) :
    x ∈ opLumaWrites env img p MbQAddr op ↔
      ∃ pel : Nat, pel < 16 ∧
        x ∈ pelWriteList env (opImg img op) MbQAddr op.1 op.2 p.size_x 0 (pel : Int) := by
  unfold opLumaWrites
  rw [List.mem_flatMap]
  constructor
  · rintro ⟨pel, h1, h2⟩
    exact ⟨pel, List.mem_range.mp h1, h2⟩
  · rintro ⟨pel, h1, h2⟩
    exact ⟨pel, List.mem_range.mpr h1, h2⟩

theorem opChromaWrites_mem (env : Env) (img : ImageParameters) (p : StorablePicture)
    (MbQAddr : Int) (op : Int × Int) (x : Int) :
    x ∈ opChromaWrites env img p MbQAddr op ↔
      opEdgeCr p op ≥ 0 ∧ ∃ pel : Nat, pel < (PelNum p op.1 1).toNat ∧
        x ∈ pelWriteList env (opImg img op) MbQAddr op.1
          (if op.2 = 4 then 4 else opEdgeCr p op) p.size_x_cr 1 (pel : Int) := by
  unfold opChromaWrites
  by_cases hc : opEdgeCr p op < 0
  · rw [if_pos hc]
    simp only [List.not_mem_nil, false_iff, not_and]
    intro h; omega
  · rw [if_neg hc, List.mem_flatMap]
    constructor
    · rintro ⟨pel, h1, h2⟩
      exact ⟨by omega, pel, List.mem_range.mp h1, h2⟩
    · rintro ⟨_, pel, h1, h2⟩
      exact ⟨pel, List.mem_range.mpr h1, h2⟩

/-- C18: one iteration of `EdgeLoop`, with `P = SrcPtrP`, `Q = SrcPtrQ`, stores only within
three samples of the edge on each side.  For luma only the samples at `P`, `P - incP`,
`P - 2*incP`, `Q`, `Q + incQ`, `Q + 2*incQ` can change, and the samples at `P - 3*incP` and
`Q + 3*incQ` keep their values; when the strength is not 4 only those at `P`, `P - incP`, `Q`,
`Q + incQ` can change; for chroma only those at `P` and `Q`.  A call of `DeblockMb` returns
unless its `I8MB` assertion fails, and it leaves unchanged every luma sample that is in none of
these write sets of the luma iterations of its edge operations (`opLumaWrites`), and every
sample of either chroma plane that is in none of the write sets of the chroma iterations
(`opChromaWrites`). -/
theorem EdgeLoop_write_footprint (env : Env) (img : ImageParameters) (p : StorablePicture)
    (Strength : Int → Nat) (MbQAddr AlphaC0Offset BetaOffset dir edge width yuv uv : Int)
    (Img : Plane) (pel : Int) (incP incQ P Q : Int)
    (hincP : incP = pelIncP env img MbQAddr dir edge width yuv pel)
    (hincQ : incQ = pelIncQ env img MbQAddr dir edge width yuv pel)
    (hP : P = pelSrcPtrP env img MbQAddr dir edge width yuv pel)
    (hQ : Q = pelSrcPtrQ env img MbQAddr dir edge width yuv pel)
    (out : Plane)
    (hout : out = EdgeLoopPel env img p Strength MbQAddr AlphaC0Offset BetaOffset dir edge width
      yuv uv Img pel) :
    (yuv = 0 → ∀ a, a ≠ P → a ≠ P - incP → a ≠ P - incP * 2 → a ≠ Q → a ≠ Q + incQ →
      a ≠ Q + incQ * 2 → out a = Img a) ∧
    (yuv = 0 → 0 < width → P < Q →
      out (P - incP * 3) = Img (P - incP * 3) ∧ out (Q + incQ * 3) = Img (Q + incQ * 3)) ∧
    (pelStrng env img p Strength MbQAddr dir edge yuv pel ≠ 4 →
      ∀ a, a ≠ P → a ≠ P - incP → a ≠ Q → a ≠ Q + incQ → out a = Img a) ∧
    (yuv ≠ 0 → ∀ a, a ≠ P → a ≠ Q → out a = Img a) ∧
    (∀ (s : State) (i : Int), (DeblockMb env s i).isSome = true ↔
      ¬ ((s.img.mb_data i).mb_type = env.I8MB ∧
        (s.img.mb_data i).luma_transform_size_8x8_flag = 0)) ∧
    (∀ (s s' : State) (i : Int), DeblockMb env s i = some s' → ∀ x,
      ((∀ op ∈ DeblockMbOps env s i,
          x ∉ opLumaWrites env (mbStartImg env s.img i) s.p i op) →
        s'.p.imgY x = s.p.imgY x) ∧
      ((∀ op ∈ DeblockMbOps env s i,
          x ∉ opChromaWrites env (mbStartImg env s.img i) s.p i op) →
        s'.p.imgUV.map (fun uv => (uv.1 x, uv.2 x)) =
          s.p.imgUV.map (fun uv => (uv.1 x, uv.2 x)))) ∧
    (∀ (img' : ImageParameters) (p' : StorablePicture) (i : Int) (op : Int × Int) (x : Int),
      (x ∈ opLumaWrites env img' p' i op ↔
        ∃ pel' : Nat, pel' < 16 ∧
          x ∈ pelWriteList env (opImg img' op) i op.1 op.2 p'.size_x 0 (pel' : Int)) ∧
      (x ∈ opChromaWrites env img' p' i op ↔
        opEdgeCr p' op ≥ 0 ∧ ∃ pel' : Nat, pel' < (PelNum p' op.1 1).toNat ∧
          x ∈ pelWriteList env (opImg img' op) i op.1
            (if op.2 = 4 then 4 else opEdgeCr p' op) p'.size_x_cr 1 (pel' : Int))) := by
  have L : yuv = 0 → ∀ a, a ≠ P → a ≠ P - incP → a ≠ P - incP * 2 → a ≠ Q → a ≠ Q + incQ →
      a ≠ Q + incQ * 2 → out a = Img a := by
    intro hy a h1 h2 h3 h4 h5 h6
    rw [hout]
    apply EdgeLoopPel_frame
    unfold pelWriteList
    rw [if_neg (by simpa using hy), ← hP, ← hQ, ← hincP, ← hincQ]
    simp only [List.mem_cons, List.mem_singleton, List.not_mem_nil, or_false, not_or]
    exact ⟨h1, h2, h3, h4, h5, h6⟩
  refine ⟨L, ?_, ?_, ?_, fun s i => DeblockMb_isSome env s i, ?_, ?_⟩
  · intro hy hw hPQ
    have hip : 0 < incP := by rw [hincP]; exact edgeInc_pos _ _ _ _ _ hw
    have hiq : 0 < incQ := by rw [hincQ]; exact edgeInc_pos _ _ _ _ _ hw
    constructor
    · exact L hy _ (by omega) (by omega) (by omega) (by omega) (by omega) (by omega)
    · exact L hy _ (by omega) (by omega) (by omega) (by omega) (by omega) (by omega)
  · intro hS a h1 h2 h4 h5
    rw [hout]
    unfold EdgeLoopPel
    split
    · rw [← hP, ← hQ, ← hincP, ← hincQ]
      exact filterPel_frame _ _ _ _ _ _ _ _ _ _ _ Img a h1 h4 (fun _ => h2) (fun _ => h5)
        (fun _ h => absurd h hS) (fun _ h => absurd h hS)
    · rfl
  · intro hy a h1 h4
    rw [hout]
    apply EdgeLoopPel_frame
    unfold pelWriteList
    rw [if_pos hy, ← hP, ← hQ]
    simp only [List.mem_cons, List.mem_singleton, List.not_mem_nil, or_false, not_or]
    exact ⟨h1, h4⟩
  · intro s s' i h x
    exact ⟨DeblockMb_frame_luma env s i s' h x, DeblockMb_frame_chroma env s i s' h x⟩
  · intro img' p' i op x
    exact ⟨opLumaWrites_mem env img' p' i op x, opChromaWrites_mem env img' p' i op x⟩

/-- Witness for C18: the iteration `pel = 0` at the left edge of the second macroblock of
`exIntra` with strength 4 (`P = 15`, `Q = 16`): the sample at `P - 3*incP = 12` keeps its
value. -/
theorem EdgeLoop_write_footprint_witness :
    (1 : Int) = pelIncP (exEnv 2) exIntra.img 1 0 0 32 0 0 ∧
    (15 : Int) = pelSrcPtrP (exEnv 2) exIntra.img 1 0 0 32 0 0 ∧
    (16 : Int) = pelSrcPtrQ (exEnv 2) exIntra.img 1 0 0 32 0 0 ∧
    EdgeLoopPel (exEnv 2) exIntra.img exIntra.p (fun _ => 4) 1 0 0 0 0 32 0 0 exIntra.p.imgY 0 12
      = exIntra.p.imgY 12 :=
  ⟨by decide, by decide, by decide,
    ((EdgeLoop_write_footprint (exEnv 2) exIntra.img exIntra.p (fun _ => 4) 1 0 0 0 0 32 0 0
      exIntra.p.imgY 0 1 1 15 16 (by decide) (by decide) (by decide) (by decide) _ rfl).2.1
      rfl (by decide) (by decide)).1⟩

/-! ## What `DeblockPicture` can store to -/

theorem DeblockMbOps_planes (env : Env) (s : State) (img : ImageParameters)
    (p : StorablePicture) (i : Int) (h1 : s.img = img)
    (h2 : s.p = { p with imgY := s.p.imgY, imgUV := s.p.imgUV }) :
    DeblockMbOps env s i = DeblockMbOps env ⟨img, p, 0⟩ i := by
  rw [DeblockMbOps_eq, DeblockMbOps_eq, h1, h2]
  simp only [deblockStepOps_planes]
  rfl

theorem mbAway_planes (env : Env) (img : ImageParameters) (p : StorablePicture) (Y : Plane)
    (UV : Option (Plane × Plane)) (yuv x i : Int) :
    mbAway env img { p with imgY := Y, imgUV := UV } yuv x i = mbAway env img p yuv x i := by
  unfold mbAway
  rw [DeblockMbOps_planes env ⟨img, { p with imgY := Y, imgUV := UV }, 0⟩ img p i rfl rfl]
  rfl

theorem picAway_planes (env : Env) (p : StorablePicture) (Y : Plane)
    (UV : Option (Plane × Plane)) (yuv x : Int) (L : List Nat) :
    ∀ img, picAway env { p with imgY := Y, imgUV := UV } yuv x L img =
      picAway env p yuv x L img := by
  induction L with
  | nil => intro img; rfl
  | cons a L ih =>
    intro img
    unfold picAway
    rw [mbAway_planes, ih]

/-- A sample that is in no write set of any edge operation of the calls of `DeblockMb` keeps
its value through the calls. -/
theorem foldlM_frame (env : Env) (x : Int) (L : List Nat) :
    ∀ s s' : State, L.foldlM (fun st (i : Nat) => DeblockMb env st (i : Int)) s = some s' →
      (picAway env s.p 0 x L s.img = true → s'.p.imgY x = s.p.imgY x) ∧
      (picAway env s.p 1 x L s.img = true →
        s'.p.imgUV.map (fun uv => (uv.1 x, uv.2 x)) =
          s.p.imgUV.map (fun uv => (uv.1 x, uv.2 x))) := by
  induction L with
  | nil =>
    intro s s' h
    have e : s' = s := (Option.some.inj h).symm
    rw [e]
    exact ⟨fun _ => rfl, fun _ => rfl⟩
  | cons a L ih =>
    intro s s' h
    rw [List.foldlM_cons] at h
    cases h1 : DeblockMb env s (a : Int) with
    | none => rw [h1] at h; exact absurd h (by simp)
    | some s1 =>
      rw [h1] at h
      obtain ⟨_, hi, hp⟩ := DeblockMb_result env s (a : Int) s1 h1
      have hops := DeblockMbOps_planes env s s.img s.p (a : Int) rfl (pic_meta_refl s.p)
      have IH := ih s1 s' h
      rw [hi, hp, picAway_planes env s.p s1.p.imgY s1.p.imgUV 0 x L,
        picAway_planes env s.p s1.p.imgY s1.p.imgUV 1 x L] at IH
      constructor
      · intro hA
        unfold picAway at hA
        rw [Bool.and_eq_true] at hA
        rw [IH.1 hA.2]
        apply DeblockMb_frame_luma env s (a : Int) s1 h1 x
        intro op hop
        have := hA.1
        unfold mbAway at this
        rw [List.all_eq_true] at this
        have h3 := this op (by rw [← hops]; exact hop)
        rw [decide_eq_true_eq, if_pos rfl] at h3
        exact h3
      · intro hA
        unfold picAway at hA
        rw [Bool.and_eq_true] at hA
        rw [IH.2 hA.2]
        apply DeblockMb_frame_chroma env s (a : Int) s1 h1 x
        intro op hop
        have := hA.1
        unfold mbAway at this
        rw [List.all_eq_true] at this
        have h3 := this op (by rw [← hops]; exact hop)
        rw [decide_eq_true_eq, if_neg (by decide)] at h3
        exact h3

/-- The picture `exHalfDisabled` after `DeblockPicture`: the luma sample at x = 15, y = 0 has
become 102. -/
theorem exHalfDisabled_run :
    ∃ s', DeblockPicture (exEnv 2) exHalfDisabled = some s' ∧ s'.p.imgY 15 = 102 := by
  have e0 : DeblockMb (exEnv 2) exHalfDisabled ((0 : Nat) : Int) =
      some (resetCall exHalfDisabled) := by
    rw [DeblockMb_disabled_eq (exEnv 2) exHalfDisabled ((0 : Nat) : Int) (by decide),
      if_neg (by decide)]
  have e1 := DeblockMb_enabled_eq (exEnv 2) (resetCall exHalfDisabled) ((1 : Nat) : Int)
    (by decide) (by decide)
  have hD : DeblockPicture (exEnv 2) exHalfDisabled =
      DeblockMb (exEnv 2) (resetCall exHalfDisabled) ((1 : Nat) : Int) := by
    unfold DeblockPicture
    have hr : List.range exHalfDisabled.p.PicSizeInMbs = [0, 1] := rfl
    rw [hr, List.foldlM_cons, e0]
    simp only [Option.bind_eq_bind, Option.some_bind]
    rw [List.foldlM_cons, e1]
    rfl
  refine ⟨_, hD.trans e1, ?_⟩
  · rw [resetCall_p, deblockLoops_eq]
    have e : edgeOrder = [] ++ (0, 0) :: [(0, 1), (0, 2), (0, 3), (1, 0), (1, 1), (1, 2), (1, 3)] :=
      rfl
    rw [e, steps_luma_at (exEnv 2) _ _ _ _ _ _ rfl []
      [(0, 1), (0, 2), (0, 3), (1, 0), (1, 1), (1, 2), (1, 3)] 0 0 0 15 (by decide) (by decide)
      (by decide) (by decide) (by decide) (by decide) (by decide) (by decide) (by decide)]
    decide

/-- Counterexample to C19: the left macroblock of `exHalfDisabled` has `LFDisableIdc = 1`, its
right neighbour has `LFDisableIdc = 0`, and `DeblockPicture` changes the luma sample at
x = 15, y = 0, inside the left macroblock, from 100 to 102: the strong filter of the left edge
of the right macroblock stores to it. -/
theorem DeblockPicture_disabled_counterexample :
    (exHalfDisabled.img.mb_data 0).LFDisableIdc = 1 ∧ exHalfDisabled.p.imgY 15 = 100 ∧
    ∃ s', DeblockPicture (exEnv 2) exHalfDisabled = some s' ∧ s'.p.imgY 15 = 102 :=
  ⟨rfl, rfl, exHalfDisabled_run⟩

/-- C19, amended: a call of `DeblockMb` for a macroblock with `LFDisableIdc == 1` returns
unless the `I8MB` assertion fails, performs no edge operation and leaves all planes as they
are; and `DeblockPicture`, which returns unless an `I8MB` assertion fails, leaves unchanged
every luma sample, and every sample of the chroma planes, that is in no write set (three luma
samples, one chroma sample, on each side of the edge) of an edge operation of any macroblock
of the picture (`picAway`).  The samples of a macroblock with `LFDisableIdc == 1` that are in
the write set of the left or top edge of a neighbour whose filter is not disabled are not
covered. -/
theorem DeblockPicture_disabled_region (env : Env) (s : State) :
    ((DeblockPicture env s).isSome = true ↔
      ∀ i : Nat, i < s.p.PicSizeInMbs →
        ¬ ((s.img.mb_data (i : Int)).mb_type = env.I8MB ∧
          (s.img.mb_data (i : Int)).luma_transform_size_8x8_flag = 0)) ∧
    (∀ (st : State) (i : Int), (st.img.mb_data i).LFDisableIdc = 1 →
      ((DeblockMb env st i).isSome = true ↔
        ¬ ((st.img.mb_data i).mb_type = env.I8MB ∧
          (st.img.mb_data i).luma_transform_size_8x8_flag = 0)) ∧
      DeblockMbOps env st i = [] ∧ ∀ st', DeblockMb env st i = some st' → st'.p = st.p) ∧
    (∀ s', DeblockPicture env s = some s' →
      (∀ x, picAway env s.p 0 x (List.range s.p.PicSizeInMbs) s.img = true →
        s'.p.imgY x = s.p.imgY x) ∧
      (∀ x, picAway env s.p 1 x (List.range s.p.PicSizeInMbs) s.img = true →
        s'.p.imgUV.map (fun uv => (uv.1 x, uv.2 x)) =
          s.p.imgUV.map (fun uv => (uv.1 x, uv.2 x)))) := by
  refine ⟨DeblockPicture_isSome env s, ?_, ?_⟩
  · intro st i hd
    refine ⟨DeblockMb_isSome env st i, ?_, ?_⟩
    · rw [DeblockMbOps_eq]
      split_ifs <;> rfl
    · intro st' hst
      rw [DeblockMb_disabled_eq env st i hd] at hst
      split_ifs at hst
      rw [← Option.some.inj hst]
      rfl
  · intro s' h
    unfold DeblockPicture at h
    exact ⟨fun x => (foldlM_frame env x _ s s' h).1, fun x => (foldlM_frame env x _ s s' h).2⟩

/-- Witness for the amended C19: in `exHalfDisabled` the luma sample at x = 12, y = 0 of the
disabled left macroblock, four samples away from the edge at x = 16, keeps its value. -/
theorem DeblockPicture_disabled_region_witness :
    ∃ s', DeblockPicture (exEnv 2) exHalfDisabled = some s' ∧
      s'.p.imgY 12 = exHalfDisabled.p.imgY 12 :=
  Exists.elim exHalfDisabled_run (fun s' hs =>
    ⟨s', hs.1, ((DeblockPicture_disabled_region (exEnv 2) exHalfDisabled).2.2 s' hs.1).1 12
      (by decide)⟩)

/-! ## Filtering twice -/

/-- C20: the per-sample filter of `EdgeLoop` is not idempotent: there is an in-range luma
neighbourhood (here 100 100 100 100 | 104 104 104 104 across the left edge of the second
macroblock of `exStep 100 104`, strength 4, `Alpha = 15`, `Beta = 6`) on which the iteration
applied twice differs from the iteration applied once (`P1` is 101 after one application and
102 after two).  For a picture whose samples are all zero, `DeblockPicture` returns the
picture unchanged, and a second call on the result returns it unchanged again, whenever no
`I8MB` assertion fails. -/
theorem EdgeLoop_not_idempotent :
    (∃ (env : Env) (img : ImageParameters) (p : StorablePicture) (Strength : Int → Nat)
      (MbQAddr AlphaC0Offset BetaOffset dir edge width uv : Int) (Img : Plane) (pel : Int),
      (∀ b ∈ pelReadList env img MbQAddr dir edge width 0 pel,
        0 ≤ Img b ∧ Img b ≤ pelMax img 0) ∧
      EdgeLoopPel env img p Strength MbQAddr AlphaC0Offset BetaOffset dir edge width 0 uv
          (EdgeLoopPel env img p Strength MbQAddr AlphaC0Offset BetaOffset dir edge width 0 uv
            Img pel) pel ≠
        EdgeLoopPel env img p Strength MbQAddr AlphaC0Offset BetaOffset dir edge width 0 uv
          Img pel) ∧
    (∀ (env : Env) (s : State),
      (∀ a, s.p.imgY a = 0) →
      (∀ uv, s.p.imgUV = some uv → ∀ a, uv.1 a = 0 ∧ uv.2 a = 0) →
      0 ≤ s.img.max_imgpel_value → 0 ≤ s.img.max_imgpel_value_uv →
      (∀ i : Nat, i < s.p.PicSizeInMbs →
        ¬ ((s.img.mb_data (i : Int)).mb_type = env.I8MB ∧
          (s.img.mb_data (i : Int)).luma_transform_size_8x8_flag = 0)) →
      ∃ s1 s2, DeblockPicture env s = some s1 ∧ DeblockPicture env s1 = some s2 ∧
        s1.p = s.p ∧ s2.p = s1.p) := by
  constructor
  · refine ⟨exEnv 2, (exStep 100 104).img, (exStep 100 104).p, fun _ => 4, 1, 0, 0, 0, 0, 32, 0,
      (exStep 100 104).p.imgY, 0, by decide, ?_⟩
    intro h
    exact absurd (congrFun h 14) (by decide)
  · intro env s hY hUV hm hmu hassert
    have hc : constPlanes s.img.max_imgpel_value s.img.max_imgpel_value_uv s.p :=
      ⟨⟨0, ⟨le_refl 0, hm⟩, hY⟩, fun uv h =>
        ⟨⟨0, ⟨le_refl 0, hmu⟩, fun a => (hUV uv h a).1⟩,
          ⟨0, ⟨le_refl 0, hmu⟩, fun a => (hUV uv h a).2⟩⟩⟩
    obtain ⟨s1, h1, hp1, hag⟩ := DeblockPicture_const env s hc hassert
    obtain ⟨s2, h2, hp2, _⟩ := DeblockPicture_const env s1
      (by rw [hp1, hag.1, hag.2.1]; exact hc)
      (by
        intro i hi
        rw [(hag.2.2 (i : Int)).1, (hag.2.2 (i : Int)).2]
        rw [hp1] at hi
        exact hassert i hi)
    exact ⟨s1, s2, h1, h2, hp1, hp2⟩

/-- Witness for C20: the all-zero one-macroblock picture `exFlat 0`. -/
theorem EdgeLoop_not_idempotent_witness :
    ∃ s1 s2, DeblockPicture (exEnv 1) (exFlat 0) = some s1 ∧
      DeblockPicture (exEnv 1) s1 = some s2 ∧ s1.p = (exFlat 0).p ∧ s2.p = s1.p :=
  EdgeLoop_not_idempotent.2 (exEnv 1) (exFlat 0) (fun _ => rfl)
    (fun uv h => by simp [exFlat, exPic] at h) (by decide) (by decide)
    (fun i _ h => absurd (show (10 : Int) = 13 from h.1) (by decide))

/-! ## Low table indices -/

theorem tab_low (T : List Int) (h : ∀ n : Nat, n ≤ 15 → T.getD n 0 = 0) (i : Int)
    (h0 : 0 ≤ i) (h1 : i ≤ 15) : tab T i = 0 := by
  unfold tab
  exact h i.toNat (by omega)

theorem ALPHA_TABLE_low (i : Int) (h0 : 0 ≤ i) (h1 : i ≤ 15) : tab ALPHA_TABLE i = 0 :=
  tab_low ALPHA_TABLE (by decide) i h0 h1

theorem BETA_TABLE_low (i : Int) (h0 : 0 ≤ i) (h1 : i ≤ 15) : tab BETA_TABLE i = 0 :=
  tab_low BETA_TABLE (by decide) i h0 h1

theorem filterGate_alpha_zero (Strng Beta L1 L0 R0 R1 : Int) :
    filterGate Strng 0 Beta L1 L0 R0 R1 = false := by
  have h := c_abs_nonneg (R0 - L0)
  unfold filterGate
  simp only [Bool.and_eq_false_imp, Bool.and_eq_true, decide_eq_true_eq]
  intro _ h2
  omega

theorem filterGate_beta_zero (Strng Alpha L1 L0 R0 R1 : Int) :
    filterGate Strng Alpha 0 L1 L0 R0 R1 = false := by
  have h := c_abs_nonneg (R0 - R1)
  unfold filterGate
  simp only [Bool.and_eq_false_imp, Bool.and_eq_true, decide_eq_true_eq, c_and_neg_iff,
    decide_eq_false_iff_not]
  intro _ _ h3
  omega

theorem IClip_le_of_le (Max v c : Int) (h0 : 0 ≤ c) (hc : c ≤ Max) (h : v ≤ c) :
    0 ≤ IClip 0 Max v ∧ IClip 0 Max v ≤ c := by
  unfold IClip
  split_ifs <;> omega

/-- An iteration whose `indexA` or `indexB` is at most 15 stores nothing. -/
theorem EdgeLoopPel_low_index (env : Env) (img : ImageParameters) (p : StorablePicture)
    (Strength : Int → Nat) (MbQAddr AlphaC0Offset BetaOffset dir edge width yuv uv : Int)
    (Img : Plane) (pel : Int)
    (h : edgeQP env p (pelMbP env img MbQAddr dir edge yuv pel) (img.mb_data MbQAddr) yuv uv +
        AlphaC0Offset ≤ 15 ∨
      edgeQP env p (pelMbP env img MbQAddr dir edge yuv pel) (img.mb_data MbQAddr) yuv uv +
        BetaOffset ≤ 15) :
    EdgeLoopPel env img p Strength MbQAddr AlphaC0Offset BetaOffset dir edge width yuv uv Img pel
      = Img := by
  unfold EdgeLoopPel
  split
  · apply filterPel_gate_false
    rcases h with h | h
    · have hi := IClip_le_of_le MAX_QP _ 15 (by decide) (by decide) h
      have : tab ALPHA_TABLE (pelIndex env img p MbQAddr AlphaC0Offset dir edge yuv uv pel) = 0 :=
        ALPHA_TABLE_low _ hi.1 hi.2
      rw [this, zero_mul]
      exact filterGate_alpha_zero _ _ _ _ _ _
    · have hi := IClip_le_of_le MAX_QP _ 15 (by decide) (by decide) h
      have : tab BETA_TABLE (pelIndex env img p MbQAddr BetaOffset dir edge yuv uv pel) = 0 :=
        BETA_TABLE_low _ hi.1 hi.2
      rw [this, zero_mul]
      exact filterGate_beta_zero _ _ _ _ _ _
  · rfl

/-- C28: `ALPHA_TABLE` and `BETA_TABLE` are 0 at the indices 0..15 and non-decreasing over
their 52 entries, and no `abs` value is below 0.  Hence an iteration of `EdgeLoop` whose
averaged `QP` satisfies `QP + AlphaC0Offset <= 15` or `QP + BetaOffset <= 15` leaves the plane
as it is, whatever the strengths and the samples are, and so does a call of `EdgeLoop` all of
whose iterations satisfy this. -/
theorem EdgeLoop_low_index_unchanged :
    (∀ i : Nat, i ≤ 15 → tab ALPHA_TABLE (i : Int) = 0 ∧ tab BETA_TABLE (i : Int) = 0) ∧
    (∀ i j : Nat, i ≤ j → j ≤ 51 →
      tab ALPHA_TABLE (i : Int) ≤ tab ALPHA_TABLE (j : Int) ∧
      tab BETA_TABLE (i : Int) ≤ tab BETA_TABLE (j : Int)) ∧
    (∀ x : Int, 0 ≤ c_abs x) ∧
    (∀ (env : Env) (img : ImageParameters) (p : StorablePicture) (Strength : Int → Nat)
      (MbQAddr AlphaC0Offset BetaOffset dir edge width yuv uv : Int) (Img : Plane) (pel : Int),
      (edgeQP env p (pelMbP env img MbQAddr dir edge yuv pel) (img.mb_data MbQAddr) yuv uv +
          AlphaC0Offset ≤ 15 ∨
        edgeQP env p (pelMbP env img MbQAddr dir edge yuv pel) (img.mb_data MbQAddr) yuv uv +
          BetaOffset ≤ 15) →
      EdgeLoopPel env img p Strength MbQAddr AlphaC0Offset BetaOffset dir edge width yuv uv Img
        pel = Img) ∧
    (∀ (env : Env) (img : ImageParameters) (p : StorablePicture) (Strength : Int → Nat)
      (MbQAddr AlphaC0Offset BetaOffset dir edge width yuv uv : Int) (Img : Plane),
      (∀ pel : Nat, pel < (PelNum p dir yuv).toNat →
        edgeQP env p (pelMbP env img MbQAddr dir edge yuv (pel : Int)) (img.mb_data MbQAddr)
            yuv uv + AlphaC0Offset ≤ 15 ∨
          edgeQP env p (pelMbP env img MbQAddr dir edge yuv (pel : Int)) (img.mb_data MbQAddr)
            yuv uv + BetaOffset ≤ 15) →
      EdgeLoop env img p Strength MbQAddr AlphaC0Offset BetaOffset dir edge width yuv uv Img
        = Img) := by
  refine ⟨by decide, ?_, c_abs_nonneg, ?_, ?_⟩
  · have T : ∀ j : Nat, j ≤ 51 → ∀ i : Nat, i ≤ j →
        tab ALPHA_TABLE (i : Int) ≤ tab ALPHA_TABLE (j : Int) ∧
        tab BETA_TABLE (i : Int) ≤ tab BETA_TABLE (j : Int) := by
      decide
    intro i j hij hj
    exact T j hj i hij
  · intro env img p Strength MbQAddr AlphaC0Offset BetaOffset dir edge width yuv uv Img pel h
    exact EdgeLoopPel_low_index env img p Strength MbQAddr AlphaC0Offset BetaOffset dir edge
      width yuv uv Img pel h
  · intro env img p Strength MbQAddr AlphaC0Offset BetaOffset dir edge width yuv uv Img h
    unfold EdgeLoop
    apply foldl_fixed
    intro pel hpel
    exact EdgeLoopPel_low_index env img p Strength MbQAddr AlphaC0Offset BetaOffset dir edge
      width yuv uv Img (pel : Int) (h pel (List.mem_range.mp hpel))

/-- Witness for C28: on the left edge of the second macroblock of `exIntra` (QP 26) with
`AlphaC0Offset = -11`, strength 4: `indexA = 15` and the iteration `pel = 0` leaves the plane
as it is. -/
theorem EdgeLoop_low_index_unchanged_witness :
    edgeQP (exEnv 2) exIntra.p (pelMbP (exEnv 2) exIntra.img 1 0 0 0 0) (exIntra.img.mb_data 1)
      0 0 + (-11) = 15 ∧
    EdgeLoopPel (exEnv 2) exIntra.img exIntra.p (fun _ => 4) 1 (-11) 0 0 0 32 0 0
      exIntra.p.imgY 0 = exIntra.p.imgY :=
  ⟨by decide, EdgeLoop_low_index_unchanged.2.2.2.1 (exEnv 2) exIntra.img exIntra.p (fun _ => 4)
    1 (-11) 0 0 0 32 0 0 exIntra.p.imgY 0 (Or.inl (by decide))⟩

/-! ## Table indices of `EdgeLoop` -/

theorem Clip3_mem (low high x : Int) (h : low ≤ high) :
    low ≤ Clip3 low high x ∧ Clip3 low high x ≤ high := by
  unfold Clip3
  split_ifs <;> omega

theorem PelNum_le (p : StorablePicture) (dir yuv : Int) : PelNum p dir yuv ≤ 16 := by
  rcases PelNum_cases p dir yuv with h | h | h <;> omega

/-- C26: every table index of one iteration of `EdgeLoop` is in bounds, for all macroblock
QPs, all values of `AlphaC0Offset`, `BetaOffset` and `chroma_qp_offset`, every chroma format
and every `pel` with `0 <= pel < PelNum`: `indexA` and `indexB` lie in 0..51 (`ALPHA_TABLE`,
`BETA_TABLE` and `CLIP_TAB` have 52 entries), both arguments of `QP_SCALE_CR` lie in 0..51,
`StrengthIdx` lies in 0..15 (`PelNum` is at most 16), and when the strength entries 0..15 are
at most 4 the index `Strng` of the `CLIP_TAB` row lies in 0..4 (every row has 5 entries). -/
theorem EdgeLoop_table_bounds (env : Env) (img : ImageParameters) (p : StorablePicture)
    (Strength : Int → Nat) (MbQAddr AlphaC0Offset BetaOffset dir edge yuv uv pel : Int)
    (h0 : 0 ≤ pel) (h1 : pel < PelNum p dir yuv) :
    (0 ≤ pelIndex env img p MbQAddr AlphaC0Offset dir edge yuv uv pel ∧
      pelIndex env img p MbQAddr AlphaC0Offset dir edge yuv uv pel ≤ 51) ∧
    (0 ≤ pelIndex env img p MbQAddr BetaOffset dir edge yuv uv pel ∧
      pelIndex env img p MbQAddr BetaOffset dir edge yuv uv pel ≤ 51) ∧
    (ALPHA_TABLE.length = 52 ∧ BETA_TABLE.length = 52 ∧ CLIP_TAB.length = 52 ∧
      ∀ r ∈ CLIP_TAB, r.length = 5) ∧
    (0 ≤ CQPOF p (pelMbP env img MbQAddr dir edge yuv pel).qp uv ∧
      CQPOF p (pelMbP env img MbQAddr dir edge yuv pel).qp uv ≤ 51 ∧
      0 ≤ CQPOF p (img.mb_data MbQAddr).qp uv ∧ CQPOF p (img.mb_data MbQAddr).qp uv ≤ 51) ∧
    (PelNum p dir yuv ≤ 16 ∧
      0 ≤ StrengthIdx (pelMbP env img MbQAddr dir edge yuv pel) (img.mb_data MbQAddr) yuv
        (PelNum p dir yuv) pel ∧
      StrengthIdx (pelMbP env img MbQAddr dir edge yuv pel) (img.mb_data MbQAddr) yuv
        (PelNum p dir yuv) pel ≤ 15) ∧
    ((∀ i : Nat, i < 16 → Strength (i : Int) ≤ 4) →
      0 ≤ pelStrng env img p Strength MbQAddr dir edge yuv pel ∧
      pelStrng env img p Strength MbQAddr dir edge yuv pel ≤ 4) := by
  have hS := StrengthIdx_range (pelMbP env img MbQAddr dir edge yuv pel) (img.mb_data MbQAddr)
    yuv (PelNum p dir yuv) pel (PelNum_le p dir yuv) h0 h1
  refine ⟨IClip_mem 0 MAX_QP _ (by decide), IClip_mem 0 MAX_QP _ (by decide),
    ⟨rfl, rfl, rfl, by decide⟩, ?_, ⟨PelNum_le p dir yuv, hS.1, by omega⟩, ?_⟩
  · have a := Clip3_mem 0 51 ((pelMbP env img MbQAddr dir edge yuv pel).qp +
      p.chroma_qp_offset uv) (by decide)
    have b := Clip3_mem 0 51 ((img.mb_data MbQAddr).qp + p.chroma_qp_offset uv) (by decide)
    exact ⟨a.1, a.2, b.1, b.2⟩
  · intro hle
    unfold pelStrng
    generalize hk : StrengthIdx (pelMbP env img MbQAddr dir edge yuv pel) (img.mb_data MbQAddr)
      yuv (PelNum p dir yuv) pel = k at hS
    have hk' : k = ((k.toNat : Nat) : Int) := by omega
    have := hle k.toNat (by omega)
    rw [← hk'] at this
    omega

/-- Witness for C26: the chroma iteration `pel = 7` of a vertical edge in 4:2:0 between
frame macroblocks maps to `StrengthIdx = 13`. -/
theorem EdgeLoop_table_bounds_witness :
    (7 : Int) < PelNum { exIntra.p with chroma_format_idc := 1 } 0 1 ∧
    StrengthIdx (pelMbP (exEnv 2) exIntra.img 1 0 0 1 7) (exIntra.img.mb_data 1) 1
      (PelNum { exIntra.p with chroma_format_idc := 1 } 0 1) 7 ≤ 15 :=
  ⟨by decide,
    (EdgeLoop_table_bounds (exEnv 2) exIntra.img { exIntra.p with chroma_format_idc := 1 }
      (fun _ => 4) 1 0 0 0 0 1 0 7 (by decide) (by decide)).2.2.2.2.1.2.2⟩

/-! ## The skip tests of `DeblockMb` -/

theorem StrengthWord_ne_zero (S : Int → Nat) :
    StrengthWord S ≠ 0 ↔ ∃ i : Nat, i < 4 ∧ S (i : Int) ≠ 0 := by
  unfold StrengthWord
  constructor
  · intro h
    by_contra hn
    simp only [not_exists, not_and, not_not] at hn
    have h0 := hn 0 (by decide)
    have h1 := hn 1 (by decide)
    have h2 := hn 2 (by decide)
    have h3 := hn 3 (by decide)
    simp only [Nat.cast_zero, Nat.cast_one, Nat.cast_ofNat] at h0 h1 h2 h3
    rw [h0, h1, h2, h3] at h
    exact h (by simp)
  · rintro ⟨i, hi, hne⟩
    have hi' : i = 0 ∨ i = 1 ∨ i = 2 ∨ i = 3 := by omega
    rcases hi' with rfl | rfl | rfl | rfl <;>
      simp only [Nat.cast_zero, Nat.cast_one, Nat.cast_ofNat] at hne <;> omega

theorem StrengthSum_ne_zero (S : Int → Nat) :
    StrengthSum S ≠ 0 ↔ ∃ i : Nat, i < 16 ∧ S (i : Int) ≠ 0 := by
  constructor
  · intro h
    by_contra hn
    simp only [not_exists, not_and, not_not] at hn
    exact h (StrengthSum_eq_zero S hn)
  · rintro ⟨i, hi, hne⟩ h0
    unfold StrengthSum at h0
    have hnn : ∀ x ∈ (List.range 16).map (fun (i : Nat) => (S (i : Int) : Int)), 0 ≤ x := by
      intro x hx
      obtain ⟨j, _, rfl⟩ := List.mem_map.mp hx
      exact Int.ofNat_nonneg _
    have hz := List.single_le_sum hnn (S (i : Int) : Int)
      (List.mem_map.mpr ⟨i, List.mem_range.mpr hi, rfl⟩)
    rw [h0] at hz
    omega

/-- C27: the extra horizontal edge (`edge` argument 4, `DeblockCall = 2`) is filtered exactly
when one of `Strength[0..3]` is not zero: the test `*((int*)Strength)` depends on these four
entries only, so with `Strength[0..3]` all zero the picture is left as it is whatever
`Strength[4..15]` are.  When one of the four is not zero, luma is filtered by `EdgeLoop` with
edge 4 (the luma flag of the pass, `filterNon8x8LumaEdgesFlag[0] = 1` in `DeblockMb`, being
set) and both chroma planes are filtered with edge 4 when there are chroma planes and
`edge_cr >= 0`.  A regular edge is skipped exactly when all 16 entries are zero. -/
theorem extra_edge_skip_test (env : Env) (MbQAddr mvlimit : Int) (fl : List Int)
    (dir edge : Int) (s : State) (S : Int → Nat)
    (hS : S = GetStrength env { s.img with DeblockCall := 2 } s.p MbQAddr dir 4 mvlimit)
    (hfl : tab fl edge ≠ 0) :
    (∀ T : Int → Nat, StrengthWord T ≠ 0 ↔ ∃ i : Nat, i < 4 ∧ T (i : Int) ≠ 0) ∧
    (∀ T T' : Int → Nat, (∀ i : Nat, i < 4 → T (i : Int) = T' (i : Int)) →
      StrengthWord T = StrengthWord T') ∧
    (∀ MbQ : Macroblock, tab (mbFilterNon8x8LumaEdgesFlag MbQ) 0 = 1) ∧
    ((∀ i : Nat, i < 4 → S (i : Int) = 0) →
      (deblockExtraEdge env MbQAddr mvlimit fl dir edge s).p = s.p) ∧
    ((∃ i : Nat, i < 4 ∧ S (i : Int) ≠ 0) →
      (deblockExtraEdge env MbQAddr mvlimit fl dir edge s).p.imgY =
        EdgeLoop env { s.img with DeblockCall := 2 } s.p S MbQAddr
          (s.img.mb_data MbQAddr).LFAlphaC0Offset (s.img.mb_data MbQAddr).LFBetaOffset dir 4
          s.p.size_x 0 0 s.p.imgY ∧
      (deblockExtraEdge env MbQAddr mvlimit fl dir edge s).p.imgUV =
        match s.p.imgUV with
        | none => none
        | some uv =>
          if chroma_edge_at dir edge s.p.chroma_format_idc ≥ 0 then
            some (EdgeLoop env { s.img with DeblockCall := 2 } s.p S MbQAddr
                (s.img.mb_data MbQAddr).LFAlphaC0Offset (s.img.mb_data MbQAddr).LFBetaOffset
                dir 4 s.p.size_x_cr 1 0 uv.1,
              EdgeLoop env { s.img with DeblockCall := 2 } s.p S MbQAddr
                (s.img.mb_data MbQAddr).LFAlphaC0Offset (s.img.mb_data MbQAddr).LFBetaOffset
                dir 4 s.p.size_x_cr 1 1 uv.2)
          else some uv) ∧
    (∀ T : Int → Nat, StrengthSum T ≠ 0 ↔ ∃ i : Nat, i < 16 ∧ T (i : Int) ≠ 0) ∧
    ((∀ i : Nat, i < 16 →
        GetStrength env s.img s.p MbQAddr dir edge mvlimit (i : Int) = 0) →
      (deblockEdge env MbQAddr mvlimit fl dir edge s).p = s.p) ∧
    ((∃ i : Nat, i < 16 ∧ GetStrength env s.img s.p MbQAddr dir edge mvlimit (i : Int) ≠ 0) →
      (deblockEdge env MbQAddr mvlimit fl dir edge s).p.imgY =
        EdgeLoop env s.img s.p (GetStrength env s.img s.p MbQAddr dir edge mvlimit) MbQAddr
          (s.img.mb_data MbQAddr).LFAlphaC0Offset (s.img.mb_data MbQAddr).LFBetaOffset dir edge
          s.p.size_x 0 0 s.p.imgY) := by
  refine ⟨StrengthWord_ne_zero, ?_, fun MbQ => (mbFlags_values MbQ).1, ?_, ?_,
    StrengthSum_ne_zero, ?_, ?_⟩
  · intro T T' h
    unfold StrengthWord
    have h0 := h 0 (by decide)
    have h1 := h 1 (by decide)
    have h2 := h 2 (by decide)
    have h3 := h 3 (by decide)
    simp only [Nat.cast_zero, Nat.cast_one, Nat.cast_ofNat] at h0 h1 h2 h3
    rw [h0, h1, h2, h3]
  · intro hz
    have : ¬ StrengthWord S ≠ 0 := by
      rw [StrengthWord_ne_zero]
      rintro ⟨i, hi, hne⟩
      exact hne (hz i hi)
    rw [deblockExtraEdge_p, ← hS, if_neg this]
  · intro hne
    have hw : StrengthWord S ≠ 0 := (StrengthWord_ne_zero S).mpr hne
    rw [deblockExtraEdge_p, ← hS, if_pos hw, filterEdgePlanes_imgY, if_pos hfl,
      filterEdgePlanes_imgUV]
    exact ⟨rfl, rfl⟩
  · intro hz
    rw [deblockEdge_p, if_neg (fun h => h (StrengthSum_eq_zero _ hz))]
  · intro hne
    rw [deblockEdge_imgY, if_pos ⟨(StrengthSum_ne_zero _).mpr hne, hfl⟩]

/-- Witness for C27: the pass `(1, 0)` of the second macroblock of `exIntra`, whose luma flag
is 1; the strengths of the extra edge are 3 everywhere, so the edge would be filtered. -/
theorem extra_edge_skip_test_witness :
    tab [1, 1, 1, 1] 0 ≠ 0 ∧
    StrengthWord (GetStrength (exEnv 2) { exIntra.img with DeblockCall := 2 } exIntra.p 1 1 4
      4) ≠ 0 :=
  ⟨by decide,
    ((extra_edge_skip_test (exEnv 2) 1 4 [1, 1, 1, 1] 1 0 exIntra _ rfl (by decide)).1 _).mpr
      ⟨0, by decide, by decide⟩⟩

/-! ## Strength 4 in MBAFF pictures -/

theorem GetStrengthIdx_four (env : Env) (img : ImageParameters) (p : StorablePicture)
    (MbQAddr dir edge mvlimit idx : Int)
    (h : (GetStrengthIdx env img p MbQAddr dir edge mvlimit idx).1 = 4) :
    StrengthStart env p (img.mb_data (strengthPixP env img MbQAddr dir edge idx).mb_addr)
      (img.mb_data MbQAddr) dir edge = 4 := by
  unfold GetStrengthIdx at h
  simp only [] at h
  have hm := StrengthMotion_cases p mvlimit
    (c_shl (env.get_mb_block_pos img MbQAddr).1 2 +
      c_and (blkOf (edgeXQ dir edge idx) (edgeYQ dir edge idx)) 3)
    (c_shl (env.get_mb_block_pos img MbQAddr).2 2 +
      c_shr (blkOf (edgeXQ dir edge idx) (edgeYQ dir edge idx)) 2)
    (c_shr (strengthPixP env img MbQAddr dir edge idx).pos_x 2)
    (c_shr (strengthPixP env img MbQAddr dir edge idx).pos_y 2)
  split_ifs at h
  · exact h
  · omega
  · omega
  · omega
  · exact h

theorem GetStrength_eq_four_iff (env : Env) (img : ImageParameters) (p : StorablePicture)
    (MbQAddr dir edge mvlimit idx : Int) :
    GetStrength env img p MbQAddr dir edge mvlimit idx = 4 ↔
      (GetStrengthIdx env img p MbQAddr dir edge mvlimit idx).1 = 4 := by
  have h := GetStrengthIdx_cases env img p MbQAddr dir edge mvlimit idx
  unfold GetStrength toByte
  omega

theorem StrengthStart_mbaff (env : Env) (p : StorablePicture) (MbP MbQ : Macroblock)
    (dir edge : Int) (hmbaff : p.MbaffFrameFlag ≠ 0) :
    StrengthStart env p MbP MbQ dir edge = 4 ↔
      edge = 0 ∧ (dir = 0 ∨ (MbP.mb_field = 0 ∧ MbQ.mb_field = 0)) := by
  unfold StrengthStart
  split_ifs with h
  · simp only [true_iff]
    obtain ⟨he, h1 | h2⟩ := h
    · rcases h1 with h1 | h1
      · exact absurd h1.1 hmbaff
      · exact ⟨he, Or.inr h1.2⟩
    · exact ⟨he, Or.inl h2.2⟩
  · constructor
    · intro h3; omega
    · rintro ⟨he, hd | hf⟩
      · exact absurd ⟨he, Or.inr ⟨Or.inl hmbaff, hd⟩⟩ h
      · exact absurd ⟨he, Or.inl (Or.inr ⟨hmbaff, hf⟩)⟩ h

/-- Counterexample to C23: in the MBAFF picture `exMbaff 1 0 0` the left edge (`dir = 0`,
`edge = 0`) of macroblock 2, a frame macroblock whose left neighbour, macroblock 0, is a field
macroblock, gets strength 4 at index 0. -/
theorem GetStrength_mbaff_counterexample :
    (exMbaff 1 0 0).p.MbaffFrameFlag = 1 ∧
    GetStrength exEnvMbaff (exMbaff 1 0 0).img (exMbaff 1 0 0).p 2 0 0 4 0 = 4 ∧
    (strengthPixP exEnvMbaff (exMbaff 1 0 0).img 2 0 0 0).mb_addr = 0 ∧
    ((exMbaff 1 0 0).img.mb_data 0).mb_field = 1 ∧
    ((exMbaff 1 0 0).img.mb_data 2).mb_field = 0 := by
  decide

/-- C23, amended: in an MBAFF picture, whenever `GetStrength` produces `Strength[idx] = 4`,
the edge is macroblock-external (`edge == 0`) and either it is a vertical edge (`dir == 0`) or
both the P-side and the Q-side macroblock are frame macroblocks (`mb_field == 0`).  So on a
horizontal edge a pair that is mixed, or field on both sides, never gets strength 4, while on a
vertical edge strength 4 does not depend on `mb_field`: when the slice is SP or SI or one of
the two macroblocks is intra, the strength is 4 exactly under this condition. -/
theorem GetStrength_four_mbaff (env : Env) (img : ImageParameters) (p : StorablePicture)
    (MbQAddr dir edge mvlimit idx : Int) (hmbaff : p.MbaffFrameFlag ≠ 0) :
    (GetStrength env img p MbQAddr dir edge mvlimit idx = 4 →
      edge = 0 ∧
      (dir = 0 ∨
        ((img.mb_data (strengthPixP env img MbQAddr dir edge idx).mb_addr).mb_field = 0 ∧
          (img.mb_data MbQAddr).mb_field = 0))) ∧
    (GetStrength env img p MbQAddr dir edge mvlimit idx = 4 → dir ≠ 0 →
      (img.mb_data (strengthPixP env img MbQAddr dir edge idx).mb_addr).mb_field =
        (img.mb_data MbQAddr).mb_field) ∧
    ((p.slice_type = env.SP_SLICE ∨ p.slice_type = env.SI_SLICE ∨
        isIntraMb env (img.mb_data (strengthPixP env img MbQAddr dir edge idx).mb_addr) = true ∨
        isIntraMb env (img.mb_data MbQAddr) = true) →
      (GetStrength env img p MbQAddr dir edge mvlimit idx = 4 ↔
        edge = 0 ∧
        (dir = 0 ∨
          ((img.mb_data (strengthPixP env img MbQAddr dir edge idx).mb_addr).mb_field = 0 ∧
            (img.mb_data MbQAddr).mb_field = 0)))) := by
  have A : GetStrength env img p MbQAddr dir edge mvlimit idx = 4 →
      edge = 0 ∧
      (dir = 0 ∨
        ((img.mb_data (strengthPixP env img MbQAddr dir edge idx).mb_addr).mb_field = 0 ∧
          (img.mb_data MbQAddr).mb_field = 0)) := by
    intro h
    rw [GetStrength_eq_four_iff] at h
    exact (StrengthStart_mbaff env p _ _ dir edge hmbaff).mp
      (GetStrengthIdx_four env img p MbQAddr dir edge mvlimit idx h)
  refine ⟨A, ?_, ?_⟩
  · intro h hd
    rcases (A h).2 with h0 | ⟨h1, h2⟩
    · exact absurd h0 hd
    · rw [h1, h2]
  · intro hc
    refine ⟨A, ?_⟩
    intro h
    rw [GetStrength_eq_four_iff]
    have hs := (StrengthStart_mbaff env p
      (img.mb_data (strengthPixP env img MbQAddr dir edge idx).mb_addr) (img.mb_data MbQAddr)
      dir edge hmbaff).mpr h
    unfold GetStrengthIdx
    simp only []
    by_cases hsp : p.slice_type = env.SP_SLICE ∨ p.slice_type = env.SI_SLICE
    · rw [if_pos hsp]
      exact hs
    · rw [if_neg hsp]
      have hi : (!(isIntraMb env (img.mb_data (strengthPixP env img MbQAddr dir edge idx).mb_addr))
          && !(isIntraMb env (img.mb_data MbQAddr))) = false := by
        rcases hc with h1 | h1 | h1 | h1
        · exact absurd (Or.inl h1) hsp
        · exact absurd (Or.inr h1) hsp
        · rw [h1]; rfl
        · rw [h1]; simp
      rw [hi]
      exact hs

/-- Witness for the amended C23: the left edge of macroblock 2 of `exMbaff 1 0 0`. -/
theorem GetStrength_four_mbaff_witness :
    (exMbaff 1 0 0).p.MbaffFrameFlag ≠ 0 ∧
    GetStrength exEnvMbaff (exMbaff 1 0 0).img (exMbaff 1 0 0).p 2 0 0 4 0 = 4 ∧
    ((0 : Int) = 0 ∧
      ((0 : Int) = 0 ∨
        (((exMbaff 1 0 0).img.mb_data
            (strengthPixP exEnvMbaff (exMbaff 1 0 0).img 2 0 0 0).mb_addr).mb_field = 0 ∧
          ((exMbaff 1 0 0).img.mb_data 2).mb_field = 0))) :=
  ⟨by decide, by decide,
    (GetStrength_four_mbaff exEnvMbaff (exMbaff 1 0 0).img (exMbaff 1 0 0).p 2 0 0 4 0
      (by decide)).1 (by decide)⟩

/-! ## The value of `mvlimit` at the motion comparison -/

theorem mbStartImg_field (env : Env) (img : ImageParameters) (MbQAddr b : Int) :
    ((mbStartImg env img MbQAddr).mb_data b).mb_field = (img.mb_data b).mb_field := by
  simp only [mbStartImg, CheckAvailabilityOfNeighbors]
  split_ifs with hb
  · rw [hb]
  · rfl

theorem mbMvlimit_eq (env : Env) (p : StorablePicture) (MbQ : Macroblock) :
    mbMvlimit env p MbQ =
      if p.pic_structure ≠ env.FRAME ∨ (p.MbaffFrameFlag ≠ 0 ∧ MbQ.mb_field ≠ 0) then 2
      else 4 := by
  unfold mbMvlimit
  simp only [b2i_ne_zero, decide_eq_true_eq]

theorem GetStrengthIdx_mixed (env : Env) (img : ImageParameters) (p : StorablePicture)
    (MbQAddr dir edge mvlimit idx : Int) :
    (GetStrengthIdx env img p MbQAddr dir edge mvlimit idx).2 = 0 ↔
      (img.mb_data MbQAddr).mb_field =
        (img.mb_data (strengthPixP env img MbQAddr dir edge idx).mb_addr).mb_field := by
  unfold GetStrengthIdx
  simp only []
  by_cases h : (img.mb_data MbQAddr).mb_field =
      (img.mb_data (strengthPixP env img MbQAddr dir edge idx).mb_addr).mb_field
  · simp [b2i, h]
  · simp [b2i, h]

/-- C24: `DeblockMb` runs its loops with `mvlimit = 2` if `(p->structure != FRAME) ||
(p->MbaffFrameFlag && MbQ->mb_field)` and 4 otherwise, computed from the Q macroblock alone.
For every call of `GetStrength` in these loops (the decoder state `img'` has the macroblock
data that `DeblockMb` set up) and every index at which `mixedModeEdgeFlag` is false, as it is
whenever the motion-vector comparison is reached (slice neither SP nor SI, both macroblocks
non-intra, no residual bit: the strength is then the result of the comparison with this
`mvlimit`), this value is 2 iff the picture is a field picture or the picture is MBAFF and
the P-side or the Q-side macroblock is a field macroblock, and 4 otherwise. -/
theorem mvlimit_motion_compare (env : Env) (s : State) (MbQAddr dir edge idx : Int)
    (img' : ImageParameters) (mvlimit : Int)
    (hmv : mvlimit = mbMvlimit env s.p (s.img.mb_data MbQAddr))
    (himg : img'.mb_data = (mbStartImg env s.img MbQAddr).mb_data)
    (hmixed : (GetStrengthIdx env img' s.p MbQAddr dir edge mvlimit idx).2 = 0) :
    (mvlimit = 2 ↔
      (s.p.pic_structure ≠ env.FRAME ∨
        (s.p.MbaffFrameFlag ≠ 0 ∧
          ((img'.mb_data (strengthPixP env img' MbQAddr dir edge idx).mb_addr).mb_field ≠ 0 ∨
            (img'.mb_data MbQAddr).mb_field ≠ 0)))) ∧
    (mvlimit = 4 ↔
      ¬ (s.p.pic_structure ≠ env.FRAME ∨
        (s.p.MbaffFrameFlag ≠ 0 ∧
          ((img'.mb_data (strengthPixP env img' MbQAddr dir edge idx).mb_addr).mb_field ≠ 0 ∨
            (img'.mb_data MbQAddr).mb_field ≠ 0)))) ∧
    ((s.p.slice_type ≠ env.SP_SLICE ∧ s.p.slice_type ≠ env.SI_SLICE) →
      isIntraMb env (img'.mb_data (strengthPixP env img' MbQAddr dir edge idx).mb_addr)
        = false →
      isIntraMb env (img'.mb_data MbQAddr) = false →
      (cbpBit (img'.mb_data MbQAddr).cbp_blk
          (blkOf (edgeXQ dir edge idx) (edgeYQ dir edge idx)) ||
        cbpBit (img'.mb_data (strengthPixP env img' MbQAddr dir edge idx).mb_addr).cbp_blk
          (blkOf (strengthPixP env img' MbQAddr dir edge idx).x
            (strengthPixP env img' MbQAddr dir edge idx).y)) = false →
      (GetStrengthIdx env img' s.p MbQAddr dir edge mvlimit idx).1 =
        StrengthMotion s.p mvlimit (strengthBlkQ env img' MbQAddr dir edge idx).1
          (strengthBlkQ env img' MbQAddr dir edge idx).2
          (strengthBlkP env img' MbQAddr dir edge idx).1
          (strengthBlkP env img' MbQAddr dir edge idx).2) ∧
    (¬ ((s.img.mb_data MbQAddr).mb_type = env.I8MB ∧
        (s.img.mb_data MbQAddr).luma_transform_size_8x8_flag = 0) →
      (s.img.mb_data MbQAddr).LFDisableIdc ≠ 1 →
      DeblockMb env s MbQAddr =
        some (resetCall (deblockLoops env MbQAddr mvlimit
          (mbFilterNon8x8LumaEdgesFlag (s.img.mb_data MbQAddr))
          (mbFilterLeftMbEdgeFlag env s.img MbQAddr)
          (mbFilterTopMbEdgeFlag env s.img s.p MbQAddr)
          { s with img := mbStartImg env s.img MbQAddr }))) := by
  have hQ : (img'.mb_data MbQAddr).mb_field = (s.img.mb_data MbQAddr).mb_field := by
    rw [himg, mbStartImg_field]
  have hPQ := (GetStrengthIdx_mixed env img' s.p MbQAddr dir edge mvlimit idx).mp hmixed
  have hcond : (s.p.pic_structure ≠ env.FRAME ∨
        (s.p.MbaffFrameFlag ≠ 0 ∧
          ((img'.mb_data (strengthPixP env img' MbQAddr dir edge idx).mb_addr).mb_field ≠ 0 ∨
            (img'.mb_data MbQAddr).mb_field ≠ 0))) ↔
      (s.p.pic_structure ≠ env.FRAME ∨
        (s.p.MbaffFrameFlag ≠ 0 ∧ (s.img.mb_data MbQAddr).mb_field ≠ 0)) := by
    rw [← hPQ, hQ]
    simp only [or_self]
  have hm := mbMvlimit_eq env s.p (s.img.mb_data MbQAddr)
  rw [← hmv] at hm
  refine ⟨?_, ?_, ?_, ?_⟩
  · rw [hcond, hm]
    split_ifs with h
    · simp only [true_iff]; exact h
    · simp only [show ¬ ((4 : Int) = 2) by decide, false_iff]; exact h
  · rw [hcond, hm]
    split_ifs with h
    · simp only [show ¬ ((2 : Int) = 4) by decide, false_iff, not_not]; exact h
    · simp only [true_iff]; exact h
  · intro hslice hP hQi hcbp
    rw [GetStrengthIdx_inter env img' s.p MbQAddr dir edge mvlimit idx hslice hP hQi, hcbp]
    simp only [Bool.false_eq_true, if_false]
    rw [if_neg (by rw [hPQ]; simp)]
  · intro hassert hen
    rw [hmv]
    exact DeblockMb_enabled_eq env s MbQAddr hassert hen

/-- Witness for C24: the left edge of the second macroblock of the frame picture
`exInter (exMv 0)`: `mvlimit` is 4. -/
theorem mvlimit_motion_compare_witness :
    (4 : Int) = mbMvlimit (exEnv 2) (exInter (exMv 0)).p ((exInter (exMv 0)).img.mb_data 1) ∧
    (GetStrengthIdx (exEnv 2) (mbStartImg (exEnv 2) (exInter (exMv 0)).img 1)
      (exInter (exMv 0)).p 1 0 0 4 0).2 = 0 ∧
    ¬ ((exInter (exMv 0)).p.pic_structure ≠ (exEnv 2).FRAME ∨
      ((exInter (exMv 0)).p.MbaffFrameFlag ≠ 0 ∧
        (((mbStartImg (exEnv 2) (exInter (exMv 0)).img 1).mb_data
            (strengthPixP (exEnv 2) (mbStartImg (exEnv 2) (exInter (exMv 0)).img 1) 1 0 0
              0).mb_addr).mb_field ≠ 0 ∨
          ((mbStartImg (exEnv 2) (exInter (exMv 0)).img 1).mb_data 1).mb_field ≠ 0))) :=
  ⟨by decide, by decide,
    (mvlimit_motion_compare (exEnv 2) (exInter (exMv 0)) 1 0 0 0
      (mbStartImg (exEnv 2) (exInter (exMv 0)).img 1) 4 (by decide) rfl (by decide)).2.1.mp rfl⟩

/-! ## The top edge of the bottom macroblock of an MBAFF pair -/

/-- Counterexample to C22: macroblock 1 of the MBAFF picture `exMbaff 1 1 2` is the bottom
macroblock of a pair, field-coded, with `LFDisableIdc = 2` and `mbAvailB = 0`: `DeblockMb`
sets `filterTopMbEdgeFlag` to `mbAvailB = 0` and does not process the top edge `(1, 0)`. -/
theorem DeblockMb_mbaff_bottom_counterexample :
    (exMbaff 1 1 2).p.MbaffFrameFlag = 1 ∧ (1 : Int) % 2 ≠ 0 ∧
    ((exMbaff 1 1 2).img.mb_data 1).LFDisableIdc = 2 ∧
    ((exMbaff 1 1 2).img.mb_data 1).mb_field = 1 ∧
    mbFilterTopMbEdgeFlag exEnvMbaff (exMbaff 1 1 2).img (exMbaff 1 1 2).p 1 = 0 ∧
    (DeblockMb exEnvMbaff (exMbaff 1 1 2) 1).isSome = true ∧
    ((1 : Int), (0 : Int)) ∉ DeblockMbOps exEnvMbaff (exMbaff 1 1 2) 1 := by
  refine ⟨by decide, by decide, by decide, by decide, by decide, ?_, ?_⟩
  · rw [DeblockMb_isSome]
    decide
  · rw [DeblockMbOps_eq, if_neg (by decide), if_neg (by decide)]
    intro h
    have h1 := (edgeOps_mem exEnvMbaff (mbStartImg exEnvMbaff (exMbaff 1 1 2).img 1)
      (exMbaff 1 1 2).p 1 _ (mbFilterLeftMbEdgeFlag exEnvMbaff (exMbaff 1 1 2).img 1)
      (mbFilterTopMbEdgeFlag exEnvMbaff (exMbaff 1 1 2).img (exMbaff 1 1 2).p 1) 1 0
      (by omega) (by omega)).mp h
    revert h1
    decide

/-- C22, amended: in an MBAFF picture, for the bottom macroblock of a macroblock pair (odd
`MbQAddr`) with `LFDisableIdc == 2` on which `DeblockMb` does not abort: if the macroblock is
frame-coded (`mb_field == 0`), `DeblockMb` sets `filterTopMbEdgeFlag` to 1 and processes the top
edge `(1, 0)` regardless of `mbAvailB`; if it is field-coded, `filterTopMbEdgeFlag` is
`mbAvailB` and the top edge is processed iff `mbAvailB` is not 0. -/
theorem DeblockMb_mbaff_bottom_top_edge (env : Env) (s : State) (MbQAddr : Int)
    (hassert : ¬ ((s.img.mb_data MbQAddr).mb_type = env.I8MB ∧
      (s.img.mb_data MbQAddr).luma_transform_size_8x8_flag = 0))
    (hmbaff : s.p.MbaffFrameFlag ≠ 0) (hodd : MbQAddr % 2 ≠ 0)
    (h2 : (s.img.mb_data MbQAddr).LFDisableIdc = 2) :
    DeblockMb env s MbQAddr =
      some (resetCall (deblockLoops env MbQAddr (mbMvlimit env s.p (s.img.mb_data MbQAddr))
        (mbFilterNon8x8LumaEdgesFlag (s.img.mb_data MbQAddr))
        (mbFilterLeftMbEdgeFlag env s.img MbQAddr) (mbFilterTopMbEdgeFlag env s.img s.p MbQAddr)
        { s with img := mbStartImg env s.img MbQAddr })) ∧
    ((s.img.mb_data MbQAddr).mb_field = 0 →
      mbFilterTopMbEdgeFlag env s.img s.p MbQAddr = 1 ∧
      ((1 : Int), (0 : Int)) ∈ DeblockMbOps env s MbQAddr) ∧
    ((s.img.mb_data MbQAddr).mb_field ≠ 0 →
      mbFilterTopMbEdgeFlag env s.img s.p MbQAddr = (s.img.mb_data MbQAddr).mbAvailB ∧
      (((1 : Int), (0 : Int)) ∈ DeblockMbOps env s MbQAddr ↔
        (s.img.mb_data MbQAddr).mbAvailB ≠ 0)) := by
  have hen : (s.img.mb_data MbQAddr).LFDisableIdc ≠ 1 := by omega
  have hmem : ((1 : Int), (0 : Int)) ∈ DeblockMbOps env s MbQAddr ↔
      mbFilterTopMbEdgeFlag env s.img s.p MbQAddr ≠ 0 := by
    rw [DeblockMbOps_eq, if_neg hassert, if_neg hen]
    refine (edgeOps_mem env (mbStartImg env s.img MbQAddr) s.p MbQAddr _
      (mbFilterLeftMbEdgeFlag env s.img MbQAddr)
      (mbFilterTopMbEdgeFlag env s.img s.p MbQAddr) 1 0 (by omega) (by omega)).trans ?_
    simp
  refine ⟨DeblockMb_enabled_eq env s MbQAddr hassert hen, ?_, ?_⟩
  · intro hf
    have e : mbFilterTopMbEdgeFlag env s.img s.p MbQAddr = 1 := by
      unfold mbFilterTopMbEdgeFlag
      simp only []
      rw [if_pos h2, if_pos ⟨hmbaff, hf, hodd⟩]
    exact ⟨e, hmem.mpr (by rw [e]; decide)⟩
  · intro hf
    have e : mbFilterTopMbEdgeFlag env s.img s.p MbQAddr =
        (s.img.mb_data MbQAddr).mbAvailB := by
      unfold mbFilterTopMbEdgeFlag
      simp only []
      rw [if_pos h2, if_neg (fun h => hf h.2.1)]
    exact ⟨e, by rw [hmem, e]⟩

/-- Witness for the amended C22: macroblock 1 of `exMbaff 0 0 2`, a frame-coded bottom
macroblock with `mbAvailB = 0`: its top edge is processed. -/
theorem DeblockMb_mbaff_bottom_top_edge_witness :
    (exMbaff 0 0 2).p.MbaffFrameFlag ≠ 0 ∧ (1 : Int) % 2 ≠ 0 ∧
    ((exMbaff 0 0 2).img.mb_data 1).LFDisableIdc = 2 ∧
    ((exMbaff 0 0 2).img.mb_data 1).mbAvailB = 0 ∧
    ((1 : Int), (0 : Int)) ∈ DeblockMbOps exEnvMbaff (exMbaff 0 0 2) 1 :=
  ⟨by decide, by decide, by decide, by decide,
    ((DeblockMb_mbaff_bottom_top_edge exEnvMbaff (exMbaff 0 0 2) 1 (by decide) (by decide)
      (by decide) (by decide)).2.1 (by decide)).2⟩

/-! ## The order of the edge operations -/

/-- The edge operations of the loops of `DeblockMb`, written out. -/
theorem edgeOps_explicit (env : Env) (img : ImageParameters) (p : StorablePicture)
    (MbQAddr mvlimit l t : Int) :
    edgeOrder.flatMap (fun de =>
        deblockStepOps env img p MbQAddr mvlimit l t (de.1 : Int) (de.2 : Int)) =
      (if l ≠ 0 then [((0 : Int), (0 : Int))] else []) ++ [(0, 1), (0, 2), (0, 3)] ++
      (if t ≠ 0 then
        (if (img.mb_data MbQAddr).mb_field = 0 ∧
            GetStrengthMixed env img p MbQAddr 1 0 mvlimit ≠ 0 then [(1, 0), (1, 4)]
          else [(1, 0)])
        else []) ++ [(1, 1), (1, 2), (1, 3)] := by
  unfold edgeOrder deblockStepOps
  simp only [List.flatMap_cons, List.flatMap_nil, b2i_ne_zero, decide_eq_true_eq]
  by_cases hl : l ≠ 0 <;> by_cases ht : t ≠ 0 <;>
    by_cases hx : (img.mb_data MbQAddr).mb_field = 0 ∧
      GetStrengthMixed env img p MbQAddr 1 0 mvlimit ≠ 0 <;>
    simp [hl, ht, hx]

theorem callsFold_none (env : Env) (L : List Nat) (c : List Int) :
    L.foldl (fun (acc : Option State × List Int) (i : Nat) =>
      match acc.1 with
      | none => acc
      | some st => (DeblockMb env st (i : Int), acc.2 ++ [(i : Int)])) (none, c) = (none, c) := by
  induction L with
  | nil => rfl
  | cons a L ih => rw [List.foldl_cons]; exact ih

theorem callsFold (env : Env) (L : List Nat) :
    ∀ (s : State) (c : List Int),
      (L.foldl (fun (acc : Option State × List Int) (i : Nat) =>
        match acc.1 with
        | none => acc
        | some st => (DeblockMb env st (i : Int), acc.2 ++ [(i : Int)])) (some s, c)).1 =
        L.foldlM (fun st (i : Nat) => DeblockMb env st (i : Int)) s ∧
      ∃ k, k ≤ L.length ∧
        (L.foldl (fun (acc : Option State × List Int) (i : Nat) =>
          match acc.1 with
          | none => acc
          | some st => (DeblockMb env st (i : Int), acc.2 ++ [(i : Int)])) (some s, c)).2 =
          c ++ (L.take k).map (fun (i : Nat) => (i : Int)) ∧
        ((L.foldlM (fun st (i : Nat) => DeblockMb env st (i : Int)) s).isSome = true →
          k = L.length) := by
  induction L with
  | nil =>
    intro s c
    exact ⟨rfl, 0, le_refl _, by simp, fun _ => rfl⟩
  | cons a L ih =>
    intro s c
    rw [List.foldl_cons, List.foldlM_cons]
    simp only []
    cases h1 : DeblockMb env s (a : Int) with
    | none =>
      rw [callsFold_none]
      refine ⟨rfl, 1, by simp, by simp, ?_⟩
      intro h
      exact absurd h (by simp)
    | some s1 =>
      obtain ⟨e1, k, hk, e2, e3⟩ := ih s1 (c ++ [(a : Int)])
      refine ⟨e1, k + 1, by simp [hk], ?_, ?_⟩
      · rw [e2]
        simp
      · intro h
        rw [e3 h]
        rfl

/-- The edge operations of `DeblockMb` are none, or the internal edges of both directions
together with those of the external edges and of the extra edge that three tests select. -/
theorem DeblockMbOps_shape (env : Env) (s : State) (MbQAddr : Int) :
    DeblockMbOps env s MbQAddr = [] ∨ ∃ b1 b2 b3 : Bool,
      DeblockMbOps env s MbQAddr =
        (if b1 = true then [((0 : Int), (0 : Int))] else []) ++ [(0, 1), (0, 2), (0, 3)] ++
        (if b2 = true then (if b3 = true then [(1, 0), (1, 4)] else [(1, 0)]) else []) ++
        [(1, 1), (1, 2), (1, 3)] := by
  rw [DeblockMbOps_eq]
  split_ifs with h1 h2
  · exact Or.inl rfl
  · exact Or.inl rfl
  · right
    rw [edgeOps_explicit]
    refine ⟨decide (mbFilterLeftMbEdgeFlag env s.img MbQAddr ≠ 0),
      decide (mbFilterTopMbEdgeFlag env s.img s.p MbQAddr ≠ 0),
      decide (((mbStartImg env s.img MbQAddr).mb_data MbQAddr).mb_field = 0 ∧
        GetStrengthMixed env (mbStartImg env s.img MbQAddr) s.p MbQAddr 1 0
          (mbMvlimit env s.p (s.img.mb_data MbQAddr)) ≠ 0), ?_⟩
    simp only [decide_eq_true_eq]

/-- The extra edge `(1, 4)` is among the edge operations of `DeblockMb` exactly when the call
reaches its loops, processes the top edge, the macroblock is a frame macroblock and
`GetStrength` for the top edge left `mixedModeEdgeFlag` set. -/
theorem DeblockMbOps_extra_iff (env : Env) (s : State) (MbQAddr : Int) :
    ((1 : Int), (4 : Int)) ∈ DeblockMbOps env s MbQAddr ↔
      (¬ ((s.img.mb_data MbQAddr).mb_type = env.I8MB ∧
          (s.img.mb_data MbQAddr).luma_transform_size_8x8_flag = 0) ∧
        (s.img.mb_data MbQAddr).LFDisableIdc ≠ 1 ∧
        mbFilterTopMbEdgeFlag env s.img s.p MbQAddr ≠ 0 ∧
        (s.img.mb_data MbQAddr).mb_field = 0 ∧
        (s.img.mb_data (strengthPixP env (mbStartImg env s.img MbQAddr) MbQAddr 1 0
          15).mb_addr).mb_field ≠ 0) := by
  have hmix : (((mbStartImg env s.img MbQAddr).mb_data MbQAddr).mb_field = 0 ∧
      GetStrengthMixed env (mbStartImg env s.img MbQAddr) s.p MbQAddr 1 0
        (mbMvlimit env s.p (s.img.mb_data MbQAddr)) ≠ 0) ↔
      ((s.img.mb_data MbQAddr).mb_field = 0 ∧
        (s.img.mb_data (strengthPixP env (mbStartImg env s.img MbQAddr) MbQAddr 1 0
          15).mb_addr).mb_field ≠ 0) := by
    unfold GetStrengthMixed
    rw [Ne, GetStrengthIdx_mixed, mbStartImg_field, mbStartImg_field]
    constructor
    · rintro ⟨h0, h1⟩
      exact ⟨h0, fun h => h1 (by rw [h0, h])⟩
    · rintro ⟨h0, h1⟩
      exact ⟨h0, fun h => h1 (by rw [← h, h0])⟩
  rw [DeblockMbOps_eq]
  split_ifs with h1 h2
  · simp only [List.not_mem_nil, false_iff]
    exact fun h => h.1 h1
  · simp only [List.not_mem_nil, false_iff]
    exact fun h => h.2.1 h2
  · rw [edgeOps_explicit, ← hmix]
    by_cases hl : mbFilterLeftMbEdgeFlag env s.img MbQAddr ≠ 0 <;>
      by_cases ht : mbFilterTopMbEdgeFlag env s.img s.p MbQAddr ≠ 0 <;>
      by_cases hx : ((mbStartImg env s.img MbQAddr).mb_data MbQAddr).mb_field = 0 ∧
        GetStrengthMixed env (mbStartImg env s.img MbQAddr) s.p MbQAddr 1 0
          (mbMvlimit env s.p (s.img.mb_data MbQAddr)) ≠ 0 <;>
      simp only [hl, ht, hx, h1, h2, if_true, if_false, not_false_eq_true, true_and, and_true,
        and_false, false_and, ne_eq, not_true_eq_false] <;> decide

/-- C25: the edge operations of one call of `DeblockMb` (the calls of `GetStrength`, in order,
listed by `DeblockMbOps`, which are those of the run that produces the result of `DeblockMb`)
form a subsequence of (0,0), (0,1), (0,2), (0,3), (1,0), (1,4), (1,1), (1,2), (1,3); no
operation of `dir = 1` precedes one of `dir = 0`; the extra edge `(1, 4)` occurs exactly when
the call reaches its loops, processes the top edge `(1, 0)`, the macroblock has
`mb_field == 0` and the macroblock above position 15 of the top edge has another `mb_field`;
it then stands directly after `(1, 0)` and occurs once.  `DeblockPicture` calls `DeblockMb`
with the addresses `0, 1, ..` in increasing order, each once, up to `PicSizeInMbs - 1` when no
call aborts (and up to the aborting call otherwise). -/
theorem DeblockMb_edge_order (env : Env) (s : State) (MbQAddr : Int) :
    List.Sublist (DeblockMbOps env s MbQAddr)
      [(0, 0), (0, 1), (0, 2), (0, 3), (1, 0), (1, 4), (1, 1), (1, 2), (1, 3)] ∧
    List.Pairwise (fun a b => a.1 ≤ b.1) (DeblockMbOps env s MbQAddr) ∧
    (((1 : Int), (4 : Int)) ∈ DeblockMbOps env s MbQAddr ↔
      (¬ ((s.img.mb_data MbQAddr).mb_type = env.I8MB ∧
          (s.img.mb_data MbQAddr).luma_transform_size_8x8_flag = 0) ∧
        (s.img.mb_data MbQAddr).LFDisableIdc ≠ 1 ∧
        mbFilterTopMbEdgeFlag env s.img s.p MbQAddr ≠ 0 ∧
        (s.img.mb_data MbQAddr).mb_field = 0 ∧
        (s.img.mb_data (strengthPixP env (mbStartImg env s.img MbQAddr) MbQAddr 1 0
          15).mb_addr).mb_field ≠ 0)) ∧
    (((1 : Int), (4 : Int)) ∈ DeblockMbOps env s MbQAddr →
      ∃ L1 L2, DeblockMbOps env s MbQAddr = L1 ++ (1, 0) :: (1, 4) :: L2 ∧
        ((1 : Int), (4 : Int)) ∉ L1 ∧ ((1 : Int), (4 : Int)) ∉ L2) ∧
    List.count ((1 : Int), (4 : Int)) (DeblockMbOps env s MbQAddr) ≤ 1 ∧
    (¬ ((s.img.mb_data MbQAddr).mb_type = env.I8MB ∧
          (s.img.mb_data MbQAddr).luma_transform_size_8x8_flag = 0) →
      (s.img.mb_data MbQAddr).LFDisableIdc ≠ 1 →
      DeblockMb env s MbQAddr = some (resetCall (deblockLoopsTrace env MbQAddr
        (mbMvlimit env s.p (s.img.mb_data MbQAddr))
        (mbFilterNon8x8LumaEdgesFlag (s.img.mb_data MbQAddr))
        (mbFilterLeftMbEdgeFlag env s.img MbQAddr) (mbFilterTopMbEdgeFlag env s.img s.p MbQAddr)
        { s with img := mbStartImg env s.img MbQAddr }).1) ∧
      DeblockMbOps env s MbQAddr = (deblockLoopsTrace env MbQAddr
        (mbMvlimit env s.p (s.img.mb_data MbQAddr))
        (mbFilterNon8x8LumaEdgesFlag (s.img.mb_data MbQAddr))
        (mbFilterLeftMbEdgeFlag env s.img MbQAddr) (mbFilterTopMbEdgeFlag env s.img s.p MbQAddr)
        { s with img := mbStartImg env s.img MbQAddr }).2) ∧
    (DeblockPictureCalls env s).1 = DeblockPicture env s ∧
    List.IsPrefix (DeblockPictureCalls env s).2
      ((List.range s.p.PicSizeInMbs).map (fun (i : Nat) => (i : Int))) ∧
    ((DeblockPicture env s).isSome = true →
      (DeblockPictureCalls env s).2 =
        (List.range s.p.PicSizeInMbs).map (fun (i : Nat) => (i : Int))) := by
  obtain ⟨e1, k, hk, e2, e3⟩ := callsFold env (List.range s.p.PicSizeInMbs) s []
  refine ⟨?_, ?_, DeblockMbOps_extra_iff env s MbQAddr, ?_, ?_, ?_, e1, ?_, ?_⟩
  · rcases DeblockMbOps_shape env s MbQAddr with h | ⟨b1, b2, b3, h⟩
    · rw [h]; decide
    · rw [h]; cases b1 <;> cases b2 <;> cases b3 <;> decide
  · rcases DeblockMbOps_shape env s MbQAddr with h | ⟨b1, b2, b3, h⟩
    · rw [h]; decide
    · rw [h]; cases b1 <;> cases b2 <;> cases b3 <;> decide
  · rcases DeblockMbOps_shape env s MbQAddr with h | ⟨b1, b2, b3, h⟩
    · rw [h]; intro hm; exact absurd hm (by decide)
    · rw [h]
      intro hm
      cases b2
      · exact absurd hm (by cases b1 <;> cases b3 <;> decide)
      · cases b3
        · exact absurd hm (by cases b1 <;> decide)
        · exact ⟨(if b1 = true then [((0 : Int), (0 : Int))] else []) ++
            [(0, 1), (0, 2), (0, 3)], [(1, 1), (1, 2), (1, 3)], by simp,
            by cases b1 <;> decide, by decide⟩
  · rcases DeblockMbOps_shape env s MbQAddr with h | ⟨b1, b2, b3, h⟩
    · rw [h]; decide
    · rw [h]; cases b1 <;> cases b2 <;> cases b3 <;> decide
  · intro hassert hen
    constructor
    · exact DeblockMb_enabled_eq env s MbQAddr hassert hen
    · unfold DeblockMbOps
      simp only []
      rw [if_neg hassert, if_neg hen]
  · unfold DeblockPictureCalls
    rw [e2, List.nil_append]
    exact List.IsPrefix.map _ (List.take_prefix k _)
  · intro h
    unfold DeblockPictureCalls
    unfold DeblockPicture at h
    rw [e2, e3 h, List.nil_append, List.take_length]

/-- Witness for C25: macroblock 2 of `exMbaffCol`, the top frame macroblock of a pair below a
field pair: the extra edge is processed, directly after the top edge; and the four calls of
`DeblockPicture`. -/
theorem DeblockMb_edge_order_witness :
    ((1 : Int), (4 : Int)) ∈ DeblockMbOps exEnvMbaffCol exMbaffCol 2 ∧
    (∃ L1 L2, DeblockMbOps exEnvMbaffCol exMbaffCol 2 = L1 ++ (1, 0) :: (1, 4) :: L2 ∧
        ((1 : Int), (4 : Int)) ∉ L1 ∧ ((1 : Int), (4 : Int)) ∉ L2) ∧
    (DeblockPictureCalls exEnvMbaffCol exMbaffCol).2 = [0, 1, 2, 3] :=
  have h := DeblockMb_edge_order exEnvMbaffCol exMbaffCol 2
  have hm : ((1 : Int), (4 : Int)) ∈ DeblockMbOps exEnvMbaffCol exMbaffCol 2 :=
    h.2.2.1.mpr (by decide)
  ⟨hm, h.2.2.2.1 hm,
    h.2.2.2.2.2.2.2.2 ((DeblockPicture_isSome exEnvMbaffCol exMbaffCol).mpr (by decide))⟩

/-! ## Unavailable neighbours -/

/-- The picture `exHalfDisabled` after `DeblockPicture` in the environment `exEnvAlone 2`: the
luma sample at x = 15, y = 0 has become 102. -/
theorem exAlone_run :
    ∃ s', DeblockPicture (exEnvAlone 2) exHalfDisabled = some s' ∧ s'.p.imgY 15 = 102 := by
  have e0 : DeblockMb (exEnvAlone 2) exHalfDisabled ((0 : Nat) : Int) =
      some (resetCall exHalfDisabled) := by
    rw [DeblockMb_disabled_eq (exEnvAlone 2) exHalfDisabled ((0 : Nat) : Int) (by decide),
      if_neg (by decide)]
  have e1 := DeblockMb_enabled_eq (exEnvAlone 2) (resetCall exHalfDisabled) ((1 : Nat) : Int)
    (by decide) (by decide)
  have hD : DeblockPicture (exEnvAlone 2) exHalfDisabled =
      DeblockMb (exEnvAlone 2) (resetCall exHalfDisabled) ((1 : Nat) : Int) := by
    unfold DeblockPicture
    have hr : List.range exHalfDisabled.p.PicSizeInMbs = [0, 1] := rfl
    rw [hr, List.foldlM_cons, e0]
    simp only [Option.bind_eq_bind, Option.some_bind]
    rw [List.foldlM_cons, e1]
    rfl
  refine ⟨_, hD.trans e1, ?_⟩
  · rw [resetCall_p, deblockLoops_eq]
    have e : edgeOrder = [] ++ (0, 0) :: [(0, 1), (0, 2), (0, 3), (1, 0), (1, 1), (1, 2), (1, 3)] :=
      rfl
    rw [e, steps_luma_at (exEnvAlone 2) _ _ _ _ _ _ rfl []
      [(0, 1), (0, 2), (0, 3), (1, 0), (1, 1), (1, 2), (1, 3)] 0 0 0 15 (by decide) (by decide)
      (by decide) (by decide) (by decide) (by decide) (by decide) (by decide) (by decide)]
    decide

/-- Counterexample to C21: in the environment `exEnvAlone 2` the resolver reports the P side of
the left edge of macroblock 1 of `exHalfDisabled` as unavailable, in `GetStrength` and in
`EdgeLoop`; `DeblockMb` chose to filter that edge (`LFDisableIdc = 0`, `mb_x != 0`).
`DeblockPicture` returns, `GetStrength` gave strength 4 from the metadata of macroblock 0, and
`EdgeLoop` stored 102 over the sample 100 at the reported position x = 15, y = 0. -/
theorem DeblockPicture_unavailable_counterexample :
    ((0 : Int), (0 : Int)) ∈ DeblockMbOps (exEnvAlone 2) (resetCall exHalfDisabled) 1 ∧
    (strengthPixP (exEnvAlone 2) (mbStartImg (exEnvAlone 2) exHalfDisabled.img 1) 1 0 0
      0).available = 0 ∧
    (pelPixP (exEnvAlone 2) (mbStartImg (exEnvAlone 2) exHalfDisabled.img 1) 1 0 0 0
      0).available = 0 ∧
    planeOffset exHalfDisabled.p.size_x
      (pelPixP (exEnvAlone 2) (mbStartImg (exEnvAlone 2) exHalfDisabled.img 1) 1 0 0 0 0) = 15 ∧
    GetStrength (exEnvAlone 2) (mbStartImg (exEnvAlone 2) exHalfDisabled.img 1)
      exHalfDisabled.p 1 0 0 4 0 = 4 ∧
    exHalfDisabled.p.imgY 15 = 100 ∧
    ∃ s', DeblockPicture (exEnvAlone 2) exHalfDisabled = some s' ∧ s'.p.imgY 15 = 102 :=
  ⟨by decide, by decide, by decide, by decide, by decide, rfl, exAlone_run⟩

/-- C21, amended: `loopFilter.c` has no assertion on availability; `DeblockMb` aborts on
`assert(MbQ->luma_transform_size_8x8_flag)` for an `I8MB` macroblock and on nothing else.
When `getNeighbour` reports the P-side position of iteration `pel` as unavailable, `EdgeLoop`
leaves the plane as it is in that iteration if `MbQ->LFDisableIdc != 0`, and if
`MbQ->LFDisableIdc == 0` it filters through the reported position as for an available one.
`GetStrength` never tests `pixP.available`: its strengths and `mixedModeEdgeFlag` are computed
from `img->mb_data[pixP.mb_addr]` and are the same whatever availability the resolver
reports. -/
theorem unavailable_neighbour (env : Env) (s : State) (img : ImageParameters)
    (p : StorablePicture) (Strength : Int → Nat)
    (MbQAddr AlphaC0Offset BetaOffset dir edge width yuv uv mvlimit : Int) (Img : Plane)
    (pel : Int)
    (havail : (pelPixP env img MbQAddr dir edge yuv pel).available = 0) :
    ((DeblockMb env s MbQAddr).isSome = true ↔
      ¬ ((s.img.mb_data MbQAddr).mb_type = env.I8MB ∧
        (s.img.mb_data MbQAddr).luma_transform_size_8x8_flag = 0)) ∧
    ((img.mb_data MbQAddr).LFDisableIdc ≠ 0 →
      EdgeLoopPel env img p Strength MbQAddr AlphaC0Offset BetaOffset dir edge width yuv uv Img
        pel = Img) ∧
    ((img.mb_data MbQAddr).LFDisableIdc = 0 →
      EdgeLoopPel env img p Strength MbQAddr AlphaC0Offset BetaOffset dir edge width yuv uv Img
        pel =
      filterPel yuv (pelStrng env img p Strength MbQAddr dir edge yuv pel)
        (tab ALPHA_TABLE (pelIndex env img p MbQAddr AlphaC0Offset dir edge yuv uv pel) *
          bitdepthScale img yuv)
        (tab BETA_TABLE (pelIndex env img p MbQAddr BetaOffset dir edge yuv uv pel) *
          bitdepthScale img yuv)
        (row CLIP_TAB (pelIndex env img p MbQAddr AlphaC0Offset dir edge yuv uv pel))
        (bitdepthScale img yuv) (pelMax img yuv)
        (pelIncP env img MbQAddr dir edge width yuv pel)
        (pelIncQ env img MbQAddr dir edge width yuv pel)
        (pelSrcPtrP env img MbQAddr dir edge width yuv pel)
        (pelSrcPtrQ env img MbQAddr dir edge width yuv pel) Img) ∧
    (∀ f : ImageParameters → Int → Int → Int → Int → Int,
      GetStrength { env with getNeighbour := fun i c x y l =>
          { env.getNeighbour i c x y l with available := f i c x y l } }
          img p MbQAddr dir edge mvlimit =
        GetStrength env img p MbQAddr dir edge mvlimit ∧
      GetStrengthMixed { env with getNeighbour := fun i c x y l =>
          { env.getNeighbour i c x y l with available := f i c x y l } }
          img p MbQAddr dir edge mvlimit =
        GetStrengthMixed env img p MbQAddr dir edge mvlimit) := by
  refine ⟨DeblockMb_isSome env s MbQAddr, ?_, ?_, ?_⟩
  · intro hidc
    unfold EdgeLoopPel
    rw [if_neg (by rw [havail]; simp [hidc])]
  · intro hidc
    unfold EdgeLoopPel
    rw [if_pos (Or.inr hidc)]
  · intro f
    exact ⟨rfl, rfl⟩

/-- Witness for the amended C21: iteration 0 of the left edge of macroblock 1 of
`exHalfDisabled` in the environment `exEnvAlone 2`, where the P side is unavailable and
`LFDisableIdc` is 0. -/
theorem unavailable_neighbour_witness :
    (pelPixP (exEnvAlone 2) (mbStartImg (exEnvAlone 2) exHalfDisabled.img 1) 1 0 0 0
      0).available = 0 ∧
    (DeblockMb (exEnvAlone 2) exHalfDisabled 1).isSome = true :=
  ⟨by decide,
    (unavailable_neighbour (exEnvAlone 2) exHalfDisabled
      (mbStartImg (exEnvAlone 2) exHalfDisabled.img 1) exHalfDisabled.p (fun _ => 4)
      1 0 0 0 0 32 0 0 4 exHalfDisabled.p.imgY 0 (by decide)).1.mpr (by decide)⟩

end JM
